import Mathlib

/-!
# grout control plane: request dispatch, handler and module registries, bond selection

Shallow embedding of `main/main.c` (`send_response`, `api_write_cb`, `api_read_cb`,
`parse_args`, `main`), `main/control.c` (`br_register_api_handler`,
`lookup_api_handler`, `modules_init`, `modules_fini`), `modules/infra/control/bond.c`,
`api/string.c` (`utf8_check`), `modules/ip/api/dnat44.c` (`dnat44_add`, `dnat44_del`),
`modules/infra/datapath/trace.c` (the trace pool and ring) and `cli/main.c`
(`parse_args`).

Effectful C code is embedded as a pure function from the results of the system and
library calls it makes (the environment records below) to the list of effects it
performs, in program order.
-/

namespace Grout

/-! ## errno values and event flags -/

def EAGAIN : Nat := 11
def EWOULDBLOCK : Nat := 11
def ENOMEM : Nat := 12
def ENODEV : Nat := 19
def EPIPE : Nat := 32
def ERANGE : Nat := 34
def ENOTSUP : Nat := 95
def EOPNOTSUPP : Nat := 95
def ECONNRESET : Nat := 104
def EMEDIUMTYPE : Nat := 124

/-- The libevent flag `EV_CLOSED`. -/
def EV_CLOSED : Nat := 0x80

/-! ## API frames

The header `gr_api.h` is not part of the sources; the frame layout is the one of the
data model. -/

/-- Modelled from the spec: the request header `struct gr_api_request`, declared in
`gr_api.h`: `{ id: u32, type: u32, payload_len: u32 }`. -/
structure gr_api_request where
  id : Nat
  type : Nat
  payload_len : Nat
deriving DecidableEq, Repr

/-- Modelled from the spec: the response `struct gr_api_response`, declared in
`gr_api.h`: the header `{ for_id: u32, status: u32, payload_len: u32 }` followed by
the payload bytes (`PAYLOAD(resp)`). -/
structure gr_api_response where
  for_id : Nat
  status : Nat
  payload_len : Nat
  payload : List Nat
deriving DecidableEq, Repr

/-- Modelled from the spec: the value returned by a handler callback,
`struct api_out { status; len; }`, declared in `gr_api.h`. -/
structure api_out where
  status : Nat
  len : Nat
deriving DecidableEq, Repr

/-- Modelled from the spec: the handler record `struct gr_api_handler` (named
`br_api_handler` in `control.c`). `callback(request, &response)` receives the request payload buffer
(`none` for a NULL pointer) and returns the `api_out` together with the response
payload pointer it stored (`none` when it left it NULL). The C asserts
`callback != NULL` and `name != NULL` hold by typing. -/
structure gr_api_handler where
  name : String
  request_type : Nat
  callback : Option (List Nat) → api_out × Option (List Nat)

/-- Modelled from the spec: size of the fixed request header,
`sizeof(struct gr_api_request)`, three 32-bit fields. -/
def REQ_HDR_SIZE : Nat := 12

/-- Modelled from the spec: size of the fixed response header,
`sizeof(struct gr_api_response)`, three 32-bit fields. -/
def RESP_HDR_SIZE : Nat := 12

/-! ## Handler registry (`control.c`) -/

/-- The `handlers` list head: most recently registered handler first. -/
abbrev Handlers := List gr_api_handler

/-- Function `br_register_api_handler`: `none` is `ABORT(...)`, otherwise
`LIST_INSERT_HEAD`. -/
def br_register_api_handler (handlers : Handlers) (handler : gr_api_handler) :
    Option Handlers :=
  if handlers.any (fun h => h.request_type == handler.request_type) then none
  else some (handler :: handlers)

/-- A sequence of registrations at start-up, in call order, from the empty list; `none`
as soon as one call aborts. -/
def register_all (calls : List gr_api_handler) : Option Handlers :=
  calls.foldl (fun acc h => acc.bind (fun hs => br_register_api_handler hs h)) (some [])

/-- Function `lookup_api_handler`: `LIST_FOREACH` returning the first handler whose
`request_type` equals `req->type`, `none` for NULL. -/
def lookup_api_handler : Handlers → gr_api_request → Option gr_api_handler
  | [], _ => none
  | handler :: rest, req =>
    if handler.request_type = req.type then some handler
    else lookup_api_handler rest req

/-! ## API server callbacks (`main.c`) -/

/-- Result of one `recv(2)` / `send(2)` call: the returned `ssize_t` and the value of
`errno` after a negative return. -/
structure SysRet where
  ret : Int
  errno : Nat
deriving DecidableEq, Repr

/-- Effects performed by the callbacks, in program order. -/
inductive Effect where
  /-- Call `recv(sock, &req, sizeof(req), MSG_DONTWAIT)` -/
  | recv_header
  /-- Call `malloc(req.payload_len)` -/
  | malloc_payload (n : Nat)
  /-- Call `recv(sock, req_payload, req.payload_len, MSG_DONTWAIT)` -/
  | recv_payload (n : Nat)
  /-- Call `lookup_api_handler(&req)` -/
  | lookup (type : Nat)
  /-- Call `handler->callback(req_payload, &resp_payload)` -/
  | callback (request_type : Nat) (req_payload : Option (List Nat))
  /-- Call `malloc(sizeof(*resp) + out.len)` -/
  | malloc_resp (n : Nat)
  /-- Call `send(sock, resp, len, MSG_DONTWAIT | MSG_NOSIGNAL)` inside `send_response` -/
  | send (resp : gr_api_response) (len : Nat)
  /-- Call `event_new(ev_base, sock, EV_WRITE | EV_FINALIZE, api_write_cb, resp)` -/
  | event_new_write (resp : gr_api_response)
  /-- Call `event_add(ev, NULL)` on a write event -/
  | event_add_write
  /-- Call `event_free` of a write event -/
  | event_free_write
  /-- Call `free(req_payload)` with a non-NULL pointer -/
  | free_req_payload
  /-- Call `free(resp)` with a non-NULL pointer -/
  | free_resp
  /-- Call `event_free_finalize(0, ev, finalize_close_fd)`: the read event is torn down and
  the socket closed. -/
  | close_connection
deriving DecidableEq, Repr

/-- Is the effect a handler invocation. -/
def Effect.is_callback : Effect → Bool
  | .callback _ _ => true
  | _ => false

/-- Is the effect a handler lookup. -/
def Effect.is_lookup : Effect → Bool
  | .lookup _ => true
  | _ => false

/-- Function `send_response`: returns the `ssize_t` and `errno`, and the effects performed.
`errno_set(ENOMEM)` stores `ENOMEM` in `errno` and returns `-ENOMEM`. -/
def send_response (resp : Option gr_api_response) (send : SysRet) : SysRet × List Effect :=
  match resp with
  | none => ({ ret := -(ENOMEM : Int), errno := ENOMEM }, [])
  | some r => (send, [Effect.send r (RESP_HDR_SIZE + r.payload_len)])

/-- What `api_write_cb` gets from its environment. -/
structure WriteEnv where
  /-- Condition `event_base_get_running_event(ev_base) != NULL` -/
  ev : Bool
  /-- the `priv` pointer: the pending response -/
  resp : Option gr_api_response
  /-- result of `send` -/
  send : SysRet
  /-- Condition `event_add(ev, NULL) >= 0` -/
  event_add : Bool

/-- The `free:` label of `api_write_cb`. -/
def api_write_cb_free (env : WriteEnv) : List Effect :=
  (if env.resp.isSome then [Effect.free_resp] else []) ++
  (if env.ev then [Effect.event_free_write] else [])

/-- The `retry:` label of `api_write_cb`. -/
def api_write_cb_retry (env : WriteEnv) : List Effect :=
  if env.ev = false then api_write_cb_free env
  else if env.event_add = false then Effect.event_add_write :: api_write_cb_free env
  else [Effect.event_add_write]

/-- Function `api_write_cb`. -/
def api_write_cb (env : WriteEnv) : List Effect :=
  let r := send_response env.resp env.send
  if r.1.ret < 0 then
    if r.1.errno = EAGAIN ∨ r.1.errno = EWOULDBLOCK then r.2 ++ api_write_cb_retry env
    else r.2 ++ api_write_cb_free env
  else r.2 ++ api_write_cb_free env

/-- What `api_read_cb` gets from its environment. -/
structure ReadEnv where
  /-- the `what` event flags -/
  what : Nat
  /-- Condition `event_base_get_running_event(ev_base) != NULL` -/
  ev : Bool
  /-- result of the header `recv` -/
  hdr_recv : SysRet
  /-- contents of the local `req` after the header `recv` -/
  req : gr_api_request
  /-- Condition `malloc(req.payload_len) != NULL` -/
  payload_malloc : Bool
  /-- result of the payload `recv` -/
  payload_recv : SysRet
  /-- contents of the `req_payload` buffer after the payload `recv` -/
  payload : List Nat
  /-- Condition `malloc(sizeof(*resp) + out.len) != NULL` -/
  resp_malloc : Bool
  /-- result of `send` -/
  send : SysRet
  /-- Condition `event_new(...) != NULL` -/
  event_new : Bool
  /-- Condition `event_add(write_ev, NULL) >= 0` -/
  event_add : Bool

/-- The `close:` label of `api_read_cb`; the Booleans tell whether `req_payload` and
`resp` are non-NULL when it is reached. -/
def api_read_cb_close (env : ReadEnv) (req_payload resp : Bool) : List Effect :=
  (if req_payload then [Effect.free_req_payload] else []) ++
  (if resp then [Effect.free_resp] else []) ++
  (if env.ev then [Effect.close_connection] else [])

/-- The `retry_send:` label of `api_read_cb`. -/
def api_read_cb_retry_send (env : ReadEnv) (req_payload : Bool) (resp : gr_api_response) :
    List Effect :=
  if env.event_new = false then api_read_cb_close env req_payload true
  else if env.event_add = false then
    [Effect.event_new_write resp, Effect.event_add_write, Effect.event_free_write] ++
      api_read_cb_close env req_payload true
  else
    [Effect.event_new_write resp, Effect.event_add_write] ++
      (if req_payload then [Effect.free_req_payload] else [])

/-- The `send:` label of `api_read_cb`. The response payload is the first `out.len`
bytes of `resp_payload` when that pointer is non-NULL and `out.len > 0`. -/
def api_read_cb_send (env : ReadEnv) (req_payload : Bool) (out : api_out)
    (resp_payload : Option (List Nat)) : List Effect :=
  Effect.malloc_resp (RESP_HDR_SIZE + out.len) ::
  if env.resp_malloc = false then api_read_cb_close env req_payload false
  else
    let resp : gr_api_response := {
      for_id := env.req.id
      status := out.status
      payload_len := out.len
      payload := match resp_payload with
        | some bytes => if out.len > 0 then bytes.take out.len else []
        | none => []
    }
    let r := send_response (some resp) env.send
    if r.1.ret < 0 then
      if r.1.errno = EAGAIN ∨ r.1.errno = EWOULDBLOCK then
        r.2 ++ api_read_cb_retry_send env req_payload resp
      else r.2 ++ api_read_cb_close env req_payload true
    else
      r.2 ++ (if req_payload then [Effect.free_req_payload] else []) ++ [Effect.free_resp]

/-- Lines 213-227 of `api_read_cb`: handler lookup and invocation, then `send:`. -/
def api_read_cb_dispatch (handlers : Handlers) (env : ReadEnv)
    (req_payload : Option (List Nat)) : List Effect :=
  Effect.lookup env.req.type ::
  match lookup_api_handler handlers env.req with
  | none => api_read_cb_send env req_payload.isSome { status := ENOTSUP, len := 0 } none
  | some handler =>
    let r := handler.callback req_payload
    Effect.callback handler.request_type req_payload ::
      api_read_cb_send env req_payload.isSome r.1 r.2

/-- Lines 198-211 of `api_read_cb`: allocation and read of the payload. -/
def api_read_cb_payload (handlers : Handlers) (env : ReadEnv) : List Effect :=
  if env.req.payload_len > 0 then
    Effect.malloc_payload env.req.payload_len ::
    if env.payload_malloc = false then api_read_cb_close env false false
    else
      Effect.recv_payload env.req.payload_len ::
      if env.payload_recv.ret < 0 then api_read_cb_close env true false
      else if env.payload_recv.ret = 0 then api_read_cb_close env true false
      else api_read_cb_dispatch handlers env (some env.payload)
  else api_read_cb_dispatch handlers env none

/-- Function `api_read_cb`. -/
def api_read_cb (handlers : Handlers) (env : ReadEnv) : List Effect :=
  if env.what &&& EV_CLOSED ≠ 0 then api_read_cb_close env false false
  else
    Effect.recv_header ::
    if env.hdr_recv.ret < 0 then
      if env.hdr_recv.errno = EAGAIN ∨ env.hdr_recv.errno = EWOULDBLOCK then []
      else api_read_cb_close env false false
    else if env.hdr_recv.ret = 0 then api_read_cb_close env false false
    else api_read_cb_payload handlers env

/-- No effect of the list satisfies `p`. -/
def none_of (p : Effect → Bool) : List Effect → Bool
  | [] => true
  | e :: es => !p e && none_of p es

/-! ## Module registry (`control.c`) -/

/-- Modelled from the spec: the module record `struct br_module`, declared in
`br_control.h`; `init` and `fini` tell whether the callback pointer is non-NULL, the
priorities are C `int` values. -/
structure br_module where
  name : String
  init : Bool
  fini : Bool
  init_prio : Int
  fini_prio : Int
deriving DecidableEq, Repr

/-- Smallest value of a C `int`. -/
def INT_MIN : Int := -2147483648

/-- Largest value of a C `int`. -/
def INT_MAX : Int := 2147483647

/-- Value of a C `int` expression whose mathematical result is `x`, in 32-bit
twos-complement arithmetic (the result wraps around on overflow). -/
def int_wrap (x : Int) : Int := (x + 2147483648) % 4294967296 - 2147483648

/-- Function `module_init_prio_order`: `(*mod_a)->init_prio - (*mod_b)->init_prio`,
evaluated as an `int`. -/
def module_init_prio_order (mod_a mod_b : br_module) : Int :=
  int_wrap (mod_a.init_prio - mod_b.init_prio)

/-- Function `module_fini_prio_order`: `(*mod_a)->fini_prio - (*mod_b)->fini_prio`,
evaluated as an `int`. -/
def module_fini_prio_order (mod_a mod_b : br_module) : Int :=
  int_wrap (mod_a.fini_prio - mod_b.fini_prio)

/-- One insertion step of `qsort`: `x` goes before the first element `y` with
`compar x y <= 0`. -/
def qsort_insert (compar : br_module → br_module → Int) (x : br_module) :
    List br_module → List br_module
  | [] => [x]
  | y :: ys => if compar x y ≤ 0 then x :: y :: ys else y :: qsort_insert compar x ys

/-- The C library `qsort` on the `mods` array, as a comparison sort that only looks at
the sign of `compar`. -/
def qsort (compar : br_module → br_module → Int) : List br_module → List br_module
  | [] => []
  | x :: xs => qsort_insert compar x (qsort compar xs)

/-- Function `br_register_module`: `LIST_INSERT_HEAD(&modules, mod, entries)`. -/
def br_register_module (modules : List br_module) (mod : br_module) : List br_module :=
  mod :: modules

/-- Function `modules_init`: the modules whose `init` callback is invoked, in
invocation order. `LIST_FOREACH` pushes the list into `mods` head first, `qsort`
orders it and the loop calls every non-NULL `init`. -/
def modules_init (modules : List br_module) : List br_module :=
  (qsort module_init_prio_order modules).filter (fun mod => mod.init)

/-- Function `modules_fini`: the modules whose `fini` callback is invoked, in
invocation order. -/
def modules_fini (modules : List br_module) : List br_module :=
  (qsort module_fini_prio_order modules).filter (fun mod => mod.fini)

/-! ## Interfaces and bonds (`modules/infra/control/bond.c`)

`gr_infra.h`, `gr_iface.h` and `iface.c` are not part of the sources. An interface
pointer is represented by the interface id (ids are unique in the table), a bitset by
one Boolean per named bit, the `members` array together with `n_members` by the list
of its first `n_members` entries. -/

/-- Ethernet address, as a 48-bit number. -/
abbrev rte_ether_addr := Nat

/-- Largest value of a `uint8_t`, the "no active member" sentinel. -/
def UINT8_MAX : Nat := 255

/-- Modelled from the spec: the reserved interface id sentinel `UNDEF`, whose value is
declared in `gr_infra.h`. -/
def GR_IFACE_ID_UNDEF : Nat := 0

/-- Modelled from the spec: `ARRAY_DIM(member_iface_ids)`, the compile-time maximum
number of bond members declared in `gr_infra.h`. -/
def BOND_MAX_MEMBERS : Nat := 8

/-- Modelled from the spec: interface flags `gr_iface_flags_t`, a bitset over
`GR_IFACE_F_*` declared in `gr_infra.h`. -/
structure gr_iface_flags_t where
  UP : Bool
  PROMISC : Bool
  ALLMULTI : Bool
deriving DecidableEq, Repr

/-- Modelled from the spec: interface state `gr_iface_state_t`, a bitset over
`GR_IFACE_S_*` declared in `gr_infra.h`. -/
structure gr_iface_state_t where
  RUNNING : Bool
  ACTIVE : Bool
deriving DecidableEq, Repr

/-- Modelled from the spec: bond modes `gr_bond_mode_t`, declared in `gr_infra.h`;
`bond_set_active_members` has a case for `GR_BOND_MODE_ACTIVE_BACKUP` only. -/
inductive gr_bond_mode_t where
  | ACTIVE_BACKUP
  | OTHER
deriving DecidableEq, Repr

/-- Modelled from the spec: private data of a port (`struct iface_info_port` of
`gr_port.h`), as far as bond.c uses it: the back-link to the bond, the own address
of the port and the additional addresses configured on it. -/
structure iface_info_port where
  bond_iface_id : Nat
  mac : rte_ether_addr
  macs : List rte_ether_addr
deriving DecidableEq, Repr

/-- Private data of a bond, `struct iface_info_bond` of gr_bond.h; `n_members` is
`members.length`. -/
structure iface_info_bond where
  mode : gr_bond_mode_t
  mac : rte_ether_addr
  primary_member : Nat
  active_member : Nat
  members : List Nat
  extra_macs : List rte_ether_addr
deriving DecidableEq, Repr

/-- Type-dependent payload of an interface; the constructor is the interface type. -/
inductive iface_info where
  | port (port : iface_info_port)
  | bond (bond : iface_info_bond)
  | other
deriving DecidableEq, Repr

/-- Modelled from the spec: the interface record `struct iface` of `gr_iface.h`, as
far as the functions embedded here use it. The interface id is the key of the table
and the interface type is the constructor of `info`. -/
structure iface where
  flags : gr_iface_flags_t
  state : gr_iface_state_t
  info : iface_info
deriving DecidableEq, Repr

/-- The interface table: `iface_from_id`. -/
abbrev iface_table := Nat → Option iface

/-- Modelled from the spec: public bond configuration `struct gr_iface_info_bond` of
`gr_infra.h`, sent by API clients; `n_members` is `member_iface_ids.length`. -/
structure gr_iface_info_bond where
  mode : gr_bond_mode_t
  mac : rte_ether_addr
  primary_member : Nat
  member_iface_ids : List Nat
deriving DecidableEq, Repr

/-- Modelled from the spec: the `set_attrs` mask of `bond_reconfig`, whose bits are
declared in `gr_infra.h`: the four `GR_BOND_SET_*` bits and whether all remaining
bits of the 64-bit mask are set. -/
structure bond_set_attrs where
  MODE : Bool
  MAC : Bool
  MEMBERS : Bool
  PRIMARY : Bool
  others : Bool
deriving DecidableEq, Repr

/-- Test `set_attrs == IFACE_SET_ALL` (all bits set). -/
def bond_set_attrs.is_IFACE_SET_ALL (s : bond_set_attrs) : Bool :=
  s.MODE && s.MAC && s.MEMBERS && s.PRIMARY && s.others

/-- Modelled from the spec: the mask `IFACE_SET_ALL` seen on fresh-create paths, every
bit set. -/
def IFACE_SET_ALL : bond_set_attrs :=
  { MODE := true, MAC := true, MEMBERS := true, PRIMARY := true, others := true }

/-- Outcome of the per-port driver operations, which bond.c reaches through
`iface_add_eth_addr`, `iface_del_eth_addr` and `iface_get_eth_addr`: the `errno` of
the call on port `id`, 0 for success. -/
structure IfaceEnv where
  add_eth_addr_errno : Nat → rte_ether_addr → Nat
  del_eth_addr_errno : Nat → rte_ether_addr → Nat
  get_eth_addr_errno : Nat → Nat

/-- Replace the record of interface `id`, when there is one. -/
def iface_table.modify (t : iface_table) (id : Nat) (f : iface → iface) : iface_table :=
  fun j => if j = id then (t j).map f else t j

/-- Modelled from the spec: `iface_from_id` of iface.c, the table lookup; NULL (with
`errno = ENODEV`) is `none`. -/
def iface_from_id (t : iface_table) (id : Nat) : Option iface := t id

/-- Modelled from the spec: `iface_get_eth_addr` of iface.c, which delegates to the
`get_eth_addr` operation of the interface type. Returns the status (0 or a negative
errno) and the address read. For a bond this is `bond_mac_get`. -/
def iface_get_eth_addr (env : IfaceEnv) (t : iface_table) (id : Nat) :
    Int × rte_ether_addr :=
  match iface_from_id t id with
  | none => (-(ENODEV : Int), 0)
  | some ifc =>
    match ifc.info with
    | .port port =>
      if env.get_eth_addr_errno id = 0 then (0, port.mac)
      else (-(env.get_eth_addr_errno id : Int), 0)
    | .bond bond => (0, bond.mac)
    | .other => (-(EOPNOTSUPP : Int), 0)

/-- Modelled from the spec: `iface_add_eth_addr` of iface.c on a port: the address is
added to the table of the port unless the driver refuses. bond.c calls it on ports
only. -/
def iface_add_eth_addr (env : IfaceEnv) (t : iface_table) (id : Nat)
    (mac : rte_ether_addr) : Int × iface_table :=
  match iface_from_id t id with
  | none => (-(ENODEV : Int), t)
  | some ifc =>
    match ifc.info with
    | .port port =>
      if env.add_eth_addr_errno id mac = 0 then
        (0, t.modify id (fun i =>
          { i with info := .port { port with macs := port.macs ++ [mac] } }))
      else (-(env.add_eth_addr_errno id mac : Int), t)
    | _ => (-(EOPNOTSUPP : Int), t)

/-- Modelled from the spec: `iface_del_eth_addr` of iface.c on a port: one occurrence
of the address is removed from the table of the port unless the driver refuses. -/
def iface_del_eth_addr (env : IfaceEnv) (t : iface_table) (id : Nat)
    (mac : rte_ether_addr) : Int × iface_table :=
  match iface_from_id t id with
  | none => (-(ENODEV : Int), t)
  | some ifc =>
    match ifc.info with
    | .port port =>
      if env.del_eth_addr_errno id mac = 0 then
        (0, t.modify id (fun i =>
          { i with info := .port { port with macs := port.macs.erase mac } }))
      else (-(env.del_eth_addr_errno id mac : Int), t)
    | _ => (-(EOPNOTSUPP : Int), t)

/-- The loop of `bond_all_member_mac` over the remaining members. -/
def bond_all_member_mac_loop (env : IfaceEnv) (mac : rte_ether_addr) (add : Bool) :
    List Nat → iface_table → Int × iface_table
  | [], t => (0, t)
  | member :: rest, t =>
    let r := if add then iface_add_eth_addr env t member mac
             else iface_del_eth_addr env t member mac
    if r.1 < 0 then (r.1, r.2)
    else bond_all_member_mac_loop env mac add rest r.2

/-- Function `bond_all_member_mac`. -/
def bond_all_member_mac (env : IfaceEnv) (t : iface_table) (bond : iface_info_bond)
    (mac : rte_ether_addr) (add : Bool) : Int × iface_table :=
  bond_all_member_mac_loop env mac add bond.members t

/-- The `gr_vec_foreach_ref` loop of `bond_init_new_members`: configure every extra
address on the new member, stopping at the first failure. -/
def bond_init_new_member_macs (env : IfaceEnv) (member : Nat) :
    List rte_ether_addr → iface_table → Int × iface_table
  | [], t => (0, t)
  | mac :: rest, t =>
    let r := iface_add_eth_addr env t member mac
    if r.1 < 0 then (r.1, r.2)
    else bond_init_new_member_macs env member rest r.2

/-- Assignment `port->bond_iface_id = v`. -/
def set_bond_iface_id (t : iface_table) (member : Nat) (v : Nat) : iface_table :=
  t.modify member (fun i =>
    match i.info with
    | .port port => { i with info := .port { port with bond_iface_id := v } }
    | _ => i)

/-- The loop of `bond_init_new_members` over the remaining requested ids. -/
def bond_init_new_members_loop (env : IfaceEnv) (iface_id : Nat) (bond : iface_info_bond) :
    List Nat → iface_table → Int × iface_table
  | [], t => (0, t)
  | id :: rest, t =>
    match iface_from_id t id with
    | none => (-(ENODEV : Int), t)
    | some member =>
      match member.info with
      | .port _ =>
        if id ∈ bond.members then bond_init_new_members_loop env iface_id bond rest t
        else
          let r := bond_init_new_member_macs env id bond.extra_macs t
          if r.1 < 0 then (r.1, r.2)
          else bond_init_new_members_loop env iface_id bond rest
            (set_bond_iface_id r.2 id iface_id)
      | _ => (-(EMEDIUMTYPE : Int), t)

/-- Function `bond_init_new_members`. -/
def bond_init_new_members (env : IfaceEnv) (t : iface_table) (iface_id : Nat)
    (bond : iface_info_bond) (new : gr_iface_info_bond) : Int × iface_table :=
  bond_init_new_members_loop env iface_id bond new.member_iface_ids t

/-- The `gr_vec_foreach_ref` loop of `bond_fini_old_members`: failures are logged and
ignored. -/
def bond_fini_old_member_macs (env : IfaceEnv) (member : Nat) :
    List rte_ether_addr → iface_table → iface_table
  | [], t => t
  | mac :: rest, t =>
    bond_fini_old_member_macs env member rest (iface_del_eth_addr env t member mac).2

/-- The loop of `bond_fini_old_members` over the remaining old members. -/
def bond_fini_old_members_loop (env : IfaceEnv) (bond : iface_info_bond)
    (new : gr_iface_info_bond) : List Nat → iface_table → iface_table
  | [], t => t
  | member :: rest, t =>
    if member ∈ new.member_iface_ids then bond_fini_old_members_loop env bond new rest t
    else
      bond_fini_old_members_loop env bond new rest
        (set_bond_iface_id (bond_fini_old_member_macs env member bond.extra_macs t)
          member GR_IFACE_ID_UNDEF)

/-- Function `bond_fini_old_members`. -/
def bond_fini_old_members (env : IfaceEnv) (t : iface_table) (bond : iface_info_bond)
    (new : gr_iface_info_bond) : iface_table :=
  bond_fini_old_members_loop env bond new bond.members t

/-- Condition `(member->flags & GR_IFACE_F_UP) && (member->state & GR_IFACE_S_RUNNING)`
of the first loop of `bond_set_active_members`. -/
def member_eligible (t : iface_table) (member : Nat) : Bool :=
  match t member with
  | some i => i.flags.UP && i.state.RUNNING
  | none => false

/-- Condition `member->state & GR_IFACE_S_ACTIVE`. -/
def member_active (t : iface_table) (member : Nat) : Bool :=
  match t member with
  | some i => i.state.ACTIVE
  | none => false

/-- First loop of `bond_set_active_members`: `i` is the index of the head of the
remaining members, the last argument the current value of `active_member`. -/
def active_member_scan (t : iface_table) (primary_member : Nat) :
    List Nat → Nat → Nat → Nat
  | [], _, active_member => active_member
  | member :: rest, i, active_member =>
    active_member_scan t primary_member rest (i + 1)
      (if member_eligible t member && (active_member == UINT8_MAX || i == primary_member)
       then i else active_member)

/-- Statement `member->state |= GR_IFACE_S_ACTIVE` (for `true`) or
`member->state &= ~GR_IFACE_S_ACTIVE` (for `false`). -/
def set_state_active (t : iface_table) (member : Nat) (v : Bool) : iface_table :=
  t.modify member (fun i => { i with state := { i.state with ACTIVE := v } })

/-- Second loop of `bond_set_active_members` ("Update all state atomically"). -/
def active_member_update (active_member : Nat) (new_mac : rte_ether_addr) :
    List Nat → Nat → iface_table × iface_info_bond → iface_table × iface_info_bond
  | [], _, s => s
  | member :: rest, i, s =>
    if i = active_member then
      active_member_update active_member new_mac rest (i + 1)
        (set_state_active s.1 member true, { s.2 with mac := new_mac })
    else
      active_member_update active_member new_mac rest (i + 1)
        (set_state_active s.1 member false, s.2)

/-- Function `bond_set_active_members`, on the private data of the bond and the
interface table: returns the status and the updated pair. When a member was chosen
its address is read first, and a failure returns before anything is updated. -/
def bond_set_active_members (env : IfaceEnv) (t : iface_table) (bond : iface_info_bond) :
    Int × iface_table × iface_info_bond :=
  match bond.mode with
  | .ACTIVE_BACKUP =>
    let active_member := active_member_scan t bond.primary_member bond.members 0 UINT8_MAX
    if active_member ≠ UINT8_MAX then
      let r := iface_get_eth_addr env t (bond.members.getD active_member 0)
      if r.1 < 0 then (r.1, t, bond)
      else
        let s := active_member_update active_member r.2 bond.members 0 (t, bond)
        (0, s.1, { s.2 with active_member := active_member })
    else
      let s := active_member_update active_member 0 bond.members 0 (t, bond)
      (0, s.1, { s.2 with active_member := active_member })
  | .OTHER => (0, t, bond)

/-- Tail of `bond_reconfig`: the `GR_BOND_SET_MAC` step (lines 320-326). -/
def bond_reconfig_mac (env : IfaceEnv) (t : iface_table) (bond : iface_info_bond)
    (set_attrs : bond_set_attrs) (api : gr_iface_info_bond) :
    Int × iface_table × iface_info_bond :=
  if set_attrs.MAC && api.mac != 0 then
    let r := bond_all_member_mac env t bond api.mac true
    if r.1 < 0 then (r.1, r.2, bond)
    else (0, r.2, { bond with mac := api.mac })
  else (0, t, bond)

/-- Tail of `bond_reconfig` from the active member re-evaluation (lines 314-326). -/
def bond_reconfig_active (env : IfaceEnv) (t : iface_table) (bond : iface_info_bond)
    (set_attrs : bond_set_attrs) (api : gr_iface_info_bond) :
    Int × iface_table × iface_info_bond :=
  if set_attrs.MEMBERS || set_attrs.PRIMARY then
    let r := bond_set_active_members env t bond
    if r.1 < 0 then r
    else bond_reconfig_mac env r.2.1 r.2.2 set_attrs api
  else bond_reconfig_mac env t bond set_attrs api

/-- Tail of `bond_reconfig` from the `GR_BOND_SET_PRIMARY` step (lines 308-326). -/
def bond_reconfig_primary (env : IfaceEnv) (t : iface_table) (bond : iface_info_bond)
    (set_attrs : bond_set_attrs) (api : gr_iface_info_bond) :
    Int × iface_table × iface_info_bond :=
  if set_attrs.PRIMARY then
    if api.primary_member ≥ bond.members.length then (-(ERANGE : Int), t, bond)
    else bond_reconfig_active env t { bond with primary_member := api.primary_member }
      set_attrs api
  else bond_reconfig_active env t bond set_attrs api

/-- Tail of `bond_reconfig` from the `GR_BOND_SET_MEMBERS` step (lines 294-326). -/
def bond_reconfig_members (env : IfaceEnv) (t : iface_table) (iface_id : Nat)
    (bond : iface_info_bond) (set_attrs : bond_set_attrs) (api : gr_iface_info_bond) :
    Int × iface_table × iface_info_bond :=
  if set_attrs.MEMBERS then
    if api.member_iface_ids.length > BOND_MAX_MEMBERS then (-(ERANGE : Int), t, bond)
    else
      let r := bond_init_new_members env t iface_id bond api
      if r.1 < 0 then (r.1, r.2, bond)
      else
        bond_reconfig_primary env (bond_fini_old_members env r.2 bond api)
          { bond with members := api.member_iface_ids } set_attrs api
  else bond_reconfig_primary env t bond set_attrs api

/-- Function `bond_reconfig` on the private data of the bond and the interface table:
returns the status and the updated pair. -/
def bond_reconfig_body (env : IfaceEnv) (t : iface_table) (iface_id : Nat)
    (bond : iface_info_bond) (set_attrs : bond_set_attrs) (api : gr_iface_info_bond) :
    Int × iface_table × iface_info_bond :=
  let reconfig := !set_attrs.is_IFACE_SET_ALL
  let t1 := if set_attrs.MAC && reconfig then (bond_all_member_mac env t bond bond.mac false).2
            else t
  let bond1 := if set_attrs.MODE then { bond with mode := api.mode } else bond
  bond_reconfig_members env t1 iface_id bond1 set_attrs api

/-- Projection `iface_info_bond(iface)`: the private data of the bond, `none` when the
interface does not exist or is not a bond (the C projection aborts). -/
def get_bond (t : iface_table) (id : Nat) : Option iface_info_bond :=
  match t id with
  | some i =>
    match i.info with
    | .bond bond => some bond
    | _ => none
  | none => none

/-- Store the private data of the bond back into its interface record. -/
def set_bond (t : iface_table) (id : Nat) (bond : iface_info_bond) : iface_table :=
  t.modify id (fun i => { i with info := .bond bond })

/-- Function `bond_reconfig(iface, set_attrs, conf, api_info)` on the interface
`iface_id` of the table; `none` when `iface_info_bond(iface)` aborts. -/
def bond_reconfig (env : IfaceEnv) (t : iface_table) (iface_id : Nat)
    (set_attrs : bond_set_attrs) (api : gr_iface_info_bond) : Option (Int × iface_table) :=
  match get_bond t iface_id with
  | none => none
  | some bond =>
    let r := bond_reconfig_body env t iface_id bond set_attrs api
    some (r.1, set_bond r.2.1 iface_id r.2.2)

/-- Function `bond_event(ev, obj)` for `IFACE_STATUS_UP` / `IFACE_STATUS_DOWN`, `obj`
being the interface the event is about; `none` when an `assert` fails. The value returned by
`bond_set_active_members` is ignored. -/
def bond_event (env : IfaceEnv) (t : iface_table) (obj : Nat) : Option iface_table :=
  match t obj with
  | none => none
  | some i =>
    match i.info with
    | .port port =>
      if port.bond_iface_id = GR_IFACE_ID_UNDEF then some t
      else
        match get_bond t port.bond_iface_id with
        | none => none
        | some bond =>
          let r := bond_set_active_members env t bond
          some (set_bond r.2.1 port.bond_iface_id r.2.2)
    | _ => some t

/-- The active-member invariant of a bond with the given members: exactly one member
has the ACTIVE state bit iff at least one member has flag UP and state RUNNING. -/
def active_member_invariant (t : iface_table) (members : List Nat) : Prop :=
  members.countP (member_active t) = 1 ↔ ∃ m ∈ members, member_eligible t m = true

/-! ## Concrete inputs -/

/-- A registry whose only handler has type `0x00010001`. -/
def other_handlers : Handlers :=
  [{ name := "other", request_type := 0x00010001,
     callback := fun _ => ({ status := 0, len := 0 }, none) }]

/-- The client sends `{id=7, type=0xDEAD0001, payload_len=0}`; every call succeeds. -/
def unknown_type_env : ReadEnv := {
  what := 0x02, ev := true,
  hdr_recv := { ret := 12, errno := 0 },
  req := { id := 7, type := 0xDEAD0001, payload_len := 0 },
  payload_malloc := true, payload_recv := { ret := 0, errno := 0 }, payload := [],
  resp_malloc := true, send := { ret := 12, errno := 0 },
  event_new := true, event_add := true }

/-- An echo handler registered for type `0x00010001`. -/
def echo_handlers : Handlers :=
  [{ name := "echo", request_type := 0x00010001,
     callback := fun _ => ({ status := 0, len := 0 }, none) }]

/-- Header announces 8 payload bytes, the payload `recv` returns 3. -/
def short_payload_env : ReadEnv := {
  what := 0x02, ev := true,
  hdr_recv := { ret := 12, errno := 0 },
  req := { id := 1, type := 0x00010001, payload_len := 8 },
  payload_malloc := true, payload_recv := { ret := 3, errno := 0 },
  payload := [1, 2, 3, 0, 0, 0, 0, 0],
  resp_malloc := true, send := { ret := 12, errno := 0 },
  event_new := true, event_add := true }

/-- The header `recv` returns 5 of the 12 header bytes. -/
def short_header_env : ReadEnv := {
  what := 0x02, ev := true,
  hdr_recv := { ret := 5, errno := 0 },
  req := { id := 1, type := 0x00010001, payload_len := 0 },
  payload_malloc := true, payload_recv := { ret := 0, errno := 0 }, payload := [],
  resp_malloc := true, send := { ret := 12, errno := 0 },
  event_new := true, event_add := true }

/-- Header with the largest `payload_len` a `u32` holds; allocation and read succeed. -/
def huge_payload_env : ReadEnv := {
  what := 0x02, ev := true,
  hdr_recv := { ret := 12, errno := 0 },
  req := { id := 1, type := 0x00010001, payload_len := 4294967295 },
  payload_malloc := true, payload_recv := { ret := 4096, errno := 0 }, payload := [],
  resp_malloc := true, send := { ret := 12, errno := 0 },
  event_new := true, event_add := true }

/-- A 12-byte response frame of which `send` accepts 4 bytes. -/
def short_send_env : ReadEnv := {
  what := 0x02, ev := true,
  hdr_recv := { ret := 12, errno := 0 },
  req := { id := 9, type := 0x00010001, payload_len := 0 },
  payload_malloc := true, payload_recv := { ret := 0, errno := 0 }, payload := [],
  resp_malloc := true, send := { ret := 4, errno := 0 },
  event_new := true, event_add := true }

/-- A pending response whose retried `send` fails with `EPIPE`. -/
def write_error_env : WriteEnv := {
  ev := true,
  resp := some { for_id := 9, status := 0, payload_len := 0, payload := [] },
  send := { ret := -1, errno := EPIPE },
  event_add := true }

/-- The same pending response, fully sent by the retry. -/
def write_success_env : WriteEnv := {
  ev := true,
  resp := some { for_id := 9, status := 0, payload_len := 0, payload := [] },
  send := { ret := 12, errno := 0 },
  event_add := true }

/-- Two modules: priority 1 and priority `INT_MIN`. -/
def mod_prio_one : br_module :=
  { name := "a", init := true, fini := true, init_prio := 1, fini_prio := 1 }

/-- The module with priority `INT_MIN`. -/
def mod_prio_min : br_module :=
  { name := "b", init := true, fini := true, init_prio := -2147483648,
    fini_prio := -2147483648 }

/-- Handlers used to exercise the registry. -/
def handler_iface_add : gr_api_handler :=
  { name := "iface add", request_type := 0x00010001,
    callback := fun _ => ({ status := 0, len := 0 }, none) }

/-- A second handler, with another request type. -/
def handler_iface_del : gr_api_handler :=
  { name := "iface del", request_type := 0x00010002,
    callback := fun _ => ({ status := 0, len := 0 }, none) }

/-- Every port operation succeeds. -/
def env_ok : IfaceEnv :=
  { add_eth_addr_errno := fun _ _ => 0
    del_eth_addr_errno := fun _ _ => 0
    get_eth_addr_errno := fun _ => 0 }

/-- Reading the address of port 1 fails with `EIO`. -/
def env_get_fails : IfaceEnv :=
  { add_eth_addr_errno := fun _ _ => 0
    del_eth_addr_errno := fun _ _ => 0
    get_eth_addr_errno := fun id => if id = 1 then 5 else 0 }

/-- A port record. -/
def mk_port (up running active : Bool) (bond_iface_id : Nat) (mac : rte_ether_addr) : iface :=
  { flags := { UP := up, PROMISC := false, ALLMULTI := false }
    state := { RUNNING := running, ACTIVE := active }
    info := .port { bond_iface_id := bond_iface_id, mac := mac, macs := [] } }

/-- A bond record in mode ACTIVE_BACKUP. -/
def mk_bond (members : List Nat) (primary_member active_member : Nat) : iface :=
  { flags := { UP := true, PROMISC := false, ALLMULTI := false }
    state := { RUNNING := true, ACTIVE := false }
    info := .bond { mode := .ACTIVE_BACKUP, mac := 0, primary_member := primary_member,
                    active_member := active_member, members := members, extra_macs := [] } }

/-- Port 1 is up and running, bond 3 has no member yet. -/
def bond_empty_table : iface_table := fun id =>
  if id = 1 then some (mk_port true true false GR_IFACE_ID_UNDEF 0xA1)
  else if id = 3 then some (mk_bond [] 0 UINT8_MAX)
  else none

/-- A member list naming port 1 twice. -/
def dup_members_api : gr_iface_info_bond :=
  { mode := .ACTIVE_BACKUP, mac := 0, primary_member := 0, member_iface_ids := [1, 1] }

/-- The table after `bond_reconfig` of bond 3 with `dup_members_api`. -/
def dup_members_table : iface_table :=
  match bond_reconfig env_ok bond_empty_table 3 IFACE_SET_ALL dup_members_api with
  | some r => r.2
  | none => bond_empty_table

/-- Bond 3 has the single member port 1, which came up and is not yet ACTIVE. -/
def single_member_table : iface_table := fun id =>
  if id = 1 then some (mk_port true true false 3 0xA1)
  else if id = 3 then some (mk_bond [1] 0 UINT8_MAX)
  else none

/-- Ports 1 (A) and 2 (B) are members of bond 3 with primary 0; only B is up and
running. -/
def two_members_table : iface_table := fun id =>
  if id = 1 then some (mk_port false false false 3 0xA1)
  else if id = 2 then some (mk_port true true false 3 0xB2)
  else if id = 3 then some (mk_bond [1, 2] 0 UINT8_MAX)
  else none

/-- The table after the link event of port 1 on `dup_members_table`. -/
def dup_members_after : iface_table :=
  (bond_event env_ok dup_members_table 1).getD dup_members_table

/-- The table after the link event of port 1 on `single_member_table` when its address cannot be
read. -/
def single_member_after : iface_table :=
  (bond_event env_get_fails single_member_table 1).getD single_member_table


/-- Ports 1 (A) and 2 (B) are members of bond 3 with primary 0; both are up and
running, B is the active member. -/
def two_members_up_table : iface_table := fun id =>
  if id = 1 then some (mk_port true true false 3 0xA1)
  else if id = 2 then some (mk_port true true true 3 0xB2)
  else if id = 3 then some (mk_bond [1, 2] 0 1)
  else none

/-- Private data of a bond in mode ACTIVE_BACKUP with no explicit address. -/
def mk_bond_info (members : List Nat) (primary_member active_member : Nat) :
    iface_info_bond :=
  { mode := .ACTIVE_BACKUP, mac := 0, primary_member := primary_member,
    active_member := active_member, members := members, extra_macs := [] }

/-- Ports 1 and 2 are members of bond 3 and carry the ACTIVE bit, both are down. -/
def two_members_down_table : iface_table := fun id =>
  if id = 1 then some (mk_port false true true 3 0xA1)
  else if id = 2 then some (mk_port true false true 3 0xB2)
  else if id = 3 then some (mk_bond [1, 2] 0 1)
  else none

/-! ### Views of the interface table used to state what `bond_reconfig` changes -/

/-- The interface type of a record, as a number: 0 for a port, 1 for a bond, 2 for any
other type. -/
def iface_kind (i : iface) : Nat :=
  match i.info with
  | .port _ => 0
  | .bond _ => 1
  | .other => 2

/-- The back-link `port->bond_iface_id` of a record, `none` when it is not a port. -/
def iface_link (i : iface) : Option Nat :=
  match i.info with
  | .port port => some port.bond_iface_id
  | _ => none

/-- The table of additional addresses of a record, empty when it is not a port. -/
def iface_macs (i : iface) : List rte_ether_addr :=
  match i.info with
  | .port port => port.macs
  | _ => []

/-- Interface `x` exists and is of type PORT. -/
def is_port (t : iface_table) (x : Nat) : Prop := (t x).map iface_kind = some 0

/-- The back-link `bond_iface_id` of port `x`, `none` when `x` is not a port. -/
def port_link (t : iface_table) (x : Nat) : Option Nat :=
  match t x with
  | some i => iface_link i
  | none => none

/-- The MAC table of port `x`: the additional addresses configured on it. -/
def port_macs (t : iface_table) (x : Nat) : List rte_ether_addr :=
  match t x with
  | some i => iface_macs i
  | none => []

/-- Two tables hold the same interfaces and agree on the view `view` of each. -/
def table_agree {α : Type} (view : iface → α) (t t' : iface_table) : Prop :=
  ∀ x, (t' x).map view = (t x).map view

/-- The view does not depend on the MAC table of a port. -/
def macs_blind {α : Type} (view : iface → α) : Prop :=
  ∀ (i : iface) (port : iface_info_port) (macs : List rte_ether_addr),
    i.info = .port port → view { i with info := .port { port with macs := macs } } = view i

/-- The view does not depend on the back-link of a port. -/
def link_blind {α : Type} (view : iface → α) : Prop :=
  ∀ (i : iface) (port : iface_info_port) (v : Nat),
    i.info = .port port →
      view { i with info := .port { port with bond_iface_id := v } } = view i

/-- The view does not depend on the ACTIVE state bit. -/
def active_blind {α : Type} (view : iface → α) : Prop :=
  ∀ (i : iface) (v : Bool), view { i with state := { i.state with ACTIVE := v } } = view i

/-- The view does not depend on the private data of a bond. -/
def bond_blind {α : Type} (view : iface → α) : Prop :=
  ∀ (i : iface) (bond bond' : iface_info_bond),
    i.info = .bond bond → view { i with info := .bond bond' } = view i

/-- The member list in effect after the `GR_BOND_SET_MEMBERS` step of a `bond_reconfig`
call that passes this step. -/
def members_after (bond : iface_info_bond) (set_attrs : bond_set_attrs)
    (api : gr_iface_info_bond) : List Nat :=
  if set_attrs.MEMBERS then api.member_iface_ids else bond.members

/-- Every listed id resolves to a port which is already a member of the bond or to which
every extra address of the bond can be propagated: `bond_init_new_members` does not
fail on this list. -/
def new_members_pass (env : IfaceEnv) (t : iface_table) (bond : iface_info_bond)
    (ids : List Nat) : Prop :=
  ∀ p ∈ ids, is_port t p ∧
    (p ∈ bond.members ∨ ∀ mac ∈ bond.extra_macs, env.add_eth_addr_errno p mac = 0)

/-- An interface that is neither a port nor a bond. -/
def mk_other : iface :=
  { flags := { UP := true, PROMISC := false, ALLMULTI := false }
    state := { RUNNING := true, ACTIVE := false }
    info := .other }

/-- Ports 1 and 2 are up and running and in no bond, interface 5 is a loopback and
bond 3 has no member. -/
def reconfig_table : iface_table := fun id =>
  if id = 1 then some (mk_port true true false GR_IFACE_ID_UNDEF 0xA1)
  else if id = 2 then some (mk_port true true false GR_IFACE_ID_UNDEF 0xB2)
  else if id = 3 then some (mk_bond [] 0 UINT8_MAX)
  else if id = 5 then some mk_other
  else none

/-- The mask with the bits `GR_BOND_SET_MEMBERS` and `GR_BOND_SET_PRIMARY` only. -/
def set_members_primary : bond_set_attrs :=
  { MODE := false, MAC := false, MEMBERS := true, PRIMARY := true, others := false }

/-- The mask with the bit `GR_BOND_SET_MEMBERS` only. -/
def set_members : bond_set_attrs :=
  { MODE := false, MAC := false, MEMBERS := true, PRIMARY := false, others := false }

/-- The mask with the bit `GR_BOND_SET_MAC` only. -/
def set_mac : bond_set_attrs :=
  { MODE := false, MAC := true, MEMBERS := false, PRIMARY := false, others := false }

/-- A bond configuration in mode ACTIVE_BACKUP. -/
def mk_api (mac : rte_ether_addr) (primary_member : Nat) (member_iface_ids : List Nat) :
    gr_iface_info_bond :=
  { mode := .ACTIVE_BACKUP, mac := mac, primary_member := primary_member,
    member_iface_ids := member_iface_ids }

/-- Port 1 is in no bond, bonds 3 and 4 have no member. -/
def two_bonds_table : iface_table := fun id =>
  if id = 1 then some (mk_port false false false GR_IFACE_ID_UNDEF 0xA1)
  else if id = 3 then some (mk_bond [] 0 UINT8_MAX)
  else if id = 4 then some (mk_bond [] 0 UINT8_MAX)
  else none

/-- The table after bond 3 was given the member list `[1]`. -/
def two_bonds_step1 : iface_table :=
  match bond_reconfig env_ok two_bonds_table 3 set_members (mk_api 0 0 [1]) with
  | some r => r.2
  | none => two_bonds_table

/-- The table after bond 4 was given the member list `[1]` too. -/
def two_bonds_step2 : iface_table :=
  match bond_reconfig env_ok two_bonds_step1 4 set_members (mk_api 0 0 [1]) with
  | some r => r.2
  | none => two_bonds_step1

/-- The table after bond 3 was given the member list `[1]` again. -/
def two_bonds_step3 : iface_table :=
  match bond_reconfig env_ok two_bonds_step2 3 set_members (mk_api 0 0 [1]) with
  | some r => r.2
  | none => two_bonds_step2

/-- Removing an address from port 1 fails with `EIO`. -/
def env_del_fails : IfaceEnv :=
  { add_eth_addr_errno := fun _ _ => 0
    del_eth_addr_errno := fun id _ => if id = 1 then 5 else 0
    get_eth_addr_errno := fun _ => 0 }

/-- Port 1 is the only member of bond 3, which has no address yet. -/
def bond_mac_table : iface_table := fun id =>
  if id = 1 then some (mk_port true true true 3 0xA1)
  else if id = 3 then some (mk_bond [1] 0 0)
  else none

/-- The table after the address of bond 3 was set to `0xAA`. -/
def bond_mac_table_aa : iface_table :=
  match bond_reconfig env_ok bond_mac_table 3 set_mac (mk_api 0xAA 0 []) with
  | some r => r.2
  | none => bond_mac_table

/-- The table after a further `bond_reconfig` of bond 3 with the MAC attribute and the
zero address. -/
def bond_mac_table_zero : iface_table :=
  match bond_reconfig env_ok bond_mac_table_aa 3 set_mac (mk_api 0 0 []) with
  | some r => r.2
  | none => bond_mac_table_aa

/-- The table after the address of bond 3 was changed from `0xAA` to `0xBB` while the
driver of port 1 refuses to remove addresses. -/
def bond_mac_table_kept : iface_table :=
  match bond_reconfig env_del_fails bond_mac_table_aa 3 set_mac (mk_api 0xBB 0 []) with
  | some r => r.2
  | none => bond_mac_table_aa

/-- The table after the address of bond 3 was set to `0xAA` a second time. -/
def bond_mac_table_same : iface_table :=
  match bond_reconfig env_ok bond_mac_table_aa 3 set_mac (mk_api 0xAA 0 []) with
  | some r => r.2
  | none => bond_mac_table_aa

/-- The table after the address of bond 3 was changed from `0xAA` to `0xBB`. -/
def bond_mac_table_bb : iface_table :=
  match bond_reconfig env_ok bond_mac_table_aa 3 set_mac (mk_api 0xBB 0 []) with
  | some r => r.2
  | none => bond_mac_table_aa

/-! ## Name validation (`api/string.c`)

A C string is the list of the bytes stored at `buf`; the string ends before the first
NUL byte. The daemon and the CLI set the locale `C.UTF-8` at startup, so the multibyte
encoding seen by `mbsrtowcs` is UTF-8. `mbsrtowcs` belongs to libc: it is embedded as
the decoder that glibc runs in a UTF-8 locale, which is wider than the UTF-8 of
RFC 3629. -/

def ENOENT : Nat := 2
def EEXIST : Nat := 17
def ENAMETOOLONG : Nat := 36
def EILSEQ : Nat := 84
def EADDRINUSE : Nat := 98

/-- The bytes of the C string stored at `buf`: everything before the first NUL. -/
def c_string (buf : List Nat) : List Nat := buf.takeWhile (fun b => b != 0)

/-- Function `strlen` of libc. -/
def strlen (buf : List Nat) : Nat := (c_string buf).length

/-- Conversion state `mbstate_t` of libc for UTF-8: the number `need` of continuation
bytes that the character being read still lacks, the length `cnt` of its sequence and
the value `ch` of the bits read so far. -/
structure mbstate_t where
  need : Nat
  cnt : Nat
  ch : Nat
deriving DecidableEq, Repr

/-- The initial conversion state, which `memset(&mb, 0, sizeof(mb))` produces. -/
def mbstate_t.zero : mbstate_t := { need := 0, cnt := 0, ch := 0 }

/-- The lead byte of a multibyte character in the UTF-8 decoder of glibc (the
conversion from UTF-8 to wide characters that `mbsrtowcs` runs in a UTF-8 locale,
glibc 2.36): the length `cnt` of the sequence and the payload bits of the byte, which
are the bits below the length mark; `none` for a byte that starts no sequence
(`80..C1`, `FE`, `FF`). The decoder knows the forms of five and six bytes. -/
def utf8_lead (b : Nat) : Option (Nat × Nat) :=
  if 0xC2 ≤ b ∧ b < 0xE0 then some (2, b % 0x20)
  else if 0xE0 ≤ b ∧ b < 0xF0 then some (3, b % 0x10)
  else if 0xF0 ≤ b ∧ b < 0xF8 then some (4, b % 0x08)
  else if 0xF8 ≤ b ∧ b < 0xFC then some (5, b % 0x04)
  else if 0xFC ≤ b ∧ b < 0xFE then some (6, b % 0x02)
  else none

/-- The test that the decoder of glibc makes on the value `ch` of a complete sequence
of `cnt` bytes: the sequence is refused when `cnt > 2` and the value has no bit from
position `5 * cnt - 4` on, so that it fits a shorter sequence, and when the value is a
surrogate `D800..DFFF`. There is no test against `10FFFF`. -/
abbrev utf8_illegal (cnt ch : Nat) : Prop :=
  (2 < cnt ∧ ch / 2 ^ (5 * cnt - 4) = 0) ∨ (0xD800 ≤ ch ∧ ch ≤ 0xDFFF)

/-- One byte of the UTF-8 decoder of glibc: the next conversion state, or `none` when
the conversion stops with an illegal input (`EILSEQ`). A byte below `80` is a
character of its own; a lead byte opens a sequence; every other byte of the sequence
must have the form `10xxxxxx` and adds its six low bits to the value, which is tested
when the sequence is complete. -/
def utf8_step (mb : mbstate_t) (b : Nat) : Option mbstate_t :=
  if mb.need = 0 then
    if b < 0x80 then some mbstate_t.zero
    else
      match utf8_lead b with
      | none => none
      | some (cnt, ch) => some { need := cnt - 1, cnt := cnt, ch := ch }
  else if 0x80 ≤ b ∧ b < 0xC0 then
    if mb.need = 1 then
      if utf8_illegal mb.cnt (mb.ch * 64 + b % 0x40) then none else some mbstate_t.zero
    else some { need := mb.need - 1, cnt := mb.cnt, ch := mb.ch * 64 + b % 0x40 }
  else none

/-- The conversion loop of `mbsrtowcs` with a NULL destination: counts the wide
characters of the bytes left, `none` for the result `(size_t)-1`. The terminating NUL
is part of the input, so a multibyte character that the end of the string cuts short
is an illegal input. -/
def mbsrtowcs_loop : List Nat → mbstate_t → Nat → Option Nat
  | [], mb, n => if mb.need = 0 then some n else none
  | b :: rest, mb, n =>
    match utf8_step mb b with
    | none => none
    | some mb' => mbsrtowcs_loop rest mb' (if mb'.need = 0 then n + 1 else n)

/-- Call `mbsrtowcs(NULL, &buf, 0, &mb)` of glibc in the locale `C.UTF-8`: the number
of wide characters of the string, or `none` for `(size_t)-1` with `errno = EILSEQ`. -/
def mbsrtowcs (buf : List Nat) (mb : mbstate_t) : Option Nat :=
  mbsrtowcs_loop (c_string buf) mb 0

/-- Function `utf8_check(buf, maxlen)`; `errno_set(e)` returns `-e`. -/
def utf8_check (buf : List Nat) (maxlen : Nat) : Int :=
  if strlen buf ≥ maxlen then -(ENAMETOOLONG : Int)
  else
    match mbsrtowcs buf mbstate_t.zero with
    | none => -(EILSEQ : Int)
    | some _ => 0

/-- A continuation byte `80..BF`. -/
def utf8_tail (b : Nat) : Prop := 0x80 ≤ b ∧ b ≤ 0xBF

/-- The well-formed UTF-8 byte sequences of one character (RFC 3629, section 4,
`UTF8-char`; Unicode table 3-7). -/
def utf8_char (c : List Nat) : Prop :=
  (∃ a, c = [a] ∧ a < 0x80) ∨
  (∃ a b, c = [a, b] ∧ 0xC2 ≤ a ∧ a ≤ 0xDF ∧ utf8_tail b) ∨
  (∃ b d, c = [0xE0, b, d] ∧ 0xA0 ≤ b ∧ b ≤ 0xBF ∧ utf8_tail d) ∨
  (∃ a b d, c = [a, b, d] ∧ 0xE1 ≤ a ∧ a ≤ 0xEC ∧ utf8_tail b ∧ utf8_tail d) ∨
  (∃ b d, c = [0xED, b, d] ∧ 0x80 ≤ b ∧ b ≤ 0x9F ∧ utf8_tail d) ∨
  (∃ a b d, c = [a, b, d] ∧ 0xEE ≤ a ∧ a ≤ 0xEF ∧ utf8_tail b ∧ utf8_tail d) ∨
  (∃ b d e, c = [0xF0, b, d, e] ∧ 0x90 ≤ b ∧ b ≤ 0xBF ∧ utf8_tail d ∧ utf8_tail e) ∨
  (∃ a b d e, c = [a, b, d, e] ∧ 0xF1 ≤ a ∧ a ≤ 0xF3 ∧
    utf8_tail b ∧ utf8_tail d ∧ utf8_tail e) ∨
  (∃ b d e, c = [0xF4, b, d, e] ∧ 0x80 ≤ b ∧ b ≤ 0x8F ∧ utf8_tail d ∧ utf8_tail e)

/-- A valid UTF-8 sequence: a concatenation of well-formed characters (RFC 3629,
`UTF8-octets = *( UTF8-char )`). -/
inductive valid_utf8 : List Nat → Prop
  | nil : valid_utf8 []
  | cons (c rest : List Nat) : utf8_char c → valid_utf8 rest → valid_utf8 (c ++ rest)

/-- The byte sequences of one character in the multibyte encoding that glibc reads in
a UTF-8 locale: the forms of one to six bytes of the first UTF-8 definition (values up
to `7FFFFFFF`), each value in its shortest form, without the surrogates `D800..DFFF`.
The sequences of `utf8_char` are among them; so are the sequences of four bytes for
values above `10FFFF` and the sequences of five and six bytes. -/
def mb_char (c : List Nat) : Prop :=
  (∃ a, c = [a] ∧ a < 0x80) ∨
  (∃ a b, c = [a, b] ∧ 0xC2 ≤ a ∧ a ≤ 0xDF ∧ utf8_tail b) ∨
  (∃ a b d, c = [a, b, d] ∧ 0xE0 ≤ a ∧ a ≤ 0xEF ∧ utf8_tail b ∧ utf8_tail d ∧
    (a = 0xE0 → 0xA0 ≤ b) ∧ (a = 0xED → b ≤ 0x9F)) ∨
  (∃ a b d e, c = [a, b, d, e] ∧ 0xF0 ≤ a ∧ a ≤ 0xF7 ∧
    utf8_tail b ∧ utf8_tail d ∧ utf8_tail e ∧ (a = 0xF0 → 0x90 ≤ b)) ∨
  (∃ a b d e f, c = [a, b, d, e, f] ∧ 0xF8 ≤ a ∧ a ≤ 0xFB ∧
    utf8_tail b ∧ utf8_tail d ∧ utf8_tail e ∧ utf8_tail f ∧ (a = 0xF8 → 0x88 ≤ b)) ∨
  (∃ a b d e f g, c = [a, b, d, e, f, g] ∧ 0xFC ≤ a ∧ a ≤ 0xFD ∧
    utf8_tail b ∧ utf8_tail d ∧ utf8_tail e ∧ utf8_tail f ∧ utf8_tail g ∧
    (a = 0xFC → 0x84 ≤ b))

/-- A valid multibyte string of glibc in a UTF-8 locale: a concatenation of the
sequences of `mb_char`. -/
inductive valid_mbs : List Nat → Prop
  | nil : valid_mbs []
  | cons (c rest : List Nat) : mb_char c → valid_mbs rest → valid_mbs (c ++ rest)

/-- An interface name with the byte `FF`, which no UTF-8 sequence contains. -/
def name_bad_byte : List Nat := [0x65, 0x74, 0x68, 0xFF, 0x30, 0]

/-- The name `é0` in UTF-8, NUL-terminated. -/
def name_accent : List Nat := [0xC3, 0xA9, 0x30, 0]

/-- A name of 256 bytes `a`, NUL-terminated. -/
def name_256 : List Nat := List.replicate 256 0x61 ++ [0]

/-- A name of 256 bytes `FF`, NUL-terminated. -/
def name_256_bad : List Nat := List.replicate 256 0xFF ++ [0]

/-- The four bytes `F4 90 80 80`, which stand for the value `110000`, above the last
code point `10FFFF` of Unicode; NUL-terminated. -/
def name_above_unicode : List Nat := [0xF4, 0x90, 0x80, 0x80, 0]

/-- The five bytes `F8 88 80 80 80`, which stand for the value `200000` in a form
that UTF-8 no longer has; NUL-terminated. -/
def name_five_bytes : List Nat := [0xF8, 0x88, 0x80, 0x80, 0x80, 0]

/-! ## DNAT44 rules (`modules/ip/api/dnat44.c`)

The next hop pool, the IPv4 route table and the static source NAT rules are kept by
modules that are not part of the sources. They are modelled as finite maps, and a
pointer to a next hop by its key in the pool. -/

/-- IPv4 address, as a 32-bit number in host order. -/
abbrev ip4_addr_t := Nat

/-- Modelled from the spec: the next hop types of `gr_nexthop.h`; `dnat44.c` tells
`GR_NH_T_DNAT` from every other type. -/
inductive gr_nh_type_t where
  | DNAT
  | OTHER
deriving DecidableEq, Repr

/-- Modelled from the spec: the next hop record `struct nexthop`, as far as `dnat44.c`
uses it. The last field is `dnat44_nh_data(nh)->replace`, which lives in the private
data area of the next hop. -/
structure nexthop where
  type : gr_nh_type_t
  vrf_id : Nat
  iface_id : Nat
  ipv4 : ip4_addr_t
  replace : ip4_addr_t
deriving DecidableEq, Repr

/-- Modelled from the spec: the state that the DNAT44 handlers read and change. -/
structure ip4_state where
  -- the VRF of interface `id`, `none` when `iface_from_id(id)` is NULL
  iface_vrf : Nat → Option Nat
  -- the next hop pool, by VRF and address: what `nh4_lookup` sees
  nexthops : Nat → ip4_addr_t → Option nexthop
  -- the IPv4 route table, by VRF, prefix and prefix length: the next hop of the route
  routes : Nat → ip4_addr_t → Nat → Option nexthop
  -- the static source NAT rules, by interface and matched address: the new source
  snat44 : Nat → ip4_addr_t → Option ip4_addr_t

/-- The DNAT rule `struct gr_dnat44_rule`, whose fields `dnat44.c` reads. -/
structure gr_dnat44_rule where
  iface_id : Nat
  match_ : ip4_addr_t
  replace : ip4_addr_t
deriving DecidableEq, Repr

/-- Request `struct gr_dnat44_add_req`. -/
structure gr_dnat44_add_req where
  rule : gr_dnat44_rule
  exist_ok : Bool
deriving DecidableEq, Repr

/-- Request `struct gr_dnat44_del_req`. -/
structure gr_dnat44_del_req where
  rule : gr_dnat44_rule
  missing_ok : Bool
deriving DecidableEq, Repr

/-- Outcome of the operations of the absent modules that can fail for lack of
resources during one call of `dnat44_add`: whether `nexthop_new` returns NULL, and
the `errno` of `rib4_insert` and of `snat44_static_rule_add`, 0 for success. -/
structure Dnat44Env where
  nexthop_new_fails : Bool
  rib4_insert_errno : Nat
  snat44_static_rule_add_errno : Nat
deriving DecidableEq, Repr

/-- Modelled from the spec: `nh4_lookup(vrf_id, ip)`, the next hop of the pool with
this VRF and address, `none` for NULL. -/
def nh4_lookup (s : ip4_state) (vrf_id : Nat) (ip : ip4_addr_t) : Option nexthop :=
  s.nexthops vrf_id ip

/-- Modelled from the spec: `nexthop_new(base)`, which takes a next hop from the pool
and initialises it from `base`; `none` for NULL. -/
def nexthop_new (env : Dnat44Env) (s : ip4_state) (base : nexthop) : Option ip4_state :=
  if env.nexthop_new_fails then none
  else some { s with nexthops := fun v ip =>
    if v = base.vrf_id ∧ ip = base.ipv4 then some base else s.nexthops v ip }

/-- Assignment `data->replace = v` on the next hop with the given key. -/
def set_dnat44_nh_data (s : ip4_state) (vrf_id : Nat) (ip : ip4_addr_t)
    (v : ip4_addr_t) : ip4_state :=
  { s with nexthops := fun w a =>
    if w = vrf_id ∧ a = ip then (s.nexthops w a).map (fun nh => { nh with replace := v })
    else s.nexthops w a }

/-- Modelled from the spec: release of the last reference to a next hop, which
returns it to the pool. -/
def nexthop_decref (s : ip4_state) (vrf_id : Nat) (ip : ip4_addr_t) : ip4_state :=
  { s with nexthops := fun w a => if w = vrf_id ∧ a = ip then none else s.nexthops w a }

/-- Modelled from the spec: `rib4_insert(vrf_id, ip, prefixlen, origin, nh)` for a
next hop made by the caller, given by its key `(vrf_id, nh_ip)`. The route table takes
the only reference to the next hop; when the insertion fails the reference is dropped
and the next hop is released. Returns 0 or a negative errno. -/
def rib4_insert (env : Dnat44Env) (s : ip4_state) (vrf_id : Nat) (ip : ip4_addr_t)
    (prefixlen : Nat) (nh_ip : ip4_addr_t) : Int × ip4_state :=
  if env.rib4_insert_errno = 0 then
    (0, { s with routes := fun v a l =>
      if v = vrf_id ∧ a = ip ∧ l = prefixlen then s.nexthops vrf_id nh_ip
      else s.routes v a l })
  else (-(env.rib4_insert_errno : Int), nexthop_decref s vrf_id nh_ip)

/-- Modelled from the spec: `rib4_delete(vrf_id, ip, prefixlen)`: removes the route and
releases its next hop; `-ENOENT` when there is no such route. -/
def rib4_delete (s : ip4_state) (vrf_id : Nat) (ip : ip4_addr_t) (prefixlen : Nat) :
    Int × ip4_state :=
  match s.routes vrf_id ip prefixlen with
  | none => (-(ENOENT : Int), s)
  | some nh =>
    (0, nexthop_decref
      { s with routes := fun v a l =>
        if v = vrf_id ∧ a = ip ∧ l = prefixlen then none else s.routes v a l }
      nh.vrf_id nh.ipv4)

/-- Modelled from the spec: `snat44_static_rule_add(iface, match, replace)`: packets
sent on the interface from `match` get the source `replace`. Returns 0 or a negative
errno. -/
def snat44_static_rule_add (env : Dnat44Env) (s : ip4_state) (iface_id : Nat)
    (match_ replace : ip4_addr_t) : Int × ip4_state :=
  if env.snat44_static_rule_add_errno = 0 then
    (0, { s with snat44 := fun i a =>
      if i = iface_id ∧ a = match_ then some replace else s.snat44 i a })
  else (-(env.snat44_static_rule_add_errno : Int), s)

/-- Modelled from the spec: `snat44_static_rule_del(iface, match)`: removes the static
rule of the interface for this address; `-ENOENT` when there is none. -/
def snat44_static_rule_del (s : ip4_state) (iface_id : Nat) (match_ : ip4_addr_t) :
    Int × ip4_state :=
  match s.snat44 iface_id match_ with
  | none => (-(ENOENT : Int), s)
  | some _ =>
    (0, { s with snat44 := fun i a =>
      if i = iface_id ∧ a = match_ then none else s.snat44 i a })

/-- Handler `dnat44_add(request, response)`: the `api_out` returned and the state
after the call. -/
def dnat44_add (env : Dnat44Env) (s : ip4_state) (req : gr_dnat44_add_req) :
    api_out × ip4_state :=
  match s.iface_vrf req.rule.iface_id with
  | none => ({ status := ENODEV, len := 0 }, s)
  | some vrf_id =>
    match nh4_lookup s vrf_id req.rule.match_ with
    | some nh =>
      if nh.type ≠ .DNAT ∨ nh.replace ≠ req.rule.replace then
        ({ status := EADDRINUSE, len := 0 }, s)
      else if req.exist_ok then ({ status := 0, len := 0 }, s)
      else ({ status := EEXIST, len := 0 }, s)
    | none =>
      match nexthop_new env s
        { type := .DNAT, vrf_id := vrf_id, iface_id := req.rule.iface_id,
          ipv4 := req.rule.match_, replace := 0 } with
      | none => ({ status := ENOMEM, len := 0 }, s)
      | some s1 =>
        let s2 := set_dnat44_nh_data s1 vrf_id req.rule.match_ req.rule.replace
        let r := rib4_insert env s2 vrf_id req.rule.match_ 32 req.rule.match_
        if r.1 < 0 then ({ status := (-r.1).toNat, len := 0 }, r.2)
        else
          let r2 := snat44_static_rule_add env r.2 req.rule.iface_id req.rule.replace
            req.rule.match_
          if r2.1 < 0 then
            -- fail:
            let s3 := (rib4_delete r2.2 vrf_id req.rule.match_ 32).2
            let s4 := (snat44_static_rule_del s3 req.rule.iface_id req.rule.replace).2
            ({ status := (-r2.1).toNat, len := 0 }, s4)
          else ({ status := 0, len := 0 }, r2.2)

/-- Handler `dnat44_del(request, response)`: the `api_out` returned and the state
after the call. -/
def dnat44_del (s : ip4_state) (req : gr_dnat44_del_req) : api_out × ip4_state :=
  match s.iface_vrf req.rule.iface_id with
  | none => ({ status := ENODEV, len := 0 }, s)
  | some vrf_id =>
    match nh4_lookup s vrf_id req.rule.match_ with
    | none =>
      if req.missing_ok then ({ status := 0, len := 0 }, s)
      else ({ status := ENOENT, len := 0 }, s)
    | some nh =>
      if nh.type ≠ .DNAT ∨ nh.replace ≠ req.rule.replace then
        ({ status := EADDRINUSE, len := 0 }, s)
      else
        let s1 := (rib4_delete s vrf_id req.rule.match_ 32).2
        let s2 := (snat44_static_rule_del s1 req.rule.iface_id req.rule.replace).2
        ({ status := 0, len := 0 }, s2)

/-- The DNAT rules of the state, as `dnat44_list` reports them: one rule per next hop
of type `GR_NH_T_DNAT`. -/
def dnat44_rule_at (s : ip4_state) (vrf_id : Nat) (ip : ip4_addr_t) :
    Option gr_dnat44_rule :=
  match s.nexthops vrf_id ip with
  | some nh =>
    if nh.type = .DNAT then
      some { iface_id := nh.iface_id, match_ := nh.ipv4, replace := nh.replace }
    else none
  | none => none

/-- All operations of the absent modules succeed. -/
def dnat44_env_ok : Dnat44Env :=
  { nexthop_new_fails := false, rib4_insert_errno := 0, snat44_static_rule_add_errno := 0 }

/-- Interface 1 is in VRF 0; there is no next hop, route or NAT rule. -/
def ip4_state_empty : ip4_state :=
  { iface_vrf := fun id => if id = 1 then some 0 else none
    nexthops := fun _ _ => none
    routes := fun _ _ _ => none
    snat44 := fun _ _ => none }

/-- The address `10.0.0.1`. -/
def ip_10_0_0_1 : ip4_addr_t := 0x0A000001

/-- The address `192.168.1.1`. -/
def ip_192_168_1_1 : ip4_addr_t := 0xC0A80101

/-- The address `192.168.1.2`. -/
def ip_192_168_1_2 : ip4_addr_t := 0xC0A80102

/-- The rule `{iface=1, match=10.0.0.1, replace=192.168.1.1}`. -/
def dnat44_rule_1 : gr_dnat44_rule :=
  { iface_id := 1, match_ := ip_10_0_0_1, replace := ip_192_168_1_1 }

/-- The state after the first add of `dnat44_rule_1` to the empty state. -/
def ip4_state_rule_1 : ip4_state :=
  (dnat44_add dnat44_env_ok ip4_state_empty { rule := dnat44_rule_1, exist_ok := true }).2

/-- The address 10.0.0.1 of VRF 0 is held by a next hop that is not a DNAT entry. -/
def ip4_state_other_nh : ip4_state :=
  { ip4_state_empty with
    nexthops := fun v ip =>
      if v = 0 ∧ ip = ip_10_0_0_1 then
        some { type := .OTHER, vrf_id := 0, iface_id := 1, ipv4 := ip_10_0_0_1, replace := 0 }
      else none }

/-! ### Extra addresses and removal of a bond (`bond_mac_add`, `bond_mac_del`, `bond_fini`) -/

/-- Function `bond_mac_add` on the private data of the bond and the interface table:
returns the status and the updated pair. `gr_vec_add` appends the address. A failure
returns before the list is extended; the members already served keep the address. -/
def bond_mac_add_body (env : IfaceEnv) (t : iface_table) (bond : iface_info_bond)
    (mac : rte_ether_addr) : Int × iface_table × iface_info_bond :=
  let r := bond_all_member_mac env t bond mac true
  if r.1 < 0 then (r.1, r.2, bond)
  else (0, r.2, { bond with extra_macs := bond.extra_macs ++ [mac] })

/-- Function `bond_mac_add(iface, mac)` on the interface `iface_id` of the table; `none`
when `iface_info_bond(iface)` aborts. -/
def bond_mac_add (env : IfaceEnv) (t : iface_table) (iface_id : Nat)
    (mac : rte_ether_addr) : Option (Int × iface_table) :=
  match get_bond t iface_id with
  | none => none
  | some bond =>
    let r := bond_mac_add_body env t bond mac
    some (r.1, set_bond r.2.1 iface_id r.2.2)

/-- Function `bond_mac_del` on the private data of the bond and the interface table.
The result of `bond_all_member_mac` is ignored; the loop over `extra_macs` deletes the
first entry equal to the address. -/
def bond_mac_del_body (env : IfaceEnv) (t : iface_table) (bond : iface_info_bond)
    (mac : rte_ether_addr) : Int × iface_table × iface_info_bond :=
  let r := bond_all_member_mac env t bond mac false
  (0, r.2, { bond with extra_macs := bond.extra_macs.erase mac })

/-- Function `bond_mac_del(iface, mac)` on the interface `iface_id` of the table; `none`
when `iface_info_bond(iface)` aborts. -/
def bond_mac_del (env : IfaceEnv) (t : iface_table) (iface_id : Nat)
    (mac : rte_ether_addr) : Option (Int × iface_table) :=
  match get_bond t iface_id with
  | none => none
  | some bond =>
    let r := bond_mac_del_body env t bond mac
    some (r.1, set_bond r.2.1 iface_id r.2.2)

/-- The configuration `zero = {.n_members = 0}` of `bond_fini`. -/
def gr_iface_info_bond.zero : gr_iface_info_bond :=
  { mode := .ACTIVE_BACKUP, mac := 0, primary_member := 0, member_iface_ids := [] }

/-- Function `bond_fini(iface)` on the interface `iface_id` of the table; `none` when
`iface_info_bond(iface)` aborts. Every member is released; `gr_vec_free` empties
`extra_macs`; `members` and `n_members` are left as they are. -/
def bond_fini (env : IfaceEnv) (t : iface_table) (iface_id : Nat) :
    Option (Int × iface_table) :=
  match get_bond t iface_id with
  | none => none
  | some bond =>
    some (0, set_bond (bond_fini_old_members env t bond gr_iface_info_bond.zero) iface_id
      { bond with extra_macs := [] })

/-- Modelled from the spec: the end of `iface_destroy` of iface.c, which frees the
interface after the `fini` operation of its type has run: the id is no longer in the
table. -/
def iface_table.remove (t : iface_table) (id : Nat) : iface_table :=
  fun j => if j = id then none else t j

/-- The private data of the bond `b` lists the port `p` exactly when the back-link of
`p` names `b`, for every bond and every port of the table. -/
def links_agree (t : iface_table) : Prop :=
  ∀ b bond p, get_bond t b = some bond → is_port t p →
    (p ∈ bond.members ↔ port_link t p = some b)

/-- The mask with the bit `GR_BOND_SET_PRIMARY` only. -/
def set_primary : bond_set_attrs :=
  { MODE := false, MAC := false, MEMBERS := false, PRIMARY := true, others := false }

/-- The table after bond 3 of `reconfig_table` was given the member list `[1]`: port 1
is the active member and the bond has taken its address `0xA1`. -/
def extra_mac_step1 : iface_table :=
  match bond_reconfig env_ok reconfig_table 3 set_members (mk_api 0 0 [1]) with
  | some r => r.2
  | none => reconfig_table

/-- The table after the extra address `0xA1` was added to bond 3. -/
def extra_mac_step2 : iface_table :=
  match bond_mac_add env_ok extra_mac_step1 3 0xA1 with
  | some r => r.2
  | none => extra_mac_step1

/-- The table after the address of bond 3 was then set to `0xBB`. -/
def extra_mac_step3 : iface_table :=
  match bond_reconfig env_ok extra_mac_step2 3 set_mac (mk_api 0xBB 0 []) with
  | some r => r.2
  | none => extra_mac_step2

/-- The private data of a bond record, `none` when the record is not a bond. -/
def iface_bond_info (i : iface) : Option iface_info_bond :=
  match i.info with
  | .bond bond => some bond
  | _ => none

/-- The table after bond 3 of `two_bonds_step2` was finalised and its interface
freed. -/
def two_bonds_fini : iface_table :=
  match bond_fini env_ok two_bonds_step2 3 with
  | some r => r.2.remove 3
  | none => two_bonds_step2

/-- The table after bond 3 of `reconfig_table` was given the member list `[1, 2]`. -/
def reconfig_table_12 : iface_table :=
  match bond_reconfig env_ok reconfig_table 3 set_members (mk_api 0 0 [1, 2]) with
  | some r => r.2
  | none => reconfig_table

/-- The address `10.0.0.2`. -/
def ip_10_0_0_2 : ip4_addr_t := 0x0A000002

/-- The rule `{iface=1, match=10.0.0.2, replace=192.168.1.1}`: another match address
with the replace address of `dnat44_rule_1`. -/
def dnat44_rule_2 : gr_dnat44_rule :=
  { iface_id := 1, match_ := ip_10_0_0_2, replace := ip_192_168_1_1 }

/-- The next hop and the route can be made, `snat44_static_rule_add` fails with
`EEXIST`. -/
def dnat44_env_snat_eexist : Dnat44Env :=
  { nexthop_new_fails := false, rib4_insert_errno := 0,
    snat44_static_rule_add_errno := EEXIST }

/-- The next hop can be made, `rib4_insert` fails with `ENOMEM`. -/
def dnat44_env_rib_enomem : Dnat44Env :=
  { nexthop_new_fails := false, rib4_insert_errno := ENOMEM,
    snat44_static_rule_add_errno := 0 }

/-! ## Packet traces (`modules/infra/datapath/trace.c`)

Sequential model of the trace pool and ring. A trace item is identified by the number
of its slot in `trace_pool`; a chain of items (`struct gr_trace_head`, or the pointer
to its first item) is the list of its items from head to tail, the empty list being
the NULL pointer. The fields of an item play no part in the functions below, except
in the formatting calls of `gr_trace_dump`, whose results are given by `DumpEnv`.
The mempool and the ring belong to DPDK. -/

def ENOBUFS : Nat := 105

/-- The constant `PACKET_COUNT_MAX`, which is `RTE_GRAPH_BURST_SIZE` (256 in DPDK). -/
def PACKET_COUNT_MAX : Nat := 256

/-- The static variables `trace_pool` (the free items) and `traced_packets` (the queued
chains, oldest first), with the usable size of the ring. -/
structure trace_state where
  trace_pool : List Nat
  traced_packets : List (List Nat)
  ring_capacity : Nat
deriving DecidableEq, Repr

/-- Call `rte_mempool_get(trace_pool, &data)` of DPDK: a free item and the new state,
`none` for a negative result (the pool is empty). -/
def rte_mempool_get (s : trace_state) : Option (Nat × trace_state) :=
  match s.trace_pool with
  | [] => none
  | data :: rest => some (data, { s with trace_pool := rest })

/-- Call `rte_mempool_put(trace_pool, t)` of DPDK. -/
def rte_mempool_put (s : trace_state) (t : Nat) : trace_state :=
  { s with trace_pool := t :: s.trace_pool }

/-- Call `rte_ring_enqueue(traced_packets, trace)` of DPDK: the new state, `none` for
the result `-ENOBUFS` (the ring is full). -/
def rte_ring_enqueue (s : trace_state) (trace : List Nat) : Option trace_state :=
  if s.traced_packets.length < s.ring_capacity then
    some { s with traced_packets := s.traced_packets ++ [trace] }
  else none

/-- Call `rte_ring_dequeue(traced_packets, &obj)` of DPDK with `obj` initialised to
NULL: the value of `obj` after the call (the oldest chain, still NULL when the ring
is empty) and the new state. -/
def rte_ring_dequeue (s : trace_state) : List Nat × trace_state :=
  match s.traced_packets with
  | [] => ([], s)
  | oldest :: rest => (oldest, { s with traced_packets := rest })

/-- Function `free_trace(t)`: every item of the chain goes back to the pool, head
first. -/
def free_trace : trace_state → List Nat → trace_state
  | s, [] => s
  | s, t :: next => free_trace (rte_mempool_put s t) next

/-- The loop `while (rte_mempool_get(trace_pool, &data) < 0)` of `gr_mbuf_trace_add`,
run for at most `fuel` calls of `rte_mempool_get`: the item obtained and the new
state, `none` when the loop is still running after `fuel` iterations. -/
def gr_mbuf_trace_add_loop : Nat → trace_state → Option (Nat × trace_state)
  | 0, _ => none
  | fuel + 1, s =>
    match rte_mempool_get s with
    | some r => some r
    | none =>
      let r := rte_ring_dequeue s
      gr_mbuf_trace_add_loop fuel (free_trace r.2 r.1)

/-- Function `gr_mbuf_trace_add(m, node, data_len)`, `traces` being the chain
`gr_mbuf_traces(m)` of the packet: the new state and the new chain of the packet.
Both `STAILQ_INSERT_HEAD` on an empty chain and `STAILQ_INSERT_TAIL` put the item at
the end. -/
def gr_mbuf_trace_add (fuel : Nat) (s : trace_state) (traces : List Nat) :
    Option (trace_state × List Nat) :=
  match gr_mbuf_trace_add_loop fuel s with
  | none => none
  | some (data, s1) => some (s1, traces ++ [data])

/-- The loop `while (rte_ring_enqueue(traced_packets, trace) == -ENOBUFS)` of
`gr_mbuf_trace_finish`, run for at most `fuel` calls of `rte_ring_enqueue`. -/
def gr_mbuf_trace_finish_loop : Nat → trace_state → List Nat → Option trace_state
  | 0, _, _ => none
  | fuel + 1, s, trace =>
    match rte_ring_enqueue s trace with
    | some s1 => some s1
    | none =>
      let r := rte_ring_dequeue s
      gr_mbuf_trace_finish_loop fuel (free_trace r.2 r.1) trace

/-- Function `gr_mbuf_trace_finish(m)`, `traces` being the chain of the packet: the new
state and the chain of the packet after `STAILQ_INIT`. A packet without trace items
is left alone. -/
def gr_mbuf_trace_finish (fuel : Nat) (s : trace_state) (traces : List Nat) :
    Option (trace_state × List Nat) :=
  match traces with
  | [] => some (s, [])
  | t :: next =>
    match gr_mbuf_trace_finish_loop fuel s (t :: next) with
    | none => none
    | some s1 => some (s1, [])

/-- Results of the formatting calls of one `gr_trace_dump`: the number of bytes written
by `strftime`, and the value returned by `snprintf` for the nanoseconds, for the CPU
line and for the node name of an item, and by the `trace_format` callback of the node
of an item (`none` when the node has no such callback). -/
structure DumpEnv where
  strftime_len : Nat
  nsec_len : Int
  cpu_len : Int
  node_name_len : Nat → Int
  trace_format_len : Nat → Option Int

/-- Modelled from the spec: the macro `SAFE_BUF(func, len, ...)`, whose header is not
part of the sources: it calls `func(buf + n, len - n, ...)`, jumps to the label `err`
(`none`) when the result is negative or does not fit in the `len - n` bytes left, and
otherwise adds the result to `n`. The subtraction is the one of `size_t`. -/
def SAFE_BUF (len : Nat) (n : Int) (result : Int) : Option Int :=
  if result < 0 then none
  else if result ≥ (len - n) % 2 ^ 64 then none
  else some (n + result)

/-- The loop `while (t)` of `gr_trace_dump` over the items left in the chain. -/
def gr_trace_dump_items (env : DumpEnv) (len : Nat) : List Nat → Int → Option Int
  | [], n => some n
  | t :: next, n =>
    match SAFE_BUF len n (env.node_name_len t) with
    | none => none
    | some n1 =>
      let n2 : Option Int :=
        match env.trace_format_len t with
        | none => some n1
        | some r =>
          match SAFE_BUF len n1 1 with
          | none => none
          | some n3 => some (n3 + r)
      match n2 with
      | none => none
      | some n4 =>
        match SAFE_BUF len n4 1 with
        | none => none
        | some n5 => gr_trace_dump_items env len next n5

/-- Function `gr_trace_dump(buf, len)`: the value returned, the chain that was taken
from the ring (empty when the ring was empty) and the new state. Every `goto err`
returns -1 at once. -/
def gr_trace_dump (env : DumpEnv) (s : trace_state) (len : Nat) :
    Int × List Nat × trace_state :=
  match s.traced_packets with
  | [] => (0, [], s)
  | head :: rest =>
    let s1 : trace_state := { s with traced_packets := rest }
    match SAFE_BUF len env.strftime_len env.nsec_len with
    | none => (-1, head, s1)
    | some n1 =>
      match SAFE_BUF len n1 env.cpu_len with
      | none => (-1, head, s1)
      | some n2 =>
        match gr_trace_dump_items env len head n2 with
        | none => (-1, head, s1)
        | some n3 =>
          let s2 := free_trace s1 head
          match SAFE_BUF len n3 1 with
          | none => (-1, head, s2)
          | some n4 => (n4, head, s2)

/-- The loop of `gr_trace_clear` over the chains left in the ring. -/
def gr_trace_clear_loop : List (List Nat) → trace_state → trace_state
  | [], s => s
  | trace :: rest, s =>
    gr_trace_clear_loop rest (free_trace { s with traced_packets := rest } trace)

/-- Function `gr_trace_clear()`. -/
def gr_trace_clear (s : trace_state) : trace_state :=
  gr_trace_clear_loop s.traced_packets s

/-- The state that `trace_init` makes: a pool of `rte_align32pow2(PACKET_COUNT_MAX * 128)
- 1` items and an empty ring created with the count `PACKET_COUNT_MAX`, of which DPDK
makes `PACKET_COUNT_MAX - 1` entries usable. -/
def trace_init : trace_state :=
  { trace_pool := List.range (PACKET_COUNT_MAX * 128 - 1)
    traced_packets := []
    ring_capacity := PACKET_COUNT_MAX - 1 }

/-- Every item that is in the free pool, in the chain `traces` attached to a packet or
in a chain queued in the ring. -/
def trace_items (s : trace_state) (traces : List Nat) : List Nat :=
  s.trace_pool ++ traces ++ s.traced_packets.flatten

/-- An operation on the ring: `gr_mbuf_trace_finish` on a packet with the given chain,
or `gr_trace_dump` with the given formatting results and buffer length. -/
inductive trace_op where
  | finish (traces : List Nat)
  | dump (env : DumpEnv) (len : Nat)

/-- Runs a sequence of ring operations, every loop with `fuel` iterations at most:
the chains taken by the dumps, in order, and the final state. -/
def trace_run (fuel : Nat) : List trace_op → trace_state →
    Option (List (List Nat) × trace_state)
  | [], s => some ([], s)
  | .finish traces :: ops, s =>
    match gr_mbuf_trace_finish fuel s traces with
    | none => none
    | some r => trace_run fuel ops r.1
  | .dump env len :: ops, s =>
    let r := gr_trace_dump env s len
    match trace_run fuel ops r.2.2 with
    | none => none
    | some (out, s1) =>
      some ((if s.traced_packets = [] then out else r.2.1 :: out), s1)

/-- The chains handed to `gr_mbuf_trace_finish` by a sequence of operations, in order,
without the packets that carry no trace. -/
def finished_chains : List trace_op → List (List Nat)
  | [] => []
  | .finish traces :: ops =>
    if traces = [] then finished_chains ops else traces :: finished_chains ops
  | .dump _ _ :: ops => finished_chains ops

/-- Formatting results of a dump whose texts are short. -/
def dump_env_short : DumpEnv :=
  { strftime_len := 19, nsec_len := 9, cpu_len := 17, node_name_len := fun _ => 8,
    trace_format_len := fun _ => none }

/-- A pool of two free items and an empty ring. -/
def trace_state_small : trace_state :=
  { trace_pool := [0, 1], traced_packets := [], ring_capacity := 2 }

/-- Three packets are finished on a ring of usable size two, then two dumps run. -/
def trace_ops_overflow : List trace_op :=
  [.finish [0], .finish [1], .finish [2], .dump dump_env_short 4096,
   .dump dump_env_short 4096]

/-- An empty pool and an empty ring of usable size two. -/
def trace_state_empty : trace_state :=
  { trace_pool := [], traced_packets := [], ring_capacity := 2 }

/-- Formatting results of a dump for which `strftime` had no room and wrote nothing. -/
def dump_env_no_room : DumpEnv :=
  { strftime_len := 0, nsec_len := 9, cpu_len := 17, node_name_len := fun _ => 8,
    trace_format_len := fun _ => none }

/-- The ring holds the chain of items 7 and 8; the pool is empty. -/
def trace_state_queued : trace_state :=
  { trace_pool := [], traced_packets := [[7, 8]], ring_capacity := PACKET_COUNT_MAX - 1 }

/-! ## Command line and process exit (`main/main.c`, `cli/main.c`)

`getopt_long` belongs to libc: the values it returns for the command line, one per
call, are given by `GetoptEnv`, together with `optind` after the last call. -/

def EINVAL : Nat := 22
def ENOSYS : Nat := 38

/-- Modelled from the spec: the constant `GR_DEFAULT_SOCK_PATH` of `gr_api.h`, the
hard-coded default path of the API socket. -/
def GR_DEFAULT_SOCK_PATH : String := "/run/grout.sock"

/-- The constant `RTE_LOG_NOTICE` of DPDK. -/
def RTE_LOG_NOTICE : Nat := 6

/-- One value returned by `getopt_long` before it returns -1: the option character
`c` and the value of `optarg` (meaningful for `s` only). -/
structure getopt_ret where
  c : Char
  optarg : String
deriving DecidableEq, Repr

/-- What `parse_args` gets from its environment: the result of
`getenv("GROUT_SOCK_PATH")` (`none` for NULL), the values returned by the successive
calls of `getopt_long` before -1, the value of `optind` after the call that returned
-1, and `argc`. -/
structure GetoptEnv where
  getenv_sock_path : Option String
  results : List getopt_ret
  optind : Nat
  argc : Nat
deriving DecidableEq, Repr

/-- Modelled from the spec: the static `struct gr_args args` of the daemon, declared in
`gr.h`, with the flag `packet_trace_enabled`; a NULL path is `none`. -/
structure gr_args where
  api_sock_path : Option String
  log_level : Nat
  test_mode : Bool
  poll_mode : Bool
  packet_trace_enabled : Bool
deriving DecidableEq, Repr

/-- The zero-initialised static `args`. -/
def gr_args.zero : gr_args :=
  { api_sock_path := none, log_level := 0, test_mode := false, poll_mode := false,
    packet_trace_enabled := false }

/-- How a call of `parse_args` ends: it returns a value, or the process exits in
`exit(EXIT_SUCCESS)` (option `-V`). -/
inductive parse_result (α : Type) where
  | ret (value : Int) (args : α)
  | exit_success
deriving DecidableEq, Repr

/-- The `end:` label of the daemon `parse_args`. -/
def daemon_parse_args_end (env : GetoptEnv) (args : gr_args) : parse_result gr_args :=
  if env.optind < env.argc then .ret (-(EINVAL : Int)) args
  else if args.api_sock_path.isNone then
    .ret 0 { args with api_sock_path := some GR_DEFAULT_SOCK_PATH }
  else .ret 0 args

/-- The `while` loop of the daemon `parse_args`, over the values that `getopt_long`
still returns. -/
def daemon_parse_args_loop (env : GetoptEnv) : List getopt_ret → gr_args →
    parse_result gr_args
  | [], args => daemon_parse_args_end env args
  | r :: rest, args =>
    if r.c = 'h' then .ret (-1) args
    else if r.c = 'p' then daemon_parse_args_loop env rest { args with poll_mode := true }
    else if r.c = 's' then
      daemon_parse_args_loop env rest { args with api_sock_path := some r.optarg }
    else if r.c = 't' then daemon_parse_args_loop env rest { args with test_mode := true }
    else if r.c = 'V' then .exit_success
    else if r.c = 'v' then
      daemon_parse_args_loop env rest { args with log_level := args.log_level + 1 }
    else if r.c = 'x' then
      daemon_parse_args_loop env rest { args with packet_trace_enabled := true }
    else if r.c = ':' then .ret (-(EINVAL : Int)) args
    else if r.c = '?' then .ret (-(EINVAL : Int)) args
    else daemon_parse_args_end env args

/-- Function `parse_args(argc, argv)` of the daemon (`main/main.c`). -/
def daemon_parse_args (env : GetoptEnv) : parse_result gr_args :=
  daemon_parse_args_loop env env.results
    { gr_args.zero with api_sock_path := env.getenv_sock_path, log_level := RTE_LOG_NOTICE }

/-- The static `struct gr_cli_opts opts` of the CLI. -/
structure gr_cli_opts where
  sock_path : Option String
  err_exit : Bool
  trace_commands : Bool
deriving DecidableEq, Repr

/-- The zero-initialised static `opts`. -/
def gr_cli_opts.zero : gr_cli_opts :=
  { sock_path := none, err_exit := false, trace_commands := false }

/-- The empty command line without `GROUT_SOCK_PATH`. -/
def getopt_env_default : GetoptEnv :=
  { getenv_sock_path := none, results := [], optind := 1, argc := 1 }

/-- The command line `-z`, an unknown option. -/
def getopt_env_unknown : GetoptEnv :=
  { getenv_sock_path := none, results := [⟨'?', ""⟩], optind := 2, argc := 2 }

/-- Result of a call of the daemon `main` that fails by returning a negative value, with
the value of `errno` that `main` reads after it. -/
structure CallRet where
  ok : Bool
  errno : Nat
deriving DecidableEq, Repr

/-- What `main` gets from its environment: the results of the library calls and of the
functions defined elsewhere, in the order of the calls. -/
structure MainEnv where
  /-- Condition `setlocale(LC_CTYPE, "C.UTF-8") != NULL` -/
  setlocale_ok : Bool
  /-- Condition `evthread_use_pthreads() >= 0` -/
  evthread_ok : Bool
  /-- the command line and `GROUT_SOCK_PATH` -/
  getopt : GetoptEnv
  /-- Call `dpdk_log_init(&args)` -/
  dpdk_log_init : CallRet
  /-- Call `dpdk_init(&args)` -/
  dpdk_init : CallRet
  /-- Call `event_base_new()`, `errno` being read after the `LOG` call -/
  event_base_new : CallRet
  /-- Call `listen_api_socket()` -/
  listen_api_socket : CallRet
  /-- Call `register_signals(ev_base)` -/
  register_signals : CallRet
  /-- Call `event_base_dispatch(ev_base)`: `ok` when it returns 0 -/
  event_base_dispatch : CallRet
deriving DecidableEq, Repr

/-- Effects of `main` that the outside observes, in program order. -/
inductive MainEffect where
  /-- Call `perror(...)` -/
  | perror
  /-- Call `sd_notifyf(0, "READY=1\nSTATUS=...")` -/
  | notify_ready
  /-- Call `sd_notifyf(0, "STOPPING=1\nSTATUS=shutting down...")` -/
  | notify_stopping
  /-- Call `sd_notifyf(0, "ERRNO=%i", err)` -/
  | notify_errno (err : Nat)
  /-- Call `modules_init(ev_base)` -/
  | modules_init
  /-- Call `modules_fini(ev_base)` -/
  | modules_fini
  /-- Call `unlink(args.api_sock_path)` -/
  | unlink_sock
  /-- Call `dpdk_fini()` -/
  | dpdk_fini
deriving DecidableEq, Repr

/-- Is the effect an `ERRNO=<n>` message on the readiness channel. -/
def MainEffect.is_notify_errno : MainEffect → Bool
  | .notify_errno _ => true
  | _ => false

/-- The value `EXIT_SUCCESS`. -/
def EXIT_SUCCESS : Int := 0

/-- The value `EXIT_FAILURE`. -/
def EXIT_FAILURE : Int := 1

/-- The label `dpdk_stop:` of `main` and what follows it. -/
def main_dpdk_stop (ret : Int) (err : Nat) : Int × List MainEffect :=
  (ret, [MainEffect.dpdk_fini] ++ (if err ≠ 0 then [MainEffect.notify_errno err] else []))

/-- The label `shutdown:` of `main` and what follows it; `ev_base` tells whether
`event_base_new` has succeeded. -/
def main_shutdown (ev_base : Bool) (ret : Int) (err : Nat) : Int × List MainEffect :=
  let r := main_dpdk_stop ret err
  (r.1, (if ev_base then [MainEffect.modules_fini] else []) ++ [MainEffect.unlink_sock]
    ++ r.2)

/-- Function `main(argc, argv)` of the daemon: the exit status of the process and the
effects performed. The option `-V` ends the process in `exit(EXIT_SUCCESS)` inside
`parse_args`. -/
def daemon_main (env : MainEnv) : Int × List MainEffect :=
  if !env.setlocale_ok then (EXIT_FAILURE, [MainEffect.perror])
  else if !env.evthread_ok then (EXIT_FAILURE, [MainEffect.perror])
  else
    match daemon_parse_args env.getopt with
    | .exit_success => (EXIT_SUCCESS, [])
    | .ret value _ =>
      if value < 0 then (EXIT_FAILURE, [])
      else if !env.dpdk_log_init.ok then
        -- err = errno; goto end;
        (EXIT_FAILURE, [])
      else if !env.dpdk_init.ok then main_dpdk_stop EXIT_FAILURE env.dpdk_init.errno
      else if !env.event_base_new.ok then
        main_shutdown false EXIT_FAILURE env.event_base_new.errno
      else if !env.listen_api_socket.ok then
        let r := main_shutdown true EXIT_FAILURE env.listen_api_socket.errno
        (r.1, [MainEffect.modules_init] ++ r.2)
      else if !env.register_signals.ok then
        let r := main_shutdown true EXIT_FAILURE env.register_signals.errno
        (r.1, [MainEffect.modules_init] ++ r.2)
      else if env.event_base_dispatch.ok then
        let r := main_shutdown true EXIT_SUCCESS 0
        (r.1, [MainEffect.modules_init, MainEffect.notify_ready, MainEffect.notify_stopping]
          ++ r.2)
      else
        let r := main_shutdown true EXIT_FAILURE env.event_base_dispatch.errno
        (r.1, [MainEffect.modules_init, MainEffect.notify_ready] ++ r.2)

/-- A run in which every call succeeds and the event loop stops cleanly. -/
def main_env_ok : MainEnv :=
  { setlocale_ok := true, evthread_ok := true, getopt := getopt_env_default,
    dpdk_log_init := ⟨true, 0⟩, dpdk_init := ⟨true, 0⟩, event_base_new := ⟨true, 0⟩,
    listen_api_socket := ⟨true, 0⟩, register_signals := ⟨true, 0⟩,
    event_base_dispatch := ⟨true, 0⟩ }
/-! ## Theorems -/

theorem lookup_api_handler_eq_none (handlers : Handlers) (req : gr_api_request) :
    lookup_api_handler handlers req = none ↔
      ∀ h ∈ handlers, h.request_type ≠ req.type := by
  induction handlers with
  | nil => simp [lookup_api_handler]
  | cons h rest ih =>
    by_cases ht : h.request_type = req.type
    · simp [lookup_api_handler, ht]
    · simp [lookup_api_handler, ht, ih]

theorem lookup_api_handler_eq_some (handlers : Handlers) (req : gr_api_request)
    (h : gr_api_handler) (hl : lookup_api_handler handlers req = some h) :
    h ∈ handlers ∧ h.request_type = req.type := by
  induction handlers with
  | nil => simp [lookup_api_handler] at hl
  | cons x rest ih =>
    by_cases hx : x.request_type = req.type
    · simp [lookup_api_handler, hx] at hl
      subst hl
      exact ⟨List.mem_cons_self _ _, hx⟩
    · simp [lookup_api_handler, hx] at hl
      exact ⟨List.mem_cons_of_mem _ (ih hl).1, (ih hl).2⟩

@[simp] theorem none_of_nil (p : Effect → Bool) : none_of p [] = true := rfl

@[simp] theorem none_of_cons (p : Effect → Bool) (e : Effect) (es : List Effect) :
    none_of p (e :: es) = (!p e && none_of p es) := rfl

theorem none_of_iff (p : Effect → Bool) (l : List Effect) :
    none_of p l = true ↔ ∀ e ∈ l, p e = false := by
  induction l with
  | nil => simp
  | cons e es ih => simp [ih]

@[simp] theorem none_of_append (p : Effect → Bool) (l m : List Effect) :
    none_of p (l ++ m) = (none_of p l && none_of p m) := by
  induction l with
  | nil => simp
  | cons e es ih => simp [ih, Bool.and_assoc]

theorem send_no_callback (env : ReadEnv) (a : Bool) (out : api_out)
    (rp : Option (List Nat)) :
    none_of Effect.is_callback (api_read_cb_send env a out rp) = true := by
  simp only [api_read_cb_send, send_response, api_read_cb_retry_send, api_read_cb_close]
  split_ifs <;> simp [Effect.is_callback]

/-- C1: when no registered handler has the type of the request, `api_read_cb` invokes
no handler callback; and when the request frame was read (the header and, if one is
announced, the payload) and the response buffer could be allocated, it sends the
response `{for_id = req.id, status = ENOTSUP, payload_len = 0}`. -/
theorem api_read_cb_unknown_type (handlers : Handlers) (env : ReadEnv)
    (hnone : ∀ h ∈ handlers, h.request_type ≠ env.req.type) :
    (∀ e ∈ api_read_cb handlers env, e.is_callback = false) ∧
    (env.what &&& EV_CLOSED = 0 → 0 < env.hdr_recv.ret →
      (0 < env.req.payload_len → env.payload_malloc = true ∧ 0 < env.payload_recv.ret) →
      env.resp_malloc = true →
      Effect.send { for_id := env.req.id, status := ENOTSUP, payload_len := 0, payload := [] }
        RESP_HDR_SIZE ∈ api_read_cb handlers env) := by
  have hl := (lookup_api_handler_eq_none handlers env.req).2 hnone
  constructor
  · have hs := send_no_callback env
    rw [← none_of_iff]
    simp only [api_read_cb, api_read_cb_payload, api_read_cb_dispatch, hl, api_read_cb_close]
    split_ifs <;> simp [hs, Effect.is_callback]
  · intro hw hh hp hr
    have h1 : ¬ env.hdr_recv.ret < 0 := by omega
    have h2 : ¬ env.hdr_recv.ret = 0 := by omega
    have hsend : ∀ b, Effect.send
        { for_id := env.req.id, status := ENOTSUP, payload_len := 0, payload := [] }
        RESP_HDR_SIZE ∈ api_read_cb_dispatch handlers env b := by
      intro b
      simp only [api_read_cb_dispatch, hl, api_read_cb_send, hr, send_response]
      split_ifs <;> first | contradiction | simp
    simp only [api_read_cb, hw, h1, h2, api_read_cb_payload]
    by_cases hpl : env.req.payload_len > 0
    · obtain ⟨hm, hpr⟩ := hp hpl
      have h3 : ¬ env.payload_recv.ret < 0 := by omega
      have h4 : ¬ env.payload_recv.ret = 0 := by omega
      simp [hpl, hm, h3, h4, hsend]
    · simp [hpl, hsend]

/-- Witness of C1: the client sends `{id=7, type=0xDEAD0001, payload_len=0}` and the
server replies `{for_id=7, status=ENOTSUP, payload_len=0}` without invoking a handler. -/
theorem api_read_cb_unknown_type_witness :
    (∀ e ∈ api_read_cb other_handlers unknown_type_env, e.is_callback = false) ∧
    Effect.send { for_id := 7, status := ENOTSUP, payload_len := 0, payload := [] } 12
      ∈ api_read_cb other_handlers unknown_type_env :=
  have h := api_read_cb_unknown_type other_handlers unknown_type_env (by decide)
  ⟨h.1, h.2 (by decide) (by decide) (by decide) (by decide)⟩

/-- C2, failing input: the header announces 8 payload bytes and the payload `recv`
returns 3. `api_read_cb` still looks up and invokes the handler on the partly filled
buffer: the value returned by `recv` is only compared with 0, never with
`req.payload_len`. -/
theorem api_read_cb_short_payload_invokes_handler :
    short_payload_env.payload_recv.ret < short_payload_env.req.payload_len ∧
    api_read_cb echo_handlers short_payload_env =
      [Effect.recv_header, Effect.malloc_payload 8, Effect.recv_payload 8,
       Effect.lookup 0x00010001,
       Effect.callback 0x00010001 (some [1, 2, 3, 0, 0, 0, 0, 0]),
       Effect.malloc_resp 12,
       Effect.send { for_id := 1, status := 0, payload_len := 0, payload := [] } 12,
       Effect.free_req_payload, Effect.free_resp] := by
  decide

/-- C3, failing input: the header `recv` returns 5 of the 12 header bytes.
`api_read_cb` does not close the connection: it goes on to the lookup and invokes the
handler, because the value returned by `recv` is only compared with 0, never with
`sizeof(req)`. -/
theorem api_read_cb_short_header_dispatches :
    0 < short_header_env.hdr_recv.ret ∧ short_header_env.hdr_recv.ret < REQ_HDR_SIZE ∧
    api_read_cb echo_handlers short_header_env =
      [Effect.recv_header, Effect.lookup 0x00010001,
       Effect.callback 0x00010001 none,
       Effect.malloc_resp 12,
       Effect.send { for_id := 1, status := 0, payload_len := 0, payload := [] } 12,
       Effect.free_resp] := by
  decide

/-- C4, counterexample: a header with `payload_len = 4294967295`, the largest value of
the field, is not refused. The payload is allocated and read, the handler is invoked
and the connection is not closed. -/
theorem api_read_cb_huge_payload_accepted :
    huge_payload_env.req.payload_len = 4294967295 ∧
    api_read_cb echo_handlers huge_payload_env =
      [Effect.recv_header, Effect.malloc_payload 4294967295,
       Effect.recv_payload 4294967295,
       Effect.lookup 0x00010001,
       Effect.callback 0x00010001 (some []),
       Effect.malloc_resp 12,
       Effect.send { for_id := 1, status := 0, payload_len := 0, payload := [] } 12,
       Effect.free_req_payload, Effect.free_resp] := by
  decide

/-- C4, amended: `api_read_cb` has no payload ceiling. For every request header with
`payload_len > 0`, whatever its value, it allocates `payload_len` bytes and, when the
allocation succeeds, reads the payload; when the allocation fails or the payload read
returns an error or 0 bytes, it closes the connection without looking up or invoking
any handler. -/
theorem api_read_cb_no_payload_ceiling (handlers : Handlers) (env : ReadEnv)
    (hw : env.what &&& EV_CLOSED = 0) (hev : env.ev = true)
    (hh : 0 < env.hdr_recv.ret) (hpl : 0 < env.req.payload_len) :
    Effect.malloc_payload env.req.payload_len ∈ api_read_cb handlers env ∧
    (env.payload_malloc = true →
      Effect.recv_payload env.req.payload_len ∈ api_read_cb handlers env) ∧
    (env.payload_malloc = false ∨ env.payload_recv.ret ≤ 0 →
      Effect.close_connection ∈ api_read_cb handlers env ∧
      ∀ e ∈ api_read_cb handlers env, e.is_lookup = false ∧ e.is_callback = false) := by
  have h1 : ¬ env.hdr_recv.ret < 0 := by omega
  have h2 : ¬ env.hdr_recv.ret = 0 := by omega
  have hpl' : env.req.payload_len > 0 := hpl
  simp only [api_read_cb, hw, h1, h2, api_read_cb_payload, hpl', api_read_cb_close, hev]
  refine ⟨by simp, ?_, ?_⟩
  · intro hm
    simp [hm]
  · rintro (hm | hr)
    · simp [hm, Effect.is_lookup, Effect.is_callback]
    · by_cases hm : env.payload_malloc = true
      · by_cases hr0 : env.payload_recv.ret < 0
        · simp [hm, hr0, Effect.is_lookup, Effect.is_callback]
        · have hr1 : env.payload_recv.ret = 0 := by omega
          simp [hm, hr1, Effect.is_lookup, Effect.is_callback]
      · simp at hm
        simp [hm, Effect.is_lookup, Effect.is_callback]

/-- Witness of C4, amended: the header with `payload_len = 4294967295` makes the server
allocate and read that many bytes. -/
theorem api_read_cb_no_payload_ceiling_witness :
    Effect.malloc_payload 4294967295 ∈ api_read_cb echo_handlers huge_payload_env ∧
    Effect.recv_payload 4294967295 ∈ api_read_cb echo_handlers huge_payload_env :=
  have h := api_read_cb_no_payload_ceiling echo_handlers huge_payload_env (by decide) (by decide)
    (by decide) (by decide)
  ⟨h.1, h.2.1 (by decide)⟩

/-- C5, failing input: `send` accepts 4 bytes of a 12-byte response frame.
`api_read_cb` frees the response and returns: no write-retry event is registered, the
connection is not closed and the remaining 8 bytes are never sent. -/
theorem api_read_cb_short_send_dropped :
    0 ≤ short_send_env.send.ret ∧ short_send_env.send.ret < RESP_HDR_SIZE + 0 ∧
    api_read_cb echo_handlers short_send_env =
      [Effect.recv_header, Effect.lookup 0x00010001,
       Effect.callback 0x00010001 none,
       Effect.malloc_resp 12,
       Effect.send { for_id := 9, status := 0, payload_len := 0, payload := [] } 12,
       Effect.free_resp] := by
  decide

/-- C6, failing input: the retried `send` of a pending response fails with `EPIPE`.
`api_write_cb` frees the response and the write event, exactly as it does after a
successful send, and does not close the connection. -/
theorem api_write_cb_error_keeps_connection :
    api_write_cb write_error_env =
      [Effect.send { for_id := 9, status := 0, payload_len := 0, payload := [] } 12,
       Effect.free_resp, Effect.event_free_write] ∧
    Effect.close_connection ∉ api_write_cb write_error_env ∧
    api_write_cb write_error_env = api_write_cb write_success_env := by
  decide

/-- Header read policy of `api_read_cb`, for the return values the code tests: on
`EAGAIN` / `EWOULDBLOCK` it returns after the `recv` with the connection open; on any
other error and on a read of 0 bytes it closes the connection, and nothing else
happens. -/
theorem api_read_cb_header_policy (handlers : Handlers) (env : ReadEnv)
    (hw : env.what &&& EV_CLOSED = 0) (hev : env.ev = true) :
    (env.hdr_recv.ret < 0 → (env.hdr_recv.errno = EAGAIN ∨ env.hdr_recv.errno = EWOULDBLOCK) →
      api_read_cb handlers env = [Effect.recv_header]) ∧
    (env.hdr_recv.ret < 0 →
      ¬ (env.hdr_recv.errno = EAGAIN ∨ env.hdr_recv.errno = EWOULDBLOCK) →
      api_read_cb handlers env = [Effect.recv_header, Effect.close_connection]) ∧
    (env.hdr_recv.ret = 0 →
      api_read_cb handlers env = [Effect.recv_header, Effect.close_connection]) ∧
    (0 < env.hdr_recv.ret →
      api_read_cb handlers env = Effect.recv_header :: api_read_cb_payload handlers env) := by
  refine ⟨?_, ?_, ?_, ?_⟩
  · intro h1 h2
    simp [api_read_cb, hw, h1, h2]
  · intro h1 h2
    simp [api_read_cb, hw, h1, h2, api_read_cb_close, hev]
  · intro h1
    simp [api_read_cb, hw, h1, api_read_cb_close, hev]
  · intro h1
    have h2 : ¬ env.hdr_recv.ret < 0 := by omega
    have h3 : ¬ env.hdr_recv.ret = 0 := by omega
    simp [api_read_cb, hw, h2, h3]

/-- When the first `send` of a response would block and the write event can be created
and added, `api_read_cb` hands the response over to that event and does not free
it. -/
theorem api_read_cb_send_would_block (env : ReadEnv) (req_payload : Bool) (out : api_out)
    (resp_payload : Option (List Nat)) (hm : env.resp_malloc = true)
    (hs : env.send.ret < 0) (he : env.send.errno = EAGAIN ∨ env.send.errno = EWOULDBLOCK)
    (hn : env.event_new = true) (ha : env.event_add = true) :
    ∃ resp : gr_api_response,
      resp.for_id = env.req.id ∧ resp.status = out.status ∧ resp.payload_len = out.len ∧
      api_read_cb_send env req_payload out resp_payload =
        [Effect.malloc_resp (RESP_HDR_SIZE + out.len),
         Effect.send resp (RESP_HDR_SIZE + out.len),
         Effect.event_new_write resp, Effect.event_add_write] ++
        (if req_payload then [Effect.free_req_payload] else []) := by
  refine ⟨{ for_id := env.req.id, status := out.status, payload_len := out.len,
            payload := match resp_payload with
              | some bytes => if out.len > 0 then bytes.take out.len else []
              | none => [] }, rfl, rfl, rfl, ?_⟩
  simp [api_read_cb_send, send_response, hm, hs, he, api_read_cb_retry_send, hn, ha]

/-- The three outcomes of `api_write_cb` on a pending response: when the send would
block and the event is re-armed, the response is kept; after a send that returns a
count, and after a send that fails with another error, the response and the write
event are freed. -/
theorem api_write_cb_outcomes (env : WriteEnv) (resp : gr_api_response)
    (hresp : env.resp = some resp) (hev : env.ev = true) :
    (env.send.ret < 0 → (env.send.errno = EAGAIN ∨ env.send.errno = EWOULDBLOCK) →
      env.event_add = true →
      api_write_cb env =
        [Effect.send resp (RESP_HDR_SIZE + resp.payload_len), Effect.event_add_write]) ∧
    (0 ≤ env.send.ret →
      api_write_cb env = [Effect.send resp (RESP_HDR_SIZE + resp.payload_len),
        Effect.free_resp, Effect.event_free_write]) ∧
    (env.send.ret < 0 → ¬ (env.send.errno = EAGAIN ∨ env.send.errno = EWOULDBLOCK) →
      api_write_cb env = [Effect.send resp (RESP_HDR_SIZE + resp.payload_len),
        Effect.free_resp, Effect.event_free_write]) := by
  refine ⟨?_, ?_, ?_⟩
  · intro h1 h2 h3
    simp [api_write_cb, send_response, hresp, h1, h2, api_write_cb_retry, hev, h3]
  · intro h1
    have h2 : ¬ env.send.ret < 0 := by omega
    simp [api_write_cb, send_response, hresp, h2, api_write_cb_free, hev]
  · intro h1 h2
    simp [api_write_cb, send_response, hresp, h1, h2, api_write_cb_free, hev]

theorem br_register_api_handler_eq_none (handlers : Handlers) (handler : gr_api_handler) :
    br_register_api_handler handlers handler = none ↔
      ∃ h ∈ handlers, h.request_type = handler.request_type := by
  unfold br_register_api_handler
  by_cases hd : handlers.any (fun h => h.request_type == handler.request_type) = true
  · simp only [hd, if_true, true_iff]
    simpa using hd
  · simp only [hd]
    simp only [Bool.false_eq_true, if_false, false_iff]
    simpa using hd

theorem register_all_fold_unique (calls : List gr_api_handler) :
    ∀ (acc : Option Handlers) (handlers : Handlers),
      (∀ hs, acc = some hs →
        hs.Pairwise (fun h1 h2 => h1.request_type ≠ h2.request_type)) →
      calls.foldl (fun acc h => acc.bind (fun hs => br_register_api_handler hs h)) acc
        = some handlers →
      handlers.Pairwise (fun h1 h2 => h1.request_type ≠ h2.request_type) := by
  induction calls with
  | nil =>
    intro acc handlers hacc hf
    exact hacc handlers hf
  | cons c rest ih =>
    intro acc handlers hacc hf
    rw [List.foldl_cons] at hf
    refine ih _ handlers ?_ hf
    intro hs hb
    cases acc with
    | none => simp at hb
    | some old =>
      simp only [Option.some_bind] at hb
      have hold := hacc old rfl
      by_cases hd : ∃ h ∈ old, h.request_type = c.request_type
      · rw [(br_register_api_handler_eq_none old c).2 hd] at hb
        exact absurd hb (by simp)
      · have hn : ¬ (old.any (fun h => h.request_type == c.request_type) = true) := by
          simpa using hd
        simp only [br_register_api_handler, hn] at hb
        simp only [Bool.false_eq_true, if_false, Option.some.injEq] at hb
        subst hb
        refine List.Pairwise.cons ?_ hold
        intro h hh heq
        exact hd ⟨h, hh, heq.symm⟩

/-- C7: handler uniqueness. After every sequence of `br_register_api_handler` calls
that does not abort, any two registered handlers at different positions of the list
have different `request_type`; a call whose handler has the `request_type` of an
already registered handler aborts; every other call inserts the handler at the head
and keeps all previously registered ones. -/
theorem br_register_api_handler_unique :
    (∀ (calls : List gr_api_handler) (handlers : Handlers),
      register_all calls = some handlers →
      handlers.Pairwise (fun h1 h2 => h1.request_type ≠ h2.request_type)) ∧
    (∀ (handlers : Handlers) (handler : gr_api_handler),
      (∃ h ∈ handlers, h.request_type = handler.request_type) →
      br_register_api_handler handlers handler = none) ∧
    (∀ (handlers : Handlers) (handler : gr_api_handler),
      (∀ h ∈ handlers, h.request_type ≠ handler.request_type) →
      br_register_api_handler handlers handler = some (handler :: handlers)) := by
  refine ⟨?_, ?_, ?_⟩
  · intro calls handlers h
    refine register_all_fold_unique calls (some []) handlers ?_ h
    intro hs hh
    cases hh
    exact List.Pairwise.nil
  · intro handlers handler hd
    exact (br_register_api_handler_eq_none handlers handler).2 hd
  · intro handlers handler hn
    have hd : ¬ (handlers.any (fun h => h.request_type == handler.request_type) = true) := by
      simpa using hn
    simp [br_register_api_handler, hd]

/-- Witness of C7: two handlers of different types are registered in turn; registering
the first one again aborts. -/
theorem br_register_api_handler_unique_witness :
    [handler_iface_del, handler_iface_add].Pairwise
      (fun h1 h2 => h1.request_type ≠ h2.request_type) ∧
    br_register_api_handler [handler_iface_del, handler_iface_add] handler_iface_add
      = none ∧
    br_register_api_handler [handler_iface_add] handler_iface_del
      = some [handler_iface_del, handler_iface_add] :=
  ⟨br_register_api_handler_unique.1 [handler_iface_add, handler_iface_del]
     [handler_iface_del, handler_iface_add] rfl,
   br_register_api_handler_unique.2.1 [handler_iface_del, handler_iface_add]
     handler_iface_add ⟨handler_iface_add, by simp, rfl⟩,
   br_register_api_handler_unique.2.2 [handler_iface_add] handler_iface_del
     (by simp [handler_iface_add, handler_iface_del])⟩

/-- C8: for every registry and request, when a handler with the type of the request is
registered, `lookup_api_handler` returns a registered handler with that type; and it
returns NULL if and only if no registered handler has that type. -/
theorem lookup_api_handler_spec (handlers : Handlers) (req : gr_api_request) :
    ((∃ h ∈ handlers, h.request_type = req.type) →
      ∃ h, lookup_api_handler handlers req = some h ∧ h ∈ handlers ∧
        h.request_type = req.type) ∧
    (lookup_api_handler handlers req = none ↔
      ∀ h ∈ handlers, h.request_type ≠ req.type) := by
  refine ⟨?_, lookup_api_handler_eq_none handlers req⟩
  intro hex
  cases hl : lookup_api_handler handlers req with
  | none =>
    obtain ⟨h, hh, ht⟩ := hex
    exact absurd ht ((lookup_api_handler_eq_none handlers req).1 hl h hh)
  | some h =>
    exact ⟨h, rfl, lookup_api_handler_eq_some handlers req h hl⟩

/-- C9, failing input: two modules with priorities 1 and `INT_MIN`. The difference
`1 - INT_MIN` does not fit in an `int` and wraps to a negative value, so both
comparators order the module of priority 1 before the module of priority `INT_MIN`,
and `modules_init` and `modules_fini` invoke the callbacks in decreasing priority
order, whatever the registration order. -/
theorem modules_init_prio_overflow :
    module_init_prio_order mod_prio_one mod_prio_min < 0 ∧
    0 < module_init_prio_order mod_prio_min mod_prio_one ∧
    (modules_init [mod_prio_one, mod_prio_min]).map (fun mod => mod.init_prio)
      = [1, -2147483648] ∧
    (modules_init [mod_prio_min, mod_prio_one]).map (fun mod => mod.init_prio)
      = [1, -2147483648] ∧
    (modules_fini [mod_prio_one, mod_prio_min]).map (fun mod => mod.fini_prio)
      = [1, -2147483648] ∧
    (modules_fini [mod_prio_min, mod_prio_one]).map (fun mod => mod.fini_prio)
      = [1, -2147483648] := by
  decide

theorem int_wrap_of_in_range (x : Int) (h1 : INT_MIN ≤ x) (h2 : x ≤ INT_MAX) :
    int_wrap x = x := by
  unfold INT_MIN at h1
  unfold INT_MAX at h2
  unfold int_wrap
  omega

theorem mem_qsort_insert (compar : br_module → br_module → Int) (x y : br_module)
    (l : List br_module) : y ∈ qsort_insert compar x l ↔ y = x ∨ y ∈ l := by
  induction l with
  | nil => simp [qsort_insert]
  | cons z zs ih =>
    unfold qsort_insert
    split_ifs
    · simp
    · simp only [List.mem_cons, ih]
      tauto

theorem mem_qsort (compar : br_module → br_module → Int) (y : br_module)
    (l : List br_module) : y ∈ qsort compar l ↔ y ∈ l := by
  induction l with
  | nil => simp [qsort]
  | cons z zs ih => simp [qsort, mem_qsort_insert, ih]

theorem qsort_insert_sorted (compar : br_module → br_module → Int) (key : br_module → Int)
    (x : br_module) (l : List br_module)
    (hc : ∀ y ∈ l, (compar x y ≤ 0 ↔ key x ≤ key y))
    (hs : l.Pairwise (fun a b => key a ≤ key b)) :
    (qsort_insert compar x l).Pairwise (fun a b => key a ≤ key b) := by
  induction l with
  | nil => simp [qsort_insert]
  | cons z zs ih =>
    have hz := List.pairwise_cons.1 hs
    unfold qsort_insert
    by_cases hxz : compar x z ≤ 0
    · simp only [hxz, if_true]
      have hk : key x ≤ key z := (hc z (List.mem_cons_self _ _)).1 hxz
      refine List.pairwise_cons.2 ⟨?_, hs⟩
      intro b hb
      rcases List.mem_cons.1 hb with hb | hb
      · subst hb
        exact hk
      · exact le_trans hk (hz.1 b hb)
    · simp only [hxz, if_false]
      have hk : ¬ key x ≤ key z := fun h => hxz ((hc z (List.mem_cons_self _ _)).2 h)
      refine List.pairwise_cons.2 ⟨?_, ih (fun y hy => hc y (List.mem_cons_of_mem _ hy)) hz.2⟩
      intro b hb
      rcases (mem_qsort_insert compar x b zs).1 hb with hb | hb
      · subst hb
        omega
      · exact hz.1 b hb

theorem qsort_sorted (compar : br_module → br_module → Int) (key : br_module → Int)
    (l : List br_module)
    (hc : ∀ x ∈ l, ∀ y ∈ l, (compar x y ≤ 0 ↔ key x ≤ key y)) :
    (qsort compar l).Pairwise (fun a b => key a ≤ key b) := by
  induction l with
  | nil => simp [qsort]
  | cons z zs ih =>
    unfold qsort
    apply qsort_insert_sorted
    · intro y hy
      exact hc z (List.mem_cons_self _ _) y
        (List.mem_cons_of_mem _ ((mem_qsort compar y zs).1 hy))
    · exact ih (fun x hx y hy =>
        hc x (List.mem_cons_of_mem _ hx) y (List.mem_cons_of_mem _ hy))

/-- When no difference of two priorities leaves the range of `int`, `modules_init`
and `modules_fini` invoke the callbacks in non-decreasing priority order. -/
theorem modules_init_fini_sorted_of_no_overflow (modules : List br_module)
    (hi : ∀ a ∈ modules, ∀ b ∈ modules,
      INT_MIN ≤ a.init_prio - b.init_prio ∧ a.init_prio - b.init_prio ≤ INT_MAX)
    (hf : ∀ a ∈ modules, ∀ b ∈ modules,
      INT_MIN ≤ a.fini_prio - b.fini_prio ∧ a.fini_prio - b.fini_prio ≤ INT_MAX) :
    (modules_init modules).Pairwise (fun a b => a.init_prio ≤ b.init_prio) ∧
    (modules_fini modules).Pairwise (fun a b => a.fini_prio ≤ b.fini_prio) := by
  constructor
  · unfold modules_init
    apply List.Pairwise.filter
    apply qsort_sorted module_init_prio_order (fun mod => mod.init_prio)
    intro x hx y hy
    unfold module_init_prio_order
    rw [int_wrap_of_in_range _ (hi x hx y hy).1 (hi x hx y hy).2]
    constructor <;> intro h <;> omega
  · unfold modules_fini
    apply List.Pairwise.filter
    apply qsort_sorted module_fini_prio_order (fun mod => mod.fini_prio)
    intro x hx y hy
    unfold module_fini_prio_order
    rw [int_wrap_of_in_range _ (hf x hx y hy).1 (hf x hx y hy).2]
    constructor <;> intro h <;> omega

theorem member_eligible_set_state_active (t : iface_table) (m x : Nat) (v : Bool) :
    member_eligible (set_state_active t m v) x = member_eligible t x := by
  unfold member_eligible set_state_active iface_table.modify
  by_cases hx : x = m
  · subst hx
    cases h : t x <;> simp [h]
  · simp [hx]

theorem member_active_set_state_active_ne (t : iface_table) (m x : Nat) (v : Bool)
    (hx : x ≠ m) : member_active (set_state_active t m v) x = member_active t x := by
  unfold member_active set_state_active iface_table.modify
  simp [hx]

theorem member_active_set_state_active_self (t : iface_table) (m : Nat) (v : Bool)
    (hm : (t m).isSome = true) : member_active (set_state_active t m v) m = v := by
  unfold member_active set_state_active iface_table.modify
  cases h : t m with
  | none => simp [h] at hm
  | some i => simp

theorem isSome_set_state_active (t : iface_table) (m x : Nat) (v : Bool) :
    ((set_state_active t m v) x).isSome = (t x).isSome := by
  unfold set_state_active iface_table.modify
  by_cases hx : x = m
  · subst hx
    cases h : t x <;> simp [h]
  · simp [hx]

theorem active_member_update_eligible (a : Nat) (mac : rte_ether_addr) (ms : List Nat) :
    ∀ (i : Nat) (s : iface_table × iface_info_bond) (x : Nat),
      member_eligible (active_member_update a mac ms i s).1 x = member_eligible s.1 x := by
  induction ms with
  | nil => intro i s x; rfl
  | cons m rest ih =>
    intro i s x
    unfold active_member_update
    split_ifs <;> simp [ih, member_eligible_set_state_active]

theorem active_member_update_other (a : Nat) (mac : rte_ether_addr) (ms : List Nat) :
    ∀ (i : Nat) (s : iface_table × iface_info_bond) (x : Nat), x ∉ ms →
      member_active (active_member_update a mac ms i s).1 x = member_active s.1 x := by
  induction ms with
  | nil => intro i s x _; rfl
  | cons m rest ih =>
    intro i s x hx
    have hxm : x ≠ m := fun h => hx (h ▸ List.mem_cons_self _ _)
    have hxr : x ∉ rest := fun h => hx (List.mem_cons_of_mem _ h)
    unfold active_member_update
    split_ifs <;> simp [ih _ _ x hxr, member_active_set_state_active_ne _ _ _ _ hxm]

theorem active_member_update_members (a : Nat) (mac : rte_ether_addr) (ms : List Nat) :
    ∀ (i : Nat) (s : iface_table × iface_info_bond),
      (active_member_update a mac ms i s).2.members = s.2.members := by
  induction ms with
  | nil => intro i s; rfl
  | cons m rest ih =>
    intro i s
    unfold active_member_update
    split_ifs <;> simp [ih]

theorem active_member_update_isSome (a : Nat) (mac : rte_ether_addr) (ms : List Nat) :
    ∀ (i : Nat) (s : iface_table × iface_info_bond) (x : Nat),
      ((active_member_update a mac ms i s).1 x).isSome = (s.1 x).isSome := by
  induction ms with
  | nil => intro i s x; rfl
  | cons m rest ih =>
    intro i s x
    unfold active_member_update
    split_ifs <;> simp [ih, isSome_set_state_active]

theorem active_member_update_count (a : Nat) (mac : rte_ether_addr) (ms : List Nat) :
    ∀ (i : Nat) (s : iface_table × iface_info_bond), ms.Nodup →
      (∀ m ∈ ms, (s.1 m).isSome = true) →
      ms.countP (member_active (active_member_update a mac ms i s).1) =
        if i ≤ a ∧ a < i + ms.length then 1 else 0 := by
  induction ms with
  | nil =>
    intro i s _ _
    have h : ¬ (i ≤ a ∧ a < i + ([] : List Nat).length) := by
      simp only [List.length_nil]
      omega
    rw [if_neg h]
    rfl
  | cons m rest ih =>
    intro i s hnd hex
    have hm : m ∉ rest := (List.nodup_cons.1 hnd).1
    have hr : rest.Nodup := (List.nodup_cons.1 hnd).2
    have hms : (s.1 m).isSome = true := hex m (List.mem_cons_self _ _)
    have hrest : ∀ v, ∀ x ∈ rest, ((set_state_active s.1 m v) x).isSome = true := by
      intro v x hx
      rw [isSome_set_state_active]
      exact hex x (List.mem_cons_of_mem _ hx)
    rw [List.countP_cons]
    unfold active_member_update
    by_cases hia : i = a
    · simp only [hia, if_true]
      rw [ih (a + 1) _ hr (hrest true), active_member_update_other _ _ _ _ _ _ hm]
      simp only [member_active_set_state_active_self _ _ _ hms, List.length_cons]
      have h1 : ¬ (a + 1 ≤ a ∧ a < a + 1 + rest.length) := by omega
      have h2 : a ≤ a ∧ a < a + (rest.length + 1) := by omega
      simp [h1, h2]
    · simp only [hia, if_false]
      rw [ih (i + 1) _ hr (hrest false), active_member_update_other _ _ _ _ _ _ hm]
      simp only [member_active_set_state_active_self _ _ _ hms, List.length_cons]
      by_cases h1 : i + 1 ≤ a ∧ a < i + 1 + rest.length
      · have h2 : i ≤ a ∧ a < i + (rest.length + 1) := by omega
        simp [h1, h2]
      · have h2 : ¬ (i ≤ a ∧ a < i + (rest.length + 1)) := by omega
        simp [h1, h2]

theorem active_member_scan_spec (t : iface_table) (p : Nat) (ms : List Nat) :
    ∀ (i acc : Nat), i + ms.length ≤ UINT8_MAX → (acc = UINT8_MAX ∨ acc < i) →
      (active_member_scan t p ms i acc = UINT8_MAX ↔
        acc = UINT8_MAX ∧ ∀ m ∈ ms, member_eligible t m = false) ∧
      (active_member_scan t p ms i acc ≠ UINT8_MAX →
        active_member_scan t p ms i acc < i + ms.length ∨
          active_member_scan t p ms i acc = acc) := by
  induction ms with
  | nil =>
    intro i acc _ _
    simp [active_member_scan]
  | cons m rest ih =>
    intro i acc hlen hacc
    simp only [List.length_cons] at hlen
    unfold active_member_scan
    by_cases hc : (member_eligible t m && (acc == UINT8_MAX || i == p)) = true
    · simp only [hc, if_true]
      have hi : i < UINT8_MAX := by omega
      obtain ⟨h1, h2⟩ := ih (i + 1) i (by omega) (Or.inr (by omega))
      have hel : member_eligible t m = true := by
        simp only [Bool.and_eq_true] at hc
        exact hc.1
      constructor
      · constructor
        · intro h
          have := h1.1 h
          omega
        · rintro ⟨_, hall⟩
          have := hall m (List.mem_cons_self _ _)
          rw [hel] at this
          exact absurd this (by simp)
      · intro hne
        rcases h2 hne with h | h
        · left
          simp only [List.length_cons]
          omega
        · left
          simp only [List.length_cons]
          omega
    · simp only [hc]
      simp only [Bool.false_eq_true, if_false]
      obtain ⟨h1, h2⟩ := ih (i + 1) acc (by omega) (by omega)
      constructor
      · rw [h1]
        constructor
        · rintro ⟨ha, hall⟩
          refine ⟨ha, ?_⟩
          intro x hx
          rcases List.mem_cons.1 hx with hx | hx
          · subst hx
            by_contra hne
            apply hc
            simp [ha]
            simpa using hne
          · exact hall x hx
        · rintro ⟨ha, hall⟩
          exact ⟨ha, fun x hx => hall x (List.mem_cons_of_mem _ hx)⟩
      · intro hne
        rcases h2 hne with h | h
        · left
          simp only [List.length_cons]
          omega
        · right
          exact h

theorem member_active_set_bond (t : iface_table) (id : Nat) (bond : iface_info_bond)
    (x : Nat) : member_active (set_bond t id bond) x = member_active t x := by
  unfold member_active set_bond iface_table.modify
  by_cases hx : x = id
  · subst hx
    cases h : t x <;> simp [h]
  · simp [hx]

theorem member_eligible_set_bond (t : iface_table) (id : Nat) (bond : iface_info_bond)
    (x : Nat) : member_eligible (set_bond t id bond) x = member_eligible t x := by
  unfold member_eligible set_bond iface_table.modify
  by_cases hx : x = id
  · subst hx
    cases h : t x <;> simp [h]
  · simp [hx]

theorem get_bond_set_bond (t : iface_table) (id : Nat) (bond : iface_info_bond)
    (h : (t id).isSome = true) : get_bond (set_bond t id bond) id = some bond := by
  unfold get_bond set_bond iface_table.modify
  cases ht : t id with
  | none => simp [ht] at h
  | some i => simp

/-- After a successful ACTIVE_BACKUP selection on a duplicate-free member list, the
number of ACTIVE members is 1 when some member is eligible and 0 otherwise. -/
theorem bond_set_active_members_count (env : IfaceEnv) (t : iface_table)
    (bond : iface_info_bond) (hmode : bond.mode = gr_bond_mode_t.ACTIVE_BACKUP)
    (hex : ∀ m ∈ bond.members, (t m).isSome = true) (hnd : bond.members.Nodup)
    (hlen : bond.members.length ≤ BOND_MAX_MEMBERS)
    (hmac : ∀ m ∈ bond.members, 0 ≤ (iface_get_eth_addr env t m).1) :
    (bond_set_active_members env t bond).1 = 0 ∧
    (bond_set_active_members env t bond).2.2.members = bond.members ∧
    (∀ x, ((bond_set_active_members env t bond).2.1 x).isSome = (t x).isSome) ∧
    (∀ x, member_eligible (bond_set_active_members env t bond).2.1 x = member_eligible t x) ∧
    bond.members.countP (member_active (bond_set_active_members env t bond).2.1) =
      if ∃ m ∈ bond.members, member_eligible t m = true then 1 else 0 := by
  have hlen' : 0 + bond.members.length ≤ UINT8_MAX := by
    simp only [BOND_MAX_MEMBERS] at hlen
    simp only [UINT8_MAX]
    omega
  obtain ⟨hs1, hs2⟩ := active_member_scan_spec t bond.primary_member bond.members 0
    UINT8_MAX hlen' (Or.inl rfl)
  unfold bond_set_active_members
  simp only [hmode]
  by_cases ha : active_member_scan t bond.primary_member bond.members 0 UINT8_MAX = UINT8_MAX
  · have hno : ∀ m ∈ bond.members, member_eligible t m = false := (hs1.1 ha).2
    have hne : ¬ ∃ m ∈ bond.members, member_eligible t m = true := by
      rintro ⟨m, hm, he⟩
      rw [hno m hm] at he
      exact absurd he (by simp)
    simp only [ha, ne_eq, not_true_eq_false, if_false, hne]
    refine ⟨trivial, active_member_update_members _ _ _ _ _,
      fun x => active_member_update_isSome _ _ _ _ _ x,
      fun x => active_member_update_eligible _ _ _ _ _ x, ?_⟩
    rw [active_member_update_count _ _ _ _ _ hnd hex]
    have h : ¬ (0 ≤ UINT8_MAX ∧ UINT8_MAX < 0 + bond.members.length) := by omega
    rw [if_neg h]
  · have hlt : active_member_scan t bond.primary_member bond.members 0 UINT8_MAX
        < bond.members.length := by
      rcases hs2 ha with h | h
      · omega
      · exact absurd h ha
    have hyes : ∃ m ∈ bond.members, member_eligible t m = true := by
      by_contra hno
      apply ha
      refine hs1.2 ⟨rfl, ?_⟩
      intro m hm
      by_contra he
      exact hno ⟨m, hm, by simpa using he⟩
    have hmem : bond.members.getD
        (active_member_scan t bond.primary_member bond.members 0 UINT8_MAX) 0
        ∈ bond.members := by
      rw [List.getD_eq_getElem _ _ hlt]
      exact List.getElem_mem _
    have hget := hmac _ hmem
    have hget' : ¬ (iface_get_eth_addr env t (bond.members.getD
        (active_member_scan t bond.primary_member bond.members 0 UINT8_MAX) 0)).1 < 0 := by
      omega
    simp only [ne_eq, ha, not_false_eq_true, if_true, hget', if_false, hyes]
    refine ⟨trivial, active_member_update_members _ _ _ _ _,
      fun x => active_member_update_isSome _ _ _ _ _ x,
      fun x => active_member_update_eligible _ _ _ _ _ x, ?_⟩
    rw [active_member_update_count _ _ _ _ _ hnd hex]
    have h : 0 ≤ active_member_scan t bond.primary_member bond.members 0 UINT8_MAX ∧
        active_member_scan t bond.primary_member bond.members 0 UINT8_MAX
          < 0 + bond.members.length := by omega
    rw [if_pos h]

theorem get_bond_isSome (t : iface_table) (b : Nat) (bond : iface_info_bond)
    (h : get_bond t b = some bond) : (t b).isSome = true := by
  unfold get_bond at h
  cases ht : t b with
  | none => simp [ht] at h
  | some i => rfl

/-- C10, amended: let port `p` be a member of the ACTIVE_BACKUP bond `b` named by its
`bond_iface_id`, let the member list of `b` hold at most `BOND_MAX_MEMBERS` existing
interfaces and name none of them twice, and let `iface_get_eth_addr` succeed on the
members. Then `bond_event` handles the link event of `p` without a failed assertion,
and afterwards exactly one member of `b` has the ACTIVE state bit if and only if at
least one member has flag UP and state RUNNING. -/
theorem bond_event_active_invariant (env : IfaceEnv) (t : iface_table) (p b : Nat)
    (ifp : iface) (port : iface_info_port) (bond : iface_info_bond)
    (hp : t p = some ifp) (hpi : ifp.info = iface_info.port port)
    (hlink : port.bond_iface_id = b) (hb0 : b ≠ GR_IFACE_ID_UNDEF)
    (hb : get_bond t b = some bond)
    (hmode : bond.mode = gr_bond_mode_t.ACTIVE_BACKUP)
    (hmem : p ∈ bond.members)
    (hex : ∀ m ∈ bond.members, (t m).isSome = true)
    (hnd : bond.members.Nodup)
    (hlen : bond.members.length ≤ BOND_MAX_MEMBERS)
    (hmac : ∀ m ∈ bond.members, 0 ≤ (iface_get_eth_addr env t m).1) :
    ∃ t' bond', bond_event env t p = some t' ∧ get_bond t' b = some bond' ∧
      bond'.members = bond.members ∧ p ∈ bond'.members ∧
      active_member_invariant t' bond'.members := by
  obtain ⟨_, hmembers, hsome, helig, hcount⟩ :=
    bond_set_active_members_count env t bond hmode hex hnd hlen hmac
  refine ⟨set_bond (bond_set_active_members env t bond).2.1 b
    (bond_set_active_members env t bond).2.2, (bond_set_active_members env t bond).2.2,
    ?_, ?_, hmembers, hmembers ▸ hmem, ?_⟩
  · subst hlink
    simp [bond_event, hp, hpi, hb0, hb]
  · apply get_bond_set_bond
    rw [hsome]
    exact get_bond_isSome t b bond hb
  · unfold active_member_invariant
    rw [hmembers]
    have hfun : member_active (set_bond (bond_set_active_members env t bond).2.1 b
        (bond_set_active_members env t bond).2.2) =
        member_active (bond_set_active_members env t bond).2.1 := by
      funext x
      exact member_active_set_bond _ _ _ x
    rw [hfun, hcount]
    simp only [member_eligible_set_bond, helig]
    by_cases he : ∃ m ∈ bond.members, member_eligible t m = true
    · simp [he]
    · simp [he]

/-- Witness of C10, amended: bond 3 has the members A (port 1, down) and B (port 2, up
and running); after the link event of B the invariant holds. -/
theorem bond_event_active_invariant_witness :
    ∃ t' bond', bond_event env_ok two_members_table 2 = some t' ∧
      get_bond t' 3 = some bond' ∧ bond'.members = [1, 2] ∧ 2 ∈ bond'.members ∧
      active_member_invariant t' bond'.members :=
  bond_event_active_invariant env_ok two_members_table 2 3
    (mk_port true true false 3 0xB2) { bond_iface_id := 3, mac := 0xB2, macs := [] }
    { mode := .ACTIVE_BACKUP, mac := 0, primary_member := 0, active_member := UINT8_MAX,
      members := [1, 2], extra_macs := [] }
    rfl rfl rfl (by decide) rfl rfl (by decide) (by decide) (by decide) (by decide)
    (by decide)

/-- C10, counterexample: the invariant fails after `bond_event` in two cases.
First, `bond_reconfig` accepts the member list `[1, 1]` for bond 3; after a link event
of port 1, which is up and running, the update loop has set its ACTIVE bit at index 0
and cleared it at index 1, so no member is ACTIVE. Second, bond 3 has the single
member port 1, up and running, and reading its address fails: `bond_set_active_members`
returns before updating anything and no member is ACTIVE. -/
theorem bond_event_active_invariant_fails :
    bond_reconfig env_ok bond_empty_table 3 IFACE_SET_ALL dup_members_api
      = some (0, dup_members_table) ∧
    (get_bond dup_members_table 3).map (fun bond => bond.members) = some [1, 1] ∧
    (dup_members_table 1).map (fun i => i.info)
      = some (iface_info.port { bond_iface_id := 3, mac := 0xA1, macs := [] }) ∧
    bond_event env_ok dup_members_table 1 = some dup_members_after ∧
    (get_bond dup_members_after 3).map (fun bond => bond.members) = some [1, 1] ∧
    member_eligible dup_members_after 1 = true ∧
    member_active dup_members_after 1 = false ∧
    ¬ active_member_invariant dup_members_after [1, 1] ∧
    bond_event env_get_fails single_member_table 1 = some single_member_after ∧
    (get_bond single_member_after 3).map (fun bond => bond.members) = some [1] ∧
    member_eligible single_member_after 1 = true ∧
    member_active single_member_after 1 = false ∧
    ¬ active_member_invariant single_member_after [1] := by
  refine ⟨rfl, by decide, by decide, rfl, by decide, by decide, by decide, ?_,
    rfl, by decide, by decide, by decide, ?_⟩
  · unfold active_member_invariant
    decide
  · unfold active_member_invariant
    decide


theorem active_member_scan_keep (t : iface_table) (p : Nat) (ms : List Nat) :
    ∀ (i acc : Nat), acc ≠ UINT8_MAX →
      (∀ k, k < ms.length → i + k = p → member_eligible t (ms.getD k 0) = false) →
      active_member_scan t p ms i acc = acc := by
  induction ms with
  | nil => intro i acc _ _; rfl
  | cons m rest ih =>
    intro i acc hacc hp
    unfold active_member_scan
    have hc : (member_eligible t m && (acc == UINT8_MAX || i == p)) = false := by
      by_cases hip : i = p
      · have := hp 0 (by simp) (by omega)
        simp only [List.getD_cons_zero] at this
        simp [this]
      · simp [hacc, hip]
    simp only [hc, Bool.false_eq_true, if_false]
    apply ih (i + 1) acc hacc
    intro k hk hkp
    have := hp (k + 1) (by simp; omega) (by omega)
    simpa using this

theorem active_member_scan_primary (t : iface_table) (p : Nat) (ms : List Nat) :
    ∀ (i acc : Nat), p ≠ UINT8_MAX → i ≤ p → p < i + ms.length →
      member_eligible t (ms.getD (p - i) 0) = true →
      active_member_scan t p ms i acc = p := by
  induction ms with
  | nil =>
    intro i acc _ h1 h2 _
    simp at h2
    omega
  | cons m rest ih =>
    intro i acc hp h1 h2 he
    unfold active_member_scan
    by_cases hip : i = p
    · subst hip
      simp only [Nat.sub_self, List.getD_cons_zero] at he
      simp only [he, beq_self_eq_true, Bool.or_true, Bool.and_self, if_true]
      apply active_member_scan_keep t i rest (i + 1) i hp
      intro k _ hk
      omega
    · apply ih (i + 1) _ hp (by omega) (by simp at h2; omega)
      have hs : p - i = (p - (i + 1)) + 1 := by omega
      rw [hs] at he
      simpa using he

theorem active_member_scan_first (t : iface_table) (p : Nat) (ms : List Nat) :
    ∀ (i k0 : Nat), i + ms.length ≤ UINT8_MAX →
      (∀ k, k < ms.length → i + k = p → member_eligible t (ms.getD k 0) = false) →
      k0 < ms.length → member_eligible t (ms.getD k0 0) = true →
      (∀ j, j < k0 → member_eligible t (ms.getD j 0) = false) →
      active_member_scan t p ms i UINT8_MAX = i + k0 := by
  induction ms with
  | nil =>
    intro i k0 _ _ h _ _
    simp at h
  | cons m rest ih =>
    intro i k0 hlen hp hk0 he hfirst
    simp only [List.length_cons] at hlen hk0
    have hprest : ∀ k, k < rest.length → i + 1 + k = p →
        member_eligible t (rest.getD k 0) = false := by
      intro k hk hkp
      have := hp (k + 1) (by simp; omega) (by omega)
      simpa using this
    unfold active_member_scan
    cases k0 with
    | zero =>
      simp only [List.getD_cons_zero] at he
      simp only [he, beq_self_eq_true, Bool.true_or, Bool.and_self, if_true, Nat.add_zero]
      apply active_member_scan_keep t p rest (i + 1) i (by omega) hprest
    | succ k =>
      have hm : member_eligible t m = false := by
        have := hfirst 0 (by omega)
        simpa using this
      simp only [hm, Bool.false_and, Bool.false_eq_true, if_false]
      rw [ih (i + 1) k (by omega) hprest (by omega) (by simpa using he)]
      · omega
      · intro j hj
        have := hfirst (j + 1) (by omega)
        simpa using this

theorem member_active_set_state_active_false (t : iface_table) (m : Nat) :
    member_active (set_state_active t m false) m = false := by
  unfold member_active set_state_active iface_table.modify
  cases h : t m <;> simp [h]

theorem active_member_update_clears (a : Nat) (mac : rte_ether_addr) (ms : List Nat) :
    ∀ (i : Nat) (s : iface_table × iface_info_bond),
      (∀ k, k < ms.length → i + k ≠ a) →
      (active_member_update a mac ms i s).2 = s.2 ∧
      ∀ m ∈ ms, member_active (active_member_update a mac ms i s).1 m = false := by
  induction ms with
  | nil => intro i s _; exact ⟨rfl, by simp⟩
  | cons m rest ih =>
    intro i s ha
    have hia : i ≠ a := by
      have := ha 0 (by simp)
      omega
    have hrest : ∀ k, k < rest.length → i + 1 + k ≠ a := by
      intro k hk
      have := ha (k + 1) (by simp; omega)
      omega
    unfold active_member_update
    simp only [hia, if_false]
    obtain ⟨h1, h2⟩ := ih (i + 1) (set_state_active s.1 m false, s.2) hrest
    refine ⟨h1, ?_⟩
    intro x hx
    by_cases hxr : x ∈ rest
    · exact h2 x hxr
    · have hxm : x = m := by
        rcases List.mem_cons.1 hx with h | h
        · exact h
        · exact absurd h hxr
      subst hxm
      rw [active_member_update_other _ _ _ _ _ _ hxr]
      exact member_active_set_state_active_false _ _

theorem active_member_update_mac (a : Nat) (mac : rte_ether_addr) (ms : List Nat) :
    ∀ (i : Nat) (s : iface_table × iface_info_bond), i ≤ a → a < i + ms.length →
      (active_member_update a mac ms i s).2.mac = mac := by
  induction ms with
  | nil =>
    intro i s h1 h2
    simp at h2
    omega
  | cons m rest ih =>
    intro i s h1 h2
    simp only [List.length_cons] at h2
    unfold active_member_update
    by_cases hia : i = a
    · simp only [hia, if_true]
      have hk : ∀ k, k < rest.length → a + 1 + k ≠ a := by
        intro k _
        omega
      rw [(active_member_update_clears a mac rest (a + 1) _ hk).1]
    · simp only [hia, if_false]
      exact ih (i + 1) _ (by omega) (by omega)


theorem exists_first_eligible (t : iface_table) (ms : List Nat)
    (h : ∃ m ∈ ms, member_eligible t m = true) :
    ∃ k, k < ms.length ∧ member_eligible t (ms.getD k 0) = true ∧
      ∀ j, j < k → member_eligible t (ms.getD j 0) = false := by
  induction ms with
  | nil => simp at h
  | cons m rest ih =>
    by_cases hm : member_eligible t m = true
    · exact ⟨0, by simp, by simpa using hm, by intro j hj; omega⟩
    · have hr : ∃ x ∈ rest, member_eligible t x = true := by
        obtain ⟨x, hx, he⟩ := h
        rcases List.mem_cons.1 hx with hx | hx
        · subst hx
          exact absurd he hm
        · exact ⟨x, hx, he⟩
      obtain ⟨k, hk, he, hf⟩ := ih hr
      refine ⟨k + 1, by simp; omega, by simpa using he, ?_⟩
      intro j hj
      cases j with
      | zero => simpa using hm
      | succ j =>
        have := hf j (by omega)
        simpa using this

theorem bond_set_active_members_active_member (env : IfaceEnv) (t : iface_table)
    (bond : iface_info_bond) (hmode : bond.mode = gr_bond_mode_t.ACTIVE_BACKUP)
    (hok : (bond_set_active_members env t bond).1 = 0) :
    (bond_set_active_members env t bond).2.2.active_member =
      active_member_scan t bond.primary_member bond.members 0 UINT8_MAX := by
  unfold bond_set_active_members at hok ⊢
  simp only [hmode] at hok ⊢
  by_cases ha : active_member_scan t bond.primary_member bond.members 0 UINT8_MAX = UINT8_MAX
  · simp [ha]
  · by_cases hg : (iface_get_eth_addr env t (bond.members.getD
        (active_member_scan t bond.primary_member bond.members 0 UINT8_MAX) 0)).1 < 0
    · simp only [ne_eq, ha, not_false_eq_true, if_true, hg] at hok
      omega
    · simp only [ne_eq, ha, not_false_eq_true, if_true, hg, if_false]

/-- C11: for an ACTIVE_BACKUP bond with at least one eligible member (flag UP and state
RUNNING), a successful `bond_set_active_members` sets `active_member` to
`primary_member` when the primary member is eligible, and otherwise to the lowest
index of an eligible member. -/
theorem bond_set_active_members_choice (env : IfaceEnv) (t : iface_table)
    (bond : iface_info_bond) (hmode : bond.mode = gr_bond_mode_t.ACTIVE_BACKUP)
    (hlen : bond.members.length ≤ BOND_MAX_MEMBERS)
    (hel : ∃ m ∈ bond.members, member_eligible t m = true)
    (hok : (bond_set_active_members env t bond).1 = 0) :
    ((bond.primary_member < bond.members.length ∧
        member_eligible t (bond.members.getD bond.primary_member 0) = true) →
      (bond_set_active_members env t bond).2.2.active_member = bond.primary_member) ∧
    (¬ (bond.primary_member < bond.members.length ∧
        member_eligible t (bond.members.getD bond.primary_member 0) = true) →
      (bond_set_active_members env t bond).2.2.active_member < bond.members.length ∧
      member_eligible t (bond.members.getD
        (bond_set_active_members env t bond).2.2.active_member 0) = true ∧
      ∀ j, j < (bond_set_active_members env t bond).2.2.active_member →
        member_eligible t (bond.members.getD j 0) = false) := by
  rw [bond_set_active_members_active_member env t bond hmode hok]
  have hmax : bond.members.length ≤ 8 := hlen
  constructor
  · rintro ⟨hp, he⟩
    apply active_member_scan_primary
    · simp only [UINT8_MAX]
      omega
    · omega
    · omega
    · simpa using he
  · intro hnp
    obtain ⟨k, hk, he, hf⟩ := exists_first_eligible t bond.members hel
    have hscan : active_member_scan t bond.primary_member bond.members 0 UINT8_MAX
        = 0 + k := by
      apply active_member_scan_first t bond.primary_member bond.members 0 k _ _ hk he hf
      · simp only [UINT8_MAX]
        omega
      · intro j hj hjp
        by_contra hne
        apply hnp
        have hjp' : j = bond.primary_member := by omega
        subst hjp'
        exact ⟨hj, by simpa using hne⟩
    rw [hscan, Nat.zero_add]
    exact ⟨hk, he, hf⟩

/-- Witness of C11: members `[A, B]` with primary 0. When only B is eligible the
active member is 1; when A is eligible too the active member is 0. -/
theorem bond_set_active_members_choice_witness :
    ((bond_set_active_members env_ok two_members_table
        (mk_bond_info [1, 2] 0 UINT8_MAX)).2.2.active_member < 2 ∧
      member_eligible two_members_table ([1, 2].getD
        (bond_set_active_members env_ok two_members_table
          (mk_bond_info [1, 2] 0 UINT8_MAX)).2.2.active_member 0) = true ∧
      ∀ j, j < (bond_set_active_members env_ok two_members_table
          (mk_bond_info [1, 2] 0 UINT8_MAX)).2.2.active_member →
        member_eligible two_members_table ([1, 2].getD j 0) = false) ∧
    (bond_set_active_members env_ok two_members_table
      (mk_bond_info [1, 2] 0 UINT8_MAX)).2.2.active_member = 1 ∧
    (bond_set_active_members env_ok two_members_up_table
      (mk_bond_info [1, 2] 0 1)).2.2.active_member = 0 :=
  ⟨(bond_set_active_members_choice env_ok two_members_table
      (mk_bond_info [1, 2] 0 UINT8_MAX) rfl (by decide) (by decide) (by decide)).2
      (by decide),
   by decide,
   (bond_set_active_members_choice env_ok two_members_up_table
      (mk_bond_info [1, 2] 0 1) rfl (by decide) (by decide) (by decide)).1
      ⟨by decide, by decide⟩⟩

/-- C12: for an ACTIVE_BACKUP bond in which no member has both flag UP and state
RUNNING, `bond_set_active_members` returns 0, sets `active_member` to the NONE
sentinel `UINT8_MAX`, clears the ACTIVE bit of every member and leaves `bond.mac`
unchanged. -/
theorem bond_set_active_members_none (env : IfaceEnv) (t : iface_table)
    (bond : iface_info_bond) (hmode : bond.mode = gr_bond_mode_t.ACTIVE_BACKUP)
    (hlen : bond.members.length ≤ BOND_MAX_MEMBERS)
    (hno : ∀ m ∈ bond.members, member_eligible t m = false) :
    (bond_set_active_members env t bond).1 = 0 ∧
    (bond_set_active_members env t bond).2.2.active_member = UINT8_MAX ∧
    (∀ m ∈ bond.members, member_active (bond_set_active_members env t bond).2.1 m = false) ∧
    (bond_set_active_members env t bond).2.2.mac = bond.mac ∧
    (bond_set_active_members env t bond).2.2.members = bond.members := by
  have hmax : bond.members.length ≤ 8 := hlen
  have hlen' : 0 + bond.members.length ≤ UINT8_MAX := by
    simp only [UINT8_MAX]
    omega
  have ha : active_member_scan t bond.primary_member bond.members 0 UINT8_MAX = UINT8_MAX :=
    (active_member_scan_spec t bond.primary_member bond.members 0 UINT8_MAX hlen'
      (Or.inl rfl)).1.2 ⟨rfl, hno⟩
  have hk : ∀ k, k < bond.members.length → 0 + k ≠ UINT8_MAX := by
    intro k hk
    simp only [UINT8_MAX]
    omega
  obtain ⟨h1, h2⟩ := active_member_update_clears UINT8_MAX 0 bond.members 0 (t, bond) hk
  unfold bond_set_active_members
  simp only [hmode, ha, ne_eq, not_true_eq_false, if_false]
  refine ⟨trivial, trivial, h2, ?_, ?_⟩
  · rw [h1]
  · rw [h1]

/-- Witness of C12: ports 1 and 2 carry the ACTIVE bit but port 1 is not UP and port 2
not RUNNING; the selection clears both bits and keeps the address of the bond. -/
theorem bond_set_active_members_none_witness :
    (bond_set_active_members env_ok two_members_down_table (mk_bond_info [1, 2] 0 1)).1 = 0 ∧
    (bond_set_active_members env_ok two_members_down_table
      (mk_bond_info [1, 2] 0 1)).2.2.active_member = UINT8_MAX ∧
    (∀ m ∈ [1, 2], member_active (bond_set_active_members env_ok two_members_down_table
      (mk_bond_info [1, 2] 0 1)).2.1 m = false) ∧
    (bond_set_active_members env_ok two_members_down_table
      (mk_bond_info [1, 2] 0 1)).2.2.mac = 0 ∧
    (bond_set_active_members env_ok two_members_down_table
      (mk_bond_info [1, 2] 0 1)).2.2.members = [1, 2] :=
  bond_set_active_members_none env_ok two_members_down_table (mk_bond_info [1, 2] 0 1)
    rfl (by decide) (by decide)

/-- C13: after a successful active-member selection that chooses a member, `bond.mac`
is the address read with `iface_get_eth_addr` from the chosen member. -/
theorem bond_set_active_members_mac (env : IfaceEnv) (t : iface_table)
    (bond : iface_info_bond) (hmode : bond.mode = gr_bond_mode_t.ACTIVE_BACKUP)
    (hlen : bond.members.length ≤ BOND_MAX_MEMBERS)
    (hok : (bond_set_active_members env t bond).1 = 0)
    (hch : (bond_set_active_members env t bond).2.2.active_member ≠ UINT8_MAX) :
    0 ≤ (iface_get_eth_addr env t (bond.members.getD
      (bond_set_active_members env t bond).2.2.active_member 0)).1 ∧
    (bond_set_active_members env t bond).2.2.mac =
      (iface_get_eth_addr env t (bond.members.getD
        (bond_set_active_members env t bond).2.2.active_member 0)).2 := by
  have hmax : bond.members.length ≤ 8 := hlen
  have hlen' : 0 + bond.members.length ≤ UINT8_MAX := by
    simp only [UINT8_MAX]
    omega
  have hact := bond_set_active_members_active_member env t bond hmode hok
  rw [hact] at hch ⊢
  have hlt : active_member_scan t bond.primary_member bond.members 0 UINT8_MAX
      < bond.members.length := by
    rcases (active_member_scan_spec t bond.primary_member bond.members 0 UINT8_MAX hlen'
      (Or.inl rfl)).2 hch with h | h
    · omega
    · exact absurd h hch
  unfold bond_set_active_members at hok ⊢
  simp only [hmode] at hok ⊢
  by_cases hg : (iface_get_eth_addr env t (bond.members.getD
      (active_member_scan t bond.primary_member bond.members 0 UINT8_MAX) 0)).1 < 0
  · simp only [ne_eq, hch, not_false_eq_true, if_true, hg] at hok
    omega
  · simp only [ne_eq, hch, not_false_eq_true, if_true, hg, if_false]
    refine ⟨by omega, ?_⟩
    exact active_member_update_mac _ _ _ 0 _ (by omega) (by omega)

/-- Witness of C13: after the link event of B only, the address of bond X is the one of
B; once A is eligible too, it is the one of A. -/
theorem bond_set_active_members_mac_witness :
    (bond_set_active_members env_ok two_members_table
      (mk_bond_info [1, 2] 0 UINT8_MAX)).2.2.mac = 0xB2 ∧
    (bond_set_active_members env_ok two_members_up_table
      (mk_bond_info [1, 2] 0 1)).2.2.mac = 0xA1 :=
  ⟨(bond_set_active_members_mac env_ok two_members_table
      (mk_bond_info [1, 2] 0 UINT8_MAX) rfl (by decide) (by decide) (by decide)).2.trans
      (by decide),
   (bond_set_active_members_mac env_ok two_members_up_table
      (mk_bond_info [1, 2] 0 1) rfl (by decide) (by decide) (by decide)).2.trans
      (by decide)⟩

theorem table_agree_refl {α : Type} (view : iface → α) (t : iface_table) :
    table_agree view t t := fun _ => rfl

theorem table_agree_trans {α : Type} {view : iface → α} {t1 t2 t3 : iface_table}
    (h12 : table_agree view t1 t2) (h23 : table_agree view t2 t3) :
    table_agree view t1 t3 := fun x => (h23 x).trans (h12 x)

theorem modify_agree {α : Type} (view : iface → α) (t : iface_table) (id : Nat)
    (f : iface → iface) (hf : ∀ i, t id = some i → view (f i) = view i) :
    table_agree view t (t.modify id f) := by
  intro x
  unfold iface_table.modify
  by_cases hx : x = id
  · subst hx
    cases h : t x with
    | none => simp [h]
    | some i => simp [h, hf i h]
  · simp [hx]

theorem iface_add_eth_addr_agree {α : Type} (view : iface → α) (hv : macs_blind view)
    (env : IfaceEnv) (t : iface_table) (id : Nat) (mac : rte_ether_addr) :
    table_agree view t (iface_add_eth_addr env t id mac).2 := by
  cases h : t id with
  | none =>
    simp only [iface_add_eth_addr, iface_from_id, h]
    exact table_agree_refl _ _
  | some ifc =>
    simp only [iface_add_eth_addr, iface_from_id, h]
    cases hi : ifc.info with
    | port port =>
      simp only
      split_ifs
      · apply modify_agree
        intro i hti
        rw [h] at hti
        cases hti
        exact hv ifc port _ hi
      · exact table_agree_refl _ _
    | bond b => exact table_agree_refl _ _
    | other => exact table_agree_refl _ _

theorem iface_del_eth_addr_agree {α : Type} (view : iface → α) (hv : macs_blind view)
    (env : IfaceEnv) (t : iface_table) (id : Nat) (mac : rte_ether_addr) :
    table_agree view t (iface_del_eth_addr env t id mac).2 := by
  cases h : t id with
  | none =>
    simp only [iface_del_eth_addr, iface_from_id, h]
    exact table_agree_refl _ _
  | some ifc =>
    simp only [iface_del_eth_addr, iface_from_id, h]
    cases hi : ifc.info with
    | port port =>
      simp only
      split_ifs
      · apply modify_agree
        intro i hti
        rw [h] at hti
        cases hti
        exact hv ifc port _ hi
      · exact table_agree_refl _ _
    | bond b => exact table_agree_refl _ _
    | other => exact table_agree_refl _ _

theorem set_bond_iface_id_agree {α : Type} (view : iface → α) (hv : link_blind view)
    (t : iface_table) (member v : Nat) :
    table_agree view t (set_bond_iface_id t member v) := by
  unfold set_bond_iface_id
  apply modify_agree
  intro i _
  cases hi : i.info with
  | port port => exact hv i port v hi
  | bond b => rfl
  | other => rfl

theorem set_state_active_agree {α : Type} (view : iface → α) (hv : active_blind view)
    (t : iface_table) (member : Nat) (v : Bool) :
    table_agree view t (set_state_active t member v) := by
  unfold set_state_active
  apply modify_agree
  intro i _
  exact hv i v

theorem set_bond_agree {α : Type} (view : iface → α) (hv : bond_blind view)
    (t : iface_table) (id : Nat) (bond bond' : iface_info_bond)
    (hb : get_bond t id = some bond) : table_agree view t (set_bond t id bond') := by
  unfold set_bond
  apply modify_agree
  intro i hi
  unfold get_bond at hb
  rw [hi] at hb
  cases hinfo : i.info with
  | port p => simp [hinfo] at hb
  | bond b => exact hv i b bond' hinfo
  | other => simp [hinfo] at hb

theorem bond_all_member_mac_loop_agree {α : Type} (view : iface → α) (hv : macs_blind view)
    (env : IfaceEnv) (mac : rte_ether_addr) (add : Bool) (ms : List Nat) :
    ∀ t, table_agree view t (bond_all_member_mac_loop env mac add ms t).2 := by
  induction ms with
  | nil => intro t; exact table_agree_refl _ _
  | cons m rest ih =>
    intro t
    unfold bond_all_member_mac_loop
    cases add
    · simp only [Bool.false_eq_true, if_false]
      split_ifs
      · exact iface_del_eth_addr_agree view hv env t m mac
      · exact table_agree_trans (iface_del_eth_addr_agree view hv env t m mac) (ih _)
    · simp only [if_true]
      split_ifs
      · exact iface_add_eth_addr_agree view hv env t m mac
      · exact table_agree_trans (iface_add_eth_addr_agree view hv env t m mac) (ih _)

theorem bond_init_new_member_macs_agree {α : Type} (view : iface → α) (hv : macs_blind view)
    (env : IfaceEnv) (member : Nat) (macs : List rte_ether_addr) :
    ∀ t, table_agree view t (bond_init_new_member_macs env member macs t).2 := by
  induction macs with
  | nil => intro t; exact table_agree_refl _ _
  | cons mac rest ih =>
    intro t
    unfold bond_init_new_member_macs
    simp only
    split_ifs
    · exact iface_add_eth_addr_agree view hv env t member mac
    · exact table_agree_trans (iface_add_eth_addr_agree view hv env t member mac) (ih _)

theorem bond_fini_old_member_macs_agree {α : Type} (view : iface → α) (hv : macs_blind view)
    (env : IfaceEnv) (member : Nat) (macs : List rte_ether_addr) :
    ∀ t, table_agree view t (bond_fini_old_member_macs env member macs t) := by
  induction macs with
  | nil => intro t; exact table_agree_refl _ _
  | cons mac rest ih =>
    intro t
    unfold bond_fini_old_member_macs
    exact table_agree_trans (iface_del_eth_addr_agree view hv env t member mac) (ih _)

theorem bond_init_new_members_loop_agree {α : Type} (view : iface → α)
    (hm : macs_blind view) (hl : link_blind view)
    (env : IfaceEnv) (iface_id : Nat) (bond : iface_info_bond) (ids : List Nat) :
    ∀ t, table_agree view t (bond_init_new_members_loop env iface_id bond ids t).2 := by
  induction ids with
  | nil => intro t; exact table_agree_refl _ _
  | cons id rest ih =>
    intro t
    unfold bond_init_new_members_loop
    cases h : t id with
    | none =>
      simp only [iface_from_id, h]
      exact table_agree_refl _ _
    | some member =>
      simp only [iface_from_id, h]
      cases hi : member.info with
      | port port =>
        simp only
        split_ifs
        · exact ih _
        · exact bond_init_new_member_macs_agree view hm env id _ t
        · exact table_agree_trans (table_agree_trans
            (bond_init_new_member_macs_agree view hm env id _ t)
            (set_bond_iface_id_agree view hl _ id iface_id)) (ih _)
      | bond b => exact table_agree_refl _ _
      | other => exact table_agree_refl _ _

theorem bond_fini_old_members_loop_agree {α : Type} (view : iface → α)
    (hm : macs_blind view) (hl : link_blind view)
    (env : IfaceEnv) (bond : iface_info_bond) (new : gr_iface_info_bond) (ms : List Nat) :
    ∀ t, table_agree view t (bond_fini_old_members_loop env bond new ms t) := by
  induction ms with
  | nil => intro t; exact table_agree_refl _ _
  | cons m rest ih =>
    intro t
    unfold bond_fini_old_members_loop
    split_ifs
    · exact ih _
    · exact table_agree_trans (table_agree_trans
        (bond_fini_old_member_macs_agree view hm env m _ t)
        (set_bond_iface_id_agree view hl _ m GR_IFACE_ID_UNDEF)) (ih _)

theorem active_member_update_agree {α : Type} (view : iface → α) (hv : active_blind view)
    (a : Nat) (mac : rte_ether_addr) (ms : List Nat) :
    ∀ (i : Nat) (s : iface_table × iface_info_bond),
      table_agree view s.1 (active_member_update a mac ms i s).1 := by
  induction ms with
  | nil => intro i s; exact table_agree_refl _ _
  | cons m rest ih =>
    intro i s
    unfold active_member_update
    split_ifs
    · exact table_agree_trans (set_state_active_agree view hv s.1 m true) (ih _ _)
    · exact table_agree_trans (set_state_active_agree view hv s.1 m false) (ih _ _)

theorem bond_set_active_members_agree {α : Type} (view : iface → α) (hv : active_blind view)
    (env : IfaceEnv) (t : iface_table) (bond : iface_info_bond) :
    table_agree view t (bond_set_active_members env t bond).2.1 := by
  unfold bond_set_active_members
  cases bond.mode with
  | ACTIVE_BACKUP =>
    simp only
    split_ifs
    · exact table_agree_refl _ _
    · exact active_member_update_agree view hv _ _ _ 0 (t, bond)
    · exact active_member_update_agree view hv _ _ _ 0 (t, bond)
  | OTHER => exact table_agree_refl _ _

theorem iface_kind_macs_blind : macs_blind iface_kind := by
  intro i port macs hi
  simp [iface_kind, hi]

theorem iface_kind_link_blind : link_blind iface_kind := by
  intro i port v hi
  simp [iface_kind, hi]

theorem iface_kind_active_blind : active_blind iface_kind := by
  intro i v
  rfl

theorem iface_kind_bond_blind : bond_blind iface_kind := by
  intro i bond bond' hi
  simp [iface_kind, hi]

theorem iface_link_macs_blind : macs_blind iface_link := by
  intro i port macs hi
  simp [iface_link, hi]

theorem iface_link_active_blind : active_blind iface_link := by
  intro i v
  rfl

theorem iface_link_bond_blind : bond_blind iface_link := by
  intro i bond bond' hi
  simp [iface_link, hi]

theorem iface_macs_link_blind : link_blind iface_macs := by
  intro i port v hi
  simp [iface_macs, hi]

theorem iface_macs_active_blind : active_blind iface_macs := by
  intro i v
  rfl

theorem iface_macs_bond_blind : bond_blind iface_macs := by
  intro i bond bond' hi
  simp [iface_macs, hi]

theorem table_agree_isSome {α : Type} {view : iface → α} {t t' : iface_table}
    (h : table_agree view t t') (x : Nat) : (t' x).isSome = (t x).isSome := by
  have := h x
  cases h1 : t' x <;> cases h2 : t x <;> simp [h1, h2] at this ⊢

theorem is_port_of_agree {t t' : iface_table} (h : table_agree iface_kind t t') (x : Nat) :
    is_port t' x ↔ is_port t x := by
  unfold is_port
  rw [h x]

theorem port_link_of_agree {t t' : iface_table} (h : table_agree iface_link t t') (x : Nat) :
    port_link t' x = port_link t x := by
  have := h x
  unfold port_link
  cases h1 : t' x <;> cases h2 : t x <;> simp [h1, h2] at this ⊢
  exact this

theorem port_macs_of_agree {t t' : iface_table} (h : table_agree iface_macs t t') (x : Nat) :
    port_macs t' x = port_macs t x := by
  have := h x
  unfold port_macs
  cases h1 : t' x <;> cases h2 : t x <;> simp [h1, h2] at this ⊢
  exact this

theorem get_bond_of_kind_agree {t t' : iface_table} (h : table_agree iface_kind t t')
    (id : Nat) (bond : iface_info_bond) (hb : get_bond t id = some bond) :
    ∃ bond', get_bond t' id = some bond' := by
  have := h id
  unfold get_bond at hb ⊢
  cases h2 : t id with
  | none => simp [h2] at hb
  | some i =>
    cases hi : i.info with
    | port p => simp [h2, hi] at hb
    | other => simp [h2, hi] at hb
    | bond b =>
      cases h1 : t' id with
      | none => simp [h1, h2] at this
      | some i' =>
        simp only [h1, h2, Option.map_some', Option.some.injEq] at this
        cases hi' : i'.info with
        | port p => simp [iface_kind, hi, hi'] at this
        | other => simp [iface_kind, hi, hi'] at this
        | bond b' => exact ⟨b', by simp [hi']⟩

theorem bond_reconfig_mac_agree {α : Type} (view : iface → α) (hm : macs_blind view)
    (env : IfaceEnv) (t : iface_table) (bond : iface_info_bond) (set_attrs : bond_set_attrs)
    (api : gr_iface_info_bond) :
    table_agree view t (bond_reconfig_mac env t bond set_attrs api).2.1 := by
  unfold bond_reconfig_mac bond_all_member_mac
  simp only
  split_ifs
  · exact bond_all_member_mac_loop_agree view hm env _ _ _ t
  · exact bond_all_member_mac_loop_agree view hm env _ _ _ t
  · exact table_agree_refl _ _

theorem bond_reconfig_active_agree {α : Type} (view : iface → α) (hm : macs_blind view)
    (ha : active_blind view)
    (env : IfaceEnv) (t : iface_table) (bond : iface_info_bond) (set_attrs : bond_set_attrs)
    (api : gr_iface_info_bond) :
    table_agree view t (bond_reconfig_active env t bond set_attrs api).2.1 := by
  unfold bond_reconfig_active
  simp only
  split_ifs
  · exact bond_set_active_members_agree view ha env t bond
  · exact table_agree_trans (bond_set_active_members_agree view ha env t bond)
      (bond_reconfig_mac_agree view hm env _ _ set_attrs api)
  · exact bond_reconfig_mac_agree view hm env _ _ set_attrs api

theorem bond_reconfig_primary_agree {α : Type} (view : iface → α) (hm : macs_blind view)
    (ha : active_blind view)
    (env : IfaceEnv) (t : iface_table) (bond : iface_info_bond) (set_attrs : bond_set_attrs)
    (api : gr_iface_info_bond) :
    table_agree view t (bond_reconfig_primary env t bond set_attrs api).2.1 := by
  unfold bond_reconfig_primary
  split_ifs
  · exact table_agree_refl _ _
  · exact bond_reconfig_active_agree view hm ha env _ _ set_attrs api
  · exact bond_reconfig_active_agree view hm ha env _ _ set_attrs api

theorem bond_reconfig_members_agree {α : Type} (view : iface → α) (hm : macs_blind view)
    (hl : link_blind view) (ha : active_blind view)
    (env : IfaceEnv) (t : iface_table) (iface_id : Nat) (bond : iface_info_bond)
    (set_attrs : bond_set_attrs) (api : gr_iface_info_bond) :
    table_agree view t (bond_reconfig_members env t iface_id bond set_attrs api).2.1 := by
  unfold bond_reconfig_members bond_init_new_members bond_fini_old_members
  simp only
  split_ifs
  · exact table_agree_refl _ _
  · exact bond_init_new_members_loop_agree view hm hl env iface_id bond _ t
  · exact table_agree_trans (table_agree_trans
      (bond_init_new_members_loop_agree view hm hl env iface_id bond _ t)
      (bond_fini_old_members_loop_agree view hm hl env bond api _ _))
      (bond_reconfig_primary_agree view hm ha env _ _ set_attrs api)
  · exact bond_reconfig_primary_agree view hm ha env _ _ set_attrs api

theorem bond_reconfig_body_agree {α : Type} (view : iface → α) (hm : macs_blind view)
    (hl : link_blind view) (ha : active_blind view)
    (env : IfaceEnv) (t : iface_table) (iface_id : Nat) (bond : iface_info_bond)
    (set_attrs : bond_set_attrs) (api : gr_iface_info_bond) :
    table_agree view t (bond_reconfig_body env t iface_id bond set_attrs api).2.1 := by
  unfold bond_reconfig_body bond_all_member_mac
  simp only
  split_ifs
  · exact table_agree_trans (bond_all_member_mac_loop_agree view hm env _ _ _ t)
      (bond_reconfig_members_agree view hm hl ha env _ iface_id _ set_attrs api)
  · exact table_agree_trans (bond_all_member_mac_loop_agree view hm env _ _ _ t)
      (bond_reconfig_members_agree view hm hl ha env _ iface_id _ set_attrs api)
  · exact bond_reconfig_members_agree view hm hl ha env _ iface_id _ set_attrs api
  · exact bond_reconfig_members_agree view hm hl ha env _ iface_id _ set_attrs api

/-- The value returned by `bond_reconfig` and the private data it leaves in the bond
are the ones computed by `bond_reconfig_body`. -/
theorem bond_reconfig_eq (env : IfaceEnv) (t : iface_table) (iface_id : Nat)
    (bond : iface_info_bond) (set_attrs : bond_set_attrs) (api : gr_iface_info_bond)
    (hb : get_bond t iface_id = some bond) :
    bond_reconfig env t iface_id set_attrs api =
      some ((bond_reconfig_body env t iface_id bond set_attrs api).1,
        set_bond (bond_reconfig_body env t iface_id bond set_attrs api).2.1 iface_id
          (bond_reconfig_body env t iface_id bond set_attrs api).2.2) ∧
    get_bond (set_bond (bond_reconfig_body env t iface_id bond set_attrs api).2.1 iface_id
        (bond_reconfig_body env t iface_id bond set_attrs api).2.2) iface_id =
      some (bond_reconfig_body env t iface_id bond set_attrs api).2.2 := by
  constructor
  · simp [bond_reconfig, hb]
  · apply get_bond_set_bond
    rw [table_agree_isSome (bond_reconfig_body_agree iface_kind iface_kind_macs_blind
      iface_kind_link_blind iface_kind_active_blind env t iface_id bond set_attrs api)]
    exact get_bond_isSome t iface_id bond hb

/-- Writing the private data of the bond back does not change a view that is blind to
it. -/
theorem bond_reconfig_writeback_agree {α : Type} (view : iface → α) (hv : bond_blind view)
    (env : IfaceEnv) (t : iface_table) (iface_id : Nat)
    (bond : iface_info_bond) (set_attrs : bond_set_attrs) (api : gr_iface_info_bond)
    (hb : get_bond t iface_id = some bond) :
    table_agree view (bond_reconfig_body env t iface_id bond set_attrs api).2.1
      (set_bond (bond_reconfig_body env t iface_id bond set_attrs api).2.1 iface_id
        (bond_reconfig_body env t iface_id bond set_attrs api).2.2) := by
  obtain ⟨b, hb'⟩ := get_bond_of_kind_agree (bond_reconfig_body_agree iface_kind
    iface_kind_macs_blind iface_kind_link_blind iface_kind_active_blind env t iface_id bond
    set_attrs api) iface_id bond hb
  exact set_bond_agree view hv _ iface_id b _ hb'

theorem is_port_iff (t : iface_table) (x : Nat) :
    is_port t x ↔ ∃ i port, t x = some i ∧ i.info = iface_info.port port := by
  unfold is_port
  constructor
  · intro h
    cases hx : t x with
    | none => simp [hx] at h
    | some i =>
      cases hi : i.info with
      | port port => exact ⟨i, port, rfl, hi⟩
      | bond b => simp [hx, iface_kind, hi] at h
      | other => simp [hx, iface_kind, hi] at h
  · rintro ⟨i, port, hx, hi⟩
    simp [hx, iface_kind, hi]

theorem iface_add_eth_addr_ok (env : IfaceEnv) (t : iface_table) (id : Nat)
    (mac : rte_ether_addr) (hp : is_port t id) (he : env.add_eth_addr_errno id mac = 0) :
    (iface_add_eth_addr env t id mac).1 = 0 := by
  obtain ⟨i, port, hx, hi⟩ := (is_port_iff t id).1 hp
  simp [iface_add_eth_addr, iface_from_id, hx, hi, he]

theorem iface_add_eth_addr_nonneg (env : IfaceEnv) (t : iface_table) (id : Nat)
    (mac : rte_ether_addr) (h : ¬ (iface_add_eth_addr env t id mac).1 < 0) :
    is_port t id ∧ env.add_eth_addr_errno id mac = 0 := by
  cases hx : t id with
  | none =>
    simp [iface_add_eth_addr, iface_from_id, hx, ENODEV] at h
  | some i =>
    cases hi : i.info with
    | port port =>
      refine ⟨(is_port_iff t id).2 ⟨i, port, hx, hi⟩, ?_⟩
      by_contra he
      simp only [iface_add_eth_addr, iface_from_id, hx, hi, he, if_false] at h
      omega
    | bond b => simp [iface_add_eth_addr, iface_from_id, hx, hi, EOPNOTSUPP] at h
    | other => simp [iface_add_eth_addr, iface_from_id, hx, hi, EOPNOTSUPP] at h

theorem bond_init_new_member_macs_ok (env : IfaceEnv) (id : Nat)
    (macs : List rte_ether_addr) :
    ∀ t, is_port t id → (∀ mac ∈ macs, env.add_eth_addr_errno id mac = 0) →
      (bond_init_new_member_macs env id macs t).1 = 0 := by
  induction macs with
  | nil => intro t _ _; rfl
  | cons mac rest ih =>
    intro t hp he
    have h0 := iface_add_eth_addr_ok env t id mac hp (he mac (List.mem_cons_self _ _))
    unfold bond_init_new_member_macs
    simp only [h0, lt_self_iff_false, if_false]
    apply ih
    · exact (is_port_of_agree (iface_add_eth_addr_agree iface_kind iface_kind_macs_blind
        env t id mac) id).2 hp
    · intro m hm
      exact he m (List.mem_cons_of_mem _ hm)

theorem bond_init_new_members_loop_pass (env : IfaceEnv) (iface_id : Nat)
    (bond : iface_info_bond) (pre : List Nat) :
    ∀ t, new_members_pass env t bond pre →
      ∃ t', table_agree iface_kind t t' ∧
        ∀ rest, bond_init_new_members_loop env iface_id bond (pre ++ rest) t =
          bond_init_new_members_loop env iface_id bond rest t' := by
  induction pre with
  | nil =>
    intro t _
    exact ⟨t, table_agree_refl _ _, fun rest => rfl⟩
  | cons id more ih =>
    intro t hpass
    obtain ⟨hp, hok⟩ := hpass id (List.mem_cons_self _ _)
    obtain ⟨i, port, hx, hi⟩ := (is_port_iff t id).1 hp
    have hmore : ∀ t', table_agree iface_kind t t' → new_members_pass env t' bond more := by
      intro t' hag p hpm
      obtain ⟨h1, h2⟩ := hpass p (List.mem_cons_of_mem _ hpm)
      exact ⟨(is_port_of_agree hag p).2 h1, h2⟩
    by_cases hmem : id ∈ bond.members
    · obtain ⟨t', hag, heq⟩ := ih t (hmore t (table_agree_refl _ _))
      refine ⟨t', hag, ?_⟩
      intro rest
      rw [List.cons_append]
      conv_lhs => unfold bond_init_new_members_loop
      simp only [iface_from_id, hx, hi, hmem, if_true]
      exact heq rest
    · have hmacs : ∀ mac ∈ bond.extra_macs, env.add_eth_addr_errno id mac = 0 := by
        rcases hok with h | h
        · exact absurd h hmem
        · exact h
      have h0 := bond_init_new_member_macs_ok env id bond.extra_macs t hp hmacs
      have hag1 : table_agree iface_kind t
          (set_bond_iface_id (bond_init_new_member_macs env id bond.extra_macs t).2 id
            iface_id) :=
        table_agree_trans
          (bond_init_new_member_macs_agree iface_kind iface_kind_macs_blind env id _ t)
          (set_bond_iface_id_agree iface_kind iface_kind_link_blind _ id iface_id)
      obtain ⟨t', hag, heq⟩ := ih _ (hmore _ hag1)
      refine ⟨t', table_agree_trans hag1 hag, ?_⟩
      intro rest
      rw [List.cons_append]
      conv_lhs => unfold bond_init_new_members_loop
      simp only [iface_from_id, hx, hi, hmem, if_false, h0, lt_self_iff_false]
      exact heq rest

theorem bond_init_new_members_loop_not_port (env : IfaceEnv) (iface_id : Nat)
    (bond : iface_info_bond) (x : Nat) (post : List Nat) (t : iface_table) (ifx : iface)
    (hx : t x = some ifx) (hk : iface_kind ifx ≠ 0) :
    bond_init_new_members_loop env iface_id bond (x :: post) t
      = (-(EMEDIUMTYPE : Int), t) := by
  unfold bond_init_new_members_loop
  cases hi : ifx.info with
  | port p => simp [iface_kind, hi] at hk
  | bond b => simp [iface_from_id, hx, hi]
  | other => simp [iface_from_id, hx, hi]

theorem iface_get_eth_addr_ok (env : IfaceEnv) (t : iface_table) (m : Nat)
    (hp : is_port t m) (he : env.get_eth_addr_errno m = 0) :
    (iface_get_eth_addr env t m).1 = 0 := by
  obtain ⟨i, port, hx, hi⟩ := (is_port_iff t m).1 hp
  simp [iface_get_eth_addr, iface_from_id, hx, hi, he]

theorem bond_all_member_mac_loop_add_ok (env : IfaceEnv) (mac : rte_ether_addr)
    (ms : List Nat) :
    ∀ t, (∀ m ∈ ms, is_port t m ∧ env.add_eth_addr_errno m mac = 0) →
      (bond_all_member_mac_loop env mac true ms t).1 = 0 := by
  induction ms with
  | nil => intro t _; rfl
  | cons m rest ih =>
    intro t h
    obtain ⟨hp, he⟩ := h m (List.mem_cons_self _ _)
    have h0 := iface_add_eth_addr_ok env t m mac hp he
    unfold bond_all_member_mac_loop
    simp only [if_true, h0, lt_self_iff_false, if_false]
    apply ih
    intro x hx
    obtain ⟨hpx, hex⟩ := h x (List.mem_cons_of_mem _ hx)
    exact ⟨(is_port_of_agree (iface_add_eth_addr_agree iface_kind iface_kind_macs_blind
      env t m mac) x).2 hpx, hex⟩

theorem active_member_update_primary (a : Nat) (mac : rte_ether_addr) (ms : List Nat) :
    ∀ (i : Nat) (s : iface_table × iface_info_bond),
      (active_member_update a mac ms i s).2.primary_member = s.2.primary_member := by
  induction ms with
  | nil => intro i s; rfl
  | cons m rest ih =>
    intro i s
    unfold active_member_update
    split_ifs <;> simp [ih]

/-- The selection leaves the member list and the primary index of the bond as they
are. -/
theorem bond_set_active_members_keeps (env : IfaceEnv) (t : iface_table)
    (bond : iface_info_bond) :
    (bond_set_active_members env t bond).2.2.members = bond.members ∧
    (bond_set_active_members env t bond).2.2.primary_member = bond.primary_member := by
  unfold bond_set_active_members
  cases bond.mode with
  | ACTIVE_BACKUP =>
    simp only
    split_ifs
    · exact ⟨rfl, rfl⟩
    · exact ⟨active_member_update_members _ _ _ _ _, active_member_update_primary _ _ _ _ _⟩
    · exact ⟨active_member_update_members _ _ _ _ _, active_member_update_primary _ _ _ _ _⟩
  | OTHER => exact ⟨rfl, rfl⟩

theorem bond_set_active_members_ok (env : IfaceEnv) (t : iface_table)
    (bond : iface_info_bond) (hlen : bond.members.length ≤ BOND_MAX_MEMBERS)
    (hm : ∀ m ∈ bond.members, is_port t m ∧ env.get_eth_addr_errno m = 0) :
    (bond_set_active_members env t bond).1 = 0 := by
  have hmax : bond.members.length ≤ 8 := hlen
  have hlen' : 0 + bond.members.length ≤ UINT8_MAX := by
    simp only [UINT8_MAX]
    omega
  unfold bond_set_active_members
  cases bond.mode with
  | OTHER => rfl
  | ACTIVE_BACKUP =>
    simp only
    by_cases ha : active_member_scan t bond.primary_member bond.members 0 UINT8_MAX
        = UINT8_MAX
    · simp only [ha, ne_eq, not_true_eq_false, if_false]
    · have hlt : active_member_scan t bond.primary_member bond.members 0 UINT8_MAX
          < bond.members.length := by
        rcases (active_member_scan_spec t bond.primary_member bond.members 0 UINT8_MAX
          hlen' (Or.inl rfl)).2 ha with h | h
        · omega
        · exact absurd h ha
      have hmem : bond.members.getD
          (active_member_scan t bond.primary_member bond.members 0 UINT8_MAX) 0
          ∈ bond.members := by
        rw [List.getD_eq_getElem _ _ hlt]
        exact List.getElem_mem _
      obtain ⟨hp, he⟩ := hm _ hmem
      have h0 := iface_get_eth_addr_ok env t _ hp he
      simp only [ne_eq, ha, not_false_eq_true, if_true, h0, lt_self_iff_false, if_false]

theorem bond_reconfig_mac_ok (env : IfaceEnv) (t : iface_table) (bond : iface_info_bond)
    (set_attrs : bond_set_attrs) (api : gr_iface_info_bond)
    (hm : ∀ m ∈ bond.members, is_port t m ∧ env.add_eth_addr_errno m api.mac = 0) :
    (bond_reconfig_mac env t bond set_attrs api).1 = 0 ∧
    (bond_reconfig_mac env t bond set_attrs api).2.2.members = bond.members ∧
    (bond_reconfig_mac env t bond set_attrs api).2.2.primary_member
      = bond.primary_member := by
  have h0 := bond_all_member_mac_loop_add_ok env api.mac bond.members t hm
  unfold bond_reconfig_mac bond_all_member_mac
  simp only [h0, lt_self_iff_false, if_false]
  split_ifs <;> exact ⟨rfl, rfl, rfl⟩

theorem bond_reconfig_active_ok (env : IfaceEnv) (t : iface_table) (bond : iface_info_bond)
    (set_attrs : bond_set_attrs) (api : gr_iface_info_bond)
    (hlen : bond.members.length ≤ BOND_MAX_MEMBERS)
    (hm : ∀ m ∈ bond.members, is_port t m ∧ env.get_eth_addr_errno m = 0 ∧
      env.add_eth_addr_errno m api.mac = 0) :
    (bond_reconfig_active env t bond set_attrs api).1 = 0 ∧
    (bond_reconfig_active env t bond set_attrs api).2.2.members = bond.members ∧
    (bond_reconfig_active env t bond set_attrs api).2.2.primary_member
      = bond.primary_member := by
  have h0 := bond_set_active_members_ok env t bond hlen
    (fun m hx => ⟨(hm m hx).1, (hm m hx).2.1⟩)
  obtain ⟨hk1, hk2⟩ := bond_set_active_members_keeps env t bond
  have hag := bond_set_active_members_agree iface_kind iface_kind_active_blind env t bond
  unfold bond_reconfig_active
  simp only [h0, lt_self_iff_false, if_false]
  split_ifs
  · have h := bond_reconfig_mac_ok env (bond_set_active_members env t bond).2.1
      (bond_set_active_members env t bond).2.2 set_attrs api (by
        rw [hk1]
        intro m hx
        exact ⟨(is_port_of_agree hag m).2 (hm m hx).1, (hm m hx).2.2⟩)
    rw [hk1, hk2] at h
    exact h
  · exact bond_reconfig_mac_ok env t bond set_attrs api
      (fun m hx => ⟨(hm m hx).1, (hm m hx).2.2⟩)

/-- The first two steps of `bond_reconfig` (removal of the old address, mode) change
neither the interface types, nor the back-links, nor the member list, the primary
index, the address or the extra addresses of the bond. -/
theorem bond_reconfig_body_eq (env : IfaceEnv) (t : iface_table) (iface_id : Nat)
    (bond : iface_info_bond) (set_attrs : bond_set_attrs) (api : gr_iface_info_bond) :
    ∃ t1 bond1, table_agree iface_kind t t1 ∧ table_agree iface_link t t1 ∧
      bond1.members = bond.members ∧ bond1.primary_member = bond.primary_member ∧
      bond1.extra_macs = bond.extra_macs ∧ bond1.mac = bond.mac ∧
      bond_reconfig_body env t iface_id bond set_attrs api =
        bond_reconfig_members env t1 iface_id bond1 set_attrs api := by
  unfold bond_reconfig_body bond_all_member_mac
  simp only
  refine ⟨_, _, ?_, ?_, ?_, ?_, ?_, ?_, rfl⟩
  · split_ifs
    · exact bond_all_member_mac_loop_agree iface_kind iface_kind_macs_blind env _ _ _ t
    · exact table_agree_refl _ _
  · split_ifs
    · exact bond_all_member_mac_loop_agree iface_link iface_link_macs_blind env _ _ _ t
    · exact table_agree_refl _ _
  all_goals split_ifs <;> rfl

theorem new_members_pass_of_agree (env : IfaceEnv) (t t1 : iface_table)
    (bond bond1 : iface_info_bond) (ids : List Nat)
    (hag : table_agree iface_kind t t1) (hm : bond1.members = bond.members)
    (he : bond1.extra_macs = bond.extra_macs) (h : new_members_pass env t bond ids) :
    new_members_pass env t1 bond1 ids := by
  intro p hp
  obtain ⟨h1, h2⟩ := h p hp
  rw [hm, he]
  exact ⟨(is_port_of_agree hag p).2 h1, h2⟩

theorem bond_reconfig_members_pass (env : IfaceEnv) (t : iface_table) (iface_id : Nat)
    (bond : iface_info_bond) (set_attrs : bond_set_attrs) (api : gr_iface_info_bond)
    (hM : set_attrs.MEMBERS = true)
    (hlen : api.member_iface_ids.length ≤ BOND_MAX_MEMBERS)
    (hpass : new_members_pass env t bond api.member_iface_ids) :
    ∃ t2, table_agree iface_kind t t2 ∧
      bond_reconfig_members env t iface_id bond set_attrs api =
        bond_reconfig_primary env t2 { bond with members := api.member_iface_ids }
          set_attrs api := by
  obtain ⟨t', hag, heq⟩ := bond_init_new_members_loop_pass env iface_id bond
    api.member_iface_ids t hpass
  have h0 := heq []
  rw [List.append_nil] at h0
  have hnot : ¬ api.member_iface_ids.length > BOND_MAX_MEMBERS := by omega
  refine ⟨bond_fini_old_members env t' bond api, ?_, ?_⟩
  · exact table_agree_trans hag
      (bond_fini_old_members_loop_agree iface_kind iface_kind_macs_blind
        iface_kind_link_blind env bond api _ t')
  · unfold bond_reconfig_members bond_init_new_members
    simp only [hM, if_true, hnot, if_false, h0]
    simp [bond_init_new_members_loop]

theorem bond_reconfig_result (env : IfaceEnv) (t : iface_table) (iface_id : Nat)
    (bond : iface_info_bond) (set_attrs : bond_set_attrs) (api : gr_iface_info_bond)
    (hb : get_bond t iface_id = some bond) (ret : Int) (bond' : iface_info_bond)
    (h1 : (bond_reconfig_body env t iface_id bond set_attrs api).1 = ret)
    (h2 : (bond_reconfig_body env t iface_id bond set_attrs api).2.2 = bond') :
    ∃ t', bond_reconfig env t iface_id set_attrs api = some (ret, t') ∧
      get_bond t' iface_id = some bond' := by
  obtain ⟨he, hg⟩ := bond_reconfig_eq env t iface_id bond set_attrs api hb
  subst h1
  subst h2
  exact ⟨_, he, hg⟩

/-- C15: `bond_reconfig` fails with `ERANGE` when the MEMBERS attribute is set with
`n_members` greater than the maximum member count, and when the PRIMARY attribute is
set with `primary_member` not smaller than the member count in effect after the
MEMBERS step of the same call; in both cases `bond.primary_member` is left unchanged.
When both indexes are in range and no operation on a member fails, the call succeeds
and stores the requested member list and primary index. -/
theorem bond_reconfig_erange (env : IfaceEnv) (t : iface_table) (iface_id : Nat)
    (bond : iface_info_bond) (set_attrs : bond_set_attrs) (api : gr_iface_info_bond)
    (hb : get_bond t iface_id = some bond) :
    (set_attrs.MEMBERS = true → api.member_iface_ids.length > BOND_MAX_MEMBERS →
      ∃ t' bond', bond_reconfig env t iface_id set_attrs api = some (-(ERANGE : Int), t') ∧
        get_bond t' iface_id = some bond' ∧ bond'.members = bond.members ∧
        bond'.primary_member = bond.primary_member) ∧
    (set_attrs.PRIMARY = true →
      (set_attrs.MEMBERS = true → api.member_iface_ids.length ≤ BOND_MAX_MEMBERS ∧
        new_members_pass env t bond api.member_iface_ids) →
      api.primary_member ≥ (members_after bond set_attrs api).length →
      ∃ t' bond', bond_reconfig env t iface_id set_attrs api = some (-(ERANGE : Int), t') ∧
        get_bond t' iface_id = some bond' ∧
        bond'.primary_member = bond.primary_member) ∧
    ((set_attrs.MEMBERS = true → new_members_pass env t bond api.member_iface_ids) →
      (members_after bond set_attrs api).length ≤ BOND_MAX_MEMBERS →
      (set_attrs.PRIMARY = true →
        api.primary_member < (members_after bond set_attrs api).length) →
      (∀ m ∈ members_after bond set_attrs api, is_port t m ∧
        env.get_eth_addr_errno m = 0 ∧ env.add_eth_addr_errno m api.mac = 0) →
      ∃ t' bond', bond_reconfig env t iface_id set_attrs api = some (0, t') ∧
        get_bond t' iface_id = some bond' ∧
        bond'.members = members_after bond set_attrs api ∧
        (set_attrs.PRIMARY = true → bond'.primary_member = api.primary_member)) := by
  obtain ⟨t1, bond1, hk1, _, hm1, hp1, he1, _, hbody⟩ :=
    bond_reconfig_body_eq env t iface_id bond set_attrs api
  refine ⟨?_, ?_, ?_⟩
  · intro hM hlen
    have hres : bond_reconfig_members env t1 iface_id bond1 set_attrs api
        = (-(ERANGE : Int), t1, bond1) := by
      unfold bond_reconfig_members
      simp only [hM, if_true, hlen]
    obtain ⟨t', h1, h2⟩ := bond_reconfig_result env t iface_id bond set_attrs api hb
      (-(ERANGE : Int)) bond1 (by rw [hbody, hres]) (by rw [hbody, hres])
    exact ⟨t', bond1, h1, h2, hm1, hp1⟩
  · intro hP hpass hge
    by_cases hM : set_attrs.MEMBERS = true
    · obtain ⟨hlen, hnp⟩ := hpass hM
      obtain ⟨t2, _, heq⟩ := bond_reconfig_members_pass env t1 iface_id bond1 set_attrs api
        hM hlen (new_members_pass_of_agree env t t1 bond bond1 _ hk1 hm1 he1 hnp)
      simp only [members_after, hM, if_true] at hge
      have hres : bond_reconfig_members env t1 iface_id bond1 set_attrs api
          = (-(ERANGE : Int), t2, { bond1 with members := api.member_iface_ids }) := by
        rw [heq]
        unfold bond_reconfig_primary
        simp only [hP, if_true, hge]
      obtain ⟨t', h1, h2⟩ := bond_reconfig_result env t iface_id bond set_attrs api hb
        (-(ERANGE : Int)) { bond1 with members := api.member_iface_ids }
        (by rw [hbody, hres]) (by rw [hbody, hres])
      exact ⟨t', _, h1, h2, hp1⟩
    · simp only [members_after, hM, Bool.false_eq_true, if_false] at hge
      have hres : bond_reconfig_members env t1 iface_id bond1 set_attrs api
          = (-(ERANGE : Int), t1, bond1) := by
        unfold bond_reconfig_members bond_reconfig_primary
        rw [hm1]
        simp only [hM, Bool.false_eq_true, if_false, hP, if_true, hge]
      obtain ⟨t', h1, h2⟩ := bond_reconfig_result env t iface_id bond set_attrs api hb
        (-(ERANGE : Int)) bond1 (by rw [hbody, hres]) (by rw [hbody, hres])
      exact ⟨t', bond1, h1, h2, hp1⟩
  · intro hpass hlen hprim hall
    -- the state after the MEMBERS step
    have hstep : ∃ t2 bond2, table_agree iface_kind t t2 ∧
        bond2.members = members_after bond set_attrs api ∧
        bond_reconfig_members env t1 iface_id bond1 set_attrs api =
          bond_reconfig_primary env t2 bond2 set_attrs api := by
      by_cases hM : set_attrs.MEMBERS = true
      · simp only [members_after, hM, if_true] at hlen ⊢
        obtain ⟨t2, hk2, heq⟩ := bond_reconfig_members_pass env t1 iface_id bond1 set_attrs
          api hM hlen (new_members_pass_of_agree env t t1 bond bond1 _ hk1 hm1 he1
            (hpass hM))
        exact ⟨t2, _, table_agree_trans hk1 hk2, rfl, heq⟩
      · refine ⟨t1, bond1, hk1, ?_, ?_⟩
        · simp only [members_after, hM, Bool.false_eq_true, if_false]
          exact hm1
        · unfold bond_reconfig_members
          simp only [hM, Bool.false_eq_true, if_false]
    obtain ⟨t2, bond2, hk2, hm2, heq⟩ := hstep
    have hall2 : ∀ (b : iface_info_bond), b.members = bond2.members →
        ∀ m ∈ b.members, is_port t2 m ∧ env.get_eth_addr_errno m = 0 ∧
          env.add_eth_addr_errno m api.mac = 0 := by
      intro b hbm m hx
      rw [hbm, hm2] at hx
      exact ⟨(is_port_of_agree hk2 m).2 (hall m hx).1, (hall m hx).2⟩
    by_cases hP : set_attrs.PRIMARY = true
    · have hlt := hprim hP
      rw [← hm2] at hlt hlen
      have hnot : ¬ api.primary_member ≥ bond2.members.length := by omega
      obtain ⟨h0, hmem, hpr⟩ := bond_reconfig_active_ok env t2
        { bond2 with primary_member := api.primary_member } set_attrs api hlen
        (hall2 _ rfl)
      have hres : bond_reconfig_members env t1 iface_id bond1 set_attrs api =
          bond_reconfig_active env t2 { bond2 with primary_member := api.primary_member }
            set_attrs api := by
        rw [heq]
        unfold bond_reconfig_primary
        simp only [hP, if_true, hnot, if_false]
      obtain ⟨t', h1, h2⟩ := bond_reconfig_result env t iface_id bond set_attrs api hb 0 _
        (by rw [hbody, hres]; exact h0) rfl
      refine ⟨t', _, h1, h2, ?_, ?_⟩
      · rw [hbody, hres, hmem]
        exact hm2
      · intro _
        rw [hbody, hres, hpr]
    · rw [← hm2] at hlen
      obtain ⟨h0, hmem, _⟩ := bond_reconfig_active_ok env t2 bond2 set_attrs api hlen
        (hall2 _ rfl)
      have hres : bond_reconfig_members env t1 iface_id bond1 set_attrs api =
          bond_reconfig_active env t2 bond2 set_attrs api := by
        rw [heq]
        unfold bond_reconfig_primary
        simp only [hP, Bool.false_eq_true, if_false]
      obtain ⟨t', h1, h2⟩ := bond_reconfig_result env t iface_id bond set_attrs api hb 0 _
        (by rw [hbody, hres]; exact h0) rfl
      refine ⟨t', _, h1, h2, ?_, ?_⟩
      · rw [hbody, hres, hmem]
        exact hm2
      · intro h
        exact absurd h hP

/-- C16: in a `bond_reconfig` call with the MEMBERS attribute set (and a member count
within the maximum, so that the member loop runs), when the listed ids before the
first interface that is not of type PORT are ports that pass without a MAC
propagation failure, the call fails with `EMEDIUMTYPE` and leaves the member list of
the bond, hence `n_members`, unchanged. -/
theorem bond_reconfig_emediumtype (env : IfaceEnv) (t : iface_table) (iface_id : Nat)
    (bond : iface_info_bond) (set_attrs : bond_set_attrs) (api : gr_iface_info_bond)
    (passed rest : List Nat) (x : Nat) (ifx : iface)
    (hb : get_bond t iface_id = some bond) (hM : set_attrs.MEMBERS = true)
    (hlen : api.member_iface_ids.length ≤ BOND_MAX_MEMBERS)
    (hids : api.member_iface_ids = passed ++ x :: rest)
    (hpass : new_members_pass env t bond passed)
    (hx : t x = some ifx) (hk : iface_kind ifx ≠ 0) :
    ∃ t' bond', bond_reconfig env t iface_id set_attrs api
        = some (-(EMEDIUMTYPE : Int), t') ∧
      get_bond t' iface_id = some bond' ∧ bond'.members = bond.members ∧
      bond'.members.length = bond.members.length := by
  obtain ⟨t1, bond1, hk1, _, hm1, _, he1, _, hbody⟩ :=
    bond_reconfig_body_eq env t iface_id bond set_attrs api
  obtain ⟨t2, hk2, heq⟩ := bond_init_new_members_loop_pass env iface_id bond1 passed t1
    (new_members_pass_of_agree env t t1 bond bond1 _ hk1 hm1 he1 hpass)
  have hx2 : ∃ ifx2, t2 x = some ifx2 ∧ iface_kind ifx2 ≠ 0 := by
    have h := (table_agree_trans hk1 hk2) x
    rw [hx] at h
    cases h2 : t2 x with
    | none => simp [h2] at h
    | some i2 =>
      refine ⟨i2, rfl, ?_⟩
      simp only [h2, Option.map_some', Option.some.injEq] at h
      rw [h]
      exact hk
  obtain ⟨ifx2, hx2, hk2'⟩ := hx2
  have hloop := heq (x :: rest)
  rw [bond_init_new_members_loop_not_port env iface_id bond1 x rest t2 ifx2 hx2 hk2'] at hloop
  have hnot : ¬ api.member_iface_ids.length > BOND_MAX_MEMBERS := by omega
  rw [hids] at hnot
  have hres : bond_reconfig_members env t1 iface_id bond1 set_attrs api
      = (-(EMEDIUMTYPE : Int), t2, bond1) := by
    unfold bond_reconfig_members bond_init_new_members
    simp only [hM, if_true, hids, hnot, if_false, hloop]
    simp [EMEDIUMTYPE]
  obtain ⟨t', h1, h2⟩ := bond_reconfig_result env t iface_id bond set_attrs api hb
    (-(EMEDIUMTYPE : Int)) bond1 (by rw [hbody, hres]) (by rw [hbody, hres])
  exact ⟨t', bond1, h1, h2, hm1, by rw [hm1]⟩

/-- Witness of C15 on bond 3 without members: nine member ids give `ERANGE`; the
members `[1, 2]` with primary index 2 give `ERANGE`; the members `[1, 2]` with
primary index 1 are accepted. -/
theorem bond_reconfig_erange_witness :
    (∃ t' bond', bond_reconfig env_ok reconfig_table 3 set_members_primary
        (mk_api 0 0 [1, 2, 1, 2, 1, 2, 1, 2, 1]) = some (-(ERANGE : Int), t') ∧
      get_bond t' 3 = some bond' ∧ bond'.members = [] ∧ bond'.primary_member = 0) ∧
    (∃ t' bond', bond_reconfig env_ok reconfig_table 3 set_members_primary
        (mk_api 0 2 [1, 2]) = some (-(ERANGE : Int), t') ∧
      get_bond t' 3 = some bond' ∧ bond'.primary_member = 0) ∧
    (∃ t' bond', bond_reconfig env_ok reconfig_table 3 set_members_primary
        (mk_api 0 1 [1, 2]) = some (0, t') ∧
      get_bond t' 3 = some bond' ∧ bond'.members = [1, 2] ∧
      (set_members_primary.PRIMARY = true → bond'.primary_member = 1)) :=
  ⟨(bond_reconfig_erange env_ok reconfig_table 3 (mk_bond_info [] 0 UINT8_MAX)
      set_members_primary (mk_api 0 0 [1, 2, 1, 2, 1, 2, 1, 2, 1]) rfl).1 rfl (by decide),
   (bond_reconfig_erange env_ok reconfig_table 3 (mk_bond_info [] 0 UINT8_MAX)
      set_members_primary (mk_api 0 2 [1, 2]) rfl).2.1 rfl
      (fun _ => ⟨by decide, by unfold new_members_pass is_port; decide⟩) (by decide),
   (bond_reconfig_erange env_ok reconfig_table 3 (mk_bond_info [] 0 UINT8_MAX)
      set_members_primary (mk_api 0 1 [1, 2]) rfl).2.2
      (fun _ => by unfold new_members_pass is_port; decide) (by decide)
      (fun _ => by decide) (by unfold is_port; decide)⟩

/-- Witness of C16: the member list `[1, 5]` names port 1 and then the loopback 5;
the call on bond 3 fails with `EMEDIUMTYPE` and bond 3 still has no member. -/
theorem bond_reconfig_emediumtype_witness :
    ∃ t' bond', bond_reconfig env_ok reconfig_table 3 set_members_primary
        (mk_api 0 0 [1, 5]) = some (-(EMEDIUMTYPE : Int), t') ∧
      get_bond t' 3 = some bond' ∧ bond'.members = [] ∧ bond'.members.length = 0 :=
  bond_reconfig_emediumtype env_ok reconfig_table 3 (mk_bond_info [] 0 UINT8_MAX)
    set_members_primary (mk_api 0 0 [1, 5]) [1] [] 5 mk_other rfl rfl (by decide) rfl
    (by unfold new_members_pass is_port; decide) rfl (by decide)

theorem port_link_set_bond_iface_id_self (t : iface_table) (m v : Nat) (hp : is_port t m) :
    port_link (set_bond_iface_id t m v) m = some v := by
  obtain ⟨i, port, hx, hi⟩ := (is_port_iff t m).1 hp
  simp [port_link, set_bond_iface_id, iface_table.modify, hx, hi, iface_link]

theorem port_link_set_bond_iface_id_ne (t : iface_table) (m v x : Nat) (hx : x ≠ m) :
    port_link (set_bond_iface_id t m v) x = port_link t x := by
  simp [port_link, set_bond_iface_id, iface_table.modify, hx]

theorem bond_init_new_members_loop_links (env : IfaceEnv) (iface_id : Nat)
    (bond : iface_info_bond) (ids : List Nat) :
    ∀ t, ¬ (bond_init_new_members_loop env iface_id bond ids t).1 < 0 →
      (∀ p ∈ ids, is_port t p) ∧
      (∀ p ∈ ids, p ∉ bond.members →
        port_link (bond_init_new_members_loop env iface_id bond ids t).2 p
          = some iface_id) ∧
      (∀ x, (x ∉ ids ∨ x ∈ bond.members) →
        port_link (bond_init_new_members_loop env iface_id bond ids t).2 x
          = port_link t x) := by
  induction ids with
  | nil =>
    intro t _
    exact ⟨by simp, by simp, fun x _ => rfl⟩
  | cons id rest ih =>
    intro t hok
    unfold bond_init_new_members_loop at hok ⊢
    cases hx : t id with
    | none => simp [iface_from_id, hx, ENODEV] at hok
    | some member =>
      cases hi : member.info with
      | bond b => simp [iface_from_id, hx, hi, EMEDIUMTYPE] at hok
      | other => simp [iface_from_id, hx, hi, EMEDIUMTYPE] at hok
      | port port =>
        have hpid : is_port t id := (is_port_iff t id).2 ⟨member, port, hx, hi⟩
        simp only [iface_from_id, hx, hi] at hok ⊢
        by_cases hmem : id ∈ bond.members
        · simp only [hmem, if_true] at hok ⊢
          obtain ⟨h0, h1, h2⟩ := ih t hok
          refine ⟨?_, ?_, ?_⟩
          · intro p hp
            rcases List.mem_cons.1 hp with hp | hp
            · rw [hp]
              exact hpid
            · exact h0 p hp
          · intro p hp hnm
            rcases List.mem_cons.1 hp with hp | hp
            · rw [hp] at hnm
              exact absurd hmem hnm
            · exact h1 p hp hnm
          · intro x hxx
            apply h2 x
            rcases hxx with h | h
            · exact Or.inl (fun hr => h (List.mem_cons_of_mem _ hr))
            · exact Or.inr h
        · simp only [hmem, if_false] at hok ⊢
          by_cases hr : (bond_init_new_member_macs env id bond.extra_macs t).1 < 0
          · simp only [hr, if_true] at hok
            exact absurd trivial hok
          · simp only [hr, if_false] at hok ⊢
            have hagk := bond_init_new_member_macs_agree iface_kind iface_kind_macs_blind
              env id bond.extra_macs t
            have hagl := bond_init_new_member_macs_agree iface_link iface_link_macs_blind
              env id bond.extra_macs t
            have hagk2 := table_agree_trans hagk (set_bond_iface_id_agree iface_kind
              iface_kind_link_blind (bond_init_new_member_macs env id bond.extra_macs t).2
              id iface_id)
            obtain ⟨h0, h1, h2⟩ := ih _ hok
            have hself : port_link (set_bond_iface_id
                (bond_init_new_member_macs env id bond.extra_macs t).2 id iface_id) id
                = some iface_id :=
              port_link_set_bond_iface_id_self _ _ _ ((is_port_of_agree hagk id).2 hpid)
            refine ⟨?_, ?_, ?_⟩
            · intro p hp
              rcases List.mem_cons.1 hp with hp | hp
              · rw [hp]
                exact hpid
              · exact (is_port_of_agree hagk2 p).1 (h0 p hp)
            · intro p hp hnm
              by_cases hpr : p ∈ rest
              · exact h1 p hpr hnm
              · have hpe : p = id := by
                  rcases List.mem_cons.1 hp with h | h
                  · exact h
                  · exact absurd h hpr
                rw [h2 p (Or.inl hpr), hpe]
                exact hself
            · intro x hxx
              have hne : x ≠ id := by
                rcases hxx with h | h
                · exact fun he => h (he ▸ List.mem_cons_self _ _)
                · exact fun he => hmem (he ▸ h)
              have hxr : x ∉ rest ∨ x ∈ bond.members := by
                rcases hxx with h | h
                · exact Or.inl (fun hr => h (List.mem_cons_of_mem _ hr))
                · exact Or.inr h
              rw [h2 x hxr, port_link_set_bond_iface_id_ne _ _ _ _ hne]
              exact port_link_of_agree hagl x

theorem bond_fini_old_members_loop_links (env : IfaceEnv) (bond : iface_info_bond)
    (new : gr_iface_info_bond) (ms : List Nat) :
    ∀ t,
      (∀ x ∈ ms, x ∉ new.member_iface_ids → is_port t x →
        port_link (bond_fini_old_members_loop env bond new ms t) x
          = some GR_IFACE_ID_UNDEF) ∧
      (∀ x, (x ∉ ms ∨ x ∈ new.member_iface_ids) →
        port_link (bond_fini_old_members_loop env bond new ms t) x = port_link t x) := by
  induction ms with
  | nil =>
    intro t
    exact ⟨by simp, fun x _ => rfl⟩
  | cons m rest ih =>
    intro t
    unfold bond_fini_old_members_loop
    by_cases hmem : m ∈ new.member_iface_ids
    · simp only [hmem, if_true]
      obtain ⟨h1, h2⟩ := ih t
      refine ⟨?_, ?_⟩
      · intro x hx hn hp
        rcases List.mem_cons.1 hx with hx | hx
        · rw [hx] at hn
          exact absurd hmem hn
        · exact h1 x hx hn hp
      · intro x hxx
        apply h2 x
        rcases hxx with h | h
        · exact Or.inl (fun hr => h (List.mem_cons_of_mem _ hr))
        · exact Or.inr h
    · simp only [hmem, if_false]
      have hagk := bond_fini_old_member_macs_agree iface_kind iface_kind_macs_blind
        env m bond.extra_macs t
      have hagl := bond_fini_old_member_macs_agree iface_link iface_link_macs_blind
        env m bond.extra_macs t
      have hagk2 := table_agree_trans hagk (set_bond_iface_id_agree iface_kind
        iface_kind_link_blind (bond_fini_old_member_macs env m bond.extra_macs t)
        m GR_IFACE_ID_UNDEF)
      obtain ⟨h1, h2⟩ := ih (set_bond_iface_id
        (bond_fini_old_member_macs env m bond.extra_macs t) m GR_IFACE_ID_UNDEF)
      refine ⟨?_, ?_⟩
      · intro x hx hn hp
        by_cases hxr : x ∈ rest
        · exact h1 x hxr hn ((is_port_of_agree hagk2 x).2 hp)
        · have hxe : x = m := by
            rcases List.mem_cons.1 hx with h | h
            · exact h
            · exact absurd h hxr
          subst hxe
          rw [h2 x (Or.inl hxr)]
          apply port_link_set_bond_iface_id_self
          exact (is_port_of_agree hagk x).2 hp
      · intro x hxx
        have hne : x ≠ m := by
          rcases hxx with h | h
          · exact fun he => h (he ▸ List.mem_cons_self _ _)
          · exact fun he => hmem (he ▸ h)
        have hxr : x ∉ rest ∨ x ∈ new.member_iface_ids := by
          rcases hxx with h | h
          · exact Or.inl (fun hr => h (List.mem_cons_of_mem _ hr))
          · exact Or.inr h
        rw [h2 x hxr, port_link_set_bond_iface_id_ne _ _ _ _ hne]
        exact port_link_of_agree hagl x

theorem bond_reconfig_mac_members (env : IfaceEnv) (t : iface_table)
    (bond : iface_info_bond) (set_attrs : bond_set_attrs) (api : gr_iface_info_bond) :
    (bond_reconfig_mac env t bond set_attrs api).2.2.members = bond.members := by
  unfold bond_reconfig_mac
  simp only
  split_ifs <;> rfl

theorem bond_reconfig_active_members (env : IfaceEnv) (t : iface_table)
    (bond : iface_info_bond) (set_attrs : bond_set_attrs) (api : gr_iface_info_bond) :
    (bond_reconfig_active env t bond set_attrs api).2.2.members = bond.members := by
  unfold bond_reconfig_active
  simp only
  split_ifs
  · exact (bond_set_active_members_keeps env t bond).1
  · rw [bond_reconfig_mac_members]
    exact (bond_set_active_members_keeps env t bond).1
  · exact bond_reconfig_mac_members env t bond set_attrs api

theorem bond_reconfig_primary_members (env : IfaceEnv) (t : iface_table)
    (bond : iface_info_bond) (set_attrs : bond_set_attrs) (api : gr_iface_info_bond) :
    (bond_reconfig_primary env t bond set_attrs api).2.2.members = bond.members := by
  unfold bond_reconfig_primary
  split_ifs
  · rfl
  · exact bond_reconfig_active_members env t _ set_attrs api
  · exact bond_reconfig_active_members env t bond set_attrs api

/-- C17, counterexample: bond 3 and then bond 4 are given the member list `[1]`, which
leaves the back-link of port 1 at 4. A further successful `bond_reconfig` of bond 3
with the member list `[1]` skips port 1, which is already a member: port 1 is in the
new list of bond 3 and its `bond_iface_id` is 4. -/
theorem bond_reconfig_members_link_stale :
    bond_reconfig env_ok two_bonds_table 3 set_members (mk_api 0 0 [1])
      = some (0, two_bonds_step1) ∧
    bond_reconfig env_ok two_bonds_step1 4 set_members (mk_api 0 0 [1])
      = some (0, two_bonds_step2) ∧
    (get_bond two_bonds_step2 3).map (fun bond => bond.members) = some [1] ∧
    bond_reconfig env_ok two_bonds_step2 3 set_members (mk_api 0 0 [1])
      = some (0, two_bonds_step3) ∧
    (get_bond two_bonds_step3 3).map (fun bond => bond.members) = some [1] ∧
    is_port two_bonds_step3 1 ∧
    port_link two_bonds_step3 1 = some 4 := by
  refine ⟨rfl, rfl, by decide, rfl, by decide, ?_, by decide⟩
  unfold is_port
  decide

/-- C17, amended: after `bond_reconfig` with the MEMBERS attribute set returns success,
`bond.members` holds the requested ids in request order, with `n_members` equal to the
requested count; every listed id is a port; every port of the new list that was not a
member before the call has `bond_iface_id` equal to the id of the bond, while a port
that was already a member is skipped and keeps the back-link it had; and every port
that was a member before the call and is not in the new list has `bond_iface_id`
equal to `GR_IFACE_ID_UNDEF`. -/
theorem bond_reconfig_members_links (env : IfaceEnv) (t t' : iface_table) (iface_id : Nat)
    (bond : iface_info_bond) (set_attrs : bond_set_attrs) (api : gr_iface_info_bond)
    (hb : get_bond t iface_id = some bond) (hM : set_attrs.MEMBERS = true)
    (hok : bond_reconfig env t iface_id set_attrs api = some (0, t')) :
    ∃ bond', get_bond t' iface_id = some bond' ∧
      bond'.members = api.member_iface_ids ∧
      bond'.members.length = api.member_iface_ids.length ∧
      (∀ p ∈ api.member_iface_ids, is_port t' p) ∧
      (∀ p ∈ api.member_iface_ids, p ∉ bond.members → port_link t' p = some iface_id) ∧
      (∀ p ∈ api.member_iface_ids, p ∈ bond.members → port_link t' p = port_link t p) ∧
      (∀ p ∈ bond.members, p ∉ api.member_iface_ids → is_port t p →
        port_link t' p = some GR_IFACE_ID_UNDEF) := by
  obtain ⟨he, hg⟩ := bond_reconfig_eq env t iface_id bond set_attrs api hb
  rw [he] at hok
  simp only [Option.some.injEq, Prod.mk.injEq] at hok
  obtain ⟨hret, ht'⟩ := hok
  have hwl := bond_reconfig_writeback_agree iface_link iface_link_bond_blind env t iface_id
    bond set_attrs api hb
  have hwk := bond_reconfig_writeback_agree iface_kind iface_kind_bond_blind env t iface_id
    bond set_attrs api hb
  rw [ht'] at hg hwl hwk
  obtain ⟨t1, bond1, hk1, hl1, hm1, _, _, _, hbody⟩ :=
    bond_reconfig_body_eq env t iface_id bond set_attrs api
  rw [hbody] at hret hg hwl hwk
  -- the MEMBERS step has passed, since the call returns 0
  have hlen : ¬ api.member_iface_ids.length > BOND_MAX_MEMBERS := by
    intro h
    unfold bond_reconfig_members at hret
    simp [hM, h, ERANGE] at hret
  have hinit : ¬ (bond_init_new_members_loop env iface_id bond1 api.member_iface_ids t1).1
      < 0 := by
    intro h
    unfold bond_reconfig_members bond_init_new_members at hret
    simp only [hM, if_true, hlen, if_false, h] at hret
    omega
  have hstage : bond_reconfig_members env t1 iface_id bond1 set_attrs api =
      bond_reconfig_primary env
        (bond_fini_old_members_loop env bond1 api bond1.members
          (bond_init_new_members_loop env iface_id bond1 api.member_iface_ids t1).2)
        { bond1 with members := api.member_iface_ids } set_attrs api := by
    unfold bond_reconfig_members bond_init_new_members bond_fini_old_members
    simp only [hM, if_true, hlen, if_false, hinit]
  rw [hstage] at hg hwl hwk
  obtain ⟨hi0, hi1, hi2⟩ := bond_init_new_members_loop_links env iface_id bond1
    api.member_iface_ids t1 hinit
  obtain ⟨hf1, hf2⟩ := bond_fini_old_members_loop_links env bond1 api bond1.members
    (bond_init_new_members_loop env iface_id bond1 api.member_iface_ids t1).2
  have hpl := bond_reconfig_primary_agree iface_link iface_link_macs_blind
    iface_link_active_blind env
    (bond_fini_old_members_loop env bond1 api bond1.members
      (bond_init_new_members_loop env iface_id bond1 api.member_iface_ids t1).2)
    { bond1 with members := api.member_iface_ids } set_attrs api
  have hpk := bond_reconfig_primary_agree iface_kind iface_kind_macs_blind
    iface_kind_active_blind env
    (bond_fini_old_members_loop env bond1 api bond1.members
      (bond_init_new_members_loop env iface_id bond1 api.member_iface_ids t1).2)
    { bond1 with members := api.member_iface_ids } set_attrs api
  have hik := bond_init_new_members_loop_agree iface_kind iface_kind_macs_blind
    iface_kind_link_blind env iface_id bond1 api.member_iface_ids t1
  have hfk := bond_fini_old_members_loop_agree iface_kind iface_kind_macs_blind
    iface_kind_link_blind env bond1 api bond1.members
    (bond_init_new_members_loop env iface_id bond1 api.member_iface_ids t1).2
  have hkall : table_agree iface_kind t t' :=
    table_agree_trans (table_agree_trans (table_agree_trans (table_agree_trans hk1 hik) hfk)
      hpk) hwk
  have hlink : ∀ x, port_link t' x = port_link
      (bond_fini_old_members_loop env bond1 api bond1.members
        (bond_init_new_members_loop env iface_id bond1 api.member_iface_ids t1).2) x :=
    fun x => port_link_of_agree (table_agree_trans hpl hwl) x
  have hmem' := bond_reconfig_primary_members env
    (bond_fini_old_members_loop env bond1 api bond1.members
      (bond_init_new_members_loop env iface_id bond1 api.member_iface_ids t1).2)
    { bond1 with members := api.member_iface_ids } set_attrs api
  refine ⟨_, hg, hmem', by rw [hmem'], ?_, ?_, ?_, ?_⟩
  · intro p hp
    exact (is_port_of_agree hkall p).2 ((is_port_of_agree hk1 p).1 (hi0 p hp))
  · intro p hp hnm
    rw [hlink p, hf2 p (Or.inr hp)]
    exact hi1 p hp (by rw [hm1]; exact hnm)
  · intro p hp hm
    rw [hlink p, hf2 p (Or.inr hp), hi2 p (Or.inr (by rw [hm1]; exact hm))]
    exact port_link_of_agree hl1 p
  · intro p hp hn hport
    rw [hlink p]
    apply hf1 p (by rw [hm1]; exact hp) hn
    exact (is_port_of_agree (table_agree_trans hk1 hik) p).2 hport

/-- Witness of C17, amended: bond 3 without members is given the member list
`[1, 2]`; both ports get the back-link 3. -/
theorem bond_reconfig_members_links_witness :
    ∃ bond', get_bond (match bond_reconfig env_ok reconfig_table 3 set_members
          (mk_api 0 0 [1, 2]) with
        | some r => r.2
        | none => reconfig_table) 3 = some bond' ∧
      bond'.members = [1, 2] ∧ bond'.members.length = 2 ∧
      port_link (match bond_reconfig env_ok reconfig_table 3 set_members
          (mk_api 0 0 [1, 2]) with
        | some r => r.2
        | none => reconfig_table) 1 = some 3 ∧
      port_link (match bond_reconfig env_ok reconfig_table 3 set_members
          (mk_api 0 0 [1, 2]) with
        | some r => r.2
        | none => reconfig_table) 2 = some 3 :=
  have h := bond_reconfig_members_links env_ok reconfig_table
    (match bond_reconfig env_ok reconfig_table 3 set_members (mk_api 0 0 [1, 2]) with
      | some r => r.2
      | none => reconfig_table) 3 (mk_bond_info [] 0 UINT8_MAX) set_members
    (mk_api 0 0 [1, 2]) rfl rfl rfl
  ⟨h.choose, h.choose_spec.1, h.choose_spec.2.1, h.choose_spec.2.2.1,
    h.choose_spec.2.2.2.2.1 1 (by decide) (by decide),
    h.choose_spec.2.2.2.2.1 2 (by decide) (by decide)⟩

theorem port_macs_modify_ne (t : iface_table) (id x : Nat) (f : iface → iface)
    (h : x ≠ id) : port_macs (t.modify id f) x = port_macs t x := by
  simp [port_macs, iface_table.modify, h]

theorem port_macs_add_ne (env : IfaceEnv) (t : iface_table) (id : Nat)
    (mac : rte_ether_addr) (x : Nat) (h : x ≠ id) :
    port_macs (iface_add_eth_addr env t id mac).2 x = port_macs t x := by
  cases hx : t id with
  | none => simp only [iface_add_eth_addr, iface_from_id, hx]
  | some i =>
    simp only [iface_add_eth_addr, iface_from_id, hx]
    cases hi : i.info with
    | port port =>
      simp only
      split_ifs
      · exact port_macs_modify_ne _ _ _ _ h
      · rfl
    | bond b => rfl
    | other => rfl

theorem port_macs_del_ne (env : IfaceEnv) (t : iface_table) (id : Nat)
    (mac : rte_ether_addr) (x : Nat) (h : x ≠ id) :
    port_macs (iface_del_eth_addr env t id mac).2 x = port_macs t x := by
  cases hx : t id with
  | none => simp only [iface_del_eth_addr, iface_from_id, hx]
  | some i =>
    simp only [iface_del_eth_addr, iface_from_id, hx]
    cases hi : i.info with
    | port port =>
      simp only
      split_ifs
      · exact port_macs_modify_ne _ _ _ _ h
      · rfl
    | bond b => rfl
    | other => rfl

theorem port_macs_add_self (env : IfaceEnv) (t : iface_table) (id : Nat)
    (mac : rte_ether_addr) (h : ¬ (iface_add_eth_addr env t id mac).1 < 0) :
    port_macs (iface_add_eth_addr env t id mac).2 id = port_macs t id ++ [mac] := by
  obtain ⟨hp, he⟩ := iface_add_eth_addr_nonneg env t id mac h
  obtain ⟨i, port, hx, hi⟩ := (is_port_iff t id).1 hp
  simp [iface_add_eth_addr, iface_from_id, hx, hi, he, port_macs, iface_table.modify,
    iface_macs]

theorem iface_del_eth_addr_ok (env : IfaceEnv) (t : iface_table) (id : Nat)
    (mac : rte_ether_addr) (hp : is_port t id) (he : env.del_eth_addr_errno id mac = 0) :
    (iface_del_eth_addr env t id mac).1 = 0 ∧
    port_macs (iface_del_eth_addr env t id mac).2 id = (port_macs t id).erase mac := by
  obtain ⟨i, port, hx, hi⟩ := (is_port_iff t id).1 hp
  simp [iface_del_eth_addr, iface_from_id, hx, hi, he, port_macs, iface_table.modify,
    iface_macs]

/-- A successful run of the adding loop of `bond_all_member_mac` appends the address to
the MAC table of each member, once per occurrence in the member list. -/
theorem bond_all_member_mac_loop_add_macs (env : IfaceEnv) (mac : rte_ether_addr)
    (ms : List Nat) :
    ∀ t, ¬ (bond_all_member_mac_loop env mac true ms t).1 < 0 →
      ∀ x, port_macs (bond_all_member_mac_loop env mac true ms t).2 x
        = port_macs t x ++ List.replicate (ms.count x) mac := by
  induction ms with
  | nil =>
    intro t _ x
    simp [bond_all_member_mac_loop]
  | cons m rest ih =>
    intro t hok x
    unfold bond_all_member_mac_loop at hok ⊢
    simp only [if_true] at hok ⊢
    by_cases hr : (iface_add_eth_addr env t m mac).1 < 0
    · simp only [hr, if_true] at hok
      exact absurd trivial hok
    · simp only [hr, if_false] at hok ⊢
      rw [ih _ hok x]
      by_cases hxm : x = m
      · subst hxm
        rw [port_macs_add_self env t x mac hr, List.count_cons_self,
          List.replicate_succ, List.append_assoc]
        rfl
      · rw [port_macs_add_ne env t m mac x hxm, List.count_cons_of_ne hxm]

/-- When every member is a port whose driver accepts the removal, the removing loop of
`bond_all_member_mac` takes one occurrence of the address out of the MAC table of each
member, once per occurrence in the member list. -/
theorem bond_all_member_mac_loop_del_macs (env : IfaceEnv) (mac : rte_ether_addr)
    (ms : List Nat) :
    ∀ t, (∀ m ∈ ms, is_port t m ∧ env.del_eth_addr_errno m mac = 0) →
      ∀ x, (port_macs (bond_all_member_mac_loop env mac false ms t).2 x).count mac
        = (port_macs t x).count mac - ms.count x := by
  induction ms with
  | nil =>
    intro t _ x
    simp [bond_all_member_mac_loop]
  | cons m rest ih =>
    intro t h x
    obtain ⟨hp, he⟩ := h m (List.mem_cons_self _ _)
    obtain ⟨h0, hself⟩ := iface_del_eth_addr_ok env t m mac hp he
    unfold bond_all_member_mac_loop
    simp only [Bool.false_eq_true, if_false, h0, lt_self_iff_false]
    have hrest : ∀ m' ∈ rest, is_port (iface_del_eth_addr env t m mac).2 m' ∧
        env.del_eth_addr_errno m' mac = 0 := by
      intro m' hm'
      obtain ⟨hp', he'⟩ := h m' (List.mem_cons_of_mem _ hm')
      exact ⟨(is_port_of_agree (iface_del_eth_addr_agree iface_kind iface_kind_macs_blind
        env t m mac) m').2 hp', he'⟩
    rw [ih _ hrest x]
    by_cases hxm : x = m
    · subst hxm
      rw [hself, List.count_erase_self, List.count_cons_self]
      omega
    · rw [port_macs_del_ne env t m mac x hxm, List.count_cons_of_ne hxm]

theorem bond_init_new_member_macs_macs_ne (env : IfaceEnv) (id : Nat)
    (macs : List rte_ether_addr) (x : Nat) (h : x ≠ id) :
    ∀ t, port_macs (bond_init_new_member_macs env id macs t).2 x = port_macs t x := by
  induction macs with
  | nil => intro t; rfl
  | cons mac rest ih =>
    intro t
    unfold bond_init_new_member_macs
    simp only
    split_ifs
    · exact port_macs_add_ne env t id mac x h
    · rw [ih]
      exact port_macs_add_ne env t id mac x h

theorem bond_fini_old_member_macs_macs_ne (env : IfaceEnv) (id : Nat)
    (macs : List rte_ether_addr) (x : Nat) (h : x ≠ id) :
    ∀ t, port_macs (bond_fini_old_member_macs env id macs t) x = port_macs t x := by
  induction macs with
  | nil => intro t; rfl
  | cons mac rest ih =>
    intro t
    unfold bond_fini_old_member_macs
    rw [ih]
    exact port_macs_del_ne env t id mac x h

/-- The loop of `bond_init_new_members` leaves the MAC table of every interface that is
already a member, or is not listed, as it is. -/
theorem bond_init_new_members_loop_macs (env : IfaceEnv) (iface_id : Nat)
    (bond : iface_info_bond) (ids : List Nat) (x : Nat) :
    ∀ t, (x ∉ ids ∨ x ∈ bond.members) →
      port_macs (bond_init_new_members_loop env iface_id bond ids t).2 x
        = port_macs t x := by
  induction ids with
  | nil => intro t _; rfl
  | cons id rest ih =>
    intro t hx
    have hxr : x ∉ rest ∨ x ∈ bond.members := by
      rcases hx with h | h
      · exact Or.inl (fun hr => h (List.mem_cons_of_mem _ hr))
      · exact Or.inr h
    unfold bond_init_new_members_loop
    cases hid : t id with
    | none => simp only [iface_from_id, hid]
    | some member =>
      simp only [iface_from_id, hid]
      cases hi : member.info with
      | bond b => rfl
      | other => rfl
      | port port =>
        simp only
        by_cases hmem : id ∈ bond.members
        · simp only [hmem, if_true]
          exact ih t hxr
        · have hne : x ≠ id := by
            rcases hx with h | h
            · exact fun he => h (he ▸ List.mem_cons_self _ _)
            · exact fun he => hmem (he ▸ h)
          simp only [hmem, if_false]
          split_ifs
          · exact bond_init_new_member_macs_macs_ne env id bond.extra_macs x hne t
          · rw [ih _ hxr, port_macs_of_agree (set_bond_iface_id_agree iface_macs
              iface_macs_link_blind _ id iface_id) x]
            exact bond_init_new_member_macs_macs_ne env id bond.extra_macs x hne t

/-- The loop of `bond_fini_old_members` leaves the MAC table of every interface that is
in the new member list, or was not a member, as it is. -/
theorem bond_fini_old_members_loop_macs (env : IfaceEnv) (bond : iface_info_bond)
    (new : gr_iface_info_bond) (ms : List Nat) (x : Nat) :
    ∀ t, (x ∉ ms ∨ x ∈ new.member_iface_ids) →
      port_macs (bond_fini_old_members_loop env bond new ms t) x = port_macs t x := by
  induction ms with
  | nil => intro t _; rfl
  | cons m rest ih =>
    intro t hx
    have hxr : x ∉ rest ∨ x ∈ new.member_iface_ids := by
      rcases hx with h | h
      · exact Or.inl (fun hr => h (List.mem_cons_of_mem _ hr))
      · exact Or.inr h
    unfold bond_fini_old_members_loop
    by_cases hmem : m ∈ new.member_iface_ids
    · simp only [hmem, if_true]
      exact ih t hxr
    · have hne : x ≠ m := by
        rcases hx with h | h
        · exact fun he => h (he ▸ List.mem_cons_self _ _)
        · exact fun he => hmem (he ▸ h)
      simp only [hmem, if_false]
      rw [ih _ hxr, port_macs_of_agree (set_bond_iface_id_agree iface_macs
        iface_macs_link_blind _ m GR_IFACE_ID_UNDEF) x]
      exact bond_fini_old_member_macs_macs_ne env m bond.extra_macs x hne t

theorem bond_reconfig_body_unfold (env : IfaceEnv) (t : iface_table) (iface_id : Nat)
    (bond : iface_info_bond) (set_attrs : bond_set_attrs) (api : gr_iface_info_bond) :
    bond_reconfig_body env t iface_id bond set_attrs api =
      bond_reconfig_members env
        (if set_attrs.MAC && !set_attrs.is_IFACE_SET_ALL
          then (bond_all_member_mac env t bond bond.mac false).2 else t)
        iface_id (if set_attrs.MODE then { bond with mode := api.mode } else bond)
        set_attrs api := rfl

theorem bond_reconfig_mac_success (env : IfaceEnv) (t : iface_table)
    (bond : iface_info_bond) (set_attrs : bond_set_attrs) (api : gr_iface_info_bond)
    (hA : set_attrs.MAC = true) (hM : api.mac ≠ 0)
    (hok : (bond_reconfig_mac env t bond set_attrs api).1 = 0) :
    ¬ (bond_all_member_mac_loop env api.mac true bond.members t).1 < 0 ∧
    (bond_reconfig_mac env t bond set_attrs api).2.1
      = (bond_all_member_mac_loop env api.mac true bond.members t).2 ∧
    (bond_reconfig_mac env t bond set_attrs api).2.2 = { bond with mac := api.mac } := by
  have hc : (set_attrs.MAC && api.mac != 0) = true := by simp [hA, hM]
  unfold bond_reconfig_mac bond_all_member_mac at hok ⊢
  simp only [hc, if_true] at hok ⊢
  by_cases hr : (bond_all_member_mac_loop env api.mac true bond.members t).1 < 0
  · simp only [hr, if_true] at hok
    omega
  · simp only [hr, if_false]
    exact ⟨not_false, trivial, trivial⟩

theorem bond_reconfig_active_success (env : IfaceEnv) (t : iface_table)
    (bond : iface_info_bond) (set_attrs : bond_set_attrs) (api : gr_iface_info_bond)
    (hok : (bond_reconfig_active env t bond set_attrs api).1 = 0) :
    ∃ t2 bond2, table_agree iface_macs t t2 ∧ bond2.members = bond.members ∧
      bond_reconfig_active env t bond set_attrs api
        = bond_reconfig_mac env t2 bond2 set_attrs api := by
  unfold bond_reconfig_active at hok ⊢
  by_cases hc : (set_attrs.MEMBERS || set_attrs.PRIMARY) = true
  · simp only [hc, if_true] at hok ⊢
    by_cases hr : (bond_set_active_members env t bond).1 < 0
    · simp only [hr, if_true] at hok
      omega
    · simp only [hr, if_false]
      exact ⟨_, _, bond_set_active_members_agree iface_macs iface_macs_active_blind env t bond,
        (bond_set_active_members_keeps env t bond).1, rfl⟩
  · simp only [hc, if_false]
    exact ⟨t, bond, table_agree_refl _ _, rfl, rfl⟩

theorem bond_reconfig_primary_success (env : IfaceEnv) (t : iface_table)
    (bond : iface_info_bond) (set_attrs : bond_set_attrs) (api : gr_iface_info_bond)
    (hok : (bond_reconfig_primary env t bond set_attrs api).1 = 0) :
    ∃ bond2, bond2.members = bond.members ∧
      bond_reconfig_primary env t bond set_attrs api
        = bond_reconfig_active env t bond2 set_attrs api := by
  unfold bond_reconfig_primary at hok ⊢
  by_cases hP : set_attrs.PRIMARY = true
  · simp only [hP, if_true] at hok ⊢
    by_cases hr : api.primary_member ≥ bond.members.length
    · simp [hr, ERANGE] at hok
    · simp only [hr, if_false]
      exact ⟨{ bond with primary_member := api.primary_member }, rfl, rfl⟩
  · simp only [hP, if_false]
    exact ⟨bond, rfl, rfl⟩

theorem bond_reconfig_members_success (env : IfaceEnv) (t : iface_table) (iface_id : Nat)
    (bond : iface_info_bond) (set_attrs : bond_set_attrs) (api : gr_iface_info_bond)
    (hok : (bond_reconfig_members env t iface_id bond set_attrs api).1 = 0) :
    ∃ t2 bond2, bond2.members = members_after bond set_attrs api ∧
      (∀ x ∈ bond.members, x ∈ bond2.members → port_macs t2 x = port_macs t x) ∧
      bond_reconfig_members env t iface_id bond set_attrs api
        = bond_reconfig_primary env t2 bond2 set_attrs api := by
  unfold bond_reconfig_members bond_init_new_members bond_fini_old_members at hok ⊢
  unfold members_after
  by_cases hS : set_attrs.MEMBERS = true
  · simp only [hS, if_true] at hok ⊢
    by_cases hl : api.member_iface_ids.length > BOND_MAX_MEMBERS
    · simp [hl, ERANGE] at hok
    · simp only [hl, if_false] at hok ⊢
      by_cases hr : (bond_init_new_members_loop env iface_id bond api.member_iface_ids t).1
          < 0
      · simp only [hr, if_true] at hok
        omega
      · simp only [hr, if_false]
        refine ⟨_, _, rfl, ?_, rfl⟩
        intro x hx hx2
        rw [bond_fini_old_members_loop_macs env bond api bond.members x _ (Or.inr hx2),
          bond_init_new_members_loop_macs env iface_id bond api.member_iface_ids x t
            (Or.inr hx)]
  · simp only [hS, if_false]
    exact ⟨t, bond, rfl, fun _ _ _ => rfl, rfl⟩

/-- A successful `bond_reconfig` reaches the `GR_BOND_SET_MAC` step with the member
list in effect after the `GR_BOND_SET_MEMBERS` step, and with the MAC tables of the
members that stay in the bond as the first step left them. -/
theorem bond_reconfig_members_to_mac (env : IfaceEnv) (t : iface_table) (iface_id : Nat)
    (bond : iface_info_bond) (set_attrs : bond_set_attrs) (api : gr_iface_info_bond)
    (hok : (bond_reconfig_members env t iface_id bond set_attrs api).1 = 0) :
    ∃ t4 bond4, bond4.members = members_after bond set_attrs api ∧
      (∀ x ∈ bond.members, x ∈ bond4.members → port_macs t4 x = port_macs t x) ∧
      bond_reconfig_members env t iface_id bond set_attrs api
        = bond_reconfig_mac env t4 bond4 set_attrs api := by
  obtain ⟨t2, bond2, hm2, hmac2, he2⟩ :=
    bond_reconfig_members_success env t iface_id bond set_attrs api hok
  rw [he2] at hok
  obtain ⟨bond3, hm3, he3⟩ := bond_reconfig_primary_success env t2 bond2 set_attrs api hok
  rw [he3] at hok
  obtain ⟨t4, bond4, hag, hm4, he4⟩ :=
    bond_reconfig_active_success env t2 bond3 set_attrs api hok
  refine ⟨t4, bond4, by rw [hm4, hm3, hm2], ?_, by rw [he2, he3, he4]⟩
  intro x hx hx4
  rw [port_macs_of_agree hag x]
  exact hmac2 x hx (by rw [← hm3, ← hm4]; exact hx4)

/-- C14, counterexample: the address of bond 3, whose only member is port 1, is set to
`0xAA`. Then (1) a successful `bond_reconfig` with the MAC attribute and the zero
address leaves `bond.mac` at `0xAA` and does not put the zero address on the member;
(2) when the driver of port 1 refuses the removal, a successful change to `0xBB`
leaves the previous address `0xAA` in the MAC table of the member; (3) setting the
address `0xAA` again leaves `0xAA`, which is the previous address, in the MAC table of
the member. -/
theorem bond_reconfig_mac_not_propagated :
    bond_reconfig env_ok bond_mac_table 3 set_mac (mk_api 0xAA 0 [])
      = some (0, bond_mac_table_aa) ∧
    (get_bond bond_mac_table_aa 3).map (fun bond => (bond.mac, bond.members))
      = some (0xAA, [1]) ∧
    port_macs bond_mac_table_aa 1 = [0xAA] ∧
    bond_reconfig env_ok bond_mac_table_aa 3 set_mac (mk_api 0 0 [])
      = some (0, bond_mac_table_zero) ∧
    (get_bond bond_mac_table_zero 3).map (fun bond => (bond.mac, bond.members))
      = some (0xAA, [1]) ∧
    port_macs bond_mac_table_zero 1 = [] ∧
    bond_reconfig env_del_fails bond_mac_table_aa 3 set_mac (mk_api 0xBB 0 [])
      = some (0, bond_mac_table_kept) ∧
    (get_bond bond_mac_table_kept 3).map (fun bond => (bond.mac, bond.members))
      = some (0xBB, [1]) ∧
    port_macs bond_mac_table_kept 1 = [0xAA, 0xBB] ∧
    bond_reconfig env_ok bond_mac_table_aa 3 set_mac (mk_api 0xAA 0 [])
      = some (0, bond_mac_table_same) ∧
    (get_bond bond_mac_table_same 3).map (fun bond => (bond.mac, bond.members))
      = some (0xAA, [1]) ∧
    port_macs bond_mac_table_same 1 = [0xAA] := by
  refine ⟨rfl, by decide, by decide, rfl, by decide, by decide, rfl, by decide, by decide,
    rfl, by decide, by decide⟩

/-- C14, amended: after `bond_reconfig` with the MAC attribute set to a non-zero
address M returns success, `bond.mac` equals M and every current member of the bond
has M in its MAC table. If moreover the call is a reconfiguration (not all attribute
bits set), M differs from the previous address of the bond, and every member before
the call is a port whose driver accepts the removal and which holds the previous
address at most once, then the previous address is absent from the MAC table of every
current member that was a member before the call. -/
theorem bond_reconfig_mac_propagated (env : IfaceEnv) (t t' : iface_table) (iface_id : Nat)
    (bond : iface_info_bond) (set_attrs : bond_set_attrs) (api : gr_iface_info_bond)
    (hb : get_bond t iface_id = some bond) (hA : set_attrs.MAC = true)
    (hM : api.mac ≠ 0)
    (hok : bond_reconfig env t iface_id set_attrs api = some (0, t')) :
    ∃ bond', get_bond t' iface_id = some bond' ∧ bond'.mac = api.mac ∧
      bond'.members = members_after bond set_attrs api ∧
      (∀ m ∈ bond'.members, api.mac ∈ port_macs t' m) ∧
      (set_attrs.is_IFACE_SET_ALL = false → api.mac ≠ bond.mac →
        (∀ m ∈ bond.members, is_port t m ∧ env.del_eth_addr_errno m bond.mac = 0 ∧
          (port_macs t m).count bond.mac ≤ 1) →
        ∀ m ∈ bond'.members, m ∈ bond.members → bond.mac ∉ port_macs t' m) := by
  obtain ⟨he, hg⟩ := bond_reconfig_eq env t iface_id bond set_attrs api hb
  rw [he] at hok
  simp only [Option.some.injEq, Prod.mk.injEq] at hok
  obtain ⟨hret, ht'⟩ := hok
  have hw := bond_reconfig_writeback_agree iface_macs iface_macs_bond_blind env t iface_id
    bond set_attrs api hb
  rw [ht'] at hg hw
  rw [bond_reconfig_body_unfold] at hret hg hw
  have hm1 : (if set_attrs.MODE then { bond with mode := api.mode } else bond).members
      = bond.members := by
    split_ifs <;> rfl
  have hafter : members_after
      (if set_attrs.MODE then { bond with mode := api.mode } else bond) set_attrs api
      = members_after bond set_attrs api := by
    unfold members_after
    rw [hm1]
  obtain ⟨t4, bond4, hm4, hmac4, he4⟩ := bond_reconfig_members_to_mac env _ iface_id _
    set_attrs api hret
  rw [he4] at hret hg hw
  obtain ⟨hadd, hst, hsb⟩ := bond_reconfig_mac_success env t4 bond4 set_attrs api hA hM hret
  rw [hsb] at hg
  rw [hst] at hw
  have hmacs : ∀ x, port_macs t' x
      = port_macs t4 x ++ List.replicate (bond4.members.count x) api.mac := by
    intro x
    rw [port_macs_of_agree hw x]
    exact bond_all_member_mac_loop_add_macs env api.mac bond4.members t4 hadd x
  rw [hafter] at hm4
  refine ⟨_, hg, rfl, hm4, ?_, ?_⟩
  · intro m hm
    rw [hmacs m]
    apply List.mem_append_right
    rw [List.mem_replicate]
    exact ⟨fun h0 => (List.count_eq_zero.1 h0) hm, rfl⟩
  · intro hall hne hdel m hm hmo
    have hc : (set_attrs.MAC && !set_attrs.is_IFACE_SET_ALL) = true := by simp [hA, hall]
    simp only [hc, if_true] at hmac4
    have h1 := hmac4 m (by rw [hm1]; exact hmo) hm
    have h2 := bond_all_member_mac_loop_del_macs env bond.mac bond.members t
      (fun x hx => ⟨(hdel x hx).1, (hdel x hx).2.1⟩) m
    have h3 : 0 < bond.members.count m := List.count_pos_iff.2 hmo
    have h4 := (hdel m hmo).2.2
    have h5 : (port_macs t' m).count bond.mac = 0 := by
      rw [hmacs m, List.count_append, h1]
      unfold bond_all_member_mac
      rw [h2, List.count_replicate]
      simp only [beq_iff_eq, hne, if_false]
      omega
    exact fun hin => (List.count_eq_zero.1 h5) hin

/-- Witness of C14, amended: the address of bond 3 is changed from `0xAA` to `0xBB`;
the member, port 1, holds `0xBB` and no longer holds `0xAA`. -/
theorem bond_reconfig_mac_propagated_witness :
    ∃ bond', get_bond bond_mac_table_bb 3 = some bond' ∧ bond'.mac = 0xBB ∧
      bond'.members = [1] ∧ 0xBB ∈ port_macs bond_mac_table_bb 1 ∧
      0xAA ∉ port_macs bond_mac_table_bb 1 :=
  have h := bond_reconfig_mac_propagated env_ok bond_mac_table_aa bond_mac_table_bb 3
    { mk_bond_info [1] 0 0 with mac := 0xAA } set_mac (mk_api 0xBB 0 [])
    rfl rfl (by decide) rfl
  ⟨h.choose, h.choose_spec.1, h.choose_spec.2.1, h.choose_spec.2.2.1,
    h.choose_spec.2.2.2.1 1 (by rw [h.choose_spec.2.2.1]; decide),
    h.choose_spec.2.2.2.2 rfl (by decide)
      (by
        intro m hm
        have hm1 : m = 1 := by simpa [mk_bond_info] using hm
        subst hm1
        refine ⟨?_, rfl, by decide⟩
        unfold is_port
        decide)
      1 (by rw [h.choose_spec.2.2.1]; decide) (by decide)⟩

theorem utf8_step_more (need cnt ch b : Nat) (hn : 2 ≤ need) (hb : utf8_tail b) :
    utf8_step { need := need, cnt := cnt, ch := ch } b
      = some { need := need - 1, cnt := cnt, ch := ch * 64 + b % 0x40 } := by
  unfold utf8_tail at hb
  unfold utf8_step
  rw [if_neg (by simp; omega), if_pos (by omega), if_neg (by simp; omega)]

theorem utf8_step_last (need cnt ch b : Nat) (hn : need = 1) (hb : utf8_tail b) :
    utf8_step { need := need, cnt := cnt, ch := ch } b
      = if utf8_illegal cnt (ch * 64 + b % 0x40) then none else some mbstate_t.zero := by
  unfold utf8_tail at hb
  unfold utf8_step
  rw [if_neg (by simp; omega), if_pos (by omega), if_pos hn]

theorem utf8_step_not_tail (need cnt ch b : Nat) (hn : need ≠ 0) (hb : ¬ utf8_tail b) :
    utf8_step { need := need, cnt := cnt, ch := ch } b = none := by
  unfold utf8_tail at hb
  unfold utf8_step
  rw [if_neg hn, if_neg (by omega)]

theorem mbsrtowcs_loop_more (need cnt ch b : Nat) (rest : List Nat) (n : Nat)
    (hn : 2 ≤ need) (hb : utf8_tail b) :
    mbsrtowcs_loop (b :: rest) { need := need, cnt := cnt, ch := ch } n
      = mbsrtowcs_loop rest { need := need - 1, cnt := cnt, ch := ch * 64 + b % 0x40 }
          n := by
  rw [mbsrtowcs_loop, utf8_step_more need cnt ch b hn hb]
  simp only
  rw [if_neg (by omega)]

theorem mbsrtowcs_loop_last (need cnt ch b : Nat) (rest : List Nat) (n : Nat)
    (hn : need = 1) (hb : utf8_tail b)
    (hok : ¬ utf8_illegal cnt (ch * 64 + b % 0x40)) :
    mbsrtowcs_loop (b :: rest) { need := need, cnt := cnt, ch := ch } n
      = mbsrtowcs_loop rest mbstate_t.zero (n + 1) := by
  rw [mbsrtowcs_loop, utf8_step_last need cnt ch b hn hb, if_neg hok]
  simp only [mbstate_t.zero, if_true]

theorem mbsrtowcs_loop_more_inv (need cnt ch : Nat) (l : List Nat) (n r : Nat)
    (hn : 2 ≤ need)
    (h : mbsrtowcs_loop l { need := need, cnt := cnt, ch := ch } n = some r) :
    ∃ b rest, l = b :: rest ∧ utf8_tail b ∧
      mbsrtowcs_loop rest { need := need - 1, cnt := cnt, ch := ch * 64 + b % 0x40 } n
        = some r := by
  cases l with
  | nil =>
    rw [mbsrtowcs_loop, if_neg (by simp; omega)] at h
    simp at h
  | cons b rest =>
    by_cases hb : utf8_tail b
    · rw [mbsrtowcs_loop_more need cnt ch b rest n hn hb] at h
      exact ⟨b, rest, rfl, hb, h⟩
    · rw [mbsrtowcs_loop, utf8_step_not_tail need cnt ch b (by omega) hb] at h
      simp at h

theorem mbsrtowcs_loop_last_inv (need cnt ch : Nat) (l : List Nat) (n r : Nat)
    (hn : need = 1)
    (h : mbsrtowcs_loop l { need := need, cnt := cnt, ch := ch } n = some r) :
    ∃ b rest, l = b :: rest ∧ utf8_tail b ∧ ¬ utf8_illegal cnt (ch * 64 + b % 0x40) ∧
      mbsrtowcs_loop rest mbstate_t.zero (n + 1) = some r := by
  cases l with
  | nil =>
    rw [mbsrtowcs_loop, if_neg (by simp; omega)] at h
    simp at h
  | cons b rest =>
    by_cases hb : utf8_tail b
    · by_cases hok : utf8_illegal cnt (ch * 64 + b % 0x40)
      · rw [mbsrtowcs_loop, utf8_step_last need cnt ch b hn hb, if_pos hok] at h
        simp at h
      · rw [mbsrtowcs_loop_last need cnt ch b rest n hn hb hok] at h
        exact ⟨b, rest, rfl, hb, hok, h⟩
    · rw [mbsrtowcs_loop, utf8_step_not_tail need cnt ch b (by omega) hb] at h
      simp at h

/-- The first byte of a character: what the decoder does for each class of byte. -/
theorem utf8_step_zero_cases (b : Nat) :
    (((0x80 ≤ b ∧ b < 0xC2) ∨ 0xFE ≤ b) ∧ utf8_step mbstate_t.zero b = none) ∨
    (b < 0x80 ∧ utf8_step mbstate_t.zero b = some mbstate_t.zero) ∨
    (∃ k, ((k = 0 ∧ 0xC2 ≤ b ∧ b ≤ 0xDF) ∨ (k = 1 ∧ 0xE0 ≤ b ∧ b ≤ 0xEF) ∨
        (k = 2 ∧ 0xF0 ≤ b ∧ b ≤ 0xF7) ∨ (k = 3 ∧ 0xF8 ≤ b ∧ b ≤ 0xFB) ∨
        (k = 4 ∧ 0xFC ≤ b ∧ b ≤ 0xFD)) ∧
      utf8_step mbstate_t.zero b
        = some { need := k + 1, cnt := k + 2, ch := b % 2 ^ (5 - k) }) := by
  unfold utf8_step mbstate_t.zero utf8_lead
  simp only [if_true]
  by_cases h0 : b < 0x80
  · right
    left
    exact ⟨h0, by rw [if_pos h0]⟩
  rw [if_neg h0]
  by_cases h2 : 0xC2 ≤ b ∧ b < 0xE0
  · right
    right
    exact ⟨0, Or.inl ⟨rfl, h2.1, by omega⟩, by rw [if_pos h2]; rfl⟩
  rw [if_neg h2]
  by_cases h3 : 0xE0 ≤ b ∧ b < 0xF0
  · right
    right
    exact ⟨1, Or.inr (Or.inl ⟨rfl, h3.1, by omega⟩), by rw [if_pos h3]; rfl⟩
  rw [if_neg h3]
  by_cases h4 : 0xF0 ≤ b ∧ b < 0xF8
  · right
    right
    exact ⟨2, Or.inr (Or.inr (Or.inl ⟨rfl, h4.1, by omega⟩)), by rw [if_pos h4]; rfl⟩
  rw [if_neg h4]
  by_cases h5 : 0xF8 ≤ b ∧ b < 0xFC
  · right
    right
    exact ⟨3, Or.inr (Or.inr (Or.inr (Or.inl ⟨rfl, h5.1, by omega⟩))), by rw [if_pos h5]; rfl⟩
  rw [if_neg h5]
  by_cases h6 : 0xFC ≤ b ∧ b < 0xFE
  · right
    right
    exact ⟨4, Or.inr (Or.inr (Or.inr (Or.inr ⟨rfl, h6.1, by omega⟩))), by rw [if_pos h6]; rfl⟩
  rw [if_neg h6]
  left
  exact ⟨by omega, rfl⟩

theorem utf8_step_lead (k b : Nat)
    (h : (k = 0 ∧ 0xC2 ≤ b ∧ b ≤ 0xDF) ∨ (k = 1 ∧ 0xE0 ≤ b ∧ b ≤ 0xEF) ∨
      (k = 2 ∧ 0xF0 ≤ b ∧ b ≤ 0xF7) ∨ (k = 3 ∧ 0xF8 ≤ b ∧ b ≤ 0xFB) ∨
      (k = 4 ∧ 0xFC ≤ b ∧ b ≤ 0xFD)) :
    utf8_step mbstate_t.zero b
      = some { need := k + 1, cnt := k + 2, ch := b % 2 ^ (5 - k) } := by
  rcases utf8_step_zero_cases b with ⟨h1, _⟩ | ⟨h1, _⟩ | ⟨j, h1, e⟩
  · omega
  · omega
  · have hj : j = k := by omega
    rw [← hj]
    exact e

theorem mbsrtowcs_loop_lead (k b : Nat) (rest : List Nat) (n : Nat)
    (h : (k = 0 ∧ 0xC2 ≤ b ∧ b ≤ 0xDF) ∨ (k = 1 ∧ 0xE0 ≤ b ∧ b ≤ 0xEF) ∨
      (k = 2 ∧ 0xF0 ≤ b ∧ b ≤ 0xF7) ∨ (k = 3 ∧ 0xF8 ≤ b ∧ b ≤ 0xFB) ∨
      (k = 4 ∧ 0xFC ≤ b ∧ b ≤ 0xFD)) :
    mbsrtowcs_loop (b :: rest) mbstate_t.zero n
      = mbsrtowcs_loop rest { need := k + 1, cnt := k + 2, ch := b % 2 ^ (5 - k) } n := by
  rw [mbsrtowcs_loop, utf8_step_lead k b h]
  simp only [Nat.add_one_ne_zero, if_false]

theorem mbsrtowcs_loop_ascii (b : Nat) (rest : List Nat) (n : Nat) (h : b < 0x80) :
    mbsrtowcs_loop (b :: rest) mbstate_t.zero n
      = mbsrtowcs_loop rest mbstate_t.zero (n + 1) := by
  rw [mbsrtowcs_loop]
  have e : utf8_step mbstate_t.zero b = some mbstate_t.zero := by
    unfold utf8_step mbstate_t.zero
    simp only [if_true]
    rw [if_pos h]
  rw [e]
  simp only [mbstate_t.zero, if_true]

/-- The decoder reads one character of `mb_char` and is back in the initial state. -/
theorem mbsrtowcs_loop_char (c : List Nat) (hc : mb_char c) (rest : List Nat) (n : Nat) :
    mbsrtowcs_loop (c ++ rest) mbstate_t.zero n
      = mbsrtowcs_loop rest mbstate_t.zero (n + 1) := by
  unfold mb_char at hc
  rcases hc with ⟨a, rfl, h⟩ | ⟨a, b, rfl, h1, h2, hb⟩ | ⟨a, b, d, rfl, h1, h2, hb, hd, g1, g2⟩ |
    ⟨a, b, d, e, rfl, h1, h2, hb, hd, he, g1⟩ |
    ⟨a, b, d, e, f, rfl, h1, h2, hb, hd, he, hf, g1⟩ |
    ⟨a, b, d, e, f, g, rfl, h1, h2, hb, hd, he, hf, hg, g1⟩
  · exact mbsrtowcs_loop_ascii a rest n h
  · have hb2 := hb
    unfold utf8_tail at hb2
    rw [List.cons_append, List.cons_append, List.nil_append,
      mbsrtowcs_loop_lead 0 a _ n (by omega),
      mbsrtowcs_loop_last _ _ _ b rest n rfl hb]
    unfold utf8_illegal
    norm_num
    omega
  · have hb2 := hb
    have hd2 := hd
    unfold utf8_tail at hb2 hd2
    rw [List.cons_append, List.cons_append, List.cons_append, List.nil_append,
      mbsrtowcs_loop_lead 1 a _ n (by omega),
      mbsrtowcs_loop_more _ _ _ b _ n (by decide) hb,
      mbsrtowcs_loop_last _ _ _ d rest n rfl hd]
    unfold utf8_illegal
    norm_num
    omega
  · have hb2 := hb
    have hd2 := hd
    have he2 := he
    unfold utf8_tail at hb2 hd2 he2
    rw [List.cons_append, List.cons_append, List.cons_append, List.cons_append,
      List.nil_append,
      mbsrtowcs_loop_lead 2 a _ n (by omega),
      mbsrtowcs_loop_more _ _ _ b _ n (by decide) hb,
      mbsrtowcs_loop_more _ _ _ d _ n (by decide) hd,
      mbsrtowcs_loop_last _ _ _ e rest n rfl he]
    unfold utf8_illegal
    norm_num
    omega
  · have hb2 := hb
    have hd2 := hd
    have he2 := he
    have hf2 := hf
    unfold utf8_tail at hb2 hd2 he2 hf2
    rw [List.cons_append, List.cons_append, List.cons_append, List.cons_append,
      List.cons_append, List.nil_append,
      mbsrtowcs_loop_lead 3 a _ n (by omega),
      mbsrtowcs_loop_more _ _ _ b _ n (by decide) hb,
      mbsrtowcs_loop_more _ _ _ d _ n (by decide) hd,
      mbsrtowcs_loop_more _ _ _ e _ n (by decide) he,
      mbsrtowcs_loop_last _ _ _ f rest n rfl hf]
    unfold utf8_illegal
    norm_num
    omega
  · have hb2 := hb
    have hd2 := hd
    have he2 := he
    have hf2 := hf
    have hg2 := hg
    unfold utf8_tail at hb2 hd2 he2 hf2 hg2
    rw [List.cons_append, List.cons_append, List.cons_append, List.cons_append,
      List.cons_append, List.cons_append, List.nil_append,
      mbsrtowcs_loop_lead 4 a _ n (by omega),
      mbsrtowcs_loop_more _ _ _ b _ n (by decide) hb,
      mbsrtowcs_loop_more _ _ _ d _ n (by decide) hd,
      mbsrtowcs_loop_more _ _ _ e _ n (by decide) he,
      mbsrtowcs_loop_more _ _ _ f _ n (by decide) hf,
      mbsrtowcs_loop_last _ _ _ g rest n rfl hg]
    unfold utf8_illegal
    norm_num
    omega

theorem mbsrtowcs_loop_of_valid (l : List Nat) (h : valid_mbs l) :
    ∀ n, ∃ k, mbsrtowcs_loop l mbstate_t.zero n = some k := by
  induction h with
  | nil =>
    intro n
    exact ⟨n, by simp [mbsrtowcs_loop, mbstate_t.zero]⟩
  | cons c rest hc _ ih =>
    intro n
    rw [mbsrtowcs_loop_char c hc rest n]
    exact ih (n + 1)

theorem valid_of_mbsrtowcs_loop (m : Nat) :
    ∀ l : List Nat, l.length ≤ m → ∀ n k, mbsrtowcs_loop l mbstate_t.zero n = some k →
      valid_mbs l := by
  induction m with
  | zero =>
    intro l hl n k _
    have : l = [] := List.length_eq_zero.1 (by omega)
    rw [this]
    exact valid_mbs.nil
  | succ m ih =>
    intro l hl n k h
    cases l with
    | nil => exact valid_mbs.nil
    | cons a rest =>
      simp only [List.length_cons] at hl
      rcases utf8_step_zero_cases a with ⟨_, e⟩ | ⟨ha, _⟩ | ⟨j, hj, _⟩
      · rw [mbsrtowcs_loop, e] at h
        simp at h
      · rw [mbsrtowcs_loop_ascii a rest n ha] at h
        have hv := ih rest (by omega) _ k h
        exact valid_mbs.cons [a] rest (Or.inl ⟨a, rfl, ha⟩) hv
      · rw [mbsrtowcs_loop_lead j a rest n hj] at h
        rcases hj with ⟨rfl, h1, h2⟩ | ⟨rfl, h1, h2⟩ | ⟨rfl, h1, h2⟩ | ⟨rfl, h1, h2⟩ |
          ⟨rfl, h1, h2⟩
        · obtain ⟨b, r1, rfl, hb, hok, h⟩ := mbsrtowcs_loop_last_inv _ _ _ rest n k rfl h
          simp only [List.length_cons] at hl
          have hv := ih r1 (by omega) _ k h
          exact valid_mbs.cons [a, b] r1 (Or.inr (Or.inl ⟨a, b, rfl, h1, h2, hb⟩)) hv
        · obtain ⟨b, r1, rfl, hb, h⟩ :=
            mbsrtowcs_loop_more_inv _ _ _ rest n k (by decide) h
          obtain ⟨d, r2, rfl, hd, hok, h⟩ := mbsrtowcs_loop_last_inv _ _ _ r1 n k rfl h
          simp only [List.length_cons] at hl
          have hv := ih r2 (by omega) _ k h
          refine valid_mbs.cons [a, b, d] r2
            (Or.inr (Or.inr (Or.inl ⟨a, b, d, rfl, h1, h2, hb, hd, ?_, ?_⟩))) hv
          · unfold utf8_illegal at hok
            unfold utf8_tail at hb hd
            norm_num at hok
            omega
          · unfold utf8_illegal at hok
            unfold utf8_tail at hb hd
            norm_num at hok
            omega
        · obtain ⟨b, r1, rfl, hb, h⟩ :=
            mbsrtowcs_loop_more_inv _ _ _ rest n k (by decide) h
          obtain ⟨d, r2, rfl, hd, h⟩ :=
            mbsrtowcs_loop_more_inv _ _ _ r1 n k (by decide) h
          obtain ⟨e, r3, rfl, he, hok, h⟩ := mbsrtowcs_loop_last_inv _ _ _ r2 n k rfl h
          simp only [List.length_cons] at hl
          have hv := ih r3 (by omega) _ k h
          refine valid_mbs.cons [a, b, d, e] r3
            (Or.inr (Or.inr (Or.inr (Or.inl ⟨a, b, d, e, rfl, h1, h2, hb, hd, he, ?_⟩)))) hv
          unfold utf8_illegal at hok
          unfold utf8_tail at hb hd he
          norm_num at hok
          omega
        · obtain ⟨b, r1, rfl, hb, h⟩ :=
            mbsrtowcs_loop_more_inv _ _ _ rest n k (by decide) h
          obtain ⟨d, r2, rfl, hd, h⟩ :=
            mbsrtowcs_loop_more_inv _ _ _ r1 n k (by decide) h
          obtain ⟨e, r3, rfl, he, h⟩ :=
            mbsrtowcs_loop_more_inv _ _ _ r2 n k (by decide) h
          obtain ⟨f, r4, rfl, hf, hok, h⟩ := mbsrtowcs_loop_last_inv _ _ _ r3 n k rfl h
          simp only [List.length_cons] at hl
          have hv := ih r4 (by omega) _ k h
          refine valid_mbs.cons [a, b, d, e, f] r4
            (Or.inr (Or.inr (Or.inr (Or.inr (Or.inl
              ⟨a, b, d, e, f, rfl, h1, h2, hb, hd, he, hf, ?_⟩))))) hv
          unfold utf8_illegal at hok
          unfold utf8_tail at hb hd he hf
          norm_num at hok
          omega
        · obtain ⟨b, r1, rfl, hb, h⟩ :=
            mbsrtowcs_loop_more_inv _ _ _ rest n k (by decide) h
          obtain ⟨d, r2, rfl, hd, h⟩ :=
            mbsrtowcs_loop_more_inv _ _ _ r1 n k (by decide) h
          obtain ⟨e, r3, rfl, he, h⟩ :=
            mbsrtowcs_loop_more_inv _ _ _ r2 n k (by decide) h
          obtain ⟨f, r4, rfl, hf, h⟩ :=
            mbsrtowcs_loop_more_inv _ _ _ r3 n k (by decide) h
          obtain ⟨g, r5, rfl, hg, hok, h⟩ := mbsrtowcs_loop_last_inv _ _ _ r4 n k rfl h
          simp only [List.length_cons] at hl
          have hv := ih r5 (by omega) _ k h
          refine valid_mbs.cons [a, b, d, e, f, g] r5
            (Or.inr (Or.inr (Or.inr (Or.inr (Or.inr
              ⟨a, b, d, e, f, g, rfl, h1, h2, hb, hd, he, hf, hg, ?_⟩))))) hv
          unfold utf8_illegal at hok
          unfold utf8_tail at hb hd he hf hg
          norm_num at hok
          omega

/-- The decoder of `mbsrtowcs` accepts exactly the concatenations of the sequences of
`mb_char`. -/
theorem mbsrtowcs_isSome_iff (buf : List Nat) :
    (mbsrtowcs buf mbstate_t.zero).isSome = true ↔ valid_mbs (c_string buf) := by
  unfold mbsrtowcs
  constructor
  · intro h
    obtain ⟨k, hk⟩ := Option.isSome_iff_exists.1 h
    exact valid_of_mbsrtowcs_loop _ _ (le_refl _) 0 k hk
  · intro h
    obtain ⟨k, hk⟩ := mbsrtowcs_loop_of_valid _ h 0
    rw [hk]
    rfl

/-- Every well-formed UTF-8 character is a multibyte character of glibc. -/
theorem mb_char_of_utf8_char (c : List Nat) (h : utf8_char c) : mb_char c := by
  unfold utf8_char at h
  unfold mb_char
  rcases h with ⟨a, rfl, h⟩ | ⟨a, b, rfl, h1, h2, hb⟩ | ⟨b, d, rfl, h1, h2, hd⟩ |
    ⟨a, b, d, rfl, h1, h2, hb, hd⟩ | ⟨b, d, rfl, h1, h2, hd⟩ |
    ⟨a, b, d, rfl, h1, h2, hb, hd⟩ | ⟨b, d, e, rfl, h1, h2, hd, he⟩ |
    ⟨a, b, d, e, rfl, h1, h2, hb, hd, he⟩ | ⟨b, d, e, rfl, h1, h2, hd, he⟩
  · exact Or.inl ⟨a, rfl, h⟩
  · exact Or.inr (Or.inl ⟨a, b, rfl, h1, h2, hb⟩)
  · exact Or.inr (Or.inr (Or.inl ⟨0xE0, b, d, rfl, by decide, by decide,
      ⟨by omega, h2⟩, hd, fun _ => h1, fun hh => absurd hh (by decide)⟩))
  · exact Or.inr (Or.inr (Or.inl ⟨a, b, d, rfl, by omega, by omega, hb, hd,
      fun hh => by omega, fun hh => by omega⟩))
  · exact Or.inr (Or.inr (Or.inl ⟨0xED, b, d, rfl, by decide, by decide,
      ⟨h1, by omega⟩, hd, fun hh => absurd hh (by decide), fun _ => h2⟩))
  · exact Or.inr (Or.inr (Or.inl ⟨a, b, d, rfl, by omega, by omega, hb, hd,
      fun hh => by omega, fun hh => by omega⟩))
  · exact Or.inr (Or.inr (Or.inr (Or.inl ⟨0xF0, b, d, e, rfl, by decide, by decide,
      ⟨by omega, h2⟩, hd, he, fun _ => h1⟩)))
  · exact Or.inr (Or.inr (Or.inr (Or.inl ⟨a, b, d, e, rfl, by omega, by omega, hb, hd, he,
      fun hh => by omega⟩)))
  · exact Or.inr (Or.inr (Or.inr (Or.inl ⟨0xF4, b, d, e, rfl, by decide, by decide,
      ⟨h1, by omega⟩, hd, he, fun hh => absurd hh (by decide)⟩)))

/-- Every valid UTF-8 sequence is a valid multibyte string of glibc. -/
theorem valid_mbs_of_valid_utf8 (l : List Nat) (h : valid_utf8 l) : valid_mbs l := by
  induction h with
  | nil => exact valid_mbs.nil
  | cons c rest hc _ ih => exact valid_mbs.cons c rest (mb_char_of_utf8_char c hc) ih

/-- A valid UTF-8 sequence is empty or starts with a well-formed character. -/
theorem valid_utf8_inv (l : List Nat) (h : valid_utf8 l) :
    l = [] ∨ ∃ c rest, l = c ++ rest ∧ utf8_char c ∧ valid_utf8 rest := by
  cases h with
  | nil => exact Or.inl rfl
  | cons c rest hc hr => exact Or.inr ⟨c, rest, rfl, hc, hr⟩

/-- No valid UTF-8 sequence starts with a byte from `F5` on, nor with `F4` followed by
a byte from `90` on: these would stand for values above `10FFFF`. -/
theorem not_valid_utf8_above (a b : Nat) (rest : List Nat)
    (h : 0xF5 ≤ a ∨ (a = 0xF4 ∧ 0x90 ≤ b)) : ¬ valid_utf8 (a :: b :: rest) := by
  intro hv
  rcases valid_utf8_inv _ hv with h0 | ⟨c, r, heq, hc, _⟩
  · simp at h0
  · unfold utf8_char at hc
    rcases hc with ⟨x, rfl, h1⟩ | ⟨x, y, rfl, h1, h2, _⟩ | ⟨y, z, rfl, h1, h2, _⟩ |
      ⟨x, y, z, rfl, h1, h2, _, _⟩ | ⟨y, z, rfl, h1, h2, _⟩ |
      ⟨x, y, z, rfl, h1, h2, _, _⟩ | ⟨y, z, w, rfl, h1, h2, _, _⟩ |
      ⟨x, y, z, w, rfl, h1, h2, _, _, _⟩ | ⟨y, z, w, rfl, h1, h2, _, _⟩
    all_goals
      simp only [List.cons_append, List.nil_append, List.cons.injEq] at heq
      omega

theorem c_string_replicate (n a : Nat) (ha : a ≠ 0) (rest : List Nat) :
    c_string (List.replicate n a ++ 0 :: rest) = List.replicate n a := by
  unfold c_string
  induction n with
  | zero => simp
  | succ n ih => simp [List.replicate_succ, List.takeWhile_cons, ha, ih]

/-- C18, counterexample: the name `F4 90 80 80` (the value `110000`) and the name
`F8 88 80 80 80` (a sequence of five bytes) are shorter than the limit 256 and are
not valid UTF-8, yet `utf8_check` returns 0 for both. -/
theorem utf8_check_accepts_non_utf8 :
    strlen name_above_unicode < 256 ∧ ¬ valid_utf8 (c_string name_above_unicode) ∧
    utf8_check name_above_unicode 256 = 0 ∧
    strlen name_five_bytes < 256 ∧ ¬ valid_utf8 (c_string name_five_bytes) ∧
    utf8_check name_five_bytes 256 = 0 := by
  refine ⟨by decide, ?_, by decide, by decide, ?_, by decide⟩
  · have e : c_string name_above_unicode = 0xF4 :: 0x90 :: [0x80, 0x80] := by decide
    rw [e]
    exact not_valid_utf8_above _ _ _ (Or.inr ⟨rfl, by decide⟩)
  · have e : c_string name_five_bytes = 0xF8 :: 0x88 :: [0x80, 0x80, 0x80] := by decide
    rw [e]
    exact not_valid_utf8_above _ _ _ (Or.inl (by decide))

/-- C18, amended: `utf8_check(buf, maxlen)` returns `-ENAMETOOLONG` if and only if
`strlen(buf) >= maxlen`, whatever the bytes are; it returns 0 if and only if the
string is shorter than `maxlen` bytes and is a valid multibyte string of glibc in the
locale `C.UTF-8` (sequences of one to six bytes in their shortest form, no
surrogates); it returns `-EILSEQ` if and only if the string is shorter than `maxlen`
and is not such a string. Every valid UTF-8 sequence shorter than `maxlen` is
accepted. -/
theorem utf8_check_spec (buf : List Nat) (maxlen : Nat) :
    (utf8_check buf maxlen = 0 ↔ strlen buf < maxlen ∧ valid_mbs (c_string buf)) ∧
    (utf8_check buf maxlen = -(ENAMETOOLONG : Int) ↔ strlen buf ≥ maxlen) ∧
    (utf8_check buf maxlen = -(EILSEQ : Int) ↔
      strlen buf < maxlen ∧ ¬ valid_mbs (c_string buf)) ∧
    (strlen buf < maxlen → valid_utf8 (c_string buf) → utf8_check buf maxlen = 0) := by
  have hv := mbsrtowcs_isSome_iff buf
  by_cases hlen : strlen buf ≥ maxlen
  · have hu : utf8_check buf maxlen = -(ENAMETOOLONG : Int) := by
      unfold utf8_check
      rw [if_pos hlen]
    rw [hu]
    refine ⟨?_, ?_, ?_, ?_⟩
    · constructor
      · intro h
        simp [ENAMETOOLONG] at h
      · intro h
        omega
    · exact ⟨fun _ => hlen, fun _ => rfl⟩
    · constructor
      · intro h
        simp [ENAMETOOLONG, EILSEQ] at h
      · intro h
        omega
    · intro h
      omega
  · have hlt : strlen buf < maxlen := by omega
    cases hm : mbsrtowcs buf mbstate_t.zero with
    | none =>
      have hu : utf8_check buf maxlen = -(EILSEQ : Int) := by
        unfold utf8_check
        rw [if_neg hlen, hm]
      have hnv : ¬ valid_mbs (c_string buf) := by
        intro h
        have := hv.2 h
        rw [hm] at this
        exact absurd this (by simp)
      rw [hu]
      refine ⟨?_, ?_, ?_, ?_⟩
      · constructor
        · intro h
          simp [EILSEQ] at h
        · intro h
          exact absurd h.2 hnv
      · constructor
        · intro h
          simp [ENAMETOOLONG, EILSEQ] at h
        · intro h
          exact absurd h hlen
      · exact ⟨fun _ => ⟨hlt, hnv⟩, fun _ => rfl⟩
      · intro _ hu8
        exact absurd (valid_mbs_of_valid_utf8 _ hu8) hnv
    | some k =>
      have hu : utf8_check buf maxlen = 0 := by
        unfold utf8_check
        rw [if_neg hlen, hm]
      have hval : valid_mbs (c_string buf) := hv.1 (by rw [hm]; rfl)
      rw [hu]
      refine ⟨?_, ?_, ?_, ?_⟩
      · exact ⟨fun _ => ⟨hlt, hval⟩, fun _ => rfl⟩
      · constructor
        · intro h
          simp [ENAMETOOLONG] at h
        · intro h
          exact absurd h hlen
      · constructor
        · intro h
          simp [EILSEQ] at h
        · intro h
          exact absurd hval h.2
      · exact fun _ _ => rfl

/-- Witness of C18: a name with the byte `FF` gives `-EILSEQ`, a name of 256
bytes with the limit 256 gives `-ENAMETOOLONG` (also when its bytes are not UTF-8),
the name `é0`, which is valid UTF-8, is accepted, and the name `F4 90 80 80`, which
is accepted, is a valid multibyte string of glibc. -/
theorem utf8_check_spec_witness :
    utf8_check name_bad_byte 256 = -(EILSEQ : Int) ∧
    utf8_check name_256 256 = -(ENAMETOOLONG : Int) ∧
    utf8_check name_256_bad 256 = -(ENAMETOOLONG : Int) ∧
    valid_utf8 (c_string name_accent) ∧
    utf8_check name_accent 256 = 0 ∧
    valid_mbs (c_string name_above_unicode) := by
  have hacc : valid_utf8 (c_string name_accent) := by
    have e : c_string name_accent = [0xC3, 0xA9] ++ ([0x30] ++ []) := by decide
    rw [e]
    refine valid_utf8.cons _ _ (Or.inr (Or.inl ⟨0xC3, 0xA9, rfl, ?_, ?_, ?_⟩))
      (valid_utf8.cons _ _ (Or.inl ⟨0x30, rfl, ?_⟩) valid_utf8.nil)
    · decide
    · decide
    · unfold utf8_tail
      decide
    · decide
  refine ⟨by decide, ?_, ?_, hacc,
    (utf8_check_spec name_accent 256).2.2.2 (by decide) hacc,
    ((utf8_check_spec name_above_unicode 256).1.1 (by decide)).2⟩
  · have h : strlen name_256 ≥ 256 := by
      unfold strlen name_256
      rw [c_string_replicate 256 0x61 (by decide) [], List.length_replicate]
    exact (utf8_check_spec name_256 256).2.1.2 h
  · have h : strlen name_256_bad ≥ 256 := by
      unfold strlen name_256_bad
      rw [c_string_replicate 256 0xFF (by decide) [], List.length_replicate]
    exact (utf8_check_spec name_256_bad 256).2.1.2 h

theorem nexthop_new_some (env : Dnat44Env) (s s1 : ip4_state) (base : nexthop)
    (h : nexthop_new env s base = some s1) :
    s1.iface_vrf = s.iface_vrf ∧ s1.nexthops base.vrf_id base.ipv4 = some base := by
  unfold nexthop_new at h
  cases hn : env.nexthop_new_fails with
  | true => simp [hn] at h
  | false =>
    simp only [hn, Bool.false_eq_true, if_false, Option.some.injEq] at h
    rw [← h]
    simp

theorem nexthop_new_none (env : Dnat44Env) (s : ip4_state) (base : nexthop) :
    nexthop_new env s base = none ↔ env.nexthop_new_fails = true := by
  unfold nexthop_new
  cases env.nexthop_new_fails <;> simp

theorem set_dnat44_nh_data_self (s : ip4_state) (vrf_id : Nat) (ip v : ip4_addr_t) :
    (set_dnat44_nh_data s vrf_id ip v).iface_vrf = s.iface_vrf ∧
    (set_dnat44_nh_data s vrf_id ip v).nexthops vrf_id ip
      = (s.nexthops vrf_id ip).map (fun nh => { nh with replace := v }) := by
  simp [set_dnat44_nh_data]

theorem rib4_insert_nonneg (env : Dnat44Env) (s : ip4_state) (vrf_id : Nat)
    (ip : ip4_addr_t) (prefixlen : Nat) (nh_ip : ip4_addr_t)
    (h : ¬ (rib4_insert env s vrf_id ip prefixlen nh_ip).1 < 0) :
    env.rib4_insert_errno = 0 ∧
    (rib4_insert env s vrf_id ip prefixlen nh_ip).2.iface_vrf = s.iface_vrf ∧
    (rib4_insert env s vrf_id ip prefixlen nh_ip).2.nexthops = s.nexthops := by
  unfold rib4_insert at h ⊢
  by_cases he : env.rib4_insert_errno = 0
  · rw [if_pos he]
    exact ⟨he, rfl, rfl⟩
  · simp only [he, if_false] at h
    omega

theorem rib4_insert_neg (env : Dnat44Env) (s : ip4_state) (vrf_id : Nat)
    (ip : ip4_addr_t) (prefixlen : Nat) (nh_ip : ip4_addr_t)
    (h : (rib4_insert env s vrf_id ip prefixlen nh_ip).1 < 0) :
    (-(rib4_insert env s vrf_id ip prefixlen nh_ip).1).toNat ≠ 0 := by
  omega

theorem snat44_static_rule_add_frame (env : Dnat44Env) (s : ip4_state) (iface_id : Nat)
    (match_ replace : ip4_addr_t) :
    (snat44_static_rule_add env s iface_id match_ replace).2.iface_vrf = s.iface_vrf ∧
    (snat44_static_rule_add env s iface_id match_ replace).2.nexthops = s.nexthops ∧
    (snat44_static_rule_add env s iface_id match_ replace).2.routes = s.routes := by
  unfold snat44_static_rule_add
  split_ifs <;> exact ⟨rfl, rfl, rfl⟩

/-- After an add that returns status 0, the interface of the rule exists and the match
address of its VRF is held by a DNAT next hop with the replace address of the rule;
the interfaces are as before. -/
theorem dnat44_add_ok_lookup (env : Dnat44Env) (s : ip4_state) (req : gr_dnat44_add_req)
    (h : (dnat44_add env s req).1.status = 0) :
    ∃ vrf_id nh, s.iface_vrf req.rule.iface_id = some vrf_id ∧
      (dnat44_add env s req).2.iface_vrf = s.iface_vrf ∧
      nh4_lookup (dnat44_add env s req).2 vrf_id req.rule.match_ = some nh ∧
      nh.type = .DNAT ∧ nh.replace = req.rule.replace := by
  unfold dnat44_add at h ⊢
  cases hv : s.iface_vrf req.rule.iface_id with
  | none => simp [hv, ENODEV] at h
  | some vrf_id =>
    simp only [hv] at h ⊢
    cases hl : nh4_lookup s vrf_id req.rule.match_ with
    | some nh =>
      simp only [hl] at h ⊢
      by_cases hc : nh.type ≠ .DNAT ∨ nh.replace ≠ req.rule.replace
      · simp [hc, EADDRINUSE] at h
      · simp only [hc, if_false] at h ⊢
        have hc' : nh.type = .DNAT ∧ nh.replace = req.rule.replace := by
          constructor
          · by_contra hn
            exact hc (Or.inl hn)
          · by_contra hn
            exact hc (Or.inr hn)
        cases he : req.exist_ok with
        | false => simp [he, EEXIST] at h
        | true =>
          rw [if_pos rfl]
          exact ⟨vrf_id, nh, rfl, rfl, hl, hc'.1, hc'.2⟩
    | none =>
      simp only [hl] at h ⊢
      cases hnew : nexthop_new env s
          { type := .DNAT, vrf_id := vrf_id, iface_id := req.rule.iface_id,
            ipv4 := req.rule.match_, replace := 0 } with
      | none => simp [hnew, ENOMEM] at h
      | some s1 =>
        simp only [hnew] at h ⊢
        obtain ⟨hn1, hn2⟩ := nexthop_new_some env s s1 _ hnew
        obtain ⟨hd1, hd2⟩ := set_dnat44_nh_data_self s1 vrf_id req.rule.match_
          req.rule.replace
        by_cases hr : (rib4_insert env
            (set_dnat44_nh_data s1 vrf_id req.rule.match_ req.rule.replace)
            vrf_id req.rule.match_ 32 req.rule.match_).1 < 0
        · simp only [hr, if_true] at h
          exact absurd h (rib4_insert_neg env _ _ _ _ _ hr)
        · simp only [hr, if_false] at h ⊢
          obtain ⟨_, hi1, hi2⟩ := rib4_insert_nonneg env _ _ _ _ _ hr
          obtain ⟨ha1, ha2, _⟩ := snat44_static_rule_add_frame env
            (rib4_insert env
              (set_dnat44_nh_data s1 vrf_id req.rule.match_ req.rule.replace)
              vrf_id req.rule.match_ 32 req.rule.match_).2
            req.rule.iface_id req.rule.replace req.rule.match_
          by_cases ha : (snat44_static_rule_add env
              (rib4_insert env
                (set_dnat44_nh_data s1 vrf_id req.rule.match_ req.rule.replace)
                vrf_id req.rule.match_ 32 req.rule.match_).2
              req.rule.iface_id req.rule.replace req.rule.match_).1 < 0
          · simp only [ha, if_true] at h
            omega
          · simp only [ha, if_false]
            have hn2' : s1.nexthops vrf_id req.rule.match_ = some
                { type := .DNAT, vrf_id := vrf_id, iface_id := req.rule.iface_id,
                  ipv4 := req.rule.match_, replace := 0 } := hn2
            refine ⟨vrf_id, nexthop.mk .DNAT vrf_id req.rule.iface_id req.rule.match_
              req.rule.replace, rfl, by rw [ha1, hi1, hd1, hn1], ?_, rfl, rfl⟩
            unfold nh4_lookup
            rw [ha2, hi2, hd2, hn2']
            rfl

/-- When the match address is held by a next hop that is not a DNAT entry or has
another replace address, `dnat44_add` returns `EADDRINUSE` and changes nothing. -/
theorem dnat44_add_eaddrinuse (env : Dnat44Env) (s : ip4_state) (req : gr_dnat44_add_req)
    (vrf_id : Nat) (nh : nexthop) (hv : s.iface_vrf req.rule.iface_id = some vrf_id)
    (hl : nh4_lookup s vrf_id req.rule.match_ = some nh)
    (hc : nh.type ≠ .DNAT ∨ nh.replace ≠ req.rule.replace) :
    dnat44_add env s req = ({ status := EADDRINUSE, len := 0 }, s) := by
  unfold dnat44_add
  simp only [hv, hl, hc, if_true]

/-- When the match address is held by a DNAT next hop with the replace address of the
rule, `dnat44_add` returns 0 with `exist_ok` and `EEXIST` without, and changes
nothing. -/
theorem dnat44_add_exists (env : Dnat44Env) (s : ip4_state) (req : gr_dnat44_add_req)
    (vrf_id : Nat) (nh : nexthop) (hv : s.iface_vrf req.rule.iface_id = some vrf_id)
    (hl : nh4_lookup s vrf_id req.rule.match_ = some nh)
    (ht : nh.type = .DNAT) (hr : nh.replace = req.rule.replace) :
    dnat44_add env s req
      = ({ status := if req.exist_ok then 0 else EEXIST, len := 0 }, s) := by
  have hc : ¬ (nh.type ≠ .DNAT ∨ nh.replace ≠ req.rule.replace) := by
    simp [ht, hr]
  unfold dnat44_add
  simp only [hv, hl, hc, if_false]
  cases req.exist_ok <;> rfl

/-- On an existing interface whose match address is free, `dnat44_add` returns 0 when
the next hop, the route and the static NAT rule can be made. -/
theorem dnat44_add_new_ok (env : Dnat44Env) (s : ip4_state) (req : gr_dnat44_add_req)
    (vrf_id : Nat) (hv : s.iface_vrf req.rule.iface_id = some vrf_id)
    (hl : nh4_lookup s vrf_id req.rule.match_ = none)
    (h1 : env.nexthop_new_fails = false) (h2 : env.rib4_insert_errno = 0)
    (h3 : env.snat44_static_rule_add_errno = 0) :
    (dnat44_add env s req).1 = { status := 0, len := 0 } := by
  unfold dnat44_add
  simp only [hv, hl, nexthop_new, h1, Bool.false_eq_true, if_false, rib4_insert, h2, if_true,
    lt_self_iff_false, snat44_static_rule_add, h3]

/-- C19, amended: on an existing interface whose match address is free, `dnat44_add`
returns 0 when the operations it calls succeed. Once `dnat44_add` of a rule has returned status
0, every further add of the identical rule with `exist_ok=true` returns status 0 and
leaves the state, hence the rule set, unchanged, however often it is repeated; the
same add with `exist_ok=false` returns `EEXIST`; an add for the same match address
with another replace address returns `EADDRINUSE` and changes nothing. An add whose
match address is held by a next hop that is not a DNAT entry returns `EADDRINUSE` and
changes nothing. -/
theorem dnat44_add_idempotent (env : Dnat44Env) (s : ip4_state) (rule : gr_dnat44_rule)
    (exist_ok : Bool) :
    (∀ vrf_id, s.iface_vrf rule.iface_id = some vrf_id →
      nh4_lookup s vrf_id rule.match_ = none → env.nexthop_new_fails = false →
      env.rib4_insert_errno = 0 → env.snat44_static_rule_add_errno = 0 →
      (dnat44_add env s { rule := rule, exist_ok := exist_ok }).1.status = 0) ∧
    ((dnat44_add env s { rule := rule, exist_ok := exist_ok }).1.status = 0 →
      (∀ env2, dnat44_add env2 (dnat44_add env s { rule := rule, exist_ok := exist_ok }).2
          { rule := rule, exist_ok := true }
        = ({ status := 0, len := 0 },
            (dnat44_add env s { rule := rule, exist_ok := exist_ok }).2)) ∧
      (∀ envs : List Dnat44Env,
        envs.foldl (fun st e => (dnat44_add e st { rule := rule, exist_ok := true }).2)
          (dnat44_add env s { rule := rule, exist_ok := exist_ok }).2
        = (dnat44_add env s { rule := rule, exist_ok := exist_ok }).2) ∧
      (∀ env2, dnat44_add env2 (dnat44_add env s { rule := rule, exist_ok := exist_ok }).2
          { rule := rule, exist_ok := false }
        = ({ status := EEXIST, len := 0 },
            (dnat44_add env s { rule := rule, exist_ok := exist_ok }).2)) ∧
      (∀ env2 replace ok, replace ≠ rule.replace →
        dnat44_add env2 (dnat44_add env s { rule := rule, exist_ok := exist_ok }).2
          { rule := { rule with replace := replace }, exist_ok := ok }
        = ({ status := EADDRINUSE, len := 0 },
            (dnat44_add env s { rule := rule, exist_ok := exist_ok }).2))) ∧
    (∀ vrf_id nh, s.iface_vrf rule.iface_id = some vrf_id →
      nh4_lookup s vrf_id rule.match_ = some nh → nh.type ≠ .DNAT →
      dnat44_add env s { rule := rule, exist_ok := exist_ok }
        = ({ status := EADDRINUSE, len := 0 }, s)) := by
  refine ⟨?_, ?_, ?_⟩
  · intro vrf_id hv hl h1 h2 h3
    rw [dnat44_add_new_ok env s _ vrf_id hv hl h1 h2 h3]
  · intro h
    obtain ⟨vrf_id, nh, hv, hif, hl, ht, hr⟩ := dnat44_add_ok_lookup env s _ h
    have hv1 : (dnat44_add env s { rule := rule, exist_ok := exist_ok }).2.iface_vrf
        rule.iface_id = some vrf_id := by
      rw [hif]
      exact hv
    have hstep : ∀ env2,
        dnat44_add env2 (dnat44_add env s { rule := rule, exist_ok := exist_ok }).2
          { rule := rule, exist_ok := true }
        = ({ status := 0, len := 0 },
            (dnat44_add env s { rule := rule, exist_ok := exist_ok }).2) :=
      fun env2 => dnat44_add_exists env2 _ { rule := rule, exist_ok := true } vrf_id nh
        hv1 hl ht hr
    refine ⟨hstep, ?_, ?_, ?_⟩
    · intro envs
      induction envs with
      | nil => rfl
      | cons e rest ih =>
        rw [List.foldl_cons, hstep e]
        exact ih
    · intro env2
      exact dnat44_add_exists env2 _ { rule := rule, exist_ok := false } vrf_id nh
        hv1 hl ht hr
    · intro env2 replace ok hne
      exact dnat44_add_eaddrinuse env2 _
        { rule := { rule with replace := replace }, exist_ok := ok } vrf_id nh hv1 hl
        (Or.inr (by rw [hr]; exact fun he => hne he.symm))
  · intro vrf_id nh hv hl ht
    exact dnat44_add_eaddrinuse env s _ vrf_id nh hv hl (Or.inl ht)

/-- Witness of C19: two adds of `{iface=1, match=10.0.0.1, replace=192.168.1.1,
exist_ok=true}` return 0 and the second leaves the state as it is; a third add with
`replace=192.168.1.2` returns `EADDRINUSE`; and an add on a state in which 10.0.0.1
is held by a next hop of another type returns `EADDRINUSE`. -/
theorem dnat44_add_idempotent_witness :
    (dnat44_add dnat44_env_ok ip4_state_empty
      { rule := dnat44_rule_1, exist_ok := true }).1.status = 0 ∧
    dnat44_add dnat44_env_ok ip4_state_rule_1 { rule := dnat44_rule_1, exist_ok := true }
      = ({ status := 0, len := 0 }, ip4_state_rule_1) ∧
    dnat44_add dnat44_env_ok ip4_state_rule_1
      { rule := { dnat44_rule_1 with replace := ip_192_168_1_2 }, exist_ok := true }
      = ({ status := EADDRINUSE, len := 0 }, ip4_state_rule_1) ∧
    dnat44_add dnat44_env_ok ip4_state_other_nh { rule := dnat44_rule_1, exist_ok := true }
      = ({ status := EADDRINUSE, len := 0 }, ip4_state_other_nh) :=
  have h0 := (dnat44_add_idempotent dnat44_env_ok ip4_state_empty dnat44_rule_1 true).1
    0 rfl rfl rfl rfl rfl
  have h := (dnat44_add_idempotent dnat44_env_ok ip4_state_empty dnat44_rule_1 true).2.1 h0
  ⟨h0, h.1 dnat44_env_ok,
    h.2.2.2 dnat44_env_ok ip_192_168_1_2 true (by decide),
    (dnat44_add_idempotent dnat44_env_ok ip4_state_other_nh dnat44_rule_1 true).2.2 0
      { type := .OTHER, vrf_id := 0, iface_id := 1, ipv4 := ip_10_0_0_1, replace := 0 }
      rfl rfl (by decide)⟩

/-- C19, counterexample: interface 1 exists and holds the rule `{match=10.0.0.1,
replace=192.168.1.1}`. The add of `{iface=1, match=10.0.0.2, replace=192.168.1.1}`
with `exist_ok=true` returns `EEXIST`, because `snat44_static_rule_add` refuses the
address pair, and the identical add repeated on the state that the first one left
returns `EEXIST` again: neither returns 0. On the state without any rule, an add with
`exist_ok=true` for which `rib4_insert` fails returns `ENOMEM`. -/
theorem dnat44_add_exist_ok_fails :
    ip4_state_rule_1.iface_vrf dnat44_rule_2.iface_id = some 0 ∧
    (dnat44_add dnat44_env_snat_eexist ip4_state_rule_1
      { rule := dnat44_rule_2, exist_ok := true }).1 = { status := EEXIST, len := 0 } ∧
    (dnat44_add dnat44_env_snat_eexist
      (dnat44_add dnat44_env_snat_eexist ip4_state_rule_1
        { rule := dnat44_rule_2, exist_ok := true }).2
      { rule := dnat44_rule_2, exist_ok := true }).1 = { status := EEXIST, len := 0 } ∧
    (dnat44_add dnat44_env_rib_enomem ip4_state_empty
      { rule := dnat44_rule_1, exist_ok := true }).1 = { status := ENOMEM, len := 0 } := by
  decide

theorem rib4_delete_frame (s : ip4_state) (vrf_id : Nat) (ip : ip4_addr_t)
    (prefixlen : Nat) :
    (rib4_delete s vrf_id ip prefixlen).2.iface_vrf = s.iface_vrf ∧
    (rib4_delete s vrf_id ip prefixlen).2.snat44 = s.snat44 ∧
    (rib4_delete s vrf_id ip prefixlen).2.routes vrf_id ip prefixlen = none ∧
    ∀ w a, (rib4_delete s vrf_id ip prefixlen).2.nexthops w a = none ∨
      (rib4_delete s vrf_id ip prefixlen).2.nexthops w a = s.nexthops w a := by
  unfold rib4_delete
  cases hr : s.routes vrf_id ip prefixlen with
  | none => exact ⟨rfl, rfl, hr, fun w a => Or.inr rfl⟩
  | some nh =>
    refine ⟨rfl, rfl, by simp [nexthop_decref], ?_⟩
    intro w a
    by_cases hk : w = nh.vrf_id ∧ a = nh.ipv4
    · left
      simp [nexthop_decref, hk]
    · right
      simp [nexthop_decref, hk]

theorem snat44_static_rule_del_frame (s : ip4_state) (iface_id : Nat)
    (match_ : ip4_addr_t) :
    (snat44_static_rule_del s iface_id match_).2.iface_vrf = s.iface_vrf ∧
    (snat44_static_rule_del s iface_id match_).2.nexthops = s.nexthops ∧
    (snat44_static_rule_del s iface_id match_).2.routes = s.routes ∧
    (snat44_static_rule_del s iface_id match_).2.snat44 iface_id match_ = none := by
  unfold snat44_static_rule_del
  cases hr : s.snat44 iface_id match_ with
  | none => exact ⟨rfl, rfl, rfl, hr⟩
  | some v => exact ⟨rfl, rfl, rfl, by simp⟩

/-- When the match address is held by a DNAT next hop with the replace address of the
rule, `dnat44_del` returns 0 after `rib4_delete` and `snat44_static_rule_del`. -/
theorem dnat44_del_found (s : ip4_state) (req : gr_dnat44_del_req) (vrf_id : Nat)
    (nh : nexthop) (hv : s.iface_vrf req.rule.iface_id = some vrf_id)
    (hl : nh4_lookup s vrf_id req.rule.match_ = some nh)
    (ht : nh.type = .DNAT) (hr : nh.replace = req.rule.replace) :
    dnat44_del s req = ({ status := 0, len := 0 },
      (snat44_static_rule_del (rib4_delete s vrf_id req.rule.match_ 32).2
        req.rule.iface_id req.rule.replace).2) := by
  have hc : ¬ (nh.type ≠ .DNAT ∨ nh.replace ≠ req.rule.replace) := by
    simp [ht, hr]
  unfold dnat44_del
  simp only [hv, hl, hc, if_false]

theorem dnat44_del_missing (s : ip4_state) (req : gr_dnat44_del_req) (vrf_id : Nat)
    (hv : s.iface_vrf req.rule.iface_id = some vrf_id)
    (hl : nh4_lookup s vrf_id req.rule.match_ = none) :
    dnat44_del s req
      = ({ status := if req.missing_ok then 0 else ENOENT, len := 0 }, s) := by
  unfold dnat44_del
  simp only [hv, hl]
  cases req.missing_ok <;> rfl

theorem dnat44_del_eaddrinuse (s : ip4_state) (req : gr_dnat44_del_req) (vrf_id : Nat)
    (nh : nexthop) (hv : s.iface_vrf req.rule.iface_id = some vrf_id)
    (hl : nh4_lookup s vrf_id req.rule.match_ = some nh)
    (hc : nh.type ≠ .DNAT ∨ nh.replace ≠ req.rule.replace) :
    dnat44_del s req = ({ status := EADDRINUSE, len := 0 }, s) := by
  unfold dnat44_del
  simp only [hv, hl, hc, if_true]

/-- A delete with `missing_ok` returns 0 exactly when the match address is free or
held by a DNAT next hop with the replace address of the rule, and this is still so
after the delete. -/
theorem dnat44_del_missing_ok_step (s : ip4_state) (rule : gr_dnat44_rule) (vrf_id : Nat)
    (hv : s.iface_vrf rule.iface_id = some vrf_id)
    (hP : ∀ nh, nh4_lookup s vrf_id rule.match_ = some nh →
      nh.type = .DNAT ∧ nh.replace = rule.replace) :
    (dnat44_del s { rule := rule, missing_ok := true }).1.status = 0 ∧
    (dnat44_del s { rule := rule, missing_ok := true }).2.iface_vrf rule.iface_id
      = some vrf_id ∧
    ∀ nh, nh4_lookup (dnat44_del s { rule := rule, missing_ok := true }).2 vrf_id
        rule.match_ = some nh → nh.type = .DNAT ∧ nh.replace = rule.replace := by
  cases hl : nh4_lookup s vrf_id rule.match_ with
  | none =>
    rw [dnat44_del_missing s { rule := rule, missing_ok := true } vrf_id hv hl]
    exact ⟨rfl, hv, hP⟩
  | some nh =>
    obtain ⟨ht, hr⟩ := hP nh hl
    rw [dnat44_del_found s { rule := rule, missing_ok := true } vrf_id nh hv hl ht hr]
    obtain ⟨hs1, hs2, _, _⟩ := snat44_static_rule_del_frame
      (rib4_delete s vrf_id rule.match_ 32).2 rule.iface_id rule.replace
    obtain ⟨hd1, _, _, hd4⟩ := rib4_delete_frame s vrf_id rule.match_ 32
    refine ⟨rfl, ?_, ?_⟩
    · show (snat44_static_rule_del (rib4_delete s vrf_id rule.match_ 32).2
        rule.iface_id rule.replace).2.iface_vrf rule.iface_id = some vrf_id
      rw [hs1, hd1]
      exact hv
    · intro nh2 h2
      have h3 : (rib4_delete s vrf_id rule.match_ 32).2.nexthops vrf_id rule.match_
          = some nh2 := by
        have h4 : (snat44_static_rule_del (rib4_delete s vrf_id rule.match_ 32).2
            rule.iface_id rule.replace).2.nexthops vrf_id rule.match_ = some nh2 := h2
        rw [hs2] at h4
        exact h4
      rcases hd4 vrf_id rule.match_ with h5 | h5
      · rw [h5] at h3
        exact absurd h3 (by simp)
      · rw [h5] at h3
        exact hP nh2 h3

theorem dnat44_del_status_zero (s : ip4_state) (rule : gr_dnat44_rule) (vrf_id : Nat)
    (hv : s.iface_vrf rule.iface_id = some vrf_id)
    (h : (dnat44_del s { rule := rule, missing_ok := true }).1.status = 0) :
    ∀ nh, nh4_lookup s vrf_id rule.match_ = some nh →
      nh.type = .DNAT ∧ nh.replace = rule.replace := by
  intro nh hl
  by_contra hc
  have hc' : nh.type ≠ .DNAT ∨ nh.replace ≠ rule.replace := by
    by_cases ht : nh.type = .DNAT
    · right
      exact fun hr => hc ⟨ht, hr⟩
    · left
      exact ht
  rw [dnat44_del_eaddrinuse s { rule := rule, missing_ok := true } vrf_id nh hv hl hc'] at h
  simp [EADDRINUSE] at h

theorem dnat44_del_repeat (rule : gr_dnat44_rule) (vrf_id : Nat) (n : Nat) :
    ∀ s : ip4_state, s.iface_vrf rule.iface_id = some vrf_id →
      (∀ nh, nh4_lookup s vrf_id rule.match_ = some nh →
        nh.type = .DNAT ∧ nh.replace = rule.replace) →
      (dnat44_del
        (Nat.iterate (fun st => (dnat44_del st { rule := rule, missing_ok := true }).2) n s)
        { rule := rule, missing_ok := true }).1.status = 0 := by
  induction n with
  | zero =>
    intro s hv hP
    exact (dnat44_del_missing_ok_step s rule vrf_id hv hP).1
  | succ n ih =>
    intro s hv hP
    obtain ⟨_, hv2, hP2⟩ := dnat44_del_missing_ok_step s rule vrf_id hv hP
    rw [Function.iterate_succ_apply]
    exact ih _ hv2 hP2

/-- C20: for a rule on an existing interface, `dnat44_del` returns 0 and removes the
route and the static NAT rule when a DNAT next hop with the same match and replace
exists; when no next hop exists for the match address it returns 0 if `missing_ok`
is set and `ENOENT` otherwise, and changes nothing; once a delete with
`missing_ok=true` has returned 0, every repetition returns 0; when the next hop is
not a DNAT entry or its replace differs it returns `EADDRINUSE` and changes
nothing. -/
theorem dnat44_del_spec (s : ip4_state) (rule : gr_dnat44_rule) (missing_ok : Bool)
    (vrf_id : Nat) (hv : s.iface_vrf rule.iface_id = some vrf_id) :
    (∀ nh, nh4_lookup s vrf_id rule.match_ = some nh → nh.type = .DNAT →
      nh.replace = rule.replace →
      (dnat44_del s { rule := rule, missing_ok := missing_ok }).1
        = { status := 0, len := 0 } ∧
      (dnat44_del s { rule := rule, missing_ok := missing_ok }).2.routes
        vrf_id rule.match_ 32 = none ∧
      (dnat44_del s { rule := rule, missing_ok := missing_ok }).2.snat44
        rule.iface_id rule.replace = none) ∧
    (nh4_lookup s vrf_id rule.match_ = none →
      dnat44_del s { rule := rule, missing_ok := missing_ok }
        = ({ status := if missing_ok then 0 else ENOENT, len := 0 }, s)) ∧
    ((dnat44_del s { rule := rule, missing_ok := true }).1.status = 0 →
      ∀ n, (dnat44_del
        (Nat.iterate (fun st => (dnat44_del st { rule := rule, missing_ok := true }).2) n s)
        { rule := rule, missing_ok := true }).1.status = 0) ∧
    (∀ nh, nh4_lookup s vrf_id rule.match_ = some nh →
      nh.type ≠ .DNAT ∨ nh.replace ≠ rule.replace →
      dnat44_del s { rule := rule, missing_ok := missing_ok }
        = ({ status := EADDRINUSE, len := 0 }, s)) := by
  refine ⟨?_, ?_, ?_, ?_⟩
  · intro nh hl ht hr
    rw [dnat44_del_found s { rule := rule, missing_ok := missing_ok } vrf_id nh hv hl ht hr]
    obtain ⟨_, _, hs3, hs4⟩ := snat44_static_rule_del_frame
      (rib4_delete s vrf_id rule.match_ 32).2 rule.iface_id rule.replace
    obtain ⟨_, _, hd3, _⟩ := rib4_delete_frame s vrf_id rule.match_ 32
    refine ⟨rfl, ?_, hs4⟩
    show (snat44_static_rule_del (rib4_delete s vrf_id rule.match_ 32).2
      rule.iface_id rule.replace).2.routes vrf_id rule.match_ 32 = none
    rw [hs3]
    exact hd3
  · intro hl
    exact dnat44_del_missing s { rule := rule, missing_ok := missing_ok } vrf_id hv hl
  · intro h n
    exact dnat44_del_repeat rule vrf_id n s hv (dnat44_del_status_zero s rule vrf_id hv h)
  · intro nh hl hc
    exact dnat44_del_eaddrinuse s { rule := rule, missing_ok := missing_ok } vrf_id nh hv
      hl hc

/-- Witness of C20 on the state that holds the rule `{iface=1, match=10.0.0.1,
replace=192.168.1.1}`: the delete returns 0 and removes the route and the static NAT
rule; a delete of the same match with `replace=192.168.1.2` returns `EADDRINUSE` and
changes nothing; on the empty state the delete returns 0 with `missing_ok` and
`ENOENT` without. -/
theorem dnat44_del_spec_witness :
    ip4_state_rule_1.routes 0 ip_10_0_0_1 32 ≠ none ∧
    ip4_state_rule_1.snat44 1 ip_192_168_1_1 = some ip_10_0_0_1 ∧
    (dnat44_del ip4_state_rule_1 { rule := dnat44_rule_1, missing_ok := false }).1
      = { status := 0, len := 0 } ∧
    (dnat44_del ip4_state_rule_1 { rule := dnat44_rule_1, missing_ok := false }).2.routes
      0 ip_10_0_0_1 32 = none ∧
    (dnat44_del ip4_state_rule_1 { rule := dnat44_rule_1, missing_ok := false }).2.snat44
      1 ip_192_168_1_1 = none ∧
    dnat44_del ip4_state_rule_1
      { rule := { dnat44_rule_1 with replace := ip_192_168_1_2 }, missing_ok := true }
      = ({ status := EADDRINUSE, len := 0 }, ip4_state_rule_1) ∧
    dnat44_del ip4_state_empty { rule := dnat44_rule_1, missing_ok := true }
      = ({ status := 0, len := 0 }, ip4_state_empty) ∧
    dnat44_del ip4_state_empty { rule := dnat44_rule_1, missing_ok := false }
      = ({ status := ENOENT, len := 0 }, ip4_state_empty) ∧
    (dnat44_del (dnat44_del ip4_state_rule_1
        { rule := dnat44_rule_1, missing_ok := true }).2
      { rule := dnat44_rule_1, missing_ok := true }).1.status = 0 :=
  have h := (dnat44_del_spec ip4_state_rule_1 dnat44_rule_1 false 0 rfl).1
    (nexthop.mk .DNAT 0 1 ip_10_0_0_1 ip_192_168_1_1) rfl rfl rfl
  ⟨by decide, by decide, h.1, h.2.1, h.2.2,
    (dnat44_del_spec ip4_state_rule_1 { dnat44_rule_1 with replace := ip_192_168_1_2 }
      true 0 rfl).2.2.2 (nexthop.mk .DNAT 0 1 ip_10_0_0_1 ip_192_168_1_1) rfl
      (Or.inr (by decide)),
    (dnat44_del_spec ip4_state_empty dnat44_rule_1 true 0 rfl).2.1 rfl,
    (dnat44_del_spec ip4_state_empty dnat44_rule_1 false 0 rfl).2.1 rfl,
    (dnat44_del_spec ip4_state_rule_1 dnat44_rule_1 true 0 rfl).2.2.1 (by decide) 1⟩


/-- C26: if reading the MAC address of the chosen member fails, `bond_set_active_members`
returns that error and changes nothing: the interface table (hence the ACTIVE bit of
every member) and the private data of the bond (hence `bond.mac` and
`bond.active_member`) are the same as before the call. -/
theorem bond_set_active_members_read_fails (env : IfaceEnv) (t : iface_table)
    (bond : iface_info_bond) (hmode : bond.mode = .ACTIVE_BACKUP)
    (hch : active_member_scan t bond.primary_member bond.members 0 UINT8_MAX ≠ UINT8_MAX)
    (hfail : (iface_get_eth_addr env t (bond.members.getD
      (active_member_scan t bond.primary_member bond.members 0 UINT8_MAX) 0)).1 < 0) :
    (bond_set_active_members env t bond).1 = (iface_get_eth_addr env t (bond.members.getD
      (active_member_scan t bond.primary_member bond.members 0 UINT8_MAX) 0)).1 ∧
    (bond_set_active_members env t bond).1 < 0 ∧
    (bond_set_active_members env t bond).2.1 = t ∧
    (bond_set_active_members env t bond).2.2 = bond ∧
    (bond_set_active_members env t bond).2.2.mac = bond.mac ∧
    (bond_set_active_members env t bond).2.2.active_member = bond.active_member ∧
    ∀ m, member_active (bond_set_active_members env t bond).2.1 m = member_active t m := by
  have h : bond_set_active_members env t bond = ((iface_get_eth_addr env t
      (bond.members.getD
        (active_member_scan t bond.primary_member bond.members 0 UINT8_MAX) 0)).1,
      t, bond) := by
    unfold bond_set_active_members
    rw [hmode]
    simp only
    rw [if_pos hch, if_pos hfail]
  rw [h]
  exact ⟨rfl, hfail, rfl, rfl, rfl, rfl, fun _ => rfl⟩

/-- Witness of C26: ports 1 and 2 of bond 3 are up and running, port 2 is the active
member and port 1, the primary, is chosen; reading the address of port 1 fails with
`EIO`: the call returns `-EIO`, port 2 is still the active member and the bond is
unchanged. -/
theorem bond_set_active_members_read_fails_witness :
    (bond_set_active_members env_get_fails two_members_up_table
      (mk_bond_info [1, 2] 0 1)).1 = -5 ∧
    (bond_set_active_members env_get_fails two_members_up_table
      (mk_bond_info [1, 2] 0 1)).2.2 = mk_bond_info [1, 2] 0 1 ∧
    member_active (bond_set_active_members env_get_fails two_members_up_table
      (mk_bond_info [1, 2] 0 1)).2.1 2 = true ∧
    member_active (bond_set_active_members env_get_fails two_members_up_table
      (mk_bond_info [1, 2] 0 1)).2.1 1 = false :=
  have h := bond_set_active_members_read_fails env_get_fails two_members_up_table
    (mk_bond_info [1, 2] 0 1) rfl (by decide) (by decide)
  ⟨h.1.trans (by decide), h.2.2.2.1, (h.2.2.2.2.2.2 2).trans (by decide),
    (h.2.2.2.2.2.2 1).trans (by decide)⟩

/-- The loop of `bond_init_new_members` over a list that passes, followed by further
ids, continues on the table that the first part leaves. -/
theorem bond_init_new_members_loop_append (env : IfaceEnv) (iface_id : Nat)
    (bond : iface_info_bond) (pre : List Nat) :
    ∀ t, ¬ (bond_init_new_members_loop env iface_id bond pre t).1 < 0 →
      ∀ rest, bond_init_new_members_loop env iface_id bond (pre ++ rest) t =
        bond_init_new_members_loop env iface_id bond rest
          (bond_init_new_members_loop env iface_id bond pre t).2 := by
  induction pre with
  | nil =>
    intro t _ rest
    rfl
  | cons id more ih =>
    intro t hok rest
    rw [List.cons_append]
    have hok2 := hok
    unfold bond_init_new_members_loop at hok2
    cases hx : t id with
    | none => simp [iface_from_id, hx, ENODEV] at hok2
    | some member =>
      cases hi : member.info with
      | bond b => simp [iface_from_id, hx, hi, EMEDIUMTYPE] at hok2
      | other => simp [iface_from_id, hx, hi, EMEDIUMTYPE] at hok2
      | port port =>
        simp only [iface_from_id, hx, hi] at hok2
        by_cases hmem : id ∈ bond.members
        · have e : ∀ l, bond_init_new_members_loop env iface_id bond (id :: l) t
              = bond_init_new_members_loop env iface_id bond l t := by
            intro l
            conv_lhs => unfold bond_init_new_members_loop
            simp only [iface_from_id, hx, hi, hmem, if_true]
          rw [e more] at hok ⊢
          rw [e (more ++ rest)]
          exact ih t hok rest
        · by_cases hr : (bond_init_new_member_macs env id bond.extra_macs t).1 < 0
          · simp only [hmem, if_false, hr, if_true] at hok2
            exact absurd trivial hok2
          · have e : ∀ l, bond_init_new_members_loop env iface_id bond (id :: l) t
                = bond_init_new_members_loop env iface_id bond l
                  (set_bond_iface_id (bond_init_new_member_macs env id bond.extra_macs t).2
                    id iface_id) := by
              intro l
              conv_lhs => unfold bond_init_new_members_loop
              simp only [iface_from_id, hx, hi, hmem, if_false, hr]
            rw [e more] at hok ⊢
            rw [e (more ++ rest)]
            exact ih _ hok rest

theorem bond_init_new_members_loop_pass_ok (env : IfaceEnv) (iface_id : Nat)
    (bond : iface_info_bond) (pre : List Nat) (t : iface_table)
    (h : new_members_pass env t bond pre) :
    (bond_init_new_members_loop env iface_id bond pre t).1 = 0 := by
  obtain ⟨t', _, heq⟩ := bond_init_new_members_loop_pass env iface_id bond pre t h
  have h1 := heq []
  rw [List.append_nil] at h1
  rw [h1]
  rfl

/-- The loop that configures the extra addresses on a new member fails with the errno
of the first address that the driver of the port refuses. -/
theorem bond_init_new_member_macs_fails (env : IfaceEnv) (id : Nat)
    (macs : List rte_ether_addr) :
    ∀ t, is_port t id → (∃ mac ∈ macs, env.add_eth_addr_errno id mac ≠ 0) →
      (bond_init_new_member_macs env id macs t).1 < 0 ∧
      ∃ mac ∈ macs, env.add_eth_addr_errno id mac ≠ 0 ∧
        (bond_init_new_member_macs env id macs t).1
          = -(env.add_eth_addr_errno id mac : Int) := by
  induction macs with
  | nil =>
    intro t _ h
    obtain ⟨mac, hm, _⟩ := h
    simp at hm
  | cons mac more ih =>
    intro t hp h
    obtain ⟨i, port, hx, hi⟩ := (is_port_iff t id).1 hp
    unfold bond_init_new_member_macs
    by_cases he : env.add_eth_addr_errno id mac = 0
    · have h0 := iface_add_eth_addr_ok env t id mac hp he
      simp only [h0, lt_self_iff_false, if_false]
      have hp2 : is_port (iface_add_eth_addr env t id mac).2 id :=
        (is_port_of_agree (iface_add_eth_addr_agree iface_kind iface_kind_macs_blind
          env t id mac) id).2 hp
      have hmore : ∃ m ∈ more, env.add_eth_addr_errno id m ≠ 0 := by
        obtain ⟨m, hm, hne⟩ := h
        rcases List.mem_cons.1 hm with hm | hm
        · rw [hm] at hne
          exact absurd he hne
        · exact ⟨m, hm, hne⟩
      obtain ⟨h1, m, hm, hne, h2⟩ := ih _ hp2 hmore
      exact ⟨h1, m, List.mem_cons_of_mem _ hm, hne, h2⟩
    · have h1 : (iface_add_eth_addr env t id mac).1 = -(env.add_eth_addr_errno id mac : Int) := by
        simp [iface_add_eth_addr, iface_from_id, hx, hi, he]
      have hneg : (iface_add_eth_addr env t id mac).1 < 0 := by
        rw [h1]
        omega
      rw [if_pos hneg]
      exact ⟨hneg, mac, List.mem_cons_self _ _, he, h1⟩

/-- The ways in which `bond_init_new_members` fails at the listed id `x`: the id is
unknown, the interface is not a port, or it is a port that is not yet a member and
whose driver refuses one of the extra addresses of the bond. -/
theorem bond_init_new_members_loop_fails (env : IfaceEnv) (iface_id : Nat)
    (bond : iface_info_bond) (x : Nat) (rest : List Nat) (t : iface_table)
    (h : t x = none ∨ (∃ ifx, t x = some ifx ∧ iface_kind ifx ≠ 0) ∨
      (is_port t x ∧ x ∉ bond.members ∧
        ∃ mac ∈ bond.extra_macs, env.add_eth_addr_errno x mac ≠ 0)) :
    (bond_init_new_members_loop env iface_id bond (x :: rest) t).1 < 0 ∧
    table_agree iface_link t (bond_init_new_members_loop env iface_id bond (x :: rest) t).2 ∧
    (t x = none →
      (bond_init_new_members_loop env iface_id bond (x :: rest) t).1 = -(ENODEV : Int)) ∧
    ((∃ ifx, t x = some ifx ∧ iface_kind ifx ≠ 0) →
      (bond_init_new_members_loop env iface_id bond (x :: rest) t).1
        = -(EMEDIUMTYPE : Int)) ∧
    (is_port t x → ∃ mac ∈ bond.extra_macs, env.add_eth_addr_errno x mac ≠ 0 ∧
      (bond_init_new_members_loop env iface_id bond (x :: rest) t).1
        = -(env.add_eth_addr_errno x mac : Int)) := by
  rcases h with h | ⟨ifx, hx, hk⟩ | ⟨hp, hnm, hmac⟩
  · have he : bond_init_new_members_loop env iface_id bond (x :: rest) t
        = (-(ENODEV : Int), t) := by
      unfold bond_init_new_members_loop
      simp only [iface_from_id, h]
    rw [he]
    refine ⟨by simp [ENODEV], table_agree_refl _ _, fun _ => rfl, ?_, ?_⟩
    · rintro ⟨ifx, hx, _⟩
      rw [h] at hx
      exact absurd hx (by simp)
    · intro hp
      obtain ⟨i, port, hx, _⟩ := (is_port_iff t x).1 hp
      rw [h] at hx
      exact absurd hx (by simp)
  · rw [bond_init_new_members_loop_not_port env iface_id bond x rest t ifx hx hk]
    refine ⟨by simp [EMEDIUMTYPE], table_agree_refl _ _, ?_, fun _ => rfl, ?_⟩
    · intro hn
      rw [hn] at hx
      exact absurd hx (by simp)
    · intro hp
      obtain ⟨i, port, hx2, hi⟩ := (is_port_iff t x).1 hp
      rw [hx] at hx2
      simp only [Option.some.injEq] at hx2
      subst hx2
      simp [iface_kind, hi] at hk
  · obtain ⟨i, port, hx, hi⟩ := (is_port_iff t x).1 hp
    obtain ⟨hneg, mac, hm, hne, hval⟩ :=
      bond_init_new_member_macs_fails env x bond.extra_macs t hp hmac
    have he : bond_init_new_members_loop env iface_id bond (x :: rest) t
        = ((bond_init_new_member_macs env x bond.extra_macs t).1,
            (bond_init_new_member_macs env x bond.extra_macs t).2) := by
      conv_lhs => unfold bond_init_new_members_loop
      simp only [iface_from_id, hx, hi, hnm, if_false, hneg, if_true]
    rw [he]
    refine ⟨hneg, bond_init_new_member_macs_agree iface_link iface_link_macs_blind env x _ t,
      ?_, ?_, fun _ => ⟨mac, hm, hne, hval⟩⟩
    · intro hn
      rw [hn] at hx
      exact absurd hx (by simp)
    · rintro ⟨ifx, hx2, hk⟩
      rw [hx] at hx2
      simp only [Option.some.injEq] at hx2
      subst hx2
      simp [iface_kind, hi] at hk

theorem not_port_of_agree {t t' : iface_table} (h : table_agree iface_kind t t') (x : Nat) :
    ((∃ ifx, t x = some ifx ∧ iface_kind ifx ≠ 0) →
      ∃ ifx, t' x = some ifx ∧ iface_kind ifx ≠ 0) ∧
    (t x = none → t' x = none) := by
  have hx := h x
  constructor
  · rintro ⟨ifx, h1, h2⟩
    rw [h1] at hx
    cases h3 : t' x with
    | none => simp [h3] at hx
    | some ifx2 =>
      rw [h3] at hx
      simp only [Option.map_some', Option.some.injEq] at hx
      exact ⟨ifx2, rfl, by rw [hx]; exact h2⟩
  · intro h1
    rw [h1] at hx
    cases h3 : t' x with
    | none => rfl
    | some ifx2 => simp [h3] at hx

/-- C27: when `bond_init_new_members` fails at a listed member (unknown id, interface
that is not a port, or failed propagation of an extra MAC) after the ids listed before
it have passed, `bond_reconfig` returns the error and leaves `bond.members`, hence
`n_members`, unchanged, while every new member processed before the failing one has
`bond_iface_id` equal to the id of the bond: these ports carry a back-link to a bond
that does not list them. -/
theorem bond_reconfig_init_fails_links (env : IfaceEnv) (t : iface_table) (iface_id : Nat)
    (bond : iface_info_bond) (set_attrs : bond_set_attrs) (api : gr_iface_info_bond)
    (passed rest : List Nat) (x : Nat)
    (hb : get_bond t iface_id = some bond) (hM : set_attrs.MEMBERS = true)
    (hlen : api.member_iface_ids.length ≤ BOND_MAX_MEMBERS)
    (hids : api.member_iface_ids = passed ++ x :: rest)
    (hpass : new_members_pass env t bond passed)
    (hx : t x = none ∨ (∃ ifx, t x = some ifx ∧ iface_kind ifx ≠ 0) ∨
      (is_port t x ∧ x ∉ bond.members ∧
        ∃ mac ∈ bond.extra_macs, env.add_eth_addr_errno x mac ≠ 0)) :
    ∃ ret t' bond', bond_reconfig env t iface_id set_attrs api = some (ret, t') ∧
      ret < 0 ∧
      (t x = none → ret = -(ENODEV : Int)) ∧
      ((∃ ifx, t x = some ifx ∧ iface_kind ifx ≠ 0) → ret = -(EMEDIUMTYPE : Int)) ∧
      (is_port t x → ∃ mac ∈ bond.extra_macs, env.add_eth_addr_errno x mac ≠ 0 ∧
        ret = -(env.add_eth_addr_errno x mac : Int)) ∧
      get_bond t' iface_id = some bond' ∧ bond'.members = bond.members ∧
      bond'.members.length = bond.members.length ∧
      ∀ p ∈ passed, p ∉ bond.members →
        port_link t' p = some iface_id ∧ p ∉ bond'.members := by
  obtain ⟨he, hg⟩ := bond_reconfig_eq env t iface_id bond set_attrs api hb
  have hwl := bond_reconfig_writeback_agree iface_link iface_link_bond_blind env t iface_id
    bond set_attrs api hb
  obtain ⟨t1, bond1, hk1, hl1, hm1, _, he1, _, hbody⟩ :=
    bond_reconfig_body_eq env t iface_id bond set_attrs api
  rw [hbody] at he hg hwl
  have hpass1 := new_members_pass_of_agree env t t1 bond bond1 passed hk1 hm1 he1 hpass
  have hok1 := bond_init_new_members_loop_pass_ok env iface_id bond1 passed t1 hpass1
  have hnn : ¬ (bond_init_new_members_loop env iface_id bond1 passed t1).1 < 0 := by
    rw [hok1]
    exact lt_irrefl 0
  have happ := bond_init_new_members_loop_append env iface_id bond1 passed t1 hnn (x :: rest)
  obtain ⟨_, hlk, _⟩ := bond_init_new_members_loop_links env iface_id bond1 passed t1 hnn
  have hk2 : table_agree iface_kind t
      (bond_init_new_members_loop env iface_id bond1 passed t1).2 :=
    table_agree_trans hk1 (bond_init_new_members_loop_agree iface_kind iface_kind_macs_blind
      iface_kind_link_blind env iface_id bond1 passed t1)
  obtain ⟨hnp, hnone⟩ := not_port_of_agree hk2 x
  have hk3 : table_agree iface_kind
      (bond_init_new_members_loop env iface_id bond1 passed t1).2 t :=
    fun y => (hk2 y).symm
  obtain ⟨hnp', hnone'⟩ := not_port_of_agree hk3 x
  have hx2 : (bond_init_new_members_loop env iface_id bond1 passed t1).2 x = none ∨
      (∃ ifx, (bond_init_new_members_loop env iface_id bond1 passed t1).2 x = some ifx ∧
        iface_kind ifx ≠ 0) ∨
      (is_port (bond_init_new_members_loop env iface_id bond1 passed t1).2 x ∧
        x ∉ bond1.members ∧
        ∃ mac ∈ bond1.extra_macs, env.add_eth_addr_errno x mac ≠ 0) := by
    rcases hx with h | h | ⟨h1, h2, h3⟩
    · exact Or.inl (hnone h)
    · exact Or.inr (Or.inl (hnp h))
    · exact Or.inr (Or.inr ⟨(is_port_of_agree hk2 x).2 h1, by rw [hm1]; exact h2,
        by rw [he1]; exact h3⟩)
  obtain ⟨hneg, hagl, hc1, hc2, hc3⟩ := bond_init_new_members_loop_fails env iface_id bond1 x
    rest (bond_init_new_members_loop env iface_id bond1 passed t1).2 hx2
  rw [← happ, ← hids] at hneg hagl hc1 hc2 hc3
  have hnot : ¬ api.member_iface_ids.length > BOND_MAX_MEMBERS := by omega
  have hstage : bond_reconfig_members env t1 iface_id bond1 set_attrs api =
      ((bond_init_new_members_loop env iface_id bond1 api.member_iface_ids t1).1,
        (bond_init_new_members_loop env iface_id bond1 api.member_iface_ids t1).2,
        bond1) := by
    unfold bond_reconfig_members bond_init_new_members
    simp only [hM, if_true, hnot, if_false, hneg]
  rw [hstage] at he hg hwl
  refine ⟨_, _, bond1, he, hneg, ?_, ?_, ?_, hg, hm1, by rw [hm1], ?_⟩
  · intro h
    exact hc1 (hnone h)
  · intro h
    exact hc2 (hnp h)
  · intro h
    obtain ⟨mac, hm, hne, hv⟩ := hc3 ((is_port_of_agree hk2 x).2 h)
    exact ⟨mac, by rw [← he1]; exact hm, hne, hv⟩
  · intro p hp hnm
    refine ⟨?_, by rw [hm1]; exact hnm⟩
    have h1 : port_link (bond_init_new_members_loop env iface_id bond1 passed t1).2 p
        = some iface_id := hlk p hp (by rw [hm1]; exact hnm)
    have h2 := port_link_of_agree hagl p
    have h3 := port_link_of_agree hwl p
    show port_link (set_bond
      (bond_init_new_members_loop env iface_id bond1 api.member_iface_ids t1).2 iface_id
      bond1) p = some iface_id
    rw [h3, h2]
    exact h1

/-- Witness of C27: bond 3 has no member and is given the member list `[1, 5]`, where 1
is a port and 5 a loopback. The call fails with `EMEDIUMTYPE`, bond 3 still has no
member and port 1 has the back-link 3. -/
theorem bond_reconfig_init_fails_links_witness :
    ∃ ret t' bond', bond_reconfig env_ok reconfig_table 3 set_members (mk_api 0 0 [1, 5])
        = some (ret, t') ∧
      ret = -(EMEDIUMTYPE : Int) ∧ get_bond t' 3 = some bond' ∧ bond'.members = [] ∧
      port_link t' 1 = some 3 :=
  have h := bond_reconfig_init_fails_links env_ok reconfig_table 3
    (mk_bond_info [] 0 UINT8_MAX) set_members (mk_api 0 0 [1, 5]) [1] [] 5
    rfl rfl (by decide) rfl
    (by
      intro p hp
      have hp1 : p = 1 := by simpa using hp
      subst hp1
      refine ⟨?_, Or.inr (by simp [mk_bond_info])⟩
      unfold is_port
      decide)
    (Or.inr (Or.inl ⟨mk_other, rfl, by decide⟩))
  ⟨h.choose, h.choose_spec.choose, h.choose_spec.choose_spec.choose,
    h.choose_spec.choose_spec.choose_spec.1,
    h.choose_spec.choose_spec.choose_spec.2.2.2.1 ⟨mk_other, rfl, by decide⟩,
    h.choose_spec.choose_spec.choose_spec.2.2.2.2.2.1,
    h.choose_spec.choose_spec.choose_spec.2.2.2.2.2.2.1,
    (h.choose_spec.choose_spec.choose_spec.2.2.2.2.2.2.2.2 1 (by decide) (by decide)).1⟩

/-- C28, failing run: bond 3 is given the member port 1 and takes the address `0xA1`
of its active member; the extra address `0xA1` is added to the bond and configured on
port 1; then a successful `bond_reconfig` with the MAC attribute removes the previous
`bond.mac`, which is `0xA1`, from the members. Afterwards `extra_macs` still lists
`0xA1` while the MAC table of the member port 1 does not hold it. -/
theorem bond_extra_mac_lost :
    bond_reconfig env_ok reconfig_table 3 set_members (mk_api 0 0 [1])
      = some (0, extra_mac_step1) ∧
    (get_bond extra_mac_step1 3).map
        (fun bond => (bond.mac, bond.members, bond.extra_macs)) = some (0xA1, [1], []) ∧
    bond_mac_add env_ok extra_mac_step1 3 0xA1 = some (0, extra_mac_step2) ∧
    (get_bond extra_mac_step2 3).map
        (fun bond => (bond.mac, bond.members, bond.extra_macs))
      = some (0xA1, [1], [0xA1]) ∧
    port_macs extra_mac_step2 1 = [0xA1] ∧
    bond_reconfig env_ok extra_mac_step2 3 set_mac (mk_api 0xBB 0 [])
      = some (0, extra_mac_step3) ∧
    (get_bond extra_mac_step3 3).map
        (fun bond => (bond.mac, bond.members, bond.extra_macs))
      = some (0xBB, [1], [0xA1]) ∧
    port_macs extra_mac_step3 1 = [0xBB] ∧
    0xA1 ∉ port_macs extra_mac_step3 1 := by
  refine ⟨rfl, by decide, rfl, by decide, by decide, rfl, by decide, by decide, by decide⟩

theorem iface_bond_info_macs_blind : macs_blind iface_bond_info := by
  intro i port macs hi
  simp [iface_bond_info, hi]

theorem iface_bond_info_link_blind : link_blind iface_bond_info := by
  intro i port v hi
  simp [iface_bond_info, hi]

theorem iface_bond_info_active_blind : active_blind iface_bond_info := by
  intro i v
  simp [iface_bond_info]

theorem get_bond_eq_bind (t : iface_table) (b : Nat) :
    get_bond t b = (t b).bind iface_bond_info := by
  unfold get_bond iface_bond_info
  cases t b with
  | none => rfl
  | some i => cases i.info <;> rfl

theorem get_bond_of_agree {t t' : iface_table} (h : table_agree iface_bond_info t t')
    (b : Nat) : get_bond t' b = get_bond t b := by
  have hb := h b
  rw [get_bond_eq_bind, get_bond_eq_bind]
  cases h1 : t' b <;> cases h2 : t b <;> simp [h1, h2] at hb ⊢
  exact hb

theorem get_bond_set_bond_ne (t : iface_table) (id b : Nat) (bond : iface_info_bond)
    (h : b ≠ id) : get_bond (set_bond t id bond) b = get_bond t b := by
  simp [get_bond, set_bond, iface_table.modify, h]

/-- What a successful `bond_reconfig` of the bond `iface_id` changes in the member
lists and the back-links of the table: the member list of this bond is the list in
effect after the MEMBERS step, the other bonds are untouched, new members link to
the bond, removed members are unlinked and every other back-link is as before. -/
theorem bond_reconfig_links_frame (env : IfaceEnv) (t t' : iface_table) (iface_id : Nat)
    (bond : iface_info_bond) (set_attrs : bond_set_attrs) (api : gr_iface_info_bond)
    (hb : get_bond t iface_id = some bond)
    (hok : bond_reconfig env t iface_id set_attrs api = some (0, t')) :
    ∃ bond', get_bond t' iface_id = some bond' ∧
      bond'.members = members_after bond set_attrs api ∧
      table_agree iface_kind t t' ∧
      (∀ b, b ≠ iface_id → get_bond t' b = get_bond t b) ∧
      (∀ p ∈ members_after bond set_attrs api, p ∉ bond.members →
        port_link t' p = some iface_id) ∧
      (∀ p, (p ∈ members_after bond set_attrs api ↔ p ∈ bond.members) →
        port_link t' p = port_link t p) ∧
      (∀ p ∈ bond.members, p ∉ members_after bond set_attrs api → is_port t p →
        port_link t' p = some GR_IFACE_ID_UNDEF) := by
  obtain ⟨he, hg⟩ := bond_reconfig_eq env t iface_id bond set_attrs api hb
  rw [he] at hok
  simp only [Option.some.injEq, Prod.mk.injEq] at hok
  obtain ⟨hret, ht'⟩ := hok
  have hwl := bond_reconfig_writeback_agree iface_link iface_link_bond_blind env t iface_id
    bond set_attrs api hb
  have hwk := bond_reconfig_writeback_agree iface_kind iface_kind_bond_blind env t iface_id
    bond set_attrs api hb
  have hbk := bond_reconfig_body_agree iface_kind iface_kind_macs_blind iface_kind_link_blind
    iface_kind_active_blind env t iface_id bond set_attrs api
  have hbb := bond_reconfig_body_agree iface_bond_info iface_bond_info_macs_blind
    iface_bond_info_link_blind iface_bond_info_active_blind env t iface_id bond set_attrs api
  have hother : ∀ b, b ≠ iface_id → get_bond t' b = get_bond t b := by
    intro b hne
    rw [← ht', get_bond_set_bond_ne _ _ _ _ hne]
    exact get_bond_of_agree hbb b
  rw [ht'] at hg hwl hwk
  have hkall : table_agree iface_kind t t' := table_agree_trans hbk hwk
  obtain ⟨t1, bond1, hk1, hl1, hm1, _, _, _, hbody⟩ :=
    bond_reconfig_body_eq env t iface_id bond set_attrs api
  rw [hbody] at hret hg hwl
  by_cases hM : set_attrs.MEMBERS = true
  · have hafter : members_after bond set_attrs api = api.member_iface_ids := by
      unfold members_after
      rw [if_pos hM]
    rw [hafter]
    have hlen : ¬ api.member_iface_ids.length > BOND_MAX_MEMBERS := by
      intro h
      unfold bond_reconfig_members at hret
      simp [hM, h, ERANGE] at hret
    have hinit : ¬ (bond_init_new_members_loop env iface_id bond1 api.member_iface_ids t1).1
        < 0 := by
      intro h
      unfold bond_reconfig_members bond_init_new_members at hret
      simp only [hM, if_true, hlen, if_false, h] at hret
      omega
    have hstage : bond_reconfig_members env t1 iface_id bond1 set_attrs api =
        bond_reconfig_primary env
          (bond_fini_old_members_loop env bond1 api bond1.members
            (bond_init_new_members_loop env iface_id bond1 api.member_iface_ids t1).2)
          { bond1 with members := api.member_iface_ids } set_attrs api := by
      unfold bond_reconfig_members bond_init_new_members bond_fini_old_members
      simp only [hM, if_true, hlen, if_false, hinit]
    rw [hstage] at hg hwl
    obtain ⟨_, hi1, hi2⟩ := bond_init_new_members_loop_links env iface_id bond1
      api.member_iface_ids t1 hinit
    obtain ⟨hf1, hf2⟩ := bond_fini_old_members_loop_links env bond1 api bond1.members
      (bond_init_new_members_loop env iface_id bond1 api.member_iface_ids t1).2
    have hpl := bond_reconfig_primary_agree iface_link iface_link_macs_blind
      iface_link_active_blind env
      (bond_fini_old_members_loop env bond1 api bond1.members
        (bond_init_new_members_loop env iface_id bond1 api.member_iface_ids t1).2)
      { bond1 with members := api.member_iface_ids } set_attrs api
    have hik := bond_init_new_members_loop_agree iface_kind iface_kind_macs_blind
      iface_kind_link_blind env iface_id bond1 api.member_iface_ids t1
    have hlink : ∀ x, port_link t' x = port_link
        (bond_fini_old_members_loop env bond1 api bond1.members
          (bond_init_new_members_loop env iface_id bond1 api.member_iface_ids t1).2) x :=
      fun x => port_link_of_agree (table_agree_trans hpl hwl) x
    have hmem' := bond_reconfig_primary_members env
      (bond_fini_old_members_loop env bond1 api bond1.members
        (bond_init_new_members_loop env iface_id bond1 api.member_iface_ids t1).2)
      { bond1 with members := api.member_iface_ids } set_attrs api
    refine ⟨_, hg, hmem', hkall, hother, ?_, ?_, ?_⟩
    · intro p hp hnm
      rw [hlink p, hf2 p (Or.inr hp)]
      exact hi1 p hp (by rw [hm1]; exact hnm)
    · intro p hiff
      rw [hlink p]
      by_cases hp : p ∈ api.member_iface_ids
      · rw [hf2 p (Or.inr hp), hi2 p (Or.inr (by rw [hm1]; exact hiff.1 hp))]
        exact port_link_of_agree hl1 p
      · have hnm : p ∉ bond.members := fun h => hp (hiff.2 h)
        rw [hf2 p (Or.inl (by rw [hm1]; exact hnm)), hi2 p (Or.inl hp)]
        exact port_link_of_agree hl1 p
    · intro p hp hn hport
      rw [hlink p]
      apply hf1 p (by rw [hm1]; exact hp) hn
      exact (is_port_of_agree (table_agree_trans hk1 hik) p).2 hport
  · have hafter : members_after bond set_attrs api = bond.members := by
      unfold members_after
      rw [if_neg hM]
    rw [hafter]
    have hstage : bond_reconfig_members env t1 iface_id bond1 set_attrs api =
        bond_reconfig_primary env t1 bond1 set_attrs api := by
      unfold bond_reconfig_members
      rw [if_neg hM]
    rw [hstage] at hg hwl
    have hpl := bond_reconfig_primary_agree iface_link iface_link_macs_blind
      iface_link_active_blind env t1 bond1 set_attrs api
    have hmem' := bond_reconfig_primary_members env t1 bond1 set_attrs api
    refine ⟨_, hg, by rw [hmem', hm1], hkall, hother, ?_, ?_, ?_⟩
    · intro p hp hnm
      exact absurd hp hnm
    · intro p _
      exact port_link_of_agree (table_agree_trans hl1 (table_agree_trans hpl hwl)) p
    · intro p hp hn _
      exact absurd hp hn

theorem port_link_remove (t : iface_table) (id p : Nat) (h : p ≠ id) :
    port_link (t.remove id) p = port_link t p := by
  simp [port_link, iface_table.remove, h]

theorem get_bond_remove (t : iface_table) (id b : Nat) :
    get_bond (t.remove id) b = if b = id then none else get_bond t b := by
  unfold get_bond iface_table.remove
  by_cases h : b = id
  · simp [h]
  · simp [h]

theorem is_port_remove (t : iface_table) (id p : Nat) (h : p ≠ id) :
    is_port (t.remove id) p ↔ is_port t p := by
  simp [is_port, iface_table.remove, h]

theorem is_port_ne_bond (t : iface_table) (id p : Nat) (bond : iface_info_bond)
    (hb : get_bond t id = some bond) (hp : is_port t p) : p ≠ id := by
  intro he
  subst he
  obtain ⟨i, port, hx, hi⟩ := (is_port_iff t p).1 hp
  simp [get_bond, hx, hi] at hb

/-- What `bond_fini` followed by the release of the interface changes in the member
lists and the back-links: the bond is gone, the other bonds are untouched, the
ports that were members are unlinked and every other back-link is as before. -/
theorem bond_fini_links_frame (env : IfaceEnv) (t : iface_table) (iface_id : Nat)
    (bond : iface_info_bond) (hb : get_bond t iface_id = some bond) :
    ∃ t', bond_fini env t iface_id = some (0, t') ∧
      (∀ b, get_bond (t'.remove iface_id) b = if b = iface_id then none else get_bond t b) ∧
      (∀ p, is_port (t'.remove iface_id) p ↔ is_port t p) ∧
      (∀ p ∈ bond.members, is_port t p →
        port_link (t'.remove iface_id) p = some GR_IFACE_ID_UNDEF) ∧
      (∀ p, p ∉ bond.members → p ≠ iface_id →
        port_link (t'.remove iface_id) p = port_link t p) := by
  have hk := bond_fini_old_members_loop_agree iface_kind iface_kind_macs_blind
    iface_kind_link_blind env bond gr_iface_info_bond.zero bond.members t
  have hbi := bond_fini_old_members_loop_agree iface_bond_info iface_bond_info_macs_blind
    iface_bond_info_link_blind env bond gr_iface_info_bond.zero bond.members t
  obtain ⟨hf1, hf2⟩ := bond_fini_old_members_loop_links env bond gr_iface_info_bond.zero
    bond.members t
  obtain ⟨b1, hb1⟩ := get_bond_of_kind_agree hk iface_id bond hb
  have hws := set_bond_agree iface_link iface_link_bond_blind
    (bond_fini_old_members_loop env bond gr_iface_info_bond.zero bond.members t) iface_id
    b1 { bond with extra_macs := [] } hb1
  have hwk := set_bond_agree iface_kind iface_kind_bond_blind
    (bond_fini_old_members_loop env bond gr_iface_info_bond.zero bond.members t) iface_id
    b1 { bond with extra_macs := [] } hb1
  refine ⟨set_bond (bond_fini_old_members_loop env bond gr_iface_info_bond.zero
    bond.members t) iface_id { bond with extra_macs := [] }, ?_, ?_, ?_, ?_, ?_⟩
  · unfold bond_fini bond_fini_old_members
    rw [hb]
  · intro b
    rw [get_bond_remove]
    by_cases hne : b = iface_id
    · rw [if_pos hne, if_pos hne]
    · rw [if_neg hne, if_neg hne, get_bond_set_bond_ne _ _ _ _ hne]
      exact get_bond_of_agree hbi b
  · intro p
    by_cases hne : p = iface_id
    · subst hne
      constructor
      · intro h
        simp [is_port, iface_table.remove] at h
      · intro h
        exact absurd rfl (is_port_ne_bond t p p bond hb h)
    · rw [is_port_remove _ _ _ hne]
      exact is_port_of_agree (table_agree_trans hk hwk) p
  · intro p hp hport
    have hne := is_port_ne_bond t iface_id p bond hb hport
    rw [port_link_remove _ _ _ hne, port_link_of_agree hws p]
    exact hf1 p hp (by simp [gr_iface_info_bond.zero]) hport
  · intro p hp hne
    rw [port_link_remove _ _ _ hne, port_link_of_agree hws p]
    exact hf2 p (Or.inl hp)

theorem bond_id_ne_undef (t : iface_table) (b : Nat) (bond : iface_info_bond)
    (hundef : get_bond t GR_IFACE_ID_UNDEF = none) (hb : get_bond t b = some bond) :
    b ≠ GR_IFACE_ID_UNDEF := by
  intro he
  rw [he, hundef] at hb
  exact absurd hb (by simp)

/-- C29, amended: let the back-links agree with bond membership (for every bond `b` and
port `p`, `p` is listed in `b.members` if and only if `p.bond_iface_id` equals
`b.id`) and let no bond have the reserved id `UNDEF`. Then this is still so after a
successful `bond_reconfig` of a bond, provided that every port which the call adds to
the bond has `bond_iface_id` equal to `UNDEF` before the call (it is in no bond), and
after `bond_fini` of a bond followed by the release of its interface. -/
theorem bond_links_agree_preserved (env : IfaceEnv) (t : iface_table) (iface_id : Nat)
    (bond : iface_info_bond) (hinv : links_agree t)
    (hundef : get_bond t GR_IFACE_ID_UNDEF = none)
    (hb : get_bond t iface_id = some bond) :
    (∀ set_attrs api t',
      (∀ p ∈ members_after bond set_attrs api, p ∉ bond.members →
        port_link t p = some GR_IFACE_ID_UNDEF) →
      bond_reconfig env t iface_id set_attrs api = some (0, t') →
      links_agree t' ∧ get_bond t' GR_IFACE_ID_UNDEF = none) ∧
    (∃ t', bond_fini env t iface_id = some (0, t') ∧
      links_agree (t'.remove iface_id) ∧
      get_bond (t'.remove iface_id) GR_IFACE_ID_UNDEF = none) := by
  have hid : iface_id ≠ GR_IFACE_ID_UNDEF := bond_id_ne_undef t iface_id bond hundef hb
  constructor
  · intro set_attrs api t' hfree hok
    obtain ⟨bond', hg, hmem, hkind, hother, hnew, hsame, hgone⟩ :=
      bond_reconfig_links_frame env t t' iface_id bond set_attrs api hb hok
    have hundef' : get_bond t' GR_IFACE_ID_UNDEF = none := by
      rw [hother _ (Ne.symm hid)]
      exact hundef
    refine ⟨?_, hundef'⟩
    intro b bond2 p hb2 hp'
    have hp : is_port t p := (is_port_of_agree hkind p).1 hp'
    by_cases hbe : b = iface_id
    · subst hbe
      rw [hg] at hb2
      simp only [Option.some.injEq] at hb2
      subst hb2
      rw [hmem]
      by_cases hin : p ∈ members_after bond set_attrs api
      · by_cases hold : p ∈ bond.members
        · rw [hsame p ⟨fun _ => hold, fun _ => hin⟩]
          exact ⟨fun _ => (hinv b bond p hb hp).1 hold, fun _ => hin⟩
        · rw [hnew p hin hold]
          exact ⟨fun _ => rfl, fun _ => hin⟩
      · by_cases hold : p ∈ bond.members
        · rw [hgone p hold hin hp]
          constructor
          · intro h
            exact absurd h hin
          · intro h
            simp only [Option.some.injEq] at h
            exact absurd h.symm hid
        · rw [hsame p ⟨fun h => absurd h hin, fun h => absurd h hold⟩]
          constructor
          · intro h
            exact absurd h hin
          · intro h
            exact absurd ((hinv b bond p hb hp).2 h) hold
    · rw [hother b hbe] at hb2
      have hbu : b ≠ GR_IFACE_ID_UNDEF := bond_id_ne_undef t b bond2 hundef hb2
      have hi2 := hinv b bond2 p hb2 hp
      have hi1 := hinv iface_id bond p hb hp
      by_cases hin : p ∈ members_after bond set_attrs api
      · by_cases hold : p ∈ bond.members
        · rw [hsame p ⟨fun _ => hold, fun _ => hin⟩]
          exact hi2
        · rw [hnew p hin hold]
          have hl := hfree p hin hold
          constructor
          · intro h
            have := hi2.1 h
            rw [hl] at this
            simp only [Option.some.injEq] at this
            exact absurd this.symm hbu
          · intro h
            simp only [Option.some.injEq] at h
            exact absurd h.symm hbe
      · by_cases hold : p ∈ bond.members
        · rw [hgone p hold hin hp]
          have hl := hi1.1 hold
          constructor
          · intro h
            have := hi2.1 h
            rw [hl] at this
            simp only [Option.some.injEq] at this
            exact absurd this.symm hbe
          · intro h
            simp only [Option.some.injEq] at h
            exact absurd h.symm hbu
        · rw [hsame p ⟨fun h => absurd h hin, fun h => absurd h hold⟩]
          exact hi2
  · obtain ⟨t', hfini, hgb, hports, hgone, hsame⟩ :=
      bond_fini_links_frame env t iface_id bond hb
    refine ⟨t', hfini, ?_, ?_⟩
    · intro b bond2 p hb2 hp'
      have hp : is_port t p := (hports p).1 hp'
      have hpne : p ≠ iface_id := is_port_ne_bond t iface_id p bond hb hp
      rw [hgb b] at hb2
      by_cases hbe : b = iface_id
      · rw [if_pos hbe] at hb2
        exact absurd hb2 (by simp)
      · rw [if_neg hbe] at hb2
        have hbu : b ≠ GR_IFACE_ID_UNDEF := bond_id_ne_undef t b bond2 hundef hb2
        have hi2 := hinv b bond2 p hb2 hp
        have hi1 := hinv iface_id bond p hb hp
        by_cases hold : p ∈ bond.members
        · rw [hgone p hold hp]
          have hl := hi1.1 hold
          constructor
          · intro h
            have := hi2.1 h
            rw [hl] at this
            simp only [Option.some.injEq] at this
            exact absurd this.symm hbe
          · intro h
            simp only [Option.some.injEq] at h
            exact absurd h.symm hbu
        · rw [hsame p hold hpne]
          exact hi2
    · rw [hgb, if_neg (Ne.symm hid)]
      exact hundef

theorem links_agree_reconfig_table : links_agree reconfig_table := by
  intro b bond p hb hp
  have hb3 : b = 3 ∧ bond.members = [] := by
    unfold get_bond reconfig_table at hb
    split_ifs at hb with h1 h2 h3 h5
    · simp [mk_port] at hb
    · simp [mk_port] at hb
    · simp only [mk_bond, Option.some.injEq] at hb
      exact ⟨h3, by rw [← hb]⟩
    · simp [mk_other] at hb
  have hp12 : port_link reconfig_table p = some GR_IFACE_ID_UNDEF := by
    unfold is_port reconfig_table at hp
    unfold port_link reconfig_table
    split_ifs at hp ⊢ with h1 h2 h3 h5
    · rfl
    · rfl
    · simp [mk_bond, iface_kind] at hp
    · simp [mk_other, iface_kind] at hp
    · simp at hp
  rw [hb3.1, hb3.2, hp12]
  simp [GR_IFACE_ID_UNDEF]

theorem links_agree_two_bonds_table : links_agree two_bonds_table := by
  intro b bond p hb hp
  have hb3 : (b = 3 ∨ b = 4) ∧ bond.members = [] := by
    unfold get_bond two_bonds_table at hb
    split_ifs at hb with h1 h3 h4
    · simp [mk_port] at hb
    · simp only [mk_bond, Option.some.injEq] at hb
      exact ⟨Or.inl h3, by rw [← hb]⟩
    · simp only [mk_bond, Option.some.injEq] at hb
      exact ⟨Or.inr h4, by rw [← hb]⟩
  have hp1 : port_link two_bonds_table p = some GR_IFACE_ID_UNDEF := by
    unfold is_port two_bonds_table at hp
    unfold port_link two_bonds_table
    split_ifs at hp ⊢ with h1 h3 h4
    · rfl
    · simp [mk_bond, iface_kind] at hp
    · simp [mk_bond, iface_kind] at hp
    · simp at hp
  rw [hb3.2, hp1]
  rcases hb3.1 with h | h <;> simp [h, GR_IFACE_ID_UNDEF]

/-- C29, counterexample: in a table whose back-links agree with membership, bond 3 and
then bond 4 are given the member list `[1]` by successful `bond_reconfig` calls.
Afterwards port 1 is listed by both bonds and its back-link names bond 4 only, so the
back-links do not agree with membership. A successful `bond_reconfig` also accepts the
member list `[1, 1]`, which lists port 1 twice. -/
theorem bond_links_agree_fails :
    links_agree two_bonds_table ∧
    bond_reconfig env_ok two_bonds_table 3 set_members (mk_api 0 0 [1])
      = some (0, two_bonds_step1) ∧
    bond_reconfig env_ok two_bonds_step1 4 set_members (mk_api 0 0 [1])
      = some (0, two_bonds_step2) ∧
    (get_bond two_bonds_step2 3).map (fun bond => bond.members) = some [1] ∧
    (get_bond two_bonds_step2 4).map (fun bond => bond.members) = some [1] ∧
    port_link two_bonds_step2 1 = some 4 ∧
    ¬ links_agree two_bonds_step2 ∧
    bond_reconfig env_ok bond_empty_table 3 IFACE_SET_ALL dup_members_api
      = some (0, dup_members_table) ∧
    (get_bond dup_members_table 3).map (fun bond => bond.members) = some [1, 1] := by
  refine ⟨links_agree_two_bonds_table, rfl, rfl, by decide, by decide, by decide, ?_, rfl,
    by decide⟩
  intro h
  have hm : (get_bond two_bonds_step2 3).map (fun bond => bond.members) = some [1] := by
    decide
  cases hg : get_bond two_bonds_step2 3 with
  | none =>
    rw [hg] at hm
    exact absurd hm (by simp)
  | some bond =>
    rw [hg] at hm
    simp only [Option.map_some', Option.some.injEq] at hm
    have hp : is_port two_bonds_step2 1 := by
      unfold is_port
      decide
    have h1 := (h 3 bond 1 hg hp).1 (by rw [hm]; exact List.mem_singleton.2 rfl)
    have h2 : port_link two_bonds_step2 1 = some 4 := by decide
    rw [h2] at h1
    exact absurd h1 (by decide)

/-- Witness of C29, amended: the back-links of `reconfig_table` agree with membership;
they still do after bond 3 was given the free ports 1 and 2, and after bond 3 was
finalised and released. -/
theorem bond_links_agree_preserved_witness :
    links_agree reconfig_table_12 ∧ port_link reconfig_table_12 1 = some 3 ∧
    ∃ t', bond_fini env_ok reconfig_table 3 = some (0, t') ∧
      links_agree (t'.remove 3) :=
  have h := bond_links_agree_preserved env_ok reconfig_table 3 (mk_bond_info [] 0 UINT8_MAX)
    links_agree_reconfig_table rfl rfl
  ⟨(h.1 set_members (mk_api 0 0 [1, 2]) reconfig_table_12
      (by
        intro p hp _
        have hp12 : p = 1 ∨ p = 2 := by simpa [members_after, set_members, mk_api] using hp
        rcases hp12 with h1 | h1 <;> subst h1 <;> decide)
      rfl).1,
    by decide,
    h.2.choose, h.2.choose_spec.1, h.2.choose_spec.2.1⟩

/-- C21, failing run: the state holds the rule `{iface=1, match=10.0.0.1,
replace=192.168.1.1}` with its static NAT rule for `(iface 1, 192.168.1.1)`. An add
of `{iface=1, match=10.0.0.2, replace=192.168.1.1}` makes the next hop and the route,
then `snat44_static_rule_add` fails with `EEXIST`; the `fail:` path deletes the route
and calls `snat44_static_rule_del(iface, replace)`, which removes the static NAT rule
of the first rule. The call returns `EEXIST` and the static NAT rules are not the
same as before the call. -/
theorem dnat44_add_rollback_removes_rule :
    ip4_state_rule_1.snat44 1 ip_192_168_1_1 = some ip_10_0_0_1 ∧
    (dnat44_add dnat44_env_snat_eexist ip4_state_rule_1
      { rule := dnat44_rule_2, exist_ok := false }).1 = { status := EEXIST, len := 0 } ∧
    (dnat44_add dnat44_env_snat_eexist ip4_state_rule_1
      { rule := dnat44_rule_2, exist_ok := false }).2.snat44 1 ip_192_168_1_1 = none ∧
    (dnat44_add dnat44_env_snat_eexist ip4_state_rule_1
      { rule := dnat44_rule_2, exist_ok := false }).2.routes 0 ip_10_0_0_2 32 = none ∧
    (dnat44_add dnat44_env_snat_eexist ip4_state_rule_1
      { rule := dnat44_rule_2, exist_ok := false }).2.nexthops 0 ip_10_0_0_2 = none ∧
    ((dnat44_add dnat44_env_snat_eexist ip4_state_rule_1
      { rule := dnat44_rule_2, exist_ok := false }).2.nexthops 0 ip_10_0_0_1).isSome
      = true := by
  decide

theorem ip4_state_ext (a b : ip4_state) (h1 : a.iface_vrf = b.iface_vrf)
    (h2 : a.nexthops = b.nexthops) (h3 : a.routes = b.routes) (h4 : a.snat44 = b.snat44) :
    a = b := by
  cases a
  cases b
  simp only [ip4_state.mk.injEq]
  exact ⟨h1, h2, h3, h4⟩

theorem nexthop_new_frame (env : Dnat44Env) (s s1 : ip4_state) (base : nexthop)
    (hnew : nexthop_new env s base = some s1) :
    s1.routes = s.routes ∧ s1.snat44 = s.snat44 ∧
    ∀ w a, ¬ (w = base.vrf_id ∧ a = base.ipv4) → s1.nexthops w a = s.nexthops w a := by
  unfold nexthop_new at hnew
  cases hn : env.nexthop_new_fails with
  | true => simp [hn] at hnew
  | false =>
    simp only [hn, Bool.false_eq_true, if_false, Option.some.injEq] at hnew
    rw [← hnew]
    refine ⟨rfl, rfl, ?_⟩
    intro w a hk
    simp only [hk, if_false]

theorem set_dnat44_nh_data_frame (s : ip4_state) (vrf_id : Nat) (ip v : ip4_addr_t) :
    (set_dnat44_nh_data s vrf_id ip v).routes = s.routes ∧
    (set_dnat44_nh_data s vrf_id ip v).snat44 = s.snat44 ∧
    ∀ w a, ¬ (w = vrf_id ∧ a = ip) →
      (set_dnat44_nh_data s vrf_id ip v).nexthops w a = s.nexthops w a := by
  refine ⟨rfl, rfl, ?_⟩
  intro w a hk
  simp only [set_dnat44_nh_data, hk, if_false]

theorem nexthop_decref_frame (s : ip4_state) (vrf_id : Nat) (ip : ip4_addr_t) :
    (nexthop_decref s vrf_id ip).iface_vrf = s.iface_vrf ∧
    (nexthop_decref s vrf_id ip).routes = s.routes ∧
    (nexthop_decref s vrf_id ip).snat44 = s.snat44 ∧
    (nexthop_decref s vrf_id ip).nexthops vrf_id ip = none ∧
    ∀ w a, ¬ (w = vrf_id ∧ a = ip) →
      (nexthop_decref s vrf_id ip).nexthops w a = s.nexthops w a := by
  refine ⟨rfl, rfl, rfl, by simp [nexthop_decref], ?_⟩
  intro w a hk
  simp only [nexthop_decref, hk, if_false]

/-- Deleting the route that `rib4_insert` has just made for a next hop of the caller
releases the next hop and leaves the route table as it was, when there was no such
route before. -/
theorem rib4_delete_insert (env : Dnat44Env) (s : ip4_state) (vrf_id : Nat)
    (ip : ip4_addr_t) (nh : nexthop) (hr : env.rib4_insert_errno = 0)
    (hnh : s.nexthops vrf_id ip = some nh) (hk1 : nh.vrf_id = vrf_id) (hk2 : nh.ipv4 = ip)
    (hfree : s.routes vrf_id ip 32 = none) :
    (rib4_delete (rib4_insert env s vrf_id ip 32 ip).2 vrf_id ip 32).2
      = nexthop_decref s vrf_id ip := by
  have hi : (rib4_insert env s vrf_id ip 32 ip).2 = ip4_state.mk s.iface_vrf s.nexthops
      (fun v a l => if v = vrf_id ∧ a = ip ∧ l = 32 then (s.nexthops vrf_id ip)
        else (s.routes v a l)) s.snat44 := by
    unfold rib4_insert
    rw [if_pos hr]
  rw [hi]
  have hd : rib4_delete (ip4_state.mk s.iface_vrf s.nexthops
      (fun v a l => if v = vrf_id ∧ a = ip ∧ l = 32 then (s.nexthops vrf_id ip)
        else (s.routes v a l)) s.snat44) vrf_id ip 32
      = (0, nexthop_decref (ip4_state.mk s.iface_vrf s.nexthops
        (fun v a l => if v = vrf_id ∧ a = ip ∧ l = 32 then none
          else (if v = vrf_id ∧ a = ip ∧ l = 32 then (s.nexthops vrf_id ip)
            else (s.routes v a l))) s.snat44) nh.vrf_id nh.ipv4) := by
    unfold rib4_delete
    simp only [and_self, if_true, hnh]
  rw [hd, hk1, hk2]
  apply ip4_state_ext
  · rfl
  · rfl
  · funext v a l
    by_cases hk : v = vrf_id ∧ a = ip ∧ l = 32
    · simp only [nexthop_decref, hk, and_self, if_true]
      exact hfree.symm
    · simp only [nexthop_decref, hk, if_false]
  · rfl

/-- The failing paths of `dnat44_add` leave the state as it was before the call, when
the `/32` route of the match address and the static NAT rule of the interface for the
replace address did not exist before the call. -/
theorem dnat44_add_failure_unchanged (env : Dnat44Env) (s : ip4_state)
    (req : gr_dnat44_add_req) (h : (dnat44_add env s req).1.status ≠ 0)
    (hroute : ∀ vrf_id, s.iface_vrf req.rule.iface_id = some vrf_id →
      s.routes vrf_id req.rule.match_ 32 = none)
    (hsnat : s.snat44 req.rule.iface_id req.rule.replace = none) :
    (dnat44_add env s req).2 = s := by
  unfold dnat44_add at h ⊢
  cases hv : s.iface_vrf req.rule.iface_id with
  | none => simp only [hv]
  | some vrf_id =>
    simp only [hv] at h ⊢
    cases hl : nh4_lookup s vrf_id req.rule.match_ with
    | some nh =>
      simp only [hl]
      split_ifs <;> rfl
    | none =>
      simp only [hl] at h ⊢
      cases hnew : nexthop_new env s
          { type := .DNAT, vrf_id := vrf_id, iface_id := req.rule.iface_id,
            ipv4 := req.rule.match_, replace := 0 } with
      | none => simp only [hnew]
      | some s1 =>
        simp only [hnew] at h ⊢
        obtain ⟨hn1, hn2⟩ := nexthop_new_some env s s1 _ hnew
        obtain ⟨hnr, hns, hnn⟩ := nexthop_new_frame env s s1 _ hnew
        obtain ⟨hd1, hd2⟩ := set_dnat44_nh_data_self s1 vrf_id req.rule.match_
          req.rule.replace
        obtain ⟨hdr, hds, hdn⟩ := set_dnat44_nh_data_frame s1 vrf_id req.rule.match_
          req.rule.replace
        obtain ⟨hc1, hc2, hc3, hc4, hc5⟩ := nexthop_decref_frame
          (set_dnat44_nh_data s1 vrf_id req.rule.match_ req.rule.replace)
          vrf_id req.rule.match_
        have hback : nexthop_decref
            (set_dnat44_nh_data s1 vrf_id req.rule.match_ req.rule.replace)
            vrf_id req.rule.match_ = s := by
          apply ip4_state_ext
          · rw [hc1, hd1, hn1]
          · funext w a
            by_cases hk : w = vrf_id ∧ a = req.rule.match_
            · rw [hk.1, hk.2, hc4]
              exact hl.symm
            · rw [hc5 w a hk, hdn w a hk, hnn w a hk]
          · rw [hc2, hdr, hnr]
          · rw [hc3, hds, hns]
        by_cases hr : (rib4_insert env
            (set_dnat44_nh_data s1 vrf_id req.rule.match_ req.rule.replace)
            vrf_id req.rule.match_ 32 req.rule.match_).1 < 0
        · simp only [hr, if_true]
          have hne : env.rib4_insert_errno ≠ 0 := by
            intro h0
            unfold rib4_insert at hr
            rw [if_pos h0] at hr
            exact absurd hr (lt_irrefl 0)
          have hst : (rib4_insert env
              (set_dnat44_nh_data s1 vrf_id req.rule.match_ req.rule.replace)
              vrf_id req.rule.match_ 32 req.rule.match_).2 = nexthop_decref
                (set_dnat44_nh_data s1 vrf_id req.rule.match_ req.rule.replace)
                vrf_id req.rule.match_ := by
            unfold rib4_insert
            rw [if_neg hne]
          rw [hst]
          exact hback
        · simp only [hr, if_false] at h ⊢
          obtain ⟨hr0, _, _⟩ := rib4_insert_nonneg env _ _ _ _ _ hr
          obtain ⟨_, _, hsr⟩ := snat44_static_rule_add_frame env
            (rib4_insert env
              (set_dnat44_nh_data s1 vrf_id req.rule.match_ req.rule.replace)
              vrf_id req.rule.match_ 32 req.rule.match_).2
            req.rule.iface_id req.rule.replace req.rule.match_
          by_cases ha : (snat44_static_rule_add env
              (rib4_insert env
                (set_dnat44_nh_data s1 vrf_id req.rule.match_ req.rule.replace)
                vrf_id req.rule.match_ 32 req.rule.match_).2
              req.rule.iface_id req.rule.replace req.rule.match_).1 < 0
          · simp only [ha, if_true]
            have hne : env.snat44_static_rule_add_errno ≠ 0 := by
              intro h0
              unfold snat44_static_rule_add at ha
              rw [if_pos h0] at ha
              exact absurd ha (lt_irrefl 0)
            have hst : (snat44_static_rule_add env
                (rib4_insert env
                  (set_dnat44_nh_data s1 vrf_id req.rule.match_ req.rule.replace)
                  vrf_id req.rule.match_ 32 req.rule.match_).2
                req.rule.iface_id req.rule.replace req.rule.match_).2
                = (rib4_insert env
                  (set_dnat44_nh_data s1 vrf_id req.rule.match_ req.rule.replace)
                  vrf_id req.rule.match_ 32 req.rule.match_).2 := by
              unfold snat44_static_rule_add
              rw [if_neg hne]
            rw [hst]
            have hnh : (set_dnat44_nh_data s1 vrf_id req.rule.match_
                req.rule.replace).nexthops vrf_id req.rule.match_
                = some (nexthop.mk .DNAT vrf_id req.rule.iface_id req.rule.match_
                  req.rule.replace) := by
              rw [hd2]
              have hn2' : s1.nexthops vrf_id req.rule.match_ = some
                  (nexthop.mk .DNAT vrf_id req.rule.iface_id req.rule.match_ 0) := hn2
              rw [hn2']
              rfl
            rw [rib4_delete_insert env _ vrf_id req.rule.match_ _ hr0 hnh rfl rfl
              (by rw [hdr, hnr]; exact hroute vrf_id hv), hback]
            unfold snat44_static_rule_del
            rw [hsnat]
          · simp only [ha, if_false] at h
            exact absurd rfl h

theorem free_trace_eq (s : trace_state) (c : List Nat) :
    free_trace s c = { s with trace_pool := c.reverse ++ s.trace_pool } := by
  induction c generalizing s with
  | nil => rfl
  | cons t next ih =>
    rw [free_trace, ih]
    simp [rte_mempool_put]

/-- The retry loop of `gr_mbuf_trace_add` returns within one iteration per queued chain
plus one, when the pool holds a free item or a queued chain holds an item. -/
theorem gr_mbuf_trace_add_loop_returns (ring : List (List Nat)) :
    ∀ (pool : List Nat) (cap : Nat), (pool ≠ [] ∨ ∃ c ∈ ring, c ≠ []) →
      ∃ r, gr_mbuf_trace_add_loop (ring.length + 1)
        { trace_pool := pool, traced_packets := ring, ring_capacity := cap } = some r := by
  induction ring with
  | nil =>
    intro pool cap h
    cases pool with
    | nil =>
      rcases h with h | ⟨c, hc, _⟩
      · exact absurd rfl h
      · simp at hc
    | cons d rest => exact ⟨_, rfl⟩
  | cons oldest more ih =>
    intro pool cap h
    cases pool with
    | cons d rest => exact ⟨_, rfl⟩
    | nil =>
      have hstep : gr_mbuf_trace_add_loop ((oldest :: more).length + 1)
          { trace_pool := [], traced_packets := oldest :: more, ring_capacity := cap }
          = gr_mbuf_trace_add_loop (more.length + 1)
            { trace_pool := oldest.reverse ++ [], traced_packets := more,
              ring_capacity := cap } := by
        rw [List.length_cons, gr_mbuf_trace_add_loop]
        simp only [rte_mempool_get, rte_ring_dequeue, free_trace_eq]
      rw [hstep]
      apply ih
      rcases h with h | ⟨c, hc, hne⟩
      · exact absurd rfl h
      · rcases List.mem_cons.1 hc with hc | hc
        · left
          rw [← hc]
          simpa using hne
        · exact Or.inr ⟨c, hc, hne⟩

/-- With an empty pool and an empty ring the retry loop of `gr_mbuf_trace_add` is still
running after any number of iterations. -/
theorem gr_mbuf_trace_add_loop_spins (cap : Nat) :
    ∀ fuel, gr_mbuf_trace_add_loop fuel
      { trace_pool := [], traced_packets := [], ring_capacity := cap } = none := by
  intro fuel
  induction fuel with
  | zero => rfl
  | succ fuel ih =>
    rw [gr_mbuf_trace_add_loop]
    simp only [rte_mempool_get, rte_ring_dequeue, free_trace]
    exact ih

/-- C23, failing run: the pool holds two items and the ring is empty. Two calls of
`gr_mbuf_trace_add` attach both items to a packet that is still in flight. In the
next call the pool is empty and the ring holds no chain: `rte_ring_dequeue` fails,
`free_trace(NULL)` frees nothing and the retry loop has not returned after any number
of iterations. The same holds for every state with an empty pool and an empty
ring. -/
theorem gr_mbuf_trace_add_never_returns :
    gr_mbuf_trace_add 1 trace_state_small [] =
      some ({ trace_pool := [1], traced_packets := [], ring_capacity := 2 }, [0]) ∧
    gr_mbuf_trace_add 1 { trace_pool := [1], traced_packets := [], ring_capacity := 2 } [0]
      = some ({ trace_pool := [], traced_packets := [], ring_capacity := 2 }, [0, 1]) ∧
    (∀ fuel traces, gr_mbuf_trace_add fuel
      { trace_pool := [], traced_packets := [], ring_capacity := 2 } traces = none) ∧
    (∀ fuel cap traces, gr_mbuf_trace_add fuel
      { trace_pool := [], traced_packets := [], ring_capacity := cap } traces = none) := by
  refine ⟨rfl, rfl, ?_, ?_⟩
  · intro fuel traces
    unfold gr_mbuf_trace_add
    rw [gr_mbuf_trace_add_loop_spins]
  · intro fuel cap traces
    unfold gr_mbuf_trace_add
    rw [gr_mbuf_trace_add_loop_spins]

/-- Function `gr_mbuf_trace_finish` on a ring of usable size at least one, with fuel for
two iterations: a packet without trace is left alone; the chain is appended to a
ring that has room; on a full ring the oldest chain is taken out and freed first. -/
theorem gr_mbuf_trace_finish_eq (fuel : Nat) (s : trace_state) (traces : List Nat)
    (hfuel : 2 ≤ fuel) (hcap : 0 < s.ring_capacity) :
    (traces = [] → gr_mbuf_trace_finish fuel s traces = some (s, [])) ∧
    (traces ≠ [] → s.traced_packets.length < s.ring_capacity →
      gr_mbuf_trace_finish fuel s traces
        = some ({ s with traced_packets := s.traced_packets ++ [traces] }, [])) ∧
    (traces ≠ [] → s.traced_packets.length = s.ring_capacity →
      ∃ oldest rest, s.traced_packets = oldest :: rest ∧
        gr_mbuf_trace_finish fuel s traces
          = some ({ s with trace_pool := oldest.reverse ++ s.trace_pool,
                           traced_packets := rest ++ [traces] }, [])) := by
  obtain ⟨f, rfl⟩ : ∃ f, fuel = f + 2 := ⟨fuel - 2, by omega⟩
  refine ⟨?_, ?_, ?_⟩
  · intro h
    rw [h]
    rfl
  · intro hne hroom
    cases traces with
    | nil => exact absurd rfl hne
    | cons t next =>
      unfold gr_mbuf_trace_finish
      simp only
      rw [gr_mbuf_trace_finish_loop]
      simp only [rte_ring_enqueue, hroom, if_true]
  · intro hne hfull
    cases hr : s.traced_packets with
    | nil =>
      rw [hr] at hfull
      simp only [List.length_nil] at hfull
      omega
    | cons oldest rest =>
      refine ⟨oldest, rest, rfl, ?_⟩
      cases traces with
      | nil => exact absurd rfl hne
      | cons t next =>
        have hnot : ¬ (oldest :: rest).length < s.ring_capacity := by
          rw [← hr]
          omega
        have hroom : rest.length < s.ring_capacity := by
          rw [hr] at hfull
          simp only [List.length_cons] at hfull
          omega
        unfold gr_mbuf_trace_finish
        simp only
        rw [gr_mbuf_trace_finish_loop]
        simp only [rte_ring_enqueue, hnot, if_false, rte_ring_dequeue, hr, free_trace_eq]
        rw [gr_mbuf_trace_finish_loop]
        simp only [rte_ring_enqueue, hroom, if_true]

/-- Function `gr_trace_dump` takes the oldest chain out of the ring, whatever the
formatting calls return, and leaves the other chains in place. -/
theorem gr_trace_dump_ring (env : DumpEnv) (s : trace_state) (len : Nat) :
    (gr_trace_dump env s len).2.2.traced_packets = s.traced_packets.tail ∧
    (gr_trace_dump env s len).2.2.ring_capacity = s.ring_capacity ∧
    (gr_trace_dump env s len).2.1 = s.traced_packets.headD [] := by
  unfold gr_trace_dump
  cases hr : s.traced_packets with
  | nil => exact ⟨hr, rfl, rfl⟩
  | cons head rest =>
    simp only
    cases SAFE_BUF len env.strftime_len env.nsec_len with
    | none => exact ⟨rfl, rfl, rfl⟩
    | some n1 =>
      simp only
      cases SAFE_BUF len n1 env.cpu_len with
      | none => exact ⟨rfl, rfl, rfl⟩
      | some n2 =>
        simp only
        cases gr_trace_dump_items env len head n2 with
        | none => exact ⟨rfl, rfl, rfl⟩
        | some n3 =>
          simp only
          cases SAFE_BUF len n3 1 with
          | none =>
            rw [free_trace_eq]
            exact ⟨rfl, rfl, rfl⟩
          | some n4 =>
            rw [free_trace_eq]
            exact ⟨rfl, rfl, rfl⟩

/-- C22: in the sequential model of a ring of usable size at least one, every sequence
of `gr_mbuf_trace_finish` and `gr_trace_dump` calls runs to its end (no loop needs
more than two iterations) and the number of queued chains never exceeds the capacity.
The chains queued at the start followed by the chains finished, in that order, split
into an older part `pre` and the chains still queued at the end; the chains taken by
the successive dumps are chains of `pre` in the same order (FIFO), and they are all
of `pre` when the ring never had to make room. Each call is determined: a `dump`
takes the oldest queued chain and leaves the others queued in their order; a `finish`
on a ring with room appends the chain; a `finish` on a full ring takes out the oldest
queued chain, whose items go back to the pool, and appends the chain. -/
theorem trace_ring_fifo (fuel : Nat) (hfuel : 2 ≤ fuel) (ops : List trace_op) :
    ∀ s : trace_state, 0 < s.ring_capacity →
      s.traced_packets.length ≤ s.ring_capacity →
      (∃ out s1 pre, trace_run fuel ops s = some (out, s1) ∧
        s1.ring_capacity = s.ring_capacity ∧
        s1.traced_packets.length ≤ s.ring_capacity ∧
        s.traced_packets ++ finished_chains ops = pre ++ s1.traced_packets ∧
        List.Sublist out pre ∧
        (s.traced_packets.length + (finished_chains ops).length ≤ s.ring_capacity →
          out = pre)) ∧
      (∀ env len oldest rest, s.traced_packets = oldest :: rest →
        (gr_trace_dump env s len).2.1 = oldest ∧
        (gr_trace_dump env s len).2.2.traced_packets = rest ∧
        trace_run fuel [.dump env len] s = some ([oldest], (gr_trace_dump env s len).2.2)) ∧
      (∀ env len, s.traced_packets = [] →
        gr_trace_dump env s len = (0, [], s) ∧
        trace_run fuel [.dump env len] s = some ([], s)) ∧
      (∀ traces, traces ≠ [] → s.traced_packets.length = s.ring_capacity →
        ∃ oldest rest, s.traced_packets = oldest :: rest ∧
          gr_mbuf_trace_finish fuel s traces
            = some ({ s with trace_pool := oldest.reverse ++ s.trace_pool,
                             traced_packets := rest ++ [traces] }, [])) ∧
      (∀ traces, traces ≠ [] → s.traced_packets.length < s.ring_capacity →
        gr_mbuf_trace_finish fuel s traces
          = some ({ s with traced_packets := s.traced_packets ++ [traces] }, [])) := by
  have hdump : ∀ s : trace_state, ∀ env len oldest rest, s.traced_packets = oldest :: rest →
      (gr_trace_dump env s len).2.1 = oldest ∧
      (gr_trace_dump env s len).2.2.traced_packets = rest ∧
      trace_run fuel [.dump env len] s
        = some ([oldest], (gr_trace_dump env s len).2.2) := by
    intro s env len oldest rest hr
    obtain ⟨hd1, _, hd3⟩ := gr_trace_dump_ring env s len
    rw [hr] at hd1 hd3
    simp only [List.tail_cons, List.headD_cons] at hd1 hd3
    refine ⟨hd3, hd1, ?_⟩
    rw [trace_run, trace_run]
    simp only
    rw [if_neg (by rw [hr]; simp), hd3]
  have hempty : ∀ s : trace_state, ∀ env len, s.traced_packets = [] →
      gr_trace_dump env s len = (0, [], s) ∧
      trace_run fuel [.dump env len] s = some ([], s) := by
    intro s env len hr
    have e : gr_trace_dump env s len = (0, [], s) := by
      unfold gr_trace_dump
      rw [hr]
    refine ⟨e, ?_⟩
    rw [trace_run, trace_run, e]
    simp only
    rw [if_pos hr]
  induction ops with
  | nil =>
    intro s hcap hlen
    refine ⟨⟨[], s, [], rfl, rfl, hlen, ?_, List.Sublist.refl _, fun _ => rfl⟩,
      hdump s, hempty s,
      fun traces => (gr_mbuf_trace_finish_eq fuel s traces hfuel hcap).2.2,
      fun traces => (gr_mbuf_trace_finish_eq fuel s traces hfuel hcap).2.1⟩
    simp [finished_chains]
  | cons op ops ih =>
    intro s hcap hlen
    refine ⟨?_, hdump s, hempty s,
      fun traces => (gr_mbuf_trace_finish_eq fuel s traces hfuel hcap).2.2,
      fun traces => (gr_mbuf_trace_finish_eq fuel s traces hfuel hcap).2.1⟩
    cases op with
    | finish traces =>
      obtain ⟨f1, f2, f3⟩ := gr_mbuf_trace_finish_eq fuel s traces hfuel hcap
      by_cases hne : traces = []
      · obtain ⟨⟨out, s2, pre, hrun, hc2, hl2, hsplit, hsub, hex⟩, _⟩ := ih s hcap hlen
        have hf : finished_chains (trace_op.finish traces :: ops) = finished_chains ops := by
          rw [finished_chains, if_pos hne]
        refine ⟨out, s2, pre, ?_, hc2, hl2, ?_, hsub, ?_⟩
        · rw [trace_run, f1 hne]
          exact hrun
        · rw [hf]
          exact hsplit
        · rw [hf]
          exact hex
      · have hf : finished_chains (trace_op.finish traces :: ops)
            = traces :: finished_chains ops := by
          rw [finished_chains, if_neg hne]
        by_cases hroom : s.traced_packets.length < s.ring_capacity
        · have he := f2 hne hroom
          obtain ⟨⟨out, s2, pre, hrun, hc2, hl2, hsplit, hsub, hex⟩, _⟩ :=
            ih { s with traced_packets := s.traced_packets ++ [traces] } hcap
              (by
                simp only [List.length_append, List.length_singleton]
                omega)
          refine ⟨out, s2, pre, ?_, hc2, hl2, ?_, hsub, ?_⟩
          · rw [trace_run, he]
            exact hrun
          · rw [hf, ← hsplit]
            simp
          · intro hno
            rw [hf, List.length_cons] at hno
            have hno2 : (s.traced_packets ++ [traces]).length + (finished_chains ops).length
                ≤ s.ring_capacity := by
              rw [List.length_append, List.length_singleton]
              omega
            exact hex hno2
        · obtain ⟨oldest, rest, hr, he⟩ := f3 hne (by omega)
          have hrl : rest.length + 1 = s.ring_capacity := by
            have h1 : s.traced_packets.length = s.ring_capacity := by omega
            rw [hr] at h1
            simpa using h1
          obtain ⟨⟨out, s2, pre, hrun, hc2, hl2, hsplit, hsub, hex⟩, _⟩ :=
            ih { s with trace_pool := oldest.reverse ++ s.trace_pool,
                        traced_packets := rest ++ [traces] } hcap
              (by
                simp only [List.length_append, List.length_singleton]
                omega)
          refine ⟨out, s2, oldest :: pre, ?_, hc2, hl2, ?_, List.Sublist.cons _ hsub, ?_⟩
          · rw [trace_run, he]
            exact hrun
          · rw [hf, hr, List.cons_append, List.cons_append, ← hsplit]
            simp
          · intro hno
            rw [hf, hr] at hno
            simp only [List.length_cons] at hno
            omega
    | dump env len =>
      have hf : finished_chains (trace_op.dump env len :: ops) = finished_chains ops := by
        rw [finished_chains]
      obtain ⟨hd1, hd2, hd3⟩ := gr_trace_dump_ring env s len
      have hl1 : (gr_trace_dump env s len).2.2.traced_packets.length
          ≤ (gr_trace_dump env s len).2.2.ring_capacity := by
        rw [hd1, hd2, List.length_tail]
        omega
      obtain ⟨⟨out, s2, pre, hrun, hc2, hl2, hsplit, hsub, hex⟩, _⟩ :=
        ih (gr_trace_dump env s len).2.2 (by rw [hd2]; exact hcap) hl1
      rw [hd1] at hsplit
      rw [hd1, hd2] at hex
      cases hr : s.traced_packets with
      | nil =>
        rw [hr] at hsplit hex
        simp only [List.tail_nil] at hsplit hex
        refine ⟨out, s2, pre, ?_, by rw [hc2, hd2], by rw [hd2] at hl2; exact hl2, ?_,
          hsub, ?_⟩
        · rw [trace_run]
          simp only [hrun]
          rw [if_pos hr]
        · rw [hf]
          exact hsplit
        · rw [hf]
          exact hex
      | cons head rest =>
        rw [hr] at hsplit hex hd3
        simp only [List.tail_cons, List.headD_cons] at hsplit hex hd3
        refine ⟨head :: out, s2, head :: pre, ?_, by rw [hc2, hd2],
          by rw [hd2] at hl2; exact hl2, ?_, List.Sublist.cons₂ _ hsub, ?_⟩
        · rw [trace_run]
          simp only [hrun]
          rw [if_neg (by rw [hr]; simp), hd3]
        · rw [hf, List.cons_append, List.cons_append, hsplit]
        · intro hno
          rw [hf] at hno
          simp only [List.length_cons] at hno
          rw [hex (by omega)]

/-- Witness of C22 on a ring of usable size two: the packets with the chains `[0]`,
`[1]` and `[2]` are finished, the third on a full ring, where the oldest chain `[0]`
is dropped; two dumps take `[1]` and then `[2]`. -/
theorem trace_ring_fifo_witness :
    trace_run 2 trace_ops_overflow trace_state_empty
      = some ([[1], [2]], { trace_pool := [2, 1, 0], traced_packets := [],
                            ring_capacity := 2 }) ∧
    (∃ out s1 pre, trace_run 2 trace_ops_overflow trace_state_empty = some (out, s1) ∧
      s1.ring_capacity = trace_state_empty.ring_capacity ∧
      s1.traced_packets.length ≤ trace_state_empty.ring_capacity ∧
      trace_state_empty.traced_packets ++ finished_chains trace_ops_overflow
        = pre ++ s1.traced_packets ∧
      List.Sublist out pre ∧
      (trace_state_empty.traced_packets.length + (finished_chains trace_ops_overflow).length
          ≤ trace_state_empty.ring_capacity → out = pre)) :=
  ⟨by decide,
    (trace_ring_fifo 2 (by decide) trace_ops_overflow trace_state_empty (by decide)
      (by decide)).1⟩

/-- C30, failing run: the ring holds one chain with the items 7 and 8 and
`gr_trace_dump(buf, 8)` is called. The chain is taken from the ring; the nine digits
of the nanoseconds do not fit in the buffer, `SAFE_BUF` jumps to `err` and the
function returns -1 before `free_trace(head)`. Afterwards the items 7 and 8 are
neither in the pool nor in the ring nor attached to a packet. -/
theorem gr_trace_dump_error_loses_chain :
    trace_items trace_state_queued [] = [7, 8] ∧
    gr_trace_dump dump_env_no_room trace_state_queued 8
      = (-1, [7, 8], { trace_pool := [], traced_packets := [],
                       ring_capacity := PACKET_COUNT_MAX - 1 }) ∧
    trace_items (gr_trace_dump dump_env_no_room trace_state_queued 8).2.2 [] = [] ∧
    gr_trace_dump dump_env_short trace_state_queued 4096
      = (64, [7, 8], { trace_pool := [8, 7], traced_packets := [],
                       ring_capacity := PACKET_COUNT_MAX - 1 }) := by
  decide

theorem gr_mbuf_trace_add_loop_items (fuel : Nat) :
    ∀ (s s1 : trace_state) (data : Nat), gr_mbuf_trace_add_loop fuel s = some (data, s1) →
      List.Perm (data :: s1.trace_pool ++ s1.traced_packets.flatten)
        (s.trace_pool ++ s.traced_packets.flatten) := by
  induction fuel with
  | zero =>
    intro s s1 data h
    simp [gr_mbuf_trace_add_loop] at h
  | succ fuel ih =>
    intro s s1 data h
    rw [gr_mbuf_trace_add_loop] at h
    cases hp : s.trace_pool with
    | cons d rest =>
      simp only [rte_mempool_get, hp, Option.some.injEq, Prod.mk.injEq] at h
      obtain ⟨h1, h2⟩ := h
      rw [← h1, ← h2]
    | nil =>
      simp only [rte_mempool_get, hp] at h
      have h3 := ih _ s1 data h
      refine h3.trans ?_
      cases hr : s.traced_packets with
      | nil =>
        simp [rte_ring_dequeue, hr, free_trace, hp]
      | cons oldest more =>
        simp only [rte_ring_dequeue, hr, free_trace_eq, hp, List.append_nil,
          List.flatten_cons, List.nil_append]
        exact List.Perm.append_right _ (List.reverse_perm oldest)

theorem gr_mbuf_trace_finish_loop_items (fuel : Nat) :
    ∀ (s s1 : trace_state) (trace : List Nat),
      gr_mbuf_trace_finish_loop fuel s trace = some s1 →
      List.Perm (s1.trace_pool ++ s1.traced_packets.flatten)
        (s.trace_pool ++ trace ++ s.traced_packets.flatten) := by
  induction fuel with
  | zero =>
    intro s s1 trace h
    simp [gr_mbuf_trace_finish_loop] at h
  | succ fuel ih =>
    intro s s1 trace h
    rw [gr_mbuf_trace_finish_loop] at h
    by_cases hroom : s.traced_packets.length < s.ring_capacity
    · simp only [rte_ring_enqueue, hroom, if_true, Option.some.injEq] at h
      rw [← h]
      simp only [List.flatten_append, List.flatten_cons, List.flatten_nil, List.append_nil,
        List.append_assoc]
      exact List.Perm.append_left _ List.perm_append_comm
    · simp only [rte_ring_enqueue, hroom, if_false] at h
      have h3 := ih _ s1 trace h
      refine h3.trans ?_
      cases hr : s.traced_packets with
      | nil =>
        simp [rte_ring_dequeue, hr, free_trace]
      | cons oldest more =>
        simp only [rte_ring_dequeue, hr, free_trace_eq, List.flatten_cons, List.append_assoc]
        refine (List.Perm.append_right _ (List.reverse_perm oldest)).trans ?_
        refine List.perm_append_comm_assoc _ _ _ |>.trans ?_
        refine List.Perm.append_left _ ?_
        exact (List.perm_append_comm_assoc _ _ _)

theorem gr_trace_clear_loop_items (ring : List (List Nat)) :
    ∀ s : trace_state, (gr_trace_clear_loop ring s).traced_packets
        = (if ring = [] then s.traced_packets else []) ∧
      List.Perm (gr_trace_clear_loop ring s).trace_pool (s.trace_pool ++ ring.flatten) := by
  induction ring with
  | nil =>
    intro s
    simp [gr_trace_clear_loop]
  | cons trace rest ih =>
    intro s
    rw [gr_trace_clear_loop, free_trace_eq]
    obtain ⟨h1, h2⟩ := ih (trace_state.mk (trace.reverse ++ s.trace_pool) rest
      s.ring_capacity)
    constructor
    · rw [h1]
      by_cases hr : rest = []
      · simp [hr]
      · simp [hr]
    · refine h2.trans ?_
      simp only [List.flatten_cons, List.append_assoc]
      refine (List.Perm.append_right _ (List.reverse_perm trace)).trans ?_
      exact List.perm_append_comm_assoc _ _ _

/-- Item conservation where it holds: `gr_mbuf_trace_add`, `gr_mbuf_trace_finish` and
`gr_trace_clear` keep every item in exactly one of the pool, the chain of the packet
and the chains of the ring, and so does a `gr_trace_dump` that does not return -1;
after `gr_trace_clear` the ring is empty. -/
theorem trace_items_conserved (s : trace_state) (traces : List Nat) :
    (∀ fuel s1 traces1, gr_mbuf_trace_add fuel s traces = some (s1, traces1) →
      List.Perm (trace_items s1 traces1) (trace_items s traces)) ∧
    (∀ fuel s1 traces1, gr_mbuf_trace_finish fuel s traces = some (s1, traces1) →
      List.Perm (trace_items s1 traces1) (trace_items s traces)) ∧
    (gr_trace_clear s).traced_packets = [] ∧
    List.Perm (trace_items (gr_trace_clear s) traces) (trace_items s traces) ∧
    (∀ env len, (gr_trace_dump env s len).1 ≠ -1 →
      List.Perm (trace_items (gr_trace_dump env s len).2.2 traces)
        (trace_items s traces)) := by
  refine ⟨?_, ?_, ?_, ?_, ?_⟩
  · intro fuel s1 traces1 h
    unfold gr_mbuf_trace_add at h
    cases hl : gr_mbuf_trace_add_loop fuel s with
    | none => simp [hl] at h
    | some r =>
      obtain ⟨data, s2⟩ := r
      simp only [hl, Option.some.injEq, Prod.mk.injEq] at h
      obtain ⟨h1, h2⟩ := h
      subst h1
      subst h2
      have hp := gr_mbuf_trace_add_loop_items fuel s s2 data hl
      unfold trace_items
      have e1 : s2.trace_pool ++ (traces ++ [data]) ++ s2.traced_packets.flatten
          = s2.trace_pool ++ (traces ++ ([data] ++ s2.traced_packets.flatten)) := by
        simp
      have e2 : s.trace_pool ++ traces ++ s.traced_packets.flatten
          = s.trace_pool ++ (traces ++ s.traced_packets.flatten) := by
        simp
      rw [e1, e2]
      have hq : List.Perm (traces ++ (data :: s2.trace_pool ++ s2.traced_packets.flatten))
          (traces ++ (s.trace_pool ++ s.traced_packets.flatten)) :=
        List.Perm.append_left _ hp
      refine List.Perm.trans ?_ (hq.trans ?_)
      · refine (List.perm_append_comm_assoc _ _ _).trans ?_
        refine List.Perm.append_left _ ?_
        simp only [List.singleton_append, List.cons_append]
        exact (List.perm_middle).trans (List.Perm.refl _)
      · exact List.perm_append_comm_assoc _ _ _
  · intro fuel s1 traces1 h
    unfold gr_mbuf_trace_finish at h
    cases traces with
    | nil =>
      simp only [Option.some.injEq, Prod.mk.injEq] at h
      rw [← h.1, ← h.2]
    | cons t next =>
      simp only at h
      cases hl : gr_mbuf_trace_finish_loop fuel s (t :: next) with
      | none => simp [hl] at h
      | some s2 =>
        simp only [hl, Option.some.injEq, Prod.mk.injEq] at h
        rw [← h.1, ← h.2]
        have hp := gr_mbuf_trace_finish_loop_items fuel s s2 (t :: next) hl
        unfold trace_items
        rw [List.append_nil]
        exact hp
  · unfold gr_trace_clear
    rw [(gr_trace_clear_loop_items s.traced_packets s).1]
    split_ifs with h
    · exact h
    · rfl
  · have h1 := (gr_trace_clear_loop_items s.traced_packets s).1
    have h2 := (gr_trace_clear_loop_items s.traced_packets s).2
    have h3 : (gr_trace_clear s).traced_packets = [] := by
      unfold gr_trace_clear
      rw [h1]
      split_ifs with h
      · exact h
      · rfl
    unfold trace_items
    rw [h3]
    simp only [List.flatten_nil, List.append_nil]
    have h4 : List.Perm ((gr_trace_clear s).trace_pool ++ traces)
        (s.trace_pool ++ s.traced_packets.flatten ++ traces) :=
      List.Perm.append_right _ h2
    refine h4.trans ?_
    rw [List.append_assoc, List.append_assoc]
    exact List.Perm.append_left _ List.perm_append_comm
  · intro env len hret
    unfold gr_trace_dump at hret ⊢
    cases hr : s.traced_packets with
    | nil =>
      simp only
      unfold trace_items
      rw [hr]
    | cons head rest =>
      simp only [hr] at hret ⊢
      cases h1 : SAFE_BUF len env.strftime_len env.nsec_len with
      | none => simp [h1] at hret
      | some n1 =>
        simp only [h1] at hret ⊢
        cases h2 : SAFE_BUF len n1 env.cpu_len with
        | none => simp [h2] at hret
        | some n2 =>
          simp only [h2] at hret ⊢
          cases h3 : gr_trace_dump_items env len head n2 with
          | none => simp [h3] at hret
          | some n3 =>
            simp only [h3] at hret ⊢
            cases h4 : SAFE_BUF len n3 1 with
            | none => simp [h4] at hret
            | some n4 =>
              simp only [free_trace_eq]
              unfold trace_items
              simp only [hr, List.flatten_cons, List.append_assoc]
              refine (List.Perm.append_right _ (List.reverse_perm head)).trans ?_
              refine (List.perm_append_comm_assoc _ _ _).trans ?_
              refine List.Perm.append_left _ ?_
              exact List.perm_append_comm_assoc _ _ _

/-- C25, failing runs: when `setlocale` fails, when the command line is rejected
(unknown option), and when `dpdk_log_init` fails with `errno = ENOMEM`, `main` jumps
to the label `end:`, which lies after the `sd_notifyf(0, "ERRNO=%i", err)` call: the
process exits with code 1 and no `ERRNO` message is sent. When `dpdk_init` fails with
`errno = ENOMEM` the message `ERRNO=12` is sent. -/
theorem daemon_main_early_exit_no_errno :
    daemon_main { main_env_ok with setlocale_ok := false } = (1, [MainEffect.perror]) ∧
    daemon_main { main_env_ok with getopt := getopt_env_unknown } = (1, []) ∧
    daemon_main { main_env_ok with dpdk_log_init := ⟨false, ENOMEM⟩ } = (1, []) ∧
    daemon_main { main_env_ok with dpdk_init := ⟨false, ENOMEM⟩ }
      = (1, [MainEffect.dpdk_fini, MainEffect.notify_errno 12]) ∧
    daemon_main main_env_ok
      = (0, [MainEffect.modules_init, MainEffect.notify_ready, MainEffect.notify_stopping,
          MainEffect.modules_fini, MainEffect.unlink_sock, MainEffect.dpdk_fini]) := by
  decide

/-- What holds of the exit status and the `ERRNO` message in every run of `main`: a
run that gets past `dpdk_log_init` and then fails exits with code 1 and sends
`ERRNO=<errno>` as its last message exactly when `errno` is not 0; a run whose event
loop stops cleanly exits with code 0 and sends no `ERRNO` message; and no run that
ends before `dpdk_init` sends an `ERRNO` message. -/
theorem daemon_main_exit_policy (env : MainEnv) :
    ((daemon_main env).1 = 0 ∨ (daemon_main env).1 = 1) ∧
    ((daemon_main env).1 = 0 → (daemon_main env).2.all (fun e => !e.is_notify_errno) = true) ∧
    (∀ n, MainEffect.notify_errno n ∈ (daemon_main env).2 →
      n ≠ 0 ∧ (daemon_main env).1 = 1 ∧ (daemon_main env).2.getLast? = some (.notify_errno n)
      ∧ env.setlocale_ok = true ∧ env.evthread_ok = true ∧ env.dpdk_log_init.ok = true) := by
  unfold daemon_main
  cases h1 : env.setlocale_ok
  · simp [EXIT_FAILURE, MainEffect.is_notify_errno]
  cases h2 : env.evthread_ok
  · simp [EXIT_FAILURE, MainEffect.is_notify_errno]
  cases hp : daemon_parse_args env.getopt with
  | exit_success => simp [EXIT_SUCCESS]
  | ret value args =>
    by_cases hv : value < 0
    · simp [hv, EXIT_FAILURE]
    cases h3 : env.dpdk_log_init.ok
    · simp [hv, EXIT_FAILURE]
    cases h4 : env.dpdk_init.ok
    · by_cases he : env.dpdk_init.errno = 0
      · simp [hv, main_dpdk_stop, EXIT_FAILURE, he, MainEffect.is_notify_errno]
      · simp [hv, main_dpdk_stop, EXIT_FAILURE, he, MainEffect.is_notify_errno]
    cases h5 : env.event_base_new.ok
    · by_cases he : env.event_base_new.errno = 0
      · simp [hv, main_shutdown, main_dpdk_stop, EXIT_FAILURE, he,
          MainEffect.is_notify_errno]
      · simp [hv, main_shutdown, main_dpdk_stop, EXIT_FAILURE, he,
          MainEffect.is_notify_errno]
    cases h6 : env.listen_api_socket.ok
    · by_cases he : env.listen_api_socket.errno = 0
      · simp [hv, main_shutdown, main_dpdk_stop, EXIT_FAILURE, he,
          MainEffect.is_notify_errno]
      · simp [hv, main_shutdown, main_dpdk_stop, EXIT_FAILURE, he,
          MainEffect.is_notify_errno]
    cases h7 : env.register_signals.ok
    · by_cases he : env.register_signals.errno = 0
      · simp [hv, main_shutdown, main_dpdk_stop, EXIT_FAILURE, he,
          MainEffect.is_notify_errno]
      · simp [hv, main_shutdown, main_dpdk_stop, EXIT_FAILURE, he,
          MainEffect.is_notify_errno]
    cases h8 : env.event_base_dispatch.ok
    · by_cases he : env.event_base_dispatch.errno = 0
      · simp [hv, main_shutdown, main_dpdk_stop, EXIT_FAILURE, he,
          MainEffect.is_notify_errno]
      · simp [hv, main_shutdown, main_dpdk_stop, EXIT_FAILURE, he,
          MainEffect.is_notify_errno]
    · simp [hv, main_shutdown, main_dpdk_stop, EXIT_SUCCESS, MainEffect.is_notify_errno]

end Grout
